import Mathlib

/-!
# Rinex3ObsHeader: a shallow embedding of the RINEX 3 observation header codec

The development follows `src/RC2.0/src/Rinex3ObsHeader.cpp`.

* `std::string` is `List Char` (`Str`); a line is a `Str` without its newline.
* `double` is kept as the rational number that the text read denotes (`ℚ`);
  the rounding to the nearest IEEE binary64 value (`roundDouble`) is applied
  where the decoder compares the version with 3.0 and 3.01 and prints it.
* `int` values are `Int`; every integer the codec parses comes from a field of
  at most six columns, so no overflow arises on the read path.
* `unsigned long valid` is a `Nat` used as a bit mask.
* `std::map` is a list of key/value pairs kept in ascending key order.
* An exception is a value of `Err`; a function that can throw returns
  `Except Err _`.
-/

namespace GPSTk

/-! ## Strings (`std::string` and `gpstk::StringUtils`) -/

/-- A `std::string`: the list of its characters. -/
abbrev Str := List Char

/-- The call `s.substr(pos, n)`: the characters of `s` from index `pos`, at most
`n` of them. The C++ call throws when `pos > s.size()`: `ParseHeaderRecord`
models that throw at its first statement, which takes the label from column
60, and every later call of the header parser has `pos ≤ 60` on a line of at
least 60 characters. -/
def substr (s : Str) (pos n : Nat) : Str := (s.drop pos).take n

/-- The expression `std::string(n, c)`. -/
def mkString (n : Nat) (c : Char) : Str := List.replicate n c

/-- The expression `s[0]` on a `std::string`: the first character, and the
terminating null character when `s` is empty. -/
def firstChar (s : Str) : Char := s.headD (Char.ofNat 0)

/-- Modelled from the spec: `StringUtils::stripLeading` (the StringUtils
sources are absent), which removes the blanks at the start of a string. -/
def stripLeading : Str → Str
  | [] => []
  | c :: cs => if c = ' ' then stripLeading cs else c :: cs

/-- Modelled from the spec: `StringUtils::stripTrailing`, which removes the
blanks at the end of a string. -/
def stripTrailing (s : Str) : Str := (stripLeading s.reverse).reverse

/-- Modelled from the spec: `StringUtils::strip`, which removes the blanks at
both ends of a string. -/
def strip (s : Str) : Str := stripTrailing (stripLeading s)

/-- Modelled from the spec: `StringUtils::leftJustify(s, n)`; the text is cut to
its first `n` characters or padded with blanks on the right, so the result has
exactly `n` columns. -/
def leftJustify (s : Str) (n : Nat) : Str :=
  if n < s.length then s.take n else s ++ mkString (n - s.length) ' '

/-- Modelled from the spec: `StringUtils::rightJustify(s, n)`; the text is cut
to its last `n` characters or padded with blanks on the left, so the result has
exactly `n` columns. -/
def rightJustify (s : Str) (n : Nat) : Str :=
  if n < s.length then s.drop (s.length - n) else mkString (n - s.length) ' ' ++ s

/-! ## Numbers as text -/

/-- The decimal digit character of a number below ten. -/
def digitChar (d : Nat) : Char := Char.ofNat (48 + d)

/-- Decimal digits of a natural number, most significant first; `fuel` bounds
the number of digits. -/
def natDigits : Nat → Nat → Str
  | 0, _ => []
  | fuel + 1, n => if n < 10 then [digitChar n] else natDigits fuel (n / 10) ++ [digitChar (n % 10)]

/-- Decimal text of a natural number. -/
def natToStr (n : Nat) : Str := natDigits (n + 1) n

/-- Modelled from the spec: `StringUtils::asString` on an integer, the decimal
text with a leading minus sign for negative values. -/
def asStringInt (x : Int) : Str :=
  if x < 0 then '-' :: natToStr x.natAbs else natToStr x.natAbs

/-- The value `x` scaled by `10^p` and rounded to the nearest integer (halves
go up). -/
def scaledRound (x : ℚ) (p : Nat) : Int :=
  (2 * x.num * (10 : Int) ^ p + x.den) / (2 * x.den)

/-- Decimal digits of `n` padded with zeros on the left to at least `w`
digits. -/
def zeroPad (s : Str) (w : Nat) : Str := mkString (w - s.length) '0' ++ s

/-- Modelled from the spec: `StringUtils::asString(x, p)` on a `double`, fixed
notation with `p` digits after the decimal point. The digits are those of the
rational value that stands for the `double`, a half going up; for a value with
at most `p` decimals, which is what the round-trip statements assume, no
rounding takes place. -/
def asStringFixed (x : ℚ) (p : Nat) : Str :=
  let n := scaledRound x p
  let ds := zeroPad (natToStr n.natAbs) (p + 1)
  let body := ds.take (ds.length - p) ++ (if p = 0 then [] else '.' :: ds.drop (ds.length - p))
  if n < 0 then '-' :: body else body

/-- The blank characters skipped by `strtol` and `strtod`. -/
def isSpaceChar (c : Char) : Bool :=
  c = ' ' || c = '\t' || c = '\n' || c = '\r' || c = Char.ofNat 11 || c = Char.ofNat 12

/-- The value of a string of decimal digits. -/
def digitsVal (ds : Str) : Nat := ds.foldl (fun a c => 10 * a + (c.toNat - 48)) 0

/-- An optional sign at the head of a text: the sign read and the rest. -/
def readSign : Str → Bool × Str
  | '-' :: cs => (true, cs)
  | '+' :: cs => (false, cs)
  | cs => (false, cs)

/-- Modelled from the spec: `StringUtils::asInt`, the `strtol` reading of a
text: blanks are skipped, then an optional sign and the longest run of digits
are read; a text without digits reads as zero and nothing is ever thrown. -/
def asInt (s : Str) : Int :=
  let r := readSign (s.dropWhile isSpaceChar)
  let v : Int := digitsVal (r.2.takeWhile Char.isDigit)
  if r.1 then -v else v

/-- The exponent part that `strtod` reads after the mantissa: `e` or `E`, an
optional sign and at least one digit; zero when that part is missing. -/
def readExponent : Str → Int
  | c :: cs =>
    if c = 'e' || c = 'E' then
      let r := readSign cs
      let ds := r.2.takeWhile Char.isDigit
      if ds = [] then 0 else if r.1 then -(digitsVal ds : Int) else digitsVal ds
    else 0
  | [] => 0

/-- The reading of a decimal text by `strtod`: blanks are skipped, then an
optional sign, digits, an optional fraction and an optional exponent are read;
a text without digits reads as zero. The value is the exact value of the
decimal text. -/
def asDoubleDecimal (s : Str) : ℚ :=
  let r := readSign (s.dropWhile isSpaceChar)
  let ip := r.2.takeWhile Char.isDigit
  let rest := r.2.dropWhile Char.isDigit
  let fp : Str := match rest with
    | '.' :: cs => cs.takeWhile Char.isDigit
    | _ => []
  let rest2 : Str := match rest with
    | '.' :: cs => cs.dropWhile Char.isDigit
    | cs => cs
  if ip = [] ∧ fp = [] then 0 else
  let ex := readExponent rest2
  let m : Int := digitsVal (ip ++ fp)
  let sm : Int := if r.1 then -m else m
  if 0 ≤ ex then mkRat (sm * 10 ^ ex.toNat) (10 ^ fp.length)
  else mkRat sm (10 ^ (fp.length + ex.natAbs))

/-- The value of a hexadecimal digit. -/
def hexDigitVal (c : Char) : Option Nat :=
  if 48 ≤ c.toNat ∧ c.toNat ≤ 57 then some (c.toNat - 48)
  else if 97 ≤ c.toNat ∧ c.toNat ≤ 102 then some (c.toNat - 87)
  else if 65 ≤ c.toNat ∧ c.toNat ≤ 70 then some (c.toNat - 55)
  else none

/-- The characters `0`-`9`, `a`-`f` and `A`-`F`. -/
def isHexDigit (c : Char) : Bool := (hexDigitVal c).isSome

/-- The value of a string of hexadecimal digits. -/
def hexDigitsVal (ds : Str) : Nat := ds.foldl (fun a c => 16 * a + (hexDigitVal c).getD 0) 0

/-- The binary exponent part that `strtod` reads after a hexadecimal mantissa:
`p` or `P`, an optional sign and at least one decimal digit; zero when that
part is missing. -/
def readBinaryExponent : Str → Int
  | c :: cs =>
    if c = 'p' || c = 'P' then
      let r := readSign cs
      let ds := r.2.takeWhile Char.isDigit
      if ds = [] then 0 else if r.1 then -(digitsVal ds : Int) else digitsVal ds
    else 0
  | [] => 0

/-- The hexadecimal form that `strtod` reads after the sign: `0x` or `0X`,
hexadecimal digits with an optional point, at least one digit in all, and an
optional binary exponent. The result is the exact value with the sign `neg`,
and `none` for a text that has not this form. -/
def hexValue (neg : Bool) : Str → Option ℚ
  | c0 :: c1 :: cs =>
    if c0 = '0' ∧ (c1 = 'x' ∨ c1 = 'X') then
      let ip := cs.takeWhile isHexDigit
      let rest := cs.dropWhile isHexDigit
      let fp : Str := match rest with
        | '.' :: t => t.takeWhile isHexDigit
        | _ => []
      let rest2 : Str := match rest with
        | '.' :: t => t.dropWhile isHexDigit
        | t => t
      if ip = [] ∧ fp = [] then none
      else
        let k : Int := readBinaryExponent rest2 - 4 * (fp.length : Int)
        let m : Int := hexDigitsVal (ip ++ fp)
        let sm : Int := if neg then -m else m
        some (if 0 ≤ k then mkRat (sm * 2 ^ k.toNat) 1 else mkRat sm (2 ^ k.natAbs))
    else none
  | _ => none

/-- Modelled from the spec: `StringUtils::asDouble`, the `strtod` reading of a
text: blanks are skipped, then an optional sign and either a hexadecimal form
or a decimal text are read; a text without digits reads as zero and nothing is
ever thrown. A `double` is kept as the exact rational value of the text that
was read; the rounding to the nearest binary64 value is applied where two
doubles are compared (`roundDouble`). The texts `inf` and `nan`, whose values
are no numbers, read as zero here, and the sign of a zero is not kept. -/
def asDouble (s : Str) : ℚ :=
  let r := readSign (s.dropWhile isSpaceChar)
  match hexValue r.1 r.2 with
  | some v => v
  | none => asDoubleDecimal s

/-- The integer part of the binary logarithm by repeated halving; `fuel` bounds
the number of rounds. -/
def log2Loop : Nat → Nat → Nat
  | 0, _ => 0
  | fuel + 1, n => if n < 2 then 0 else log2Loop fuel (n / 2) + 1

/-- The integer part of the binary logarithm of a positive number. -/
def natLog2 (n : Nat) : Nat := log2Loop n n

/-- Whether the fraction `p / d` is at least `2 ^ e`. -/
def atLeastTwoPow (p d : Nat) (e : Int) : Bool :=
  if 0 ≤ e then decide (d * 2 ^ e.toNat ≤ p) else decide (d ≤ p * 2 ^ e.natAbs)

/-- The integer part of the binary logarithm of the positive fraction
`p / d`. -/
def floorLog2 (p d : Nat) : Int :=
  let e0 : Int := (natLog2 p : Int) - (natLog2 d : Int)
  if atLeastTwoPow p d e0 then e0 else e0 - 1

/-- The fraction `n / d` rounded to the nearest integer, a tie going to the
even one. -/
def roundHalfEven (n d : Nat) : Nat :=
  if 2 * (n % d) < d then n / d
  else if d < 2 * (n % d) then n / d + 1
  else if (n / d) % 2 = 0 then n / d
  else n / d + 1

/-- Modelled from the spec: the IEEE 754 binary64 value nearest to a rational
number, a tie going to the even mantissa, which is how `strtod` and the
compiler turn a decimal text into a `double`. A value in `[2^e, 2^(e+1))` is
rounded to a multiple of `2^(e-52)`, a value below `2^-1022` to a multiple of
`2^-1074`; `none` stands for an infinite result (a magnitude that rounds to
`2^1024` or more). -/
def roundDouble (x : ℚ) : Option ℚ :=
  if x.num = 0 then some 0
  else
    let p := x.num.natAbs
    let e := floorLog2 p x.den
    let k : Int := (if e < -1022 then -1022 else e) - 52
    let m : Nat :=
      if 0 ≤ k then roundHalfEven p (x.den * 2 ^ k.toNat)
      else roundHalfEven (p * 2 ^ k.natAbs) x.den
    let sm : Int := if x.num < 0 then -(m : Int) else m
    if 0 ≤ k then
      (if 2 ^ 1024 ≤ m * 2 ^ k.toNat then none else some (mkRat (sm * 2 ^ k.toNat) 1))
    else some (mkRat sm (2 ^ k.natAbs))

/-- The fixed notation with 17 decimals of the magnitude of a `double`, as
`printf` produces it: the exact binary value is rounded at the 17th decimal, a
tie going to the even digit. -/
def fixed17 (d : ℚ) : Str :=
  let ds := zeroPad (natToStr (roundHalfEven (d.num.natAbs * 10 ^ 17) d.den)) 18
  ds.take (ds.length - 17) ++ '.' :: ds.drop (ds.length - 17)

/-! ## Exceptions -/

/-- The ways a call of the codec can stop without a result. -/
inductive Err where
  /-- A `gpstk::FFStreamError` carrying its message text. -/
  | FFStreamError (text : Str)
  /-- A `gpstk::Exception` thrown by the satellite identifier collaborator. -/
  | Exception (text : Str)
  /-- The line stream has no further line. -/
  | EndOfFile
  /-- The `std::length_error` of `std::string(n, c)` called with a negative
  count converted to an unsigned one. -/
  | length_error
  /-- The `std::out_of_range` of a substring taken from a position beyond the
  end of the text. -/
  | out_of_range
  /-- Not an exception: an iterator equal to `end()` is dereferenced, so the
  C++ program has no defined behaviour from this point on. -/
  | undefinedBehaviour
  deriving DecidableEq, Repr

/-! ## Ordered maps (`std::map`) -/

/-- The strict order `operator<` of a key type of a `std::map`. -/
class KeyOrder (κ : Type) where
  /-- The comparison `a < b`. -/
  lt : κ → κ → Bool

/-- Lexicographic comparison of two strings, the `operator<` of
`std::string`. -/
def strLt : Str → Str → Bool
  | [], [] => false
  | [], _ :: _ => true
  | _ :: _, [] => false
  | a :: as, b :: bs => if a.toNat < b.toNat then true else if b.toNat < a.toNat then false else strLt as bs

instance : KeyOrder Str := ⟨strLt⟩

/-- A `std::map<κ, β>`: its entries in ascending key order. -/
abbrev SMap (κ β : Type) := List (κ × β)

namespace SMap

variable {κ β : Type} [KeyOrder κ] [DecidableEq κ]

/-- The call `m.find(k)`: the mapped value, `none` standing for `m.end()`. -/
def find (m : SMap κ β) (k : κ) : Option β :=
  match m with
  | [] => none
  | (k', v) :: rest => if k' = k then some v else find rest k

/-- The assignment `m[k] = v`: the entry of `k` is replaced or created. -/
def set (m : SMap κ β) (k : κ) (v : β) : SMap κ β :=
  match m with
  | [] => [(k, v)]
  | (k', v') :: rest =>
    if k' = k then (k, v) :: rest
    else if KeyOrder.lt k k' then (k, v) :: (k', v') :: rest
    else (k', v') :: set rest k v

/-- The call `m.insert(make_pair(k, v))`: an entry is created only when `k` has
none. -/
def insert (m : SMap κ β) (k : κ) (v : β) : SMap κ β :=
  match find m k with
  | some _ => m
  | none => set m k v

/-- The value of the expression `m[k]`: the mapped value, and the default
value when `k` has no entry. -/
def getD (m : SMap κ β) (k : κ) (d : β) : β := (find m k).getD d

/-- The map left by evaluating the expression `m[k]`: an entry with the
default value is created when `k` has none. -/
def touch (m : SMap κ β) (k : κ) (d : β) : SMap κ β := insert m k d

end SMap

/-! ## Collaborating types -/

/-- Modelled from the spec: the satellite systems of `SatID` (the SatID and
RinexSatID sources are absent); the spec names the letters G, R, E, S and M. -/
inductive SatelliteSystem where
  | systemGPS | systemGalileo | systemGlonass | systemGeosync | systemMixed | systemUnknown
  deriving DecidableEq, Repr

/-- The rank of a system in the enumeration, used to compare identifiers. -/
def SatelliteSystem.rank : SatelliteSystem → Nat
  | .systemGPS => 1 | .systemGalileo => 2 | .systemGlonass => 3
  | .systemGeosync => 4 | .systemMixed => 5 | .systemUnknown => 6

/-- Modelled from the spec: the satellite identifier, a system and a slot
number; the number is -1 when the identifier names a system only. -/
structure RinexSatID where
  system : SatelliteSystem
  id : Int
  deriving DecidableEq, Repr

namespace RinexSatID

/-- The default identifier built by `RinexSatID()`. -/
def default : RinexSatID := ⟨.systemGPS, -1⟩

/-- Modelled from the spec: `systemChar`, the letter of the system. -/
def systemChar (s : RinexSatID) : Char :=
  match s.system with
  | .systemGPS => 'G' | .systemGalileo => 'E' | .systemGlonass => 'R'
  | .systemGeosync => 'S' | .systemMixed => 'M' | .systemUnknown => '?'

/-- Modelled from the spec: `systemString`, the name of the system. -/
def systemString (s : RinexSatID) : Str :=
  match s.system with
  | .systemGPS => "GPS".toList | .systemGalileo => "Galileo".toList
  | .systemGlonass => "Glonass".toList | .systemGeosync => "Geosync".toList
  | .systemMixed => "Mixed".toList | .systemUnknown => "Unknown".toList

/-- Modelled from the spec: `toString`, the compact text of an identifier, one
letter plus two digits (the slot number in two columns, filled with zeros). -/
def toString (s : RinexSatID) : Str :=
  let ds := asStringInt s.id
  s.systemChar :: (if 2 < ds.length then ds.drop (ds.length - 2) else zeroPad ds 2)

/-- Modelled from the spec: `fromString`, the reading of a compact text. A
blank text gives the default identifier; otherwise the first character that is
not blank selects the system (a digit means GPS and belongs to the number), an
unknown letter raises an exception, and the number that follows is read; a
number that is not positive becomes -1. -/
def fromString (s : Str) : Except Err RinexSatID :=
  match s.dropWhile isSpaceChar with
  | [] => .ok default
  | c :: cs =>
    let num (t : Str) : Int := if asInt t ≤ 0 then -1 else asInt t
    if c.isDigit then .ok ⟨.systemGPS, num (c :: cs)⟩
    else if c = 'G' ∨ c = 'g' then .ok ⟨.systemGPS, num cs⟩
    else if c = 'R' ∨ c = 'r' then .ok ⟨.systemGlonass, num cs⟩
    else if c = 'E' ∨ c = 'e' then .ok ⟨.systemGalileo, num cs⟩
    else if c = 'S' ∨ c = 's' then .ok ⟨.systemGeosync, num cs⟩
    else if c = 'M' ∨ c = 'm' then .ok ⟨.systemMixed, num cs⟩
    else .error (.Exception ("Invalid system character \"".toList ++ [c] ++ "\"".toList))

instance : KeyOrder RinexSatID :=
  ⟨fun a b => if a.system = b.system then decide (a.id < b.id) else decide (a.system.rank < b.system.rank)⟩

end RinexSatID

/-- Modelled from the spec: the observation-code identifier (the ObsID sources
are absent). An identifier is kept as the text it was built from, a system
letter followed by the 3-character code. -/
structure ObsID where
  text : Str
  deriving DecidableEq, Repr

namespace ObsID

/-- The default identifier built by `ObsID()`. -/
def default : ObsID := ⟨[]⟩

/-- Modelled from the spec: `asRinex3ID`, the 3-character code of an
identifier. -/
def asRinex3ID (o : ObsID) : Str := o.text.drop (o.text.length - 3)

instance : KeyOrder ObsID := ⟨fun a b => strLt a.text b.text⟩

end ObsID

/-- Modelled from the spec: the time-system tag of an epoch (the TimeSystem
sources are absent), kept as its text. -/
structure TimeSystem where
  tag : Str
  deriving DecidableEq, Repr

/-- Modelled from the spec: the calendar epoch `CivilTime` with its time
system. -/
structure CivilTime where
  year : Int
  month : Int
  day : Int
  hour : Int
  minute : Int
  second : ℚ
  timeSystem : TimeSystem
  deriving DecidableEq, Repr

/-- A `Triple`: three `double` components. -/
structure Triple where
  x : ℚ
  y : ℚ
  z : ℚ
  deriving DecidableEq, Repr

/-- The record `Rinex3CorrInfo` of an applied correction. -/
structure Rinex3CorrInfo where
  satSys : Str
  name : Str
  source : Str
  deriving DecidableEq, Repr

/-! ## The label registry (source lines 57-88) -/

def stringVersion : Str := "RINEX VERSION / TYPE".toList
def stringRunBy : Str := "PGM / RUN BY / DATE".toList
def stringComment : Str := "COMMENT".toList
def stringMarkerName : Str := "MARKER NAME".toList
def stringMarkerNumber : Str := "MARKER NUMBER".toList
def stringMarkerType : Str := "MARKER TYPE".toList
def stringObserver : Str := "OBSERVER / AGENCY".toList
def stringReceiver : Str := "REC # / TYPE / VERS".toList
def stringAntennaType : Str := "ANT # / TYPE".toList
def stringAntennaPosition : Str := "APPROX POSITION XYZ".toList
def stringAntennaDeltaHEN : Str := "ANTENNA: DELTA H/E/N".toList
def stringAntennaDeltaXYZ : Str := "ANTENNA: DELTA X/Y/Z".toList
def stringAntennaPhaseCtr : Str := "ANTENNA: PHASECENTER".toList
def stringAntennaBsightXYZ : Str := "ANTENNA: B.SIGHT XYZ".toList
def stringAntennaZeroDirAzi : Str := "ANTENNA: ZERODIR AZI".toList
def stringAntennaZeroDirXYZ : Str := "ANTENNA: ZERODIR XYZ".toList
def stringCenterOfMass : Str := "CENTER OF MASS: XYZ".toList
def stringSystemNumObs : Str := "SYS / # / OBS TYPES".toList
def stringSigStrengthUnit : Str := "SIGNAL STRENGTH UNIT".toList
def stringInterval : Str := "INTERVAL".toList
def stringFirstTime : Str := "TIME OF FIRST OBS".toList
def stringLastTime : Str := "TIME OF LAST OBS".toList
def stringReceiverOffset : Str := "RCV CLOCK OFFS APPL".toList
def stringSystemDCBSapplied : Str := "SYS / DCBS APPLIED".toList
def stringSystemPCVSapplied : Str := "SYS / PCVS APPLIED".toList
def stringSystemScaleFac : Str := "SYS / SCALE FACTOR".toList
def stringSystemPhaseShift : Str := "SYS / PHASE SHIFTS".toList
def stringGlonassSlotFreqNo : Str := "GLONASS SLOT / FRQ #".toList
def stringLeapSeconds : Str := "LEAP SECONDS".toList
def stringNumSats : Str := "# OF SATELLITES".toList
def stringPrnObs : Str := "PRN / # OF OBS".toList
def stringEoH : Str := "END OF HEADER".toList

/-- The label constants in their declaration order. -/
def labelRegistry : List Str :=
  [stringVersion, stringRunBy, stringComment, stringMarkerName, stringMarkerNumber,
   stringMarkerType, stringObserver, stringReceiver, stringAntennaType,
   stringAntennaPosition, stringAntennaDeltaHEN, stringAntennaDeltaXYZ,
   stringAntennaPhaseCtr, stringAntennaBsightXYZ, stringAntennaZeroDirAzi,
   stringAntennaZeroDirXYZ, stringCenterOfMass, stringSystemNumObs,
   stringSigStrengthUnit, stringInterval, stringFirstTime, stringLastTime,
   stringReceiverOffset, stringSystemDCBSapplied, stringSystemPCVSapplied,
   stringSystemScaleFac, stringSystemPhaseShift, stringGlonassSlotFreqNo,
   stringLeapSeconds, stringNumSats, stringPrnObs, stringEoH]

/-! ## The validity bits

Modelled from the spec: the enumeration `validBits` is declared in
`Rinex3ObsHeader.hpp`, which is absent. Each record kind has one bit, taken in
the order of the label constants. The required records of version 3.0 are
those that `dump` (source lines 1278-1301) reports as missing, and version 3.01
requires the phase-shift record in addition. -/

def validVersion : Nat := 0x1
def validRunBy : Nat := 0x2
def validComment : Nat := 0x4
def validMarkerName : Nat := 0x8
def validMarkerNumber : Nat := 0x10
def validMarkerType : Nat := 0x20
def validObserver : Nat := 0x40
def validReceiver : Nat := 0x80
def validAntennaType : Nat := 0x100
def validAntennaPosition : Nat := 0x200
def validAntennaDeltaHEN : Nat := 0x400
def validAntennaDeltaXYZ : Nat := 0x800
def validAntennaPhaseCtr : Nat := 0x1000
def validAntennaBsightXYZ : Nat := 0x2000
def validAntennaZeroDirAzi : Nat := 0x4000
def validAntennaZeroDirXYZ : Nat := 0x8000
def validCenterOfMass : Nat := 0x10000
def validSystemObsType : Nat := 0x20000
def validSigStrengthUnit : Nat := 0x40000
def validInterval : Nat := 0x80000
def validFirstTime : Nat := 0x100000
def validLastTime : Nat := 0x200000
def validReceiverOffset : Nat := 0x400000
def validSystemDCBSapplied : Nat := 0x800000
def validSystemPCVSapplied : Nat := 0x1000000
def validSystemScaleFac : Nat := 0x2000000
def validSystemPhaseShift : Nat := 0x4000000
def validGlonassFreqNo : Nat := 0x8000000
def validLeapSeconds : Nat := 0x10000000
def validNumSats : Nat := 0x20000000
def validPrnObs : Nat := 0x40000000
def validEoH : Nat := 0x80000000

/-- Modelled from the spec: the mask `allValid30` of the records required by
version 3.0: version, run-by, marker name, observer, receiver, antenna type,
antenna position, antenna delta H/E/N, observation types, time of first
observation and end of header. -/
def allValid30 : Nat := 0x801207CB

/-- Modelled from the spec: the mask `allValid301` of the records required by
version 3.01, those of version 3.0 and the phase-shift record. -/
def allValid301 : Nat := 0x841207CB

/-- The test `valid & bit` of a C++ condition. -/
def isSet (valid bit : Nat) : Bool := valid &&& bit != 0

/-! ## The header object -/

/-- The map type `sfacMap` from observation code to scale factor. -/
abbrev sfacMap := SMap ObsID Int

/-- The data members of `Rinex3ObsHeader` that the codec reads or writes. The
last eight members are the scratch members that carry information from one
line to its continuation lines. -/
structure Rinex3ObsHeader where
  version : ℚ
  fileType : Str
  satSys : Str
  system : RinexSatID
  fileProgram : Str
  fileAgency : Str
  date : Str
  commentList : List Str
  markerName : Str
  markerNumber : Str
  markerType : Str
  observer : Str
  agency : Str
  recNo : Str
  recType : Str
  recVers : Str
  antNo : Str
  antType : Str
  antennaPosition : Triple
  antennaDeltaHEN : Triple
  antennaDeltaXYZ : Triple
  antennaSatSys : Str
  antennaObsCode : Str
  antennaPhaseCtr : Triple
  antennaBsightXYZ : Triple
  antennaZeroDirAzi : ℚ
  antennaZeroDirXYZ : Triple
  centerOfMass : Triple
  obsTypeList : List ObsID
  mapObsTypes : SMap Str (List ObsID)
  sigStrengthUnit : Str
  interval : ℚ
  firstObs : CivilTime
  lastObs : CivilTime
  receiverOffset : Int
  infoDCBS : List Rinex3CorrInfo
  infoPCVS : List Rinex3CorrInfo
  sysSfacMap : SMap Str sfacMap
  sysPhaseShift : SMap ObsID (SMap RinexSatID ℚ)
  GlonassFreqNo : SMap RinexSatID Int
  leapSeconds : Int
  numSVs : Int
  numObsForSat : SMap RinexSatID (List Int)
  valid : Nat
  satSysTemp : Str
  satSysPrev : Str
  numObs : Int
  numObsPrev : Int
  factor : Int
  factorPrev : Int
  lastPRN : RinexSatID
  sysPhaseShiftObsID : ObsID
  deriving DecidableEq, Repr

namespace Rinex3ObsHeader

/-- A header object as its constructor leaves it: no flag set, every text and
list empty, every number zero. -/
def empty : Rinex3ObsHeader where
  version := 0
  fileType := []
  satSys := []
  system := RinexSatID.default
  fileProgram := []
  fileAgency := []
  date := []
  commentList := []
  markerName := []
  markerNumber := []
  markerType := []
  observer := []
  agency := []
  recNo := []
  recType := []
  recVers := []
  antNo := []
  antType := []
  antennaPosition := ⟨0, 0, 0⟩
  antennaDeltaHEN := ⟨0, 0, 0⟩
  antennaDeltaXYZ := ⟨0, 0, 0⟩
  antennaSatSys := []
  antennaObsCode := []
  antennaPhaseCtr := ⟨0, 0, 0⟩
  antennaBsightXYZ := ⟨0, 0, 0⟩
  antennaZeroDirAzi := 0
  antennaZeroDirXYZ := ⟨0, 0, 0⟩
  centerOfMass := ⟨0, 0, 0⟩
  obsTypeList := []
  mapObsTypes := []
  sigStrengthUnit := []
  interval := 0
  firstObs := ⟨0, 0, 0, 0, 0, 0, ⟨[]⟩⟩
  lastObs := ⟨0, 0, 0, 0, 0, 0, ⟨[]⟩⟩
  receiverOffset := 0
  infoDCBS := []
  infoPCVS := []
  sysSfacMap := []
  sysPhaseShift := []
  GlonassFreqNo := []
  leapSeconds := 0
  numSVs := 0
  numObsForSat := []
  valid := 0
  satSysTemp := []
  satSysPrev := []
  numObs := 0
  numObsPrev := 0
  factor := 0
  factorPrev := 0
  lastPRN := RinexSatID.default
  sysPhaseShiftObsID := ObsID.default

/-- Modelled from the spec: `clear()` (declared in the absent header file),
called before a header is read: the validity flags, every list and map, and
the scratch members are reset; the scalar members keep their values. -/
def clear (h : Rinex3ObsHeader) : Rinex3ObsHeader :=
  { h with
    commentList := []
    obsTypeList := []
    mapObsTypes := []
    infoDCBS := []
    infoPCVS := []
    sysSfacMap := []
    sysPhaseShift := []
    GlonassFreqNo := []
    numObsForSat := []
    valid := 0
    satSysTemp := []
    satSysPrev := []
    numObs := 0
    numObsPrev := 0
    factor := 0
    factorPrev := 0
    lastPRN := RinexSatID.default
    sysPhaseShiftObsID := ObsID.default }

end Rinex3ObsHeader

/-! ## Decoding one record: `ParseHeaderRecord` (source lines 717-1116) -/

/-- The outcome of a member function that updates the header: the header as the
call leaves it, and the exception thrown, if any. -/
abbrev Parsed := Rinex3ObsHeader × Option Err

/-- The values taken by `i` in `for (i = start; cond(i); i++)`; `fuel` bounds
the number of rounds. -/
def forIndices (cond : Nat → Bool) : Nat → Nat → List Nat
  | 0, _ => []
  | fuel + 1, i => if cond i then i :: forIndices cond fuel (i + 1) else []

/-- Three consecutive 14-column decimal fields from column 0. -/
def parseTriple (line : Str) : Triple :=
  ⟨asDouble (substr line 0 14), asDouble (substr line 14 14), asDouble (substr line 28 14)⟩

/-- The function `parseTime` (source lines 1187-1205). -/
def parseTime (line : Str) : CivilTime :=
  { year := asInt (substr line 0 6)
    month := asInt (substr line 6 6)
    day := asInt (substr line 12 6)
    hour := asInt (substr line 18 6)
    minute := asInt (substr line 24 6)
    second := asDouble (substr line 30 13)
    timeSystem := ⟨substr line 48 3⟩ }

/-- The record RINEX VERSION / TYPE (source lines 722-743). -/
def parseVersion (h : Rinex3ObsHeader) (line : Str) : Parsed :=
  let h1 := { h with
    version := asDouble (substr line 0 20)
    fileType := strip (substr line 20 20)
    satSys := strip (substr line 40 20) }
  match RinexSatID.fromString h1.satSys with
  | .error e => ({ h1 with system := RinexSatID.default }, some e)
  | .ok sys =>
    let h2 := { h1 with system := sys }
    if firstChar h2.fileType ≠ 'O' ∧ firstChar h2.fileType ≠ 'o' then
      (h2, some (.FFStreamError "This isn't a RINEX 3 Obs file.".toList))
    else if firstChar h2.satSys ≠ 'G' ∧ firstChar h2.satSys ≠ 'g' ∧
        firstChar h2.satSys ≠ 'R' ∧ firstChar h2.satSys ≠ 'r' ∧
        firstChar h2.satSys ≠ 'E' ∧ firstChar h2.satSys ≠ 'e' ∧
        firstChar h2.satSys ≠ 'S' ∧ firstChar h2.satSys ≠ 's' ∧
        firstChar h2.satSys ≠ 'M' ∧ firstChar h2.satSys ≠ 'm' then
      (h2, some (.FFStreamError "The satellite system isn't valid.".toList))
    else ({ h2 with valid := h2.valid ||| validVersion }, none)

/-- The record SYS / # / OBS TYPES (source lines 846-884). -/
def parseSystemNumObs (h : Rinex3ObsHeader) (line : Str) : Parsed :=
  let maxObsPerLine := 13
  let h1 := { h with
    satSysTemp := strip (substr line 0 1)
    numObs := asInt (substr line 3 3) }
  if h1.satSysTemp = [] then
    let h2 := { h1 with satSysTemp := h1.satSysPrev, numObs := h1.numObsPrev }
    match SMap.find h2.mapObsTypes h2.satSysTemp with
    | none => (h2, some .undefinedBehaviour)
    | some newTypeList =>
      let added := (forIndices
          (fun i => decide ((i : Int) < h2.numObs) && decide (i % maxObsPerLine < maxObsPerLine))
          h2.numObs.toNat newTypeList.length).map
        (fun i => ObsID.mk (h2.satSysTemp ++ substr line (4 * (i % maxObsPerLine) + 6 + 1) 3))
      ({ h2 with
          mapObsTypes := SMap.set h2.mapObsTypes h2.satSysTemp (newTypeList ++ added)
          satSysPrev := h2.satSysTemp
          numObsPrev := h2.numObs
          valid := h2.valid ||| validSystemObsType }, none)
  else
    let newTypeList := (forIndices
        (fun i => decide ((i : Int) < h1.numObs) && decide (i < maxObsPerLine))
        maxObsPerLine 0).map
      (fun i => ObsID.mk (h1.satSysTemp ++ substr line (4 * i + 6 + 1) 3))
    ({ h1 with
        mapObsTypes := SMap.set h1.mapObsTypes h1.satSysTemp newTypeList
        satSysPrev := h1.satSysTemp
        numObsPrev := h1.numObs
        valid := h1.valid ||| validSystemObsType }, none)

/-- One SYS / DCBS APPLIED or SYS / PCVS APPLIED line as a correction record
(source lines 913-916 and 922-925). -/
def parseCorrInfo (line : Str) : Rinex3CorrInfo :=
  { satSys := strip (substr line 0 1)
    name := strip (substr line 2 17)
    source := strip (substr line 20 40) }

/-- The record SYS / SCALE FACTOR (source lines 929-972). -/
def parseSystemScaleFac (h : Rinex3ObsHeader) (line : Str) : Parsed :=
  let maxObsPerLine := 12
  let h1 := { h with
    satSysTemp := strip (substr line 0 1)
    factor := asInt (substr line 2 4)
    numObs := asInt (substr line 8 2) }
  -- a continuation line takes the previous values and starts at the map size
  let h2 : Rinex3ObsHeader :=
    if h1.satSysTemp = [] then
      { h1 with
        satSysTemp := h1.satSysPrev
        factor := h1.factorPrev
        numObs := h1.numObsPrev
        sysSfacMap := SMap.touch h1.sysSfacMap h1.satSysPrev [] }
    else h1
  let startPosition : Nat :=
    if h1.satSysTemp = [] then (SMap.getD h1.sysSfacMap h1.satSysPrev []).length else 0
  -- a zero count means that the factor applies to every observation type
  let h3 : Rinex3ObsHeader :=
    if h2.numObs = 0 then
      { h2 with
        numObs := ((SMap.getD h2.mapObsTypes h2.satSysTemp []).length : Int)
        mapObsTypes := SMap.touch h2.mapObsTypes h2.satSysTemp [] }
    else h2
  let tempSfacMap : sfacMap := SMap.getD h3.sysSfacMap h3.satSysTemp []
  let filled : sfacMap := (forIndices
      (fun i => decide ((i : Int) < h3.numObs) && decide (i % maxObsPerLine < maxObsPerLine))
      h3.numObs.toNat startPosition).foldl
    (fun m i => SMap.insert m
      (ObsID.mk (h3.satSysTemp ++ strip (substr line (4 * (i % maxObsPerLine) + 10 + 1) 3)))
      h3.factor)
    tempSfacMap
  ({ h3 with
      sysSfacMap := SMap.set h3.sysSfacMap h3.satSysTemp filled
      satSysPrev := h3.satSysTemp
      factorPrev := h3.factor
      numObsPrev := h3.numObs
      valid := h3.valid ||| validSystemScaleFac }, none)

/-- The satellites of one SYS / PHASE SHIFTS continuation line, read until the
first blank field (source lines 991-996). -/
def phaseShiftContinuation (line : Str) (corr : ℚ) :
    List Nat → SMap RinexSatID ℚ → SMap RinexSatID ℚ × Option Err
  | [], m => (m, none)
  | i :: is, m =>
    let str := strip (substr line (19 + 4 * i) 3)
    if str = [] then (m, none)
    else match RinexSatID.fromString str with
      | .error e => (m, some e)
      | .ok sat => phaseShiftContinuation line corr is (SMap.insert m sat corr)

/-- The satellites of an opening SYS / PHASE SHIFTS line (source lines
1011-1014). -/
def phaseShiftSats (line : Str) (corr : ℚ) :
    List Nat → SMap RinexSatID ℚ → Except Err (SMap RinexSatID ℚ)
  | [], m => .ok m
  | i :: is, m =>
    match RinexSatID.fromString (strip (substr line (19 + 4 * i) 3)) with
    | .error e => .error e
    | .ok sat => phaseShiftSats line corr is (SMap.insert m sat corr)

/-- The record SYS / PHASE SHIFTS (source lines 973-1032). -/
def parseSystemPhaseShift (h : Rinex3ObsHeader) (line : Str) : Parsed :=
  let h1 := { h with satSysTemp := strip (substr line 0 1) }
  if h1.satSysTemp = [] then
    let h2 := { h1 with satSysTemp := h1.satSysPrev }
    match SMap.find h2.sysPhaseShift h2.sysPhaseShiftObsID with
    | none => (h2, some (.FFStreamError "SYS / PHASE SHIFT: unexpected continuation line".toList))
    | some satcorrmap =>
      match satcorrmap with
      | [] => (h2, some .undefinedBehaviour)
      | (_, corr) :: _ =>
        let r := phaseShiftContinuation line corr (List.range 10) satcorrmap
        ({ h2 with sysPhaseShift := SMap.set h2.sysPhaseShift h2.sysPhaseShiftObsID r.1 }, r.2)
  else
    match RinexSatID.fromString h1.satSysTemp with
    | .error e => (h1, some e)
    | .ok sat =>
      let str := strip (substr line 2 3)
      let finish (g : Rinex3ObsHeader) : Parsed :=
        ({ g with satSysPrev := g.satSysTemp, valid := g.valid ||| validSystemPhaseShift }, none)
      if str ≠ [] then
        let obsid := ObsID.mk (h1.satSysTemp ++ str)
        let corr := asDouble (strip (substr line 6 8))
        let nsat := asInt (strip (substr line 16 2))
        if 0 < nsat then
          match phaseShiftSats line corr (List.range (if nsat < 10 then nsat.toNat else 10)) [] with
          | .error e => (h1, some e)
          | .ok satcorrmap =>
            let h2 := { h1 with sysPhaseShift := SMap.insert h1.sysPhaseShift obsid satcorrmap }
            if 10 < nsat then finish { h2 with sysPhaseShiftObsID := obsid } else finish h2
        else
          finish { h1 with
            sysPhaseShift := SMap.insert h1.sysPhaseShift obsid (SMap.insert [] sat corr) }
      else finish h1

/-- The pairs of one GLONASS SLOT / FRQ # line, read until the first blank
satellite field (source lines 1040-1046). -/
def glonassPairs (line : Str) : List Nat → SMap RinexSatID Int → SMap RinexSatID Int × Option Err
  | [], m => (m, none)
  | i :: is, m =>
    let str := strip (substr line (4 + i * 7) 3)
    if str = [] then (m, none)
    else match RinexSatID.fromString str with
      | .error e => (m, some e)
      | .ok sat => glonassPairs line is (SMap.insert m sat (asInt (strip (substr line (8 + i * 7) 2))))

/-- The record GLONASS SLOT / FRQ # (source lines 1033-1049). -/
def parseGlonassSlotFreqNo (h : Rinex3ObsHeader) (line : Str) : Parsed :=
  let r := glonassPairs line (List.range 8) h.GlonassFreqNo
  match r.2 with
  | some e => ({ h with GlonassFreqNo := r.1 }, some e)
  | none => ({ h with GlonassFreqNo := r.1, valid := h.valid ||| validGlonassFreqNo }, none)

/-- The record PRN / # OF OBS (source lines 1060-1106). -/
def parsePrnObs (h : Rinex3ObsHeader) (line : Str) : Parsed :=
  let maxObsPerLine := 9
  let prn := strip (substr line 3 3)
  if prn = [] then
    let PRN := h.lastPRN
    let GNSS : Str := [PRN.systemChar]
    let numObsList := SMap.getD h.numObsForSat PRN []
    let h1 := { h with numObsForSat := SMap.touch h.numObsForSat PRN [] }
    match SMap.find h1.mapObsTypes GNSS with
    | none => (h1, some .undefinedBehaviour)
    | some types =>
      let otsize := types.length
      if numObsList.length < otsize then
        let added := (forIndices
            (fun i => decide (i < otsize) && decide (i % maxObsPerLine < maxObsPerLine))
            otsize numObsList.length).map
          (fun i => asInt (substr line (6 * (i % maxObsPerLine) + 6) 6))
        ({ h1 with
            numObsForSat := SMap.set h1.numObsForSat PRN (numObsList ++ added)
            valid := h1.valid ||| validPrnObs }, none)
      else ({ h1 with valid := h1.valid ||| validPrnObs }, none)
  else
    match RinexSatID.fromString prn with
    | .error e => (h, some e)
    | .ok PRN =>
      let GNSS : Str := [PRN.systemChar]
      match SMap.find h.mapObsTypes GNSS with
      | none => (h, some .undefinedBehaviour)
      | some types =>
        let otsize := types.length
        let numObsList : List Int :=
          (forIndices (fun i => decide (i < otsize) && decide (i < maxObsPerLine))
            maxObsPerLine 0).map (fun i => asInt (substr line (6 * i + 6) 6))
        let h1 : Rinex3ObsHeader :=
          if 0 < otsize then { h with numObsForSat := SMap.set h.numObsForSat PRN numObsList }
          else h
        ({ h1 with lastPRN := PRN, valid := h1.valid ||| validPrnObs }, none)

/-- The record PGM / RUN BY / DATE (source lines 744-750). -/
def parseRunBy (h : Rinex3ObsHeader) (line : Str) : Parsed :=
  ({ h with
      fileProgram := strip (substr line 0 20)
      fileAgency := strip (substr line 20 20)
      date := strip (substr line 40 20)
      valid := h.valid ||| validRunBy }, none)

/-- The record COMMENT (source lines 751-755). -/
def parseComment (h : Rinex3ObsHeader) (line : Str) : Parsed :=
  ({ h with
      commentList := h.commentList ++ [strip (substr line 0 60)]
      valid := h.valid ||| validComment }, none)

/-- The record MARKER NAME (source lines 756-760). -/
def parseMarkerName (h : Rinex3ObsHeader) (line : Str) : Parsed :=
  ({ h with markerName := strip (substr line 0 60), valid := h.valid ||| validMarkerName }, none)

/-- The record MARKER NUMBER (source lines 761-765). -/
def parseMarkerNumber (h : Rinex3ObsHeader) (line : Str) : Parsed :=
  ({ h with markerNumber := strip (substr line 0 20), valid := h.valid ||| validMarkerNumber },
    none)

/-- The record MARKER TYPE (source lines 766-770). -/
def parseMarkerType (h : Rinex3ObsHeader) (line : Str) : Parsed :=
  ({ h with markerType := strip (substr line 0 20), valid := h.valid ||| validMarkerType }, none)

/-- The record OBSERVER / AGENCY (source lines 771-776). -/
def parseObserver (h : Rinex3ObsHeader) (line : Str) : Parsed :=
  ({ h with
      observer := strip (substr line 0 20)
      agency := strip (substr line 20 40)
      valid := h.valid ||| validObserver }, none)

/-- The record REC # / TYPE / VERS (source lines 777-783). -/
def parseReceiver (h : Rinex3ObsHeader) (line : Str) : Parsed :=
  ({ h with
      recNo := strip (substr line 0 20)
      recType := strip (substr line 20 20)
      recVers := strip (substr line 40 20)
      valid := h.valid ||| validReceiver }, none)

/-- The record ANT # / TYPE (source lines 784-789). -/
def parseAntennaType (h : Rinex3ObsHeader) (line : Str) : Parsed :=
  ({ h with
      antNo := strip (substr line 0 20)
      antType := strip (substr line 20 20)
      valid := h.valid ||| validAntennaType }, none)

/-- The record APPROX POSITION XYZ (source lines 790-796). -/
def parseAntennaPosition (h : Rinex3ObsHeader) (line : Str) : Parsed :=
  ({ h with antennaPosition := parseTriple line, valid := h.valid ||| validAntennaPosition }, none)

/-- The record ANTENNA: DELTA H/E/N (source lines 797-803). -/
def parseAntennaDeltaHEN (h : Rinex3ObsHeader) (line : Str) : Parsed :=
  ({ h with antennaDeltaHEN := parseTriple line, valid := h.valid ||| validAntennaDeltaHEN }, none)

/-- The record ANTENNA: DELTA X/Y/Z (source lines 804-810). -/
def parseAntennaDeltaXYZ (h : Rinex3ObsHeader) (line : Str) : Parsed :=
  ({ h with antennaDeltaXYZ := parseTriple line, valid := h.valid ||| validAntennaDeltaXYZ }, none)

/-- The record ANTENNA: PHASECENTER (source lines 811-819). -/
def parseAntennaPhaseCtr (h : Rinex3ObsHeader) (line : Str) : Parsed :=
  ({ h with
      antennaSatSys := strip (substr line 0 2)
      antennaObsCode := strip (substr line 2 3)
      antennaPhaseCtr :=
        ⟨asDouble (substr line 5 9), asDouble (substr line 14 14), asDouble (substr line 28 14)⟩
      valid := h.valid ||| validAntennaPhaseCtr }, none)

/-- The record ANTENNA: B.SIGHT XYZ (source lines 820-826). -/
def parseAntennaBsightXYZ (h : Rinex3ObsHeader) (line : Str) : Parsed :=
  ({ h with antennaBsightXYZ := parseTriple line, valid := h.valid ||| validAntennaBsightXYZ },
    none)

/-- The record ANTENNA: ZERODIR AZI (source lines 827-831); the bit that is set
is the one of ANTENNA: B.SIGHT XYZ. -/
def parseAntennaZeroDirAzi (h : Rinex3ObsHeader) (line : Str) : Parsed :=
  ({ h with
      antennaZeroDirAzi := asDouble (substr line 0 14)
      valid := h.valid ||| validAntennaBsightXYZ }, none)

/-- The record ANTENNA: ZERODIR XYZ (source lines 832-838); the bit that is set
is the one of ANTENNA: B.SIGHT XYZ. -/
def parseAntennaZeroDirXYZ (h : Rinex3ObsHeader) (line : Str) : Parsed :=
  ({ h with antennaZeroDirXYZ := parseTriple line, valid := h.valid ||| validAntennaBsightXYZ },
    none)

/-- The record CENTER OF MASS: XYZ (source lines 839-845). -/
def parseCenterOfMass (h : Rinex3ObsHeader) (line : Str) : Parsed :=
  ({ h with centerOfMass := parseTriple line, valid := h.valid ||| validCenterOfMass }, none)

/-- The record SIGNAL STRENGTH UNIT (source lines 885-889). -/
def parseSigStrengthUnit (h : Rinex3ObsHeader) (line : Str) : Parsed :=
  ({ h with
      sigStrengthUnit := strip (substr line 0 20)
      valid := h.valid ||| validSigStrengthUnit }, none)

/-- The record INTERVAL (source lines 890-894). -/
def parseInterval (h : Rinex3ObsHeader) (line : Str) : Parsed :=
  ({ h with interval := asDouble (substr line 0 10), valid := h.valid ||| validInterval }, none)

/-- The record TIME OF FIRST OBS (source lines 895-899). -/
def parseFirstTime (h : Rinex3ObsHeader) (line : Str) : Parsed :=
  ({ h with firstObs := parseTime line, valid := h.valid ||| validFirstTime }, none)

/-- The record TIME OF LAST OBS (source lines 900-904). -/
def parseLastTime (h : Rinex3ObsHeader) (line : Str) : Parsed :=
  ({ h with lastObs := parseTime line, valid := h.valid ||| validLastTime }, none)

/-- The record RCV CLOCK OFFS APPL (source lines 905-909). -/
def parseReceiverOffset (h : Rinex3ObsHeader) (line : Str) : Parsed :=
  ({ h with
      receiverOffset := asInt (substr line 0 6)
      valid := h.valid ||| validReceiverOffset }, none)

/-- The record SYS / DCBS APPLIED (source lines 911-919). -/
def parseSystemDCBSapplied (h : Rinex3ObsHeader) (line : Str) : Parsed :=
  ({ h with
      infoDCBS := h.infoDCBS ++ [parseCorrInfo line]
      valid := h.valid ||| validSystemDCBSapplied }, none)

/-- The record SYS / PCVS APPLIED (source lines 920-928). -/
def parseSystemPCVSapplied (h : Rinex3ObsHeader) (line : Str) : Parsed :=
  ({ h with
      infoPCVS := h.infoPCVS ++ [parseCorrInfo line]
      valid := h.valid ||| validSystemPCVSapplied }, none)

/-- The record LEAP SECONDS (source lines 1050-1054). -/
def parseLeapSeconds (h : Rinex3ObsHeader) (line : Str) : Parsed :=
  ({ h with leapSeconds := asInt (substr line 0 6), valid := h.valid ||| validLeapSeconds }, none)

/-- The record # OF SATELLITES (source lines 1055-1059). -/
def parseNumSats (h : Rinex3ObsHeader) (line : Str) : Parsed :=
  ({ h with numSVs := asInt (substr line 0 6), valid := h.valid ||| validNumSats }, none)

/-- The record END OF HEADER (source lines 1107-1110). -/
def parseEoH (h : Rinex3ObsHeader) (_line : Str) : Parsed :=
  ({ h with valid := h.valid ||| validEoH }, none)

/-- The branches of the chain of label comparisons of `ParseHeaderRecord`, in
the order of the source: each label with the statements of its branch. -/
def recordParsers : List (Str × (Rinex3ObsHeader → Str → Parsed)) :=
  [ (stringVersion, parseVersion),
    (stringRunBy, parseRunBy),
    (stringComment, parseComment),
    (stringMarkerName, parseMarkerName),
    (stringMarkerNumber, parseMarkerNumber),
    (stringMarkerType, parseMarkerType),
    (stringObserver, parseObserver),
    (stringReceiver, parseReceiver),
    (stringAntennaType, parseAntennaType),
    (stringAntennaPosition, parseAntennaPosition),
    (stringAntennaDeltaHEN, parseAntennaDeltaHEN),
    (stringAntennaDeltaXYZ, parseAntennaDeltaXYZ),
    (stringAntennaPhaseCtr, parseAntennaPhaseCtr),
    (stringAntennaBsightXYZ, parseAntennaBsightXYZ),
    (stringAntennaZeroDirAzi, parseAntennaZeroDirAzi),
    (stringAntennaZeroDirXYZ, parseAntennaZeroDirXYZ),
    (stringCenterOfMass, parseCenterOfMass),
    (stringSystemNumObs, parseSystemNumObs),
    (stringSigStrengthUnit, parseSigStrengthUnit),
    (stringInterval, parseInterval),
    (stringFirstTime, parseFirstTime),
    (stringLastTime, parseLastTime),
    (stringReceiverOffset, parseReceiverOffset),
    (stringSystemDCBSapplied, parseSystemDCBSapplied),
    (stringSystemPCVSapplied, parseSystemPCVSapplied),
    (stringSystemScaleFac, parseSystemScaleFac),
    (stringSystemPhaseShift, parseSystemPhaseShift),
    (stringGlonassSlotFreqNo, parseGlonassSlotFreqNo),
    (stringLeapSeconds, parseLeapSeconds),
    (stringNumSats, parseNumSats),
    (stringPrnObs, parsePrnObs),
    (stringEoH, parseEoH) ]

/-- The chain `if (label == ...) ... else if (label == ...) ... else throw` of
`ParseHeaderRecord` (source lines 722-1115): the first branch whose label
equals the given one runs; an unknown label throws. -/
def parseLabelled (h : Rinex3ObsHeader) (line : Str) (label : Str) : Parsed :=
  match recordParsers.find? (fun p => decide (label = p.1)) with
  | some p => p.2 h line
  | none => (h, some (.FFStreamError ("Unidentified label: ".toList ++ label)))

/-- The function `ParseHeaderRecord` (source lines 717-1116): the label is the
text of columns 60-79 of the line. The first statement,
`string label(line, 60, 20)`, throws `std::out_of_range` when the line has
fewer than 60 characters. -/
def ParseHeaderRecord (h : Rinex3ObsHeader) (line : Str) : Parsed :=
  if line.length < 60 then (h, some .out_of_range)
  else parseLabelled h line (substr line 60 20)

/-! ## The stream and the decoding of a whole header: `reallyGetRecord` -/

/-- The members of `Rinex3ObsStream` that the codec uses: the text lines still
to be read, the text lines written so far, the line counter, and the header
copy with its flag. -/
structure Rinex3ObsStream where
  input : List Str
  output : List Str
  lineNumber : Nat
  header : Rinex3ObsHeader
  headerRead : Bool
  deriving DecidableEq, Repr

/-- The state of a decoding call: the header object and the stream. -/
structure GetState where
  hdr : Rinex3ObsHeader
  strm : Rinex3ObsStream
  deriving DecidableEq, Repr

/-- The body of the loop of `reallyGetRecord` after a line was obtained (source
lines 1140-1160): the trailing blanks are stripped, the length is checked and
the line is parsed. -/
def readLine (hdr : Rinex3ObsHeader) (raw : Str) : Parsed :=
  let line := stripTrailing raw
  if line.length = 0 then (hdr, some (.FFStreamError "No data read".toList))
  else if line.length < 60 ∨ line.length > 80 then
    (hdr, some (.FFStreamError "Invalid line length".toList))
  else ParseHeaderRecord hdr line

/-- The loop of `reallyGetRecord` (source lines 1137-1162): while the
end-of-header bit is not set, a line is taken from the stream and handled. The
result holds the header, the lines left in the stream and the line counter.
The recursion is on the lines left in the stream. -/
def getLoop : List Str → Rinex3ObsHeader → Nat → (Rinex3ObsHeader × List Str × Nat) × Option Err
  | [], hdr, lineNumber =>
    if isSet hdr.valid validEoH then ((hdr, [], lineNumber), none)
    else ((hdr, [], lineNumber), some .EndOfFile)
  | raw :: rest, hdr, lineNumber =>
    if isSet hdr.valid validEoH then ((hdr, raw :: rest, lineNumber), none)
    else
      match readLine hdr raw with
      | (hdr1, some e) => ((hdr1, rest, lineNumber + 1), some e)
      | (hdr1, none) => getLoop rest hdr1 (lineNumber + 1)

/-- Modelled from the spec: the text of `asString(version)` in the message of
the version check of `reallyGetRecord`, the `double` in fixed notation with 17
decimals: a minus sign for a negative value, then the digits of the binary64
value, or `inf` for an infinite one. -/
def versionText (version : ℚ) : Str :=
  (if version.num < 0 then ['-'] else []) ++
    match roundDouble version with
    | none => "inf".toList
    | some d => fixed17 d

/-- The function `reallyGetRecord` (source lines 1120-1184). The comparisons
`version == 3.0` and `version == 3.01` (source lines 1165-1166) are
comparisons of doubles: the binary64 value of the version read is compared
with the binary64 values of the two literals. -/
def reallyGetRecord (hdr : Rinex3ObsHeader) (strm : Rinex3ObsStream) : GetState × Option Err :=
  if strm.headerRead = true then (⟨hdr, strm⟩, none)
  else
    let r := getLoop strm.input hdr.clear strm.lineNumber
    let hdr1 := r.1.1
    let strm1 := { strm with input := r.1.2.1, lineNumber := r.1.2.2 }
    match r.2 with
    | some e => (⟨hdr1, strm1⟩, some e)
    | none =>
      if roundDouble hdr1.version = roundDouble 3 then
        if hdr1.valid &&& allValid30 ≠ allValid30 then
          (⟨hdr1, strm1⟩, some (.FFStreamError "Incomplete or invalid header".toList))
        else (⟨hdr1, { strm1 with header := hdr1, headerRead := true }⟩, none)
      else if roundDouble hdr1.version = roundDouble (mkRat 301 100) then
        if hdr1.valid &&& allValid301 ≠ allValid301 then
          (⟨hdr1, strm1⟩, some (.FFStreamError "Incomplete or invalid header".toList))
        else (⟨hdr1, { strm1 with header := hdr1, headerRead := true }⟩, none)
      else
        (⟨hdr1, strm1⟩, some (.FFStreamError
          ("Unknown or unsupported RINEX version ".toList ++ versionText hdr1.version)))

/-! ## Encoding: `WriteHeaderRecords` (source lines 201-713) -/

/-- The state of a `WriteHeaderRecords` call: the lines written to the stream by
the call so far, oldest first, and the local variable `line`. -/
structure PutState where
  out : List Str
  line : Str
  deriving DecidableEq, Repr

/-- The outcome of a step of the encoder: its state, and the exception thrown,
if any. -/
abbrev Put := PutState × Option Err

/-- The statements `strm << line << endl; strm.lineNumber++;`. -/
def emit (s : PutState) : PutState := { s with out := s.out ++ [s.line] }

/-- Assignment of a whole text to `line` followed by its output. -/
def putLine (s : PutState) (text : Str) : PutState := emit { s with line := text }

/-- Sequential composition: the next step runs only when nothing was thrown. -/
def Put.andThen (r : Put) (f : PutState → Put) : Put :=
  match r.2 with
  | some _ => r
  | none => f r.1

/-- The statement `line += string(60 - line.size(), ' ')`: the count is
unsigned, so a line longer than 60 characters asks for a string beyond the
maximal size and `std::length_error` is thrown. -/
def fill60 (s : PutState) : Put :=
  if s.line.length ≤ 60 then
    ({ s with line := s.line ++ mkString (60 - s.line.length) ' ' }, none)
  else (s, some .length_error)

/-- The conversion of an `int` to `short` made by `asString<short>`. -/
def toShort (x : Int) : Int := (x + 32768) % 65536 - 32768

/-- The function `writeTime` (source lines 1208-1221). -/
def writeTime (civtime : CivilTime) : Str :=
  rightJustify (asStringInt (toShort civtime.year)) 6 ++
  rightJustify (asStringInt (toShort civtime.month)) 6 ++
  rightJustify (asStringInt (toShort civtime.day)) 6 ++
  rightJustify (asStringInt (toShort civtime.hour)) 6 ++
  rightJustify (asStringInt (toShort civtime.minute)) 6 ++
  rightJustify (asStringFixed civtime.second 7) 13 ++
  rightJustify civtime.timeSystem.tag 8

/-- Three 14-column decimal fields with four decimals, followed by 18
blanks. -/
def tripleText (t : Triple) : Str :=
  rightJustify (asStringFixed t.x 4) 14 ++ rightJustify (asStringFixed t.y 4) 14 ++
  rightJustify (asStringFixed t.z 4) 14 ++ mkString 18 ' '

/-- The block of RINEX VERSION / TYPE (source lines 208-234). -/
def putVersion (h : Rinex3ObsHeader) (s : PutState) : Put :=
  if isSet h.valid validVersion then
    let s1 := { s with line := rightJustify (asStringFixed h.version 2) 9 ++ mkString 11 ' ' }
    if firstChar h.fileType ≠ 'O' ∧ firstChar h.fileType ≠ 'o' then
      (s1, some (.FFStreamError
        ("This isn't a RINEX Observation file: ".toList ++ substr h.fileType 0 1)))
    else if h.system.system = .systemUnknown then
      (s1, some (.FFStreamError "Invalid satellite system".toList))
    else
      let str : Str := [h.system.systemChar] ++ " (".toList ++ h.system.systemString ++ ")".toList
      let text : Str :=
        s1.line ++ leftJustify "OBSERVATION DATA".toList 20 ++ leftJustify str 20 ++ stringVersion
      (emit { s1 with line := text }, none)
  else (s, none)

/-- The block of COMMENT (source lines 248-259): one line for each comment. -/
def putComments (h : Rinex3ObsHeader) (s : PutState) : Put :=
  if isSet h.valid validComment then
    (h.commentList.foldl (fun st c => putLine st (leftJustify c 60 ++ stringComment)) s, none)
  else (s, none)

/-- The inner loop of the SYS / # / OBS TYPES block (source lines 417-438) from
the observation type at hand onwards; `obsWritten` counts the types already
placed. -/
def obsTypeLoop (sys : Str) (size : Nat) : List ObsID → Nat → PutState → PutState
  | [], _, s => s
  | o :: os, obsWritten, s =>
    let maxObsPerLine := 13
    let s1 : PutState :=
      if obsWritten = 0 then
        { s with line := leftJustify sys 1 ++ mkString 2 ' ' ++ rightJustify (asStringInt size) 3 }
      else if obsWritten % maxObsPerLine = 0 then
        { emit { s with line := s.line ++ mkString 2 ' ' ++ stringSystemNumObs } with
          line := mkString 6 ' ' }
      else s
    obsTypeLoop sys size os (obsWritten + 1)
      { s1 with line := s1.line ++ mkString 1 ' ' ++ rightJustify o.asRinex3ID 3 }

/-- The loop over the systems of the SYS / # / OBS TYPES block (source lines
410-443). -/
def obsTypeSystems : List (Str × List ObsID) → PutState → Put
  | [], s => (s, none)
  | (sys, ObsTypeList) :: rest, s =>
    let s1 := obsTypeLoop sys ObsTypeList.length ObsTypeList 0 { s with line := [] }
    (fill60 s1).andThen fun s2 =>
      obsTypeSystems rest (emit { s2 with line := s2.line ++ stringSystemNumObs })

/-- The block of SYS / # / OBS TYPES (source lines 405-444). -/
def putSystemObsType (h : Rinex3ObsHeader) (s : PutState) : Put :=
  if isSet h.valid validSystemObsType then obsTypeSystems h.mapObsTypes s else (s, none)

/-- A block that writes the time of an observation (source lines 464-480). -/
def putTime (bit : Nat) (t : CivilTime) (label : Str) (h : Rinex3ObsHeader) (s : PutState) : Put :=
  if isSet h.valid bit then
    (fill60 { s with line := writeTime t }).andThen fun s1 =>
      (emit { s1 with line := s1.line ++ label }, none)
  else (s, none)

/-- The lines of applied corrections (source lines 493-503 and 508-518): one
line for each record. -/
def putCorrInfos (label : Str) (infos : List Rinex3CorrInfo) (s : PutState) : PutState :=
  infos.foldl (fun st c => putLine st
    (leftJustify c.satSys 1 ++ mkString 1 ' ' ++ leftJustify c.name 17 ++ mkString 1 ' ' ++
      leftJustify c.source 40 ++ label)) s

/-- The loop over the codes of one scale-factor group (source lines 558-571);
`j` is the index of the code at hand. -/
def scaleFacCodes : List Str → Nat → PutState → PutState
  | [], _, s => s
  | code :: codes, j, s =>
    let maxObsPerLine := 12
    let s1 : PutState :=
      if j > maxObsPerLine - 1 ∧ j % maxObsPerLine = 0 then
        { emit { s with line := s.line ++ mkString 2 ' ' ++ stringSystemScaleFac } with
          line := mkString 10 ' ' }
      else s
    scaleFacCodes codes (j + 1) { s1 with line := s1.line ++ mkString 1 ' ' ++ rightJustify code 3 }

/-- The group of one system and one factor in the SYS / SCALE FACTOR block
(source lines 537-576). -/
def scaleFacGroup (sys : Str) (m : sfacMap) (factor : Int) (s : PutState) : PutState :=
  let maxObsPerLine := 12
  let obsTypes : List Str := (m.filter (fun e => e.2 = factor)).map (fun e => e.1.asRinex3ID)
  let count := obsTypes.length
  if count = 0 then s
  else
    let text : Str :=
      leftJustify sys 1 ++ mkString 1 ' ' ++ rightJustify (asStringInt factor) 4 ++
        mkString 2 ' ' ++ rightJustify (asStringInt count) 2
    let s1 := { s with line := text }
    let s2 := scaleFacCodes obsTypes 0 s1
    let space := 60 - 10 - 4 * (count % maxObsPerLine)
    emit { s2 with line := s2.line ++ mkString space ' ' ++ stringSystemScaleFac }

/-- The block of SYS / SCALE FACTOR (source lines 521-579). -/
def putSystemScaleFac (h : Rinex3ObsHeader) (s : PutState) : Put :=
  if isSet h.valid validSystemScaleFac then
    (h.sysSfacMap.foldl (fun st e =>
      [1, 10, 100, 1000].foldl (fun st2 f => scaleFacGroup e.1 e.2 f st2) st) s, none)
  else (s, none)

/-- The loop over the satellites of one phase-shift entry (source lines
606-618); `n` counts the satellites on the line at hand. -/
def phaseShiftSatLoop : List (RinexSatID × ℚ) → Nat → PutState → Put
  | [], _, s => (s, none)
  | (sat, _) :: rest, n, s =>
    let s1 := { s with line := s.line ++ " ".toList ++ sat.toString }
    if n + 1 = 10 ∨ rest = [] then
      (fill60 s1).andThen fun s2 =>
        let s3 := emit { s2 with line := s2.line ++ stringSystemPhaseShift }
        -- after ten satellites `kt` still points at the satellite at hand
        phaseShiftSatLoop rest 0 (if n + 1 = 10 then { s3 with line := mkString 18 ' ' } else s3)
    else phaseShiftSatLoop rest (n + 1) s1

/-- The loop over the entries of the SYS / PHASE SHIFTS block (source lines
585-620). -/
def phaseShiftEntries : List (ObsID × SMap RinexSatID ℚ) → PutState → Put
  | [], s => (s, none)
  | (obsid, satcorr) :: rest, s =>
    match satcorr with
    | [] => (s, some .undefinedBehaviour)
    | (sat, corr) :: _ =>
      let s1 := { s with line := " ".toList ++ [sat.systemChar] }
      if sat.id = -1 then
        (fill60 s1).andThen fun s2 =>
          phaseShiftEntries rest (emit { s2 with line := s2.line ++ stringSystemPhaseShift })
      else
        let text : Str :=
          s1.line ++ (obsid.asRinex3ID ++ " ".toList) ++ rightJustify (asStringFixed corr 5) 8 ++
            ("  ".toList ++ rightJustify (asStringInt satcorr.length) 2)
        let s2 := { s1 with line := text }
        (phaseShiftSatLoop satcorr 0 s2).andThen fun s3 => phaseShiftEntries rest s3

/-- The block of SYS / PHASE SHIFTS (source lines 581-621). -/
def putSystemPhaseShift (h : Rinex3ObsHeader) (s : PutState) : Put :=
  if isSet h.valid validSystemPhaseShift then phaseShiftEntries h.sysPhaseShift s else (s, none)

/-- The loop of the GLONASS SLOT / FRQ # block (source lines 629-641); `n`
counts the pairs on the line at hand. The line is written without a label. -/
def glonassLoop : List (RinexSatID × Int) → Nat → PutState → Put
  | [], _, s => (s, none)
  | (sat, freq) :: rest, n, s =>
    let s1 := { s with line := s.line ++ sat.toString ++ rightJustify (asStringInt freq) 3 }
    if n + 1 = 8 ∨ rest = [] then
      (fill60 s1).andThen fun s2 =>
        let s3 := emit s2
        glonassLoop rest 0 (if n + 1 = 8 then { s3 with line := mkString 4 ' ' } else s3)
    else glonassLoop rest (n + 1) s1

/-- The block of GLONASS SLOT / FRQ # (source lines 623-642). -/
def putGlonassFreqNo (h : Rinex3ObsHeader) (s : PutState) : Put :=
  if isSet h.valid validGlonassFreqNo then
    glonassLoop h.GlonassFreqNo 0
      { s with line := rightJustify (asStringInt h.GlonassFreqNo.length) 3 ++ " ".toList }
  else (s, none)

/-- The inner loop of the PRN / # OF OBS block (source lines 671-695) over the
counts of one satellite. -/
def prnObsCounts (sat : RinexSatID) : List Int → Nat → PutState → PutState
  | [], _, s => s
  | c :: cs, numObsWritten, s =>
    let maxObsPerLine := 9
    let s1 : PutState :=
      if numObsWritten = 0 then { s with line := mkString 3 ' ' ++ sat.toString }
      else if numObsWritten % maxObsPerLine = 0 then
        { emit { s with line := s.line ++ stringPrnObs } with line := mkString 6 ' ' }
      else s
    prnObsCounts sat cs (numObsWritten + 1)
      { s1 with line := s1.line ++ rightJustify (asStringInt c) 6 }

/-- The loop over the satellites of the PRN / # OF OBS block (source lines
666-701). The variable `line` is assigned only inside the inner loop. -/
def prnObsSats : List (RinexSatID × List Int) → PutState → Put
  | [], s => (s, none)
  | (sat, counts) :: rest, s =>
    (fill60 (prnObsCounts sat counts 0 s)).andThen fun s1 =>
      prnObsSats rest (emit { s1 with line := s1.line ++ stringPrnObs })

/-- The block of PRN / # OF OBS (source lines 662-702). -/
def putPrnObs (h : Rinex3ObsHeader) (s : PutState) : Put :=
  if isSet h.valid validPrnObs then prnObsSats h.numObsForSat s else (s, none)

/-- A block that writes one line when its validity bit is set. -/
def putSimple (bit : Nat) (text : Str) (h : Rinex3ObsHeader) (s : PutState) : Put :=
  if isSet h.valid bit then (putLine s text, none) else (s, none)

/-- The blocks of `WriteHeaderRecords` in the order of the source; `curDate` is
the text of the current time that the PGM / RUN BY / DATE block prints. -/
def headerBlocks (curDate : Str) (h : Rinex3ObsHeader) : List (PutState → Put) :=
  [ putVersion h,
    putSimple validRunBy
      (leftJustify h.fileProgram 20 ++ leftJustify h.fileAgency 20 ++ leftJustify curDate 20 ++
        stringRunBy) h,
    putComments h,
    putSimple validMarkerName (leftJustify h.markerName 60 ++ stringMarkerName) h,
    putSimple validMarkerNumber
      (leftJustify h.markerNumber 20 ++ mkString 40 ' ' ++ stringMarkerNumber) h,
    putSimple validMarkerType
      (leftJustify h.markerType 20 ++ mkString 40 ' ' ++ stringMarkerType) h,
    putSimple validObserver
      (leftJustify h.observer 20 ++ leftJustify h.agency 40 ++ stringObserver) h,
    putSimple validReceiver
      (leftJustify h.recNo 20 ++ leftJustify h.recType 20 ++ leftJustify h.recVers 20 ++
        stringReceiver) h,
    putSimple validAntennaType
      (leftJustify h.antNo 20 ++ leftJustify h.antType 20 ++ mkString 20 ' ' ++
        stringAntennaType) h,
    putSimple validAntennaPosition (tripleText h.antennaPosition ++ stringAntennaPosition) h,
    putSimple validAntennaDeltaHEN (tripleText h.antennaDeltaHEN ++ stringAntennaDeltaHEN) h,
    putSimple validAntennaDeltaXYZ (tripleText h.antennaDeltaXYZ ++ stringAntennaDeltaXYZ) h,
    putSimple validAntennaPhaseCtr
      (leftJustify h.antennaSatSys 1 ++ mkString 1 ' ' ++ rightJustify h.antennaObsCode 3 ++
        rightJustify (asStringFixed h.antennaPhaseCtr.x 4) 9 ++
        rightJustify (asStringFixed h.antennaPhaseCtr.y 4) 14 ++
        rightJustify (asStringFixed h.antennaPhaseCtr.z 4) 14 ++ mkString 18 ' ' ++
        stringAntennaPhaseCtr) h,
    putSimple validAntennaBsightXYZ (tripleText h.antennaBsightXYZ ++ stringAntennaBsightXYZ) h,
    putSimple validAntennaZeroDirAzi
      (rightJustify (asStringFixed h.antennaZeroDirAzi 4) 14 ++ mkString 46 ' ' ++
        stringAntennaZeroDirAzi) h,
    putSimple validAntennaZeroDirXYZ
      (tripleText h.antennaZeroDirXYZ ++ stringAntennaZeroDirXYZ) h,
    putSimple validCenterOfMass (tripleText h.centerOfMass ++ stringCenterOfMass) h,
    putSystemObsType h,
    putSimple validSigStrengthUnit
      (leftJustify h.sigStrengthUnit 20 ++ mkString 40 ' ' ++ stringSigStrengthUnit) h,
    putSimple validInterval
      (rightJustify (asStringFixed h.interval 3) 10 ++ mkString 50 ' ' ++ stringInterval) h,
    putTime validFirstTime h.firstObs stringFirstTime h,
    putTime validLastTime h.lastObs stringLastTime h,
    putSimple validReceiverOffset
      (rightJustify (asStringInt h.receiverOffset) 6 ++ mkString 54 ' ' ++
        stringReceiverOffset) h,
    fun s => if isSet h.valid validSystemDCBSapplied then
      (putCorrInfos stringSystemDCBSapplied h.infoDCBS s, none) else (s, none),
    fun s => if isSet h.valid validSystemPCVSapplied then
      (putCorrInfos stringSystemPCVSapplied h.infoPCVS s, none) else (s, none),
    putSystemScaleFac h,
    putSystemPhaseShift h,
    putGlonassFreqNo h,
    putSimple validLeapSeconds
      (rightJustify (asStringInt h.leapSeconds) 6 ++ mkString 54 ' ' ++ stringLeapSeconds) h,
    putSimple validNumSats
      (rightJustify (asStringInt h.numSVs) 6 ++ mkString 54 ' ' ++ stringNumSats) h,
    putPrnObs h,
    putSimple validEoH (mkString 60 ' ' ++ stringEoH) h ]

/-- The blocks run one after the other from the state `r`. -/
def runBlocks : List (PutState → Put) → Put → Put
  | [], r => r
  | b :: bs, r => runBlocks bs (r.andThen b)

/-- The function `WriteHeaderRecords` (source lines 201-713): the lines it
writes to the stream, the final value of `line`, and the exception thrown, if
any. -/
def WriteHeaderRecords (curDate : Str) (h : Rinex3ObsHeader) : Put :=
  runBlocks (headerBlocks curDate h) (⟨[], []⟩, none)

/-- The conversion of a value to the 32-bit `int` that receives it. -/
def toInt32 (x : Int) : Int := (x + 2147483648) % 4294967296 - 2147483648

/-- The function `NumberHeaderRecordsToBeWritten` (source lines 158-197). The
terms built from `size()` are computed in unsigned 64-bit arithmetic and added
into the `int` counter. -/
def NumberHeaderRecordsToBeWritten (h : Rinex3ObsHeader) : Except Err Int :=
  let one (bit : Nat) (n : Int) : Int := if isSet h.valid bit then n + 1 else n
  let n : Int := 0
  let n := one validVersion n
  let n := one validRunBy n
  let n := if isSet h.valid validComment then toInt32 (n + h.commentList.length) else n
  let n := one validMarkerName n
  let n := one validMarkerNumber n
  let n := one validMarkerType n
  let n := one validObserver n
  let n := one validReceiver n
  let n := one validAntennaType n
  let n := one validAntennaPosition n
  let n := one validAntennaDeltaHEN n
  let n := one validAntennaDeltaXYZ n
  let n := one validAntennaPhaseCtr n
  let n := one validAntennaBsightXYZ n
  let n := one validAntennaZeroDirAzi n
  let n := one validAntennaZeroDirXYZ n
  let n := one validCenterOfMass n
  let n := if isSet h.valid validSystemObsType then
      toInt32 (n + ((1 + (h.obsTypeList.length + (2 ^ 64 - 1)) % 2 ^ 64 / 9) % 2 ^ 64 : Nat))
    else n
  let n := one validSigStrengthUnit n
  let n := one validInterval n
  let n := one validFirstTime n
  let n := one validLastTime n
  let n := one validReceiverOffset n
  let n := one validSystemDCBSapplied n
  let n := one validSystemPCVSapplied n
  let n := one validSystemScaleFac n
  let n := one validSystemPhaseShift n
  let n := one validGlonassFreqNo n
  let n := one validLeapSeconds n
  let n := one validNumSats n
  if isSet h.valid validPrnObs then
    match h.numObsForSat with
    | [] => .error .undefinedBehaviour
    | (_, counts) :: _ =>
      let n := toInt32
        (n + ((h.numObsForSat.length * (1 + counts.length / 9)) % 2 ^ 64 : Nat))
      .ok (one validEoH n)
  else .ok (one validEoH n)

/-- The function `reallyPutRecord` (source lines 91-153): the stream as the
call leaves it, and the exception thrown, if any. -/
def reallyPutRecord (curDate : Str) (h : Rinex3ObsHeader) (strm : Rinex3ObsStream) :
    Rinex3ObsStream × Option Err :=
  let strm1 := { strm with header := h }
  let write (_allValid : Nat) : Rinex3ObsStream × Option Err :=
    let r := WriteHeaderRecords curDate h
    ({ strm1 with
        output := strm1.output ++ r.1.out
        lineNumber := strm1.lineNumber + r.1.out.length }, r.2)
  if h.version = 3 then
    if h.valid &&& allValid30 ≠ allValid30 then
      (strm1, some (.FFStreamError "Incomplete or invalid header.".toList))
    else write allValid30
  else if h.version = mkRat 301 100 then
    if h.valid &&& allValid301 ≠ allValid301 then
      (strm1, some (.FFStreamError "Incomplete or invalid header.".toList))
    else write allValid301
  else
    (strm1, some (.FFStreamError
      ("Unknown RINEX version: ".toList ++ asStringFixed h.version 2)))

/-! ## Auxiliary notions used by the statements -/

/-- The exceptions that the blocks of the encoder can throw. -/
def WriteErr (e : Err) : Prop :=
  e = .length_error ∨ e = .undefinedBehaviour ∨
  (∃ t, e = .FFStreamError ("This isn't a RINEX Observation file: ".toList ++ t)) ∨
  e = .FFStreamError "Invalid satellite system".toList

/-- The exceptions that the blocks after the version block can throw, and the
marker of undefined behaviour. -/
def LateErr (e : Err) : Prop := e = .length_error ∨ e = .undefinedBehaviour

/-- The mask of the records required by a supported version. -/
def requiredMask (version : ℚ) : Nat := if version = 3 then allValid30 else allValid301

/-- The exception of an incomplete header thrown by `reallyPutRecord`. -/
def incompletePut : Err := .FFStreamError "Incomplete or invalid header.".toList

/-- The exception of an incomplete header thrown by `reallyGetRecord`. -/
def incompleteGet : Err := .FFStreamError "Incomplete or invalid header".toList

/-- A stream with nothing to read and nothing written. -/
def emptyStream : Rinex3ObsStream := ⟨[], [], 0, Rinex3ObsHeader.empty, false⟩

/-- A stream that holds the given lines to read. -/
def streamOf (lines : List Str) : Rinex3ObsStream := { emptyStream with input := lines }

/-- The text of the current time used in the examples. -/
def sampleDate : Str := "20110606 194541 UTC".toList

/-- A header of version 3.0 with exactly the required records. -/
def sampleHeader : Rinex3ObsHeader :=
  { Rinex3ObsHeader.empty with
    version := 3
    fileType := "O".toList
    system := ⟨.systemGPS, -1⟩
    fileProgram := "prog".toList
    markerName := "MRK".toList
    obsTypeList := [⟨"GC1C".toList⟩, ⟨"GL1C".toList⟩]
    mapObsTypes := [("G".toList, [⟨"GC1C".toList⟩, ⟨"GL1C".toList⟩])]
    firstObs := ⟨2011, 6, 6, 19, 45, mkRat 415 10, ⟨"GPS".toList⟩⟩
    valid := allValid30 }

/-- The exceptions that `ParseHeaderRecord` can throw, and the marker of
undefined behaviour. -/
def ParseErr (e : Err) : Prop :=
  e = .undefinedBehaviour ∨ (∃ t, e = .Exception t) ∨
  e = .FFStreamError "This isn't a RINEX 3 Obs file.".toList ∨
  e = .FFStreamError "The satellite system isn't valid.".toList ∨
  e = .FFStreamError "SYS / PHASE SHIFT: unexpected continuation line".toList ∨
  (∃ label, e = .FFStreamError ("Unidentified label: ".toList ++ label)) ∨
  e = .out_of_range

/-- The two exceptions of the length check of the decoding loop. -/
def MalformedLine (e : Err) : Prop :=
  e = .FFStreamError "No data read".toList ∨ e = .FFStreamError "Invalid line length".toList

/-- The line of 60 blank data columns followed by the text
"NOT A REAL RECORD" and four blanks. -/
def unknownLabelLine : Str := mkString 60 ' ' ++ "NOT A REAL RECORD    ".toList

/-- The sample header with the PRN / # OF OBS flag set and one satellite whose
list of observation counts is empty. -/
def prnEmptyHeader : Rinex3ObsHeader :=
  { sampleHeader with
    valid := allValid30 ||| validPrnObs
    numObsForSat := [(⟨.systemGPS, 1⟩, [])] }

/-- The lines of a complete header of version 3.0 in which system G declares
no observation types and a PRN / # OF OBS line with a blank satellite field
follows. -/
def prnContinuationLines : List Str :=
  [ "     3.00           OBSERVATION DATA    G (GPS)             RINEX VERSION / TYPE".toList,
    "prog                                    20110606 194541 UTC PGM / RUN BY / DATE".toList,
    "MRK                                                         MARKER NAME".toList,
    "                                                            OBSERVER / AGENCY".toList,
    "                                                            REC # / TYPE / VERS".toList,
    "                                                            ANT # / TYPE".toList,
    "        0.0000        0.0000        0.0000                  APPROX POSITION XYZ".toList,
    "        0.0000        0.0000        0.0000                  ANTENNA: DELTA H/E/N".toList,
    "G    0                                                      SYS / # / OBS TYPES".toList,
    "  2011     6     6    19    45   41.5000000     GPS         TIME OF FIRST OBS".toList,
    "                                                            PRN / # OF OBS".toList,
    "                                                            END OF HEADER".toList ]

/-- The sample header with the SYS / SCALE FACTOR flag set and twelve
observation codes of system G that have the factor 1. -/
def scaleFac12Header : Rinex3ObsHeader :=
  { sampleHeader with
    valid := allValid30 ||| validSystemScaleFac
    sysSfacMap := [("G".toList,
      [ (⟨"GC1C".toList⟩, 1), (⟨"GC1P".toList⟩, 1), (⟨"GC1W".toList⟩, 1), (⟨"GC2C".toList⟩, 1),
        (⟨"GC2P".toList⟩, 1), (⟨"GC2W".toList⟩, 1), (⟨"GL1C".toList⟩, 1), (⟨"GL1P".toList⟩, 1),
        (⟨"GL1W".toList⟩, 1), (⟨"GL2C".toList⟩, 1), (⟨"GL2P".toList⟩, 1), (⟨"GL2W".toList⟩, 1) ])] }

/-- The sample header with the GLONASS SLOT / FRQ # flag set and two
satellites. -/
def glonassHeader : Rinex3ObsHeader :=
  { sampleHeader with
    valid := allValid30 ||| validGlonassFreqNo
    GlonassFreqNo := [(⟨.systemGlonass, 1⟩, 1), (⟨.systemGlonass, 2⟩, -4)] }

/-- The sample header with the SYS / DCBS APPLIED flag set and two applied
corrections. -/
def dcbsTwoHeader : Rinex3ObsHeader :=
  { sampleHeader with
    valid := allValid30 ||| validSystemDCBSapplied
    infoDCBS := [ ⟨"G".toList, "CC2NONCC".toList, "p1c1bias.hist".toList⟩,
                  ⟨"R".toList, "CC2NONCC".toList, "p1c1bias.hist".toList⟩ ] }

/-- The position of the first occurrence of a label in a list of labels, and
the length of the list when the label does not occur. -/
def labelPos (label : Str) : List Str → Nat
  | [] => 0
  | l :: ls => if label = l then 0 else labelPos label ls + 1

/-- The index of the validity bit set by the branch of a label: the position of
the label in the registry, except that the branches of ANTENNA: ZERODIR AZI
and ANTENNA: ZERODIR XYZ set the bit of ANTENNA: B.SIGHT XYZ. -/
def codeIndex (label : Str) : Option Nat :=
  let i := labelPos label labelRegistry
  if i < 32 then some (if i = 14 ∨ i = 15 then 13 else i) else none

/-- The label that the decoding loop takes from a line of the stream. -/
def lineLabel (raw : Str) : Str := substr (stripTrailing raw) 60 20

/-- The indices of the validity bits required by version 3.0. -/
def requiredKinds30 : List Nat := [0, 1, 3, 6, 7, 8, 9, 10, 17, 20, 31]

/-- The indices of the validity bits required by version 3.01. -/
def requiredKinds301 : List Nat := [0, 1, 3, 6, 7, 8, 9, 10, 17, 20, 26, 31]

/-- The indices of the validity bits required by a supported version. -/
def requiredKinds (version : ℚ) : List Nat :=
  if version = 3 then requiredKinds30 else requiredKinds301

/-- What a record that was parsed without an exception has done to the
version, the validity bits and the phase-shift map: `h` is the header before
the line and `h1` the header after it. -/
def LineEffect (label : Str) (h : Rinex3ObsHeader) (line : Str) (h1 : Rinex3ObsHeader) : Prop :=
  (label = stringVersion → h1.version = asDouble (substr line 0 20)) ∧
  (label ≠ stringVersion → h1.version = h.version) ∧
  ((∃ idx, codeIndex label = some idx ∧ h1.valid = h.valid ||| 2 ^ idx ∧
      (label ≠ stringSystemPhaseShift → h1.sysPhaseShift = h.sysPhaseShift)) ∨
    (label = stringSystemPhaseShift ∧ h1.valid = h.valid ∧ h.sysPhaseShift ≠ []))

/-- The effect of a branch of `ParseHeaderRecord` whenever it returns
normally. -/
def RecordEffect (label : Str) (p : Rinex3ObsHeader → Str → Parsed) : Prop :=
  ∀ h line h1, p h line = (h1, none) → LineEffect label h line h1

/-- The invariant of a decoding session: a phase-shift map that is not empty
comes with the phase-shift flag. -/
def PhaseFlagInv (h : Rinex3ObsHeader) : Prop :=
  h.sysPhaseShift ≠ [] → h.valid.testBit 26 = true

/-- The lines of a header with exactly the records required by version 3.0,
whose version field holds the given text of four characters. -/
def sampleLines (versionField : Str) : List Str :=
  [ "     ".toList ++ versionField ++
      "           OBSERVATION DATA    G (GPS)             RINEX VERSION / TYPE".toList,
    "prog                                    20110606 194541 UTC PGM / RUN BY / DATE".toList,
    "MRK                                                         MARKER NAME".toList,
    "                                                            OBSERVER / AGENCY".toList,
    "                                                            REC # / TYPE / VERS".toList,
    "                                                            ANT # / TYPE".toList,
    "        0.0000        0.0000        0.0000                  APPROX POSITION XYZ".toList,
    "        0.0000        0.0000        0.0000                  ANTENNA: DELTA H/E/N".toList,
    "G    2 C1C L1C                                              SYS / # / OBS TYPES".toList,
    "  2011     6     6    19    45   41.5000000     GPS         TIME OF FIRST OBS".toList,
    "                                                            END OF HEADER".toList ]

/-- The result of the decoding loop on the given lines, read from a fresh
stream into a fresh header. -/
def loopOn (lines : List Str) : (Rinex3ObsHeader × List Str × Nat) × Option Err :=
  getLoop (streamOf lines).input Rinex3ObsHeader.empty.clear (streamOf lines).lineNumber

/-! ## Notions used by the round-trip statement -/

/-- A text that one fixed-width field of `n` columns holds unchanged: it has no
blank at either end and at most `n` characters. -/
def Canon (n : Nat) (s : Str) : Prop := strip s = s ∧ s.length ≤ n

instance (n : Nat) (s : Str) : Decidable (Canon n s) :=
  inferInstanceAs (Decidable (strip s = s ∧ s.length ≤ n))

/-- A `double` that a field with `p` decimals and `w` columns holds unchanged:
it is a multiple of `10^-p` and its fixed notation has at most `w`
characters. -/
def FitsFixed (p w : Nat) (x : ℚ) : Prop := x.den ∣ 10 ^ p ∧ (asStringFixed x p).length ≤ w

instance (p w : Nat) (x : ℚ) : Decidable (FitsFixed p w x) :=
  inferInstanceAs (Decidable (x.den ∣ 10 ^ p ∧ (asStringFixed x p).length ≤ w))

/-- An `int` that a field of `w` columns holds unchanged. -/
def FitsInt (w : Nat) (x : Int) : Prop := (asStringInt x).length ≤ w

instance (w : Nat) (x : Int) : Decidable (FitsInt w x) :=
  inferInstanceAs (Decidable ((asStringInt x).length ≤ w))

/-- A block of the encoder that throws nothing and writes the lines `L`. -/
def Emits (b : PutState → Put) (L : List Str) : Prop :=
  ∀ s, (b s).2 = none ∧ (b s).1.out = s.out ++ L

/-- The observation codes of a SYS / # / OBS TYPES line: a blank and three
columns for each code. -/
def codesText : List ObsID → Str
  | [] => []
  | o :: os => mkString 1 ' ' ++ rightJustify o.asRinex3ID 3 ++ codesText os

/-- The SYS / # / OBS TYPES line that holds all the codes of a system with at
most 13 codes. -/
def obsTypeLine (e : Str × List ObsID) : Str :=
  leftJustify e.1 1 ++ mkString 2 ' ' ++ rightJustify (asStringInt e.2.length) 3 ++
    codesText e.2 ++ mkString (60 - (6 + 4 * e.2.length)) ' ' ++ stringSystemNumObs

/-- The line of a time record. -/
def timeLine (t : CivilTime) (label : Str) : Str := writeTime t ++ mkString 9 ' ' ++ label

/-- The text "G (GPS)" of a system in the version line. -/
def systemText (sys : RinexSatID) : Str :=
  [sys.systemChar] ++ " (".toList ++ sys.systemString ++ ")".toList

/-- The RINEX VERSION / TYPE line of a header. -/
def versionLine (h : Rinex3ObsHeader) : Str :=
  rightJustify (asStringFixed h.version 2) 9 ++ mkString 11 ' ' ++
    leftJustify "OBSERVATION DATA".toList 20 ++ leftJustify (systemText h.system) 20 ++
    stringVersion

/-- The PGM / RUN BY / DATE line of a header. -/
def runByLine (curDate : Str) (h : Rinex3ObsHeader) : Str :=
  leftJustify h.fileProgram 20 ++ leftJustify h.fileAgency 20 ++ leftJustify curDate 20 ++
    stringRunBy

/-- A COMMENT line. -/
def commentLine (c : Str) : Str := leftJustify c 60 ++ stringComment

/-- A line that holds one text of at most 20 columns. -/
def text20Line (t label : Str) : Str := leftJustify t 20 ++ mkString 40 ' ' ++ label

/-- The OBSERVER / AGENCY line of a header. -/
def observerLine (h : Rinex3ObsHeader) : Str :=
  leftJustify h.observer 20 ++ leftJustify h.agency 40 ++ stringObserver

/-- The REC # / TYPE / VERS line of a header. -/
def receiverLine (h : Rinex3ObsHeader) : Str :=
  leftJustify h.recNo 20 ++ leftJustify h.recType 20 ++ leftJustify h.recVers 20 ++ stringReceiver

/-- The ANT # / TYPE line of a header. -/
def antennaTypeLine (h : Rinex3ObsHeader) : Str :=
  leftJustify h.antNo 20 ++ leftJustify h.antType 20 ++ mkString 20 ' ' ++ stringAntennaType

/-- A line that holds a triple. -/
def tripleLine (t : Triple) (label : Str) : Str := tripleText t ++ label

/-- The ANTENNA: PHASECENTER line of a header. -/
def phaseCtrLine (h : Rinex3ObsHeader) : Str :=
  leftJustify h.antennaSatSys 1 ++ mkString 1 ' ' ++ rightJustify h.antennaObsCode 3 ++
    rightJustify (asStringFixed h.antennaPhaseCtr.x 4) 9 ++
    rightJustify (asStringFixed h.antennaPhaseCtr.y 4) 14 ++
    rightJustify (asStringFixed h.antennaPhaseCtr.z 4) 14 ++ mkString 18 ' ' ++
    stringAntennaPhaseCtr

/-- The ANTENNA: ZERODIR AZI line of a header. -/
def zeroDirAziLine (h : Rinex3ObsHeader) : Str :=
  rightJustify (asStringFixed h.antennaZeroDirAzi 4) 14 ++ mkString 46 ' ' ++
    stringAntennaZeroDirAzi

/-- The INTERVAL line of a header. -/
def intervalLine (h : Rinex3ObsHeader) : Str :=
  rightJustify (asStringFixed h.interval 3) 10 ++ mkString 50 ' ' ++ stringInterval

/-- A line that holds one integer of six columns. -/
def intLine (x : Int) (label : Str) : Str :=
  rightJustify (asStringInt x) 6 ++ mkString 54 ' ' ++ label

/-- A line of an applied correction. -/
def corrInfoLine (label : Str) (c : Rinex3CorrInfo) : Str :=
  leftJustify c.satSys 1 ++ mkString 1 ' ' ++ leftJustify c.name 17 ++ mkString 1 ' ' ++
    leftJustify c.source 40 ++ label

/-- The END OF HEADER line. -/
def eohLine : Str := mkString 60 ' ' ++ stringEoH

/-- The lines of a record kind when its flag is set. -/
def whenSet (h : Rinex3ObsHeader) (bit : Nat) (L : List Str) : List Str :=
  if isSet h.valid bit = true then L else []

/-- The lines that each block of `WriteHeaderRecords` writes for a header
without scale-factor, phase-shift, GLONASS and PRN records. -/
def encodedBlocks (curDate : Str) (h : Rinex3ObsHeader) : List (List Str) :=
  [ whenSet h validVersion [versionLine h],
    whenSet h validRunBy [runByLine curDate h],
    whenSet h validComment (h.commentList.map commentLine),
    whenSet h validMarkerName [leftJustify h.markerName 60 ++ stringMarkerName],
    whenSet h validMarkerNumber [text20Line h.markerNumber stringMarkerNumber],
    whenSet h validMarkerType [text20Line h.markerType stringMarkerType],
    whenSet h validObserver [observerLine h],
    whenSet h validReceiver [receiverLine h],
    whenSet h validAntennaType [antennaTypeLine h],
    whenSet h validAntennaPosition [tripleLine h.antennaPosition stringAntennaPosition],
    whenSet h validAntennaDeltaHEN [tripleLine h.antennaDeltaHEN stringAntennaDeltaHEN],
    whenSet h validAntennaDeltaXYZ [tripleLine h.antennaDeltaXYZ stringAntennaDeltaXYZ],
    whenSet h validAntennaPhaseCtr [phaseCtrLine h],
    whenSet h validAntennaBsightXYZ [tripleLine h.antennaBsightXYZ stringAntennaBsightXYZ],
    whenSet h validAntennaZeroDirAzi [zeroDirAziLine h],
    whenSet h validAntennaZeroDirXYZ [tripleLine h.antennaZeroDirXYZ stringAntennaZeroDirXYZ],
    whenSet h validCenterOfMass [tripleLine h.centerOfMass stringCenterOfMass],
    whenSet h validSystemObsType (h.mapObsTypes.map obsTypeLine),
    whenSet h validSigStrengthUnit [text20Line h.sigStrengthUnit stringSigStrengthUnit],
    whenSet h validInterval [intervalLine h],
    whenSet h validFirstTime [timeLine h.firstObs stringFirstTime],
    whenSet h validLastTime [timeLine h.lastObs stringLastTime],
    whenSet h validReceiverOffset [intLine h.receiverOffset stringReceiverOffset],
    whenSet h validSystemDCBSapplied (h.infoDCBS.map (corrInfoLine stringSystemDCBSapplied)),
    whenSet h validSystemPCVSapplied (h.infoPCVS.map (corrInfoLine stringSystemPCVSapplied)),
    [],
    [],
    [],
    whenSet h validLeapSeconds [intLine h.leapSeconds stringLeapSeconds],
    whenSet h validNumSats [intLine h.numSVs stringNumSats],
    [],
    whenSet h validEoH [eohLine] ]

/-- The header has no scale-factor, phase-shift, GLONASS or PRN record. -/
def NoMultiLineKinds (h : Rinex3ObsHeader) : Prop :=
  isSet h.valid validSystemScaleFac = false ∧ isSet h.valid validSystemPhaseShift = false ∧
  isSet h.valid validGlonassFreqNo = false ∧ isSet h.valid validPrnObs = false

instance (h : Rinex3ObsHeader) : Decidable (NoMultiLineKinds h) :=
  inferInstanceAs (Decidable (
    isSet h.valid validSystemScaleFac = false ∧ isSet h.valid validSystemPhaseShift = false ∧
    isSet h.valid validGlonassFreqNo = false ∧ isSet h.valid validPrnObs = false))

/-- The encoder accepts the file type and the system of the header. -/
def EncoderAccepts (h : Rinex3ObsHeader) : Prop :=
  (firstChar h.fileType = 'O' ∨ firstChar h.fileType = 'o') ∧
  h.system.system ≠ .systemUnknown

instance (h : Rinex3ObsHeader) : Decidable (EncoderAccepts h) :=
  inferInstanceAs (Decidable (
    (firstChar h.fileType = 'O' ∨ firstChar h.fileType = 'o') ∧
    h.system.system ≠ .systemUnknown))

/-- Every system of the observation-type map has between 1 and 13 codes. -/
def ObsListsFitOneLine (h : Rinex3ObsHeader) : Prop :=
  ∀ e ∈ h.mapObsTypes, e.2 ≠ [] ∧ e.2.length ≤ 13

/-! ## The decoder on the lines of the encoder -/

/-- The end-of-header flag of the header object is not set: the decoding loop
takes another line. -/
def Open (g : Rinex3ObsHeader) : Prop := isSet g.valid validEoH = false

/-- The decoding loop, started on the lines `L` followed by any other lines
with the header object `g`, consumes the lines `L` without throwing and goes on
with the header object `g1`. -/
def Feeds (L : List Str) (g g1 : Rinex3ObsHeader) : Prop :=
  ∀ rest n, getLoop (L ++ rest) g n = getLoop rest g1 (n + L.length)

/-- The value `a` when the flag `bit` of `h` is set, and `b` otherwise. -/
def sel {α : Type} (h : Rinex3ObsHeader) (bit : Nat) (a b : α) : α :=
  if isSet h.valid bit = true then a else b

/-- The header object `g` after the decoder has read the RINEX VERSION / TYPE
line written for `h`. -/
def gotVersion (h g : Rinex3ObsHeader) : Rinex3ObsHeader :=
  { g with
    version := sel h validVersion h.version g.version
    fileType := sel h validVersion "OBSERVATION DATA".toList g.fileType
    satSys := sel h validVersion (systemText h.system) g.satSys
    system := sel h validVersion h.system g.system
    valid := g.valid ||| sel h validVersion validVersion 0 }

/-- The header object after the PGM / RUN BY / DATE line written for `h`. -/
def gotRunBy (curDate : Str) (h g : Rinex3ObsHeader) : Rinex3ObsHeader :=
  { g with
    fileProgram := sel h validRunBy h.fileProgram g.fileProgram
    fileAgency := sel h validRunBy h.fileAgency g.fileAgency
    date := sel h validRunBy (strip (leftJustify curDate 20)) g.date
    valid := g.valid ||| sel h validRunBy validRunBy 0 }

/-- The header object after the COMMENT lines written for `h`. -/
def gotComments (h g : Rinex3ObsHeader) : Rinex3ObsHeader :=
  { g with
    commentList := sel h validComment (g.commentList ++ h.commentList) g.commentList
    valid := g.valid ||| sel h validComment validComment 0 }

/-- The header object after the MARKER NAME line written for `h`. -/
def gotMarkerName (h g : Rinex3ObsHeader) : Rinex3ObsHeader :=
  { g with
    markerName := sel h validMarkerName h.markerName g.markerName
    valid := g.valid ||| sel h validMarkerName validMarkerName 0 }

/-- The header object after the MARKER NUMBER line written for `h`. -/
def gotMarkerNumber (h g : Rinex3ObsHeader) : Rinex3ObsHeader :=
  { g with
    markerNumber := sel h validMarkerNumber h.markerNumber g.markerNumber
    valid := g.valid ||| sel h validMarkerNumber validMarkerNumber 0 }

/-- The header object after the MARKER TYPE line written for `h`. -/
def gotMarkerType (h g : Rinex3ObsHeader) : Rinex3ObsHeader :=
  { g with
    markerType := sel h validMarkerType h.markerType g.markerType
    valid := g.valid ||| sel h validMarkerType validMarkerType 0 }

/-- The header object after the OBSERVER / AGENCY line written for `h`. -/
def gotObserver (h g : Rinex3ObsHeader) : Rinex3ObsHeader :=
  { g with
    observer := sel h validObserver h.observer g.observer
    agency := sel h validObserver h.agency g.agency
    valid := g.valid ||| sel h validObserver validObserver 0 }

/-- The header object after the REC # / TYPE / VERS line written for `h`. -/
def gotReceiver (h g : Rinex3ObsHeader) : Rinex3ObsHeader :=
  { g with
    recNo := sel h validReceiver h.recNo g.recNo
    recType := sel h validReceiver h.recType g.recType
    recVers := sel h validReceiver h.recVers g.recVers
    valid := g.valid ||| sel h validReceiver validReceiver 0 }

/-- The header object after the ANT # / TYPE line written for `h`. -/
def gotAntennaType (h g : Rinex3ObsHeader) : Rinex3ObsHeader :=
  { g with
    antNo := sel h validAntennaType h.antNo g.antNo
    antType := sel h validAntennaType h.antType g.antType
    valid := g.valid ||| sel h validAntennaType validAntennaType 0 }

/-- The header object after the APPROX POSITION XYZ line written for `h`. -/
def gotAntennaPosition (h g : Rinex3ObsHeader) : Rinex3ObsHeader :=
  { g with
    antennaPosition := sel h validAntennaPosition h.antennaPosition g.antennaPosition
    valid := g.valid ||| sel h validAntennaPosition validAntennaPosition 0 }

/-- The header object after the ANTENNA: DELTA H/E/N line written for `h`. -/
def gotAntennaDeltaHEN (h g : Rinex3ObsHeader) : Rinex3ObsHeader :=
  { g with
    antennaDeltaHEN := sel h validAntennaDeltaHEN h.antennaDeltaHEN g.antennaDeltaHEN
    valid := g.valid ||| sel h validAntennaDeltaHEN validAntennaDeltaHEN 0 }

/-- The header object after the ANTENNA: DELTA X/Y/Z line written for `h`. -/
def gotAntennaDeltaXYZ (h g : Rinex3ObsHeader) : Rinex3ObsHeader :=
  { g with
    antennaDeltaXYZ := sel h validAntennaDeltaXYZ h.antennaDeltaXYZ g.antennaDeltaXYZ
    valid := g.valid ||| sel h validAntennaDeltaXYZ validAntennaDeltaXYZ 0 }

/-- The header object after the ANTENNA: PHASECENTER line written for `h`. -/
def gotAntennaPhaseCtr (h g : Rinex3ObsHeader) : Rinex3ObsHeader :=
  { g with
    antennaSatSys := sel h validAntennaPhaseCtr h.antennaSatSys g.antennaSatSys
    antennaObsCode := sel h validAntennaPhaseCtr h.antennaObsCode g.antennaObsCode
    antennaPhaseCtr := sel h validAntennaPhaseCtr h.antennaPhaseCtr g.antennaPhaseCtr
    valid := g.valid ||| sel h validAntennaPhaseCtr validAntennaPhaseCtr 0 }

/-- The header object after the ANTENNA: B.SIGHT XYZ line written for `h`. -/
def gotAntennaBsightXYZ (h g : Rinex3ObsHeader) : Rinex3ObsHeader :=
  { g with
    antennaBsightXYZ := sel h validAntennaBsightXYZ h.antennaBsightXYZ g.antennaBsightXYZ
    valid := g.valid ||| sel h validAntennaBsightXYZ validAntennaBsightXYZ 0 }

/-- The header object after the CENTER OF MASS: XYZ line written for `h`. -/
def gotCenterOfMass (h g : Rinex3ObsHeader) : Rinex3ObsHeader :=
  { g with
    centerOfMass := sel h validCenterOfMass h.centerOfMass g.centerOfMass
    valid := g.valid ||| sel h validCenterOfMass validCenterOfMass 0 }

/-- The header object after one SYS / # / OBS TYPES line that holds all the
codes of the system `e.1`. -/
def gotObsEntry (e : Str × List ObsID) (g : Rinex3ObsHeader) : Rinex3ObsHeader :=
  { g with
    satSysTemp := e.1
    numObs := e.2.length
    mapObsTypes := SMap.set g.mapObsTypes e.1 e.2
    satSysPrev := e.1
    numObsPrev := e.2.length
    valid := g.valid ||| validSystemObsType }

/-- The entries of a list assigned to a map one after the other. -/
def setAll (m : SMap Str (List ObsID)) (l : List (Str × List ObsID)) : SMap Str (List ObsID) :=
  l.foldl (fun acc e => SMap.set acc e.1 e.2) m

/-- The header object after the SYS / # / OBS TYPES lines written for `h`. -/
def gotSystemObsType (h g : Rinex3ObsHeader) : Rinex3ObsHeader :=
  { g with
    satSysTemp := sel h validSystemObsType
      ((h.mapObsTypes.getLast?.map Prod.fst).getD g.satSysTemp) g.satSysTemp
    numObs := sel h validSystemObsType
      ((h.mapObsTypes.getLast?.map fun e => (e.2.length : Int)).getD g.numObs) g.numObs
    mapObsTypes := sel h validSystemObsType (setAll g.mapObsTypes h.mapObsTypes) g.mapObsTypes
    satSysPrev := sel h validSystemObsType
      ((h.mapObsTypes.getLast?.map Prod.fst).getD g.satSysPrev) g.satSysPrev
    numObsPrev := sel h validSystemObsType
      ((h.mapObsTypes.getLast?.map fun e => (e.2.length : Int)).getD g.numObsPrev) g.numObsPrev
    valid := g.valid ||| sel h validSystemObsType validSystemObsType 0 }

/-- The header object after the SIGNAL STRENGTH UNIT line written for `h`. -/
def gotSigStrengthUnit (h g : Rinex3ObsHeader) : Rinex3ObsHeader :=
  { g with
    sigStrengthUnit := sel h validSigStrengthUnit h.sigStrengthUnit g.sigStrengthUnit
    valid := g.valid ||| sel h validSigStrengthUnit validSigStrengthUnit 0 }

/-- The header object after the INTERVAL line written for `h`. -/
def gotInterval (h g : Rinex3ObsHeader) : Rinex3ObsHeader :=
  { g with
    interval := sel h validInterval h.interval g.interval
    valid := g.valid ||| sel h validInterval validInterval 0 }

/-- The header object after the TIME OF FIRST OBS line written for `h`. -/
def gotFirstTime (h g : Rinex3ObsHeader) : Rinex3ObsHeader :=
  { g with
    firstObs := sel h validFirstTime h.firstObs g.firstObs
    valid := g.valid ||| sel h validFirstTime validFirstTime 0 }

/-- The header object after the TIME OF LAST OBS line written for `h`. -/
def gotLastTime (h g : Rinex3ObsHeader) : Rinex3ObsHeader :=
  { g with
    lastObs := sel h validLastTime h.lastObs g.lastObs
    valid := g.valid ||| sel h validLastTime validLastTime 0 }

/-- The header object after the RCV CLOCK OFFS APPL line written for `h`. -/
def gotReceiverOffset (h g : Rinex3ObsHeader) : Rinex3ObsHeader :=
  { g with
    receiverOffset := sel h validReceiverOffset h.receiverOffset g.receiverOffset
    valid := g.valid ||| sel h validReceiverOffset validReceiverOffset 0 }

/-- The header object after the SYS / DCBS APPLIED lines written for `h`. -/
def gotSystemDCBSapplied (h g : Rinex3ObsHeader) : Rinex3ObsHeader :=
  { g with
    infoDCBS := sel h validSystemDCBSapplied (g.infoDCBS ++ h.infoDCBS) g.infoDCBS
    valid := g.valid ||| sel h validSystemDCBSapplied validSystemDCBSapplied 0 }

/-- The header object after the SYS / PCVS APPLIED lines written for `h`. -/
def gotSystemPCVSapplied (h g : Rinex3ObsHeader) : Rinex3ObsHeader :=
  { g with
    infoPCVS := sel h validSystemPCVSapplied (g.infoPCVS ++ h.infoPCVS) g.infoPCVS
    valid := g.valid ||| sel h validSystemPCVSapplied validSystemPCVSapplied 0 }

/-- The header object after the LEAP SECONDS line written for `h`. -/
def gotLeapSeconds (h g : Rinex3ObsHeader) : Rinex3ObsHeader :=
  { g with
    leapSeconds := sel h validLeapSeconds h.leapSeconds g.leapSeconds
    valid := g.valid ||| sel h validLeapSeconds validLeapSeconds 0 }

/-- The header object after the # OF SATELLITES line written for `h`. -/
def gotNumSats (h g : Rinex3ObsHeader) : Rinex3ObsHeader :=
  { g with
    numSVs := sel h validNumSats h.numSVs g.numSVs
    valid := g.valid ||| sel h validNumSats validNumSats 0 }

/-- The header object after the END OF HEADER line written for `h`. -/
def gotEoH (h g : Rinex3ObsHeader) : Rinex3ObsHeader :=
  { g with valid := g.valid ||| sel h validEoH validEoH 0 }

/-- What the decoder does to the header object on the lines of each block of
`encodedBlocks` but the last, in the order of the blocks. -/
def decodeSteps (curDate : Str) (h : Rinex3ObsHeader) :
    List (Rinex3ObsHeader → Rinex3ObsHeader) :=
  [ gotVersion h, gotRunBy curDate h, gotComments h, gotMarkerName h, gotMarkerNumber h,
    gotMarkerType h, gotObserver h, gotReceiver h, gotAntennaType h, gotAntennaPosition h,
    gotAntennaDeltaHEN h, gotAntennaDeltaXYZ h, gotAntennaPhaseCtr h, gotAntennaBsightXYZ h,
    id, id, gotCenterOfMass h, gotSystemObsType h, gotSigStrengthUnit h, gotInterval h,
    gotFirstTime h, gotLastTime h, gotReceiverOffset h, gotSystemDCBSapplied h,
    gotSystemPCVSapplied h, id, id, id, gotLeapSeconds h, gotNumSats h, id ]

/-- The steps applied one after the other to a header object. -/
def applySteps (steps : List (Rinex3ObsHeader → Rinex3ObsHeader)) (g : Rinex3ObsHeader) :
    Rinex3ObsHeader :=
  steps.foldl (fun a step => step a) g

/-- The header object `g` after the decoder has read all the lines written
for `h`. -/
def decoded (curDate : Str) (h g : Rinex3ObsHeader) : Rinex3ObsHeader :=
  gotEoH h (applySteps (decodeSteps curDate h) g)

/-- The three components of a triple fit their 14-column fields. -/
def FitsTriple (t : Triple) : Prop := FitsFixed 4 14 t.x ∧ FitsFixed 4 14 t.y ∧ FitsFixed 4 14 t.z

instance (t : Triple) : Decidable (FitsTriple t) :=
  inferInstanceAs (Decidable (FitsFixed 4 14 t.x ∧ FitsFixed 4 14 t.y ∧ FitsFixed 4 14 t.z))

/-- An epoch that a time line holds unchanged: the integers are in the range
of `short`, the seconds fit their field and the tag of the time system has
three characters. -/
def FitsTime (t : CivilTime) : Prop :=
  (toShort t.year = t.year ∧ FitsInt 6 t.year) ∧ (toShort t.month = t.month ∧ FitsInt 6 t.month) ∧
  (toShort t.day = t.day ∧ FitsInt 6 t.day) ∧ (toShort t.hour = t.hour ∧ FitsInt 6 t.hour) ∧
  (toShort t.minute = t.minute ∧ FitsInt 6 t.minute) ∧ FitsFixed 7 13 t.second ∧
  t.timeSystem.tag.length = 3

instance (t : CivilTime) : Decidable (FitsTime t) :=
  inferInstanceAs (Decidable (
    (toShort t.year = t.year ∧ FitsInt 6 t.year) ∧ (toShort t.month = t.month ∧ FitsInt 6 t.month) ∧
    (toShort t.day = t.day ∧ FitsInt 6 t.day) ∧ (toShort t.hour = t.hour ∧ FitsInt 6 t.hour) ∧
    (toShort t.minute = t.minute ∧ FitsInt 6 t.minute) ∧ FitsFixed 7 13 t.second ∧
    t.timeSystem.tag.length = 3))

/-- A correction record whose three texts fit their fields. -/
def FitsCorrInfo (c : Rinex3CorrInfo) : Prop :=
  Canon 1 c.satSys ∧ Canon 17 c.name ∧ Canon 40 c.source

instance (c : Rinex3CorrInfo) : Decidable (FitsCorrInfo c) :=
  inferInstanceAs (Decidable (Canon 1 c.satSys ∧ Canon 17 c.name ∧ Canon 40 c.source))

/-- An entry of the observation-type map that one line holds: the system is
one character other than a blank, there are between 1 and 13 codes, and each
identifier is the system followed by a code of three characters. -/
def FitsObsEntry (e : Str × List ObsID) : Prop :=
  e.1.length = 1 ∧ e.1 ≠ [' '] ∧ e.2 ≠ [] ∧ e.2.length ≤ 13 ∧
  ∀ o ∈ e.2, o.text.length = 4 ∧ o.text.take 1 = e.1

instance (e : Str × List ObsID) : Decidable (FitsObsEntry e) :=
  inferInstanceAs (Decidable (
    e.1.length = 1 ∧ e.1 ≠ [' '] ∧ e.2 ≠ [] ∧ e.2.length ≤ 13 ∧
    ∀ o ∈ e.2, o.text.length = 4 ∧ o.text.take 1 = e.1))

/-- The decoding loop consumes the lines `L` of a block, which is not the
last one, and turns the header object `g` into `step g`. -/
def Block (L : List Str) (step : Rinex3ObsHeader → Rinex3ObsHeader) : Prop :=
  ∀ g, Open g → Feeds L g (step g) ∧ Open (step g)

/-- A header of version 3.0 that the lines of the encoder hold unchanged:
the required records are flagged, no flag stands for a record that the two
directions treat differently, and every value fits the columns of its
field. -/
structure Representable (h : Rinex3ObsHeader) : Prop where
  version : h.version = 3
  required : h.valid &&& allValid30 = allValid30
  flagsInRange : h.valid < 2 ^ 32
  noZeroDirAzi : isSet h.valid validAntennaZeroDirAzi = false
  noZeroDirXYZ : isSet h.valid validAntennaZeroDirXYZ = false
  noMultiLine : NoMultiLineKinds h
  accepted : EncoderAccepts h
  systemOnly : h.system.id = -1
  runBy : Canon 20 h.fileProgram ∧ Canon 20 h.fileAgency
  comments : isSet h.valid validComment = true →
    h.commentList ≠ [] ∧ ∀ c ∈ h.commentList, Canon 60 c
  markerName : Canon 60 h.markerName
  markerNumber : isSet h.valid validMarkerNumber = true → Canon 20 h.markerNumber
  markerType : isSet h.valid validMarkerType = true → Canon 20 h.markerType
  observer : Canon 20 h.observer ∧ Canon 40 h.agency
  receiver : Canon 20 h.recNo ∧ Canon 20 h.recType ∧ Canon 20 h.recVers
  antennaType : Canon 20 h.antNo ∧ Canon 20 h.antType
  antennaPosition : FitsTriple h.antennaPosition
  antennaDeltaHEN : FitsTriple h.antennaDeltaHEN
  antennaDeltaXYZ : isSet h.valid validAntennaDeltaXYZ = true → FitsTriple h.antennaDeltaXYZ
  antennaPhaseCtr : isSet h.valid validAntennaPhaseCtr = true →
    Canon 1 h.antennaSatSys ∧ Canon 3 h.antennaObsCode ∧ FitsFixed 4 9 h.antennaPhaseCtr.x ∧
    FitsFixed 4 14 h.antennaPhaseCtr.y ∧ FitsFixed 4 14 h.antennaPhaseCtr.z
  antennaBsightXYZ : isSet h.valid validAntennaBsightXYZ = true → FitsTriple h.antennaBsightXYZ
  centerOfMass : isSet h.valid validCenterOfMass = true → FitsTriple h.centerOfMass
  obsTypes : h.mapObsTypes ≠ [] ∧ (∀ e ∈ h.mapObsTypes, FitsObsEntry e) ∧
    h.mapObsTypes.Pairwise (fun a b => strLt a.1 b.1 = true)
  sigStrengthUnit : isSet h.valid validSigStrengthUnit = true → Canon 20 h.sigStrengthUnit
  interval : isSet h.valid validInterval = true → FitsFixed 3 10 h.interval
  firstObs : FitsTime h.firstObs
  lastObs : isSet h.valid validLastTime = true → FitsTime h.lastObs
  receiverOffset : isSet h.valid validReceiverOffset = true → FitsInt 6 h.receiverOffset
  infoDCBS : isSet h.valid validSystemDCBSapplied = true →
    h.infoDCBS ≠ [] ∧ ∀ c ∈ h.infoDCBS, FitsCorrInfo c
  infoPCVS : isSet h.valid validSystemPCVSapplied = true →
    h.infoPCVS ≠ [] ∧ ∀ c ∈ h.infoPCVS, FitsCorrInfo c
  leapSeconds : isSet h.valid validLeapSeconds = true → FitsInt 6 h.leapSeconds
  numSVs : isSet h.valid validNumSats = true → FitsInt 6 h.numSVs

/-- The header object `g` holds the records of `h` as the decoder reads them
back from the lines written on the date `curDate`: the flags and the values of
the flagged records are those of `h`, except that the file type reads
"OBSERVATION DATA", the system text is the letter with the name of the system,
the date is the date of writing, and the list of observation types stays
empty. -/
structure ReadsBack (curDate : Str) (h g : Rinex3ObsHeader) : Prop where
  valid : g.valid = h.valid
  version : g.version = h.version
  fileType : g.fileType = "OBSERVATION DATA".toList
  satSys : g.satSys = systemText h.system
  system : g.system = h.system
  fileProgram : g.fileProgram = h.fileProgram
  fileAgency : g.fileAgency = h.fileAgency
  date : g.date = strip (leftJustify curDate 20)
  commentList : isSet h.valid validComment = true → g.commentList = h.commentList
  markerName : g.markerName = h.markerName
  markerNumber : isSet h.valid validMarkerNumber = true → g.markerNumber = h.markerNumber
  markerType : isSet h.valid validMarkerType = true → g.markerType = h.markerType
  observer : g.observer = h.observer
  agency : g.agency = h.agency
  recNo : g.recNo = h.recNo
  recType : g.recType = h.recType
  recVers : g.recVers = h.recVers
  antNo : g.antNo = h.antNo
  antType : g.antType = h.antType
  antennaPosition : g.antennaPosition = h.antennaPosition
  antennaDeltaHEN : g.antennaDeltaHEN = h.antennaDeltaHEN
  antennaDeltaXYZ : isSet h.valid validAntennaDeltaXYZ = true →
    g.antennaDeltaXYZ = h.antennaDeltaXYZ
  antennaPhaseCtr : isSet h.valid validAntennaPhaseCtr = true →
    g.antennaSatSys = h.antennaSatSys ∧ g.antennaObsCode = h.antennaObsCode ∧
    g.antennaPhaseCtr = h.antennaPhaseCtr
  antennaBsightXYZ : isSet h.valid validAntennaBsightXYZ = true →
    g.antennaBsightXYZ = h.antennaBsightXYZ
  centerOfMass : isSet h.valid validCenterOfMass = true → g.centerOfMass = h.centerOfMass
  mapObsTypes : g.mapObsTypes = h.mapObsTypes
  obsTypeList : g.obsTypeList = []
  sigStrengthUnit : isSet h.valid validSigStrengthUnit = true →
    g.sigStrengthUnit = h.sigStrengthUnit
  interval : isSet h.valid validInterval = true → g.interval = h.interval
  firstObs : g.firstObs = h.firstObs
  lastObs : isSet h.valid validLastTime = true → g.lastObs = h.lastObs
  receiverOffset : isSet h.valid validReceiverOffset = true →
    g.receiverOffset = h.receiverOffset
  infoDCBS : isSet h.valid validSystemDCBSapplied = true → g.infoDCBS = h.infoDCBS
  infoPCVS : isSet h.valid validSystemPCVSapplied = true → g.infoPCVS = h.infoPCVS
  leapSeconds : isSet h.valid validLeapSeconds = true → g.leapSeconds = h.leapSeconds
  numSVs : isSet h.valid validNumSats = true → g.numSVs = h.numSVs

/-- A header of version 3.01 with exactly the required records: the sample
header with one phase-shift entry for the code L1C of the satellite G01. -/
def phaseShiftHeader : Rinex3ObsHeader :=
  { sampleHeader with
    version := mkRat 301 100
    fileType := "OBSERVATION DATA".toList
    sysPhaseShift := [(⟨"GL1C".toList⟩, [(⟨.systemGPS, 1⟩, mkRat 1 4)])]
    valid := allValid301 }

/-- The file-type text begins with O and the system text with one of the
letters G, R, E, S, M, in either case. -/
def VersionTextsAccepted (fileType satSys : Str) : Prop :=
  (firstChar fileType = 'O' ∨ firstChar fileType = 'o') ∧
  (firstChar satSys = 'G' ∨ firstChar satSys = 'g' ∨ firstChar satSys = 'R' ∨
    firstChar satSys = 'r' ∨ firstChar satSys = 'E' ∨ firstChar satSys = 'e' ∨
    firstChar satSys = 'S' ∨ firstChar satSys = 's' ∨ firstChar satSys = 'M' ∨
    firstChar satSys = 'm')

instance (fileType satSys : Str) : Decidable (VersionTextsAccepted fileType satSys) :=
  inferInstanceAs (Decidable (
    (firstChar fileType = 'O' ∨ firstChar fileType = 'o') ∧
    (firstChar satSys = 'G' ∨ firstChar satSys = 'g' ∨ firstChar satSys = 'R' ∨
      firstChar satSys = 'r' ∨ firstChar satSys = 'E' ∨ firstChar satSys = 'e' ∨
      firstChar satSys = 'S' ∨ firstChar satSys = 's' ∨ firstChar satSys = 'M' ∨
      firstChar satSys = 'm')))

/-- The line of the literal scenario as the spec words it: a text of 58
characters, 20 blanks and the label. -/
def literalScenarioLine : Str :=
  "   3.00           OBSERVATION DATA    G (GPS)             ".toList ++ mkString 20 ' ' ++
    stringVersion

/-- The texts of the literal scenario laid out in the columns of the record:
the version in columns 0-19, the file type in columns 20-39, the system in
columns 40-59, and the label from column 60. -/
def columnScenarioLine : Str :=
  "   3.00".toList ++ mkString 13 ' ' ++ "OBSERVATION DATA".toList ++ mkString 4 ' ' ++
    "G (GPS)".toList ++ mkString 13 ' ' ++ stringVersion

/-- An epoch whose year has six digits: every integer fits 6 columns, and the
year is outside the range of `short`. -/
def wideYearTime : CivilTime := ⟨100000, 6, 6, 19, 45, mkRat 415 10, ⟨"GPS".toList⟩⟩

/-- The block number `k` of `WriteHeaderRecords` writes, when the flag `bit` of
`h` is set, exactly the line `line`, and `ParseHeaderRecord` turns the header
object `g` into `g1` on that line without an exception. -/
def WrittenAndReadBack (curDate : Str) (h g : Rinex3ObsHeader) (k bit : Nat) (line : Str)
    (g1 : Rinex3ObsHeader) : Prop :=
  (∃ b, (headerBlocks curDate h)[k]? = some b ∧
    (isSet h.valid bit = true → ∀ s, b s = (putLine s line, none))) ∧
  ParseHeaderRecord g line = (g1, none)

/-- A header with a text in every field of the fixed-width text records and
all the flags of these records set. -/
def textRecordsHeader : Rinex3ObsHeader :=
  { Rinex3ObsHeader.empty with
    markerName := "MRK 1".toList
    markerNumber := "12345M001".toList
    markerType := "GEODETIC".toList
    observer := "J. Doe".toList
    agency := "Survey Office".toList
    recNo := "R123".toList
    recType := "RCV TYPE".toList
    recVers := "1.2.3".toList
    antNo := "A456".toList
    antType := "ANT TYPE".toList
    sigStrengthUnit := "DBHZ".toList
    valid := validMarkerName ||| validMarkerNumber ||| validMarkerType ||| validObserver |||
      validReceiver ||| validAntennaType ||| validSigStrengthUnit }

/-- A header of version 3.01 whose phase-shift map holds one entry: the code
L1C of GPS with the correction 0.25 for the 14 satellites G01 to G14. -/
def phaseShift14Header : Rinex3ObsHeader :=
  { phaseShiftHeader with
    sysPhaseShift := [(⟨"GL1C".toList⟩,
      (List.range 14).map fun i => ((⟨.systemGPS, (i : Int) + 1⟩ : RinexSatID), mkRat 1 4))] }

/-- The two SYS / PHASE SHIFTS lines of a writer that puts the system letter in
column 0 and a blank in column 1: the lines written for `phaseShift14Header`
with the first two columns of the opening line exchanged. -/
def phaseShift14LinesSystemFirst : List Str :=
  [ "G L1C  0.25000  14 G01 G02 G03 G04 G05 G06 G07 G08 G09 G10  SYS / PHASE SHIFTS".toList,
    "                   G11 G12 G13 G14                          SYS / PHASE SHIFTS".toList ]

/-- A decode state in which the system G has a list of five observation
codes and no scale factor yet. -/
def fiveCodesHeader : Rinex3ObsHeader :=
  { Rinex3ObsHeader.empty with
    mapObsTypes := [("G".toList, [⟨"GC1C".toList⟩, ⟨"GL1C".toList⟩, ⟨"GD1C".toList⟩,
      ⟨"GS1C".toList⟩, ⟨"GC2W".toList⟩])] }

/-- The SYS / SCALE FACTOR line of the system G with the factor 10, the given
text in the two columns of the count, and no code. -/
def scaleAllLine (count : Str) : Str :=
  "G   10  ".toList ++ count ++ mkString 50 ' ' ++ stringSystemScaleFac

/-- An opening SYS / # / OBS TYPES line: the system, the declared count `n`,
the codes of the line and the blanks up to column 60. -/
def obsOpeningLine (sys : Str) (n : Nat) (codes : List ObsID) : Str :=
  leftJustify sys 1 ++ mkString 2 ' ' ++ rightJustify (asStringInt n) 3 ++ codesText codes ++
    mkString (60 - (6 + 4 * codes.length)) ' ' ++ stringSystemNumObs

/-- A SYS / # / OBS TYPES continuation line: six blanks, the codes of the line
and the blanks up to column 60. -/
def obsContinuationLine (codes : List ObsID) : Str :=
  mkString 6 ' ' ++ codesText codes ++ mkString (60 - (6 + 4 * codes.length)) ' ' ++
    stringSystemNumObs

/-- Fifteen observation codes of the system G. -/
def fifteenCodes : List ObsID :=
  [ ⟨"GC1C".toList⟩, ⟨"GL1C".toList⟩, ⟨"GD1C".toList⟩, ⟨"GS1C".toList⟩, ⟨"GC1W".toList⟩,
    ⟨"GL1W".toList⟩, ⟨"GD1W".toList⟩, ⟨"GS1W".toList⟩, ⟨"GC2W".toList⟩, ⟨"GL2W".toList⟩,
    ⟨"GD2W".toList⟩, ⟨"GS2W".toList⟩, ⟨"GC5Q".toList⟩, ⟨"GL5Q".toList⟩, ⟨"GD5Q".toList⟩ ]

/-- A header whose observation-type map holds the fifteen codes for G. -/
def fifteenCodesHeader : Rinex3ObsHeader :=
  { sampleHeader with mapObsTypes := [("G".toList, fifteenCodes)] }

/-- An opening SYS / SCALE FACTOR line: the system, the factor, the declared
count `n`, the codes of the line and the blanks up to column 60. -/
def sfacOpeningLine (sys : Str) (factor : Int) (n : Nat) (ids : List ObsID) : Str :=
  leftJustify sys 1 ++ mkString 1 ' ' ++ rightJustify (asStringInt factor) 4 ++ mkString 2 ' ' ++
    rightJustify (asStringInt n) 2 ++ codesText ids ++
    mkString (60 - (10 + 4 * ids.length)) ' ' ++ stringSystemScaleFac

/-- A SYS / SCALE FACTOR continuation line: ten blanks, the codes of the line
and the blanks up to column 60. -/
def sfacContinuationLine (ids : List ObsID) : Str :=
  mkString 10 ' ' ++ codesText ids ++ mkString (60 - (10 + 4 * ids.length)) ' ' ++
    stringSystemScaleFac

/-- The scale-factor map that gives the factor `f` to each of the codes. -/
def sfacOf (ids : List ObsID) (f : Int) : sfacMap := ids.map fun o => (o, f)

/-- Twenty observation codes of the system G, in the order of their texts. -/
def twentyCodes : List ObsID :=
  [ ⟨"GC1C".toList⟩, ⟨"GC1W".toList⟩, ⟨"GC2L".toList⟩, ⟨"GC2W".toList⟩, ⟨"GC5Q".toList⟩,
    ⟨"GD1C".toList⟩, ⟨"GD1W".toList⟩, ⟨"GD2L".toList⟩, ⟨"GD2W".toList⟩, ⟨"GD5Q".toList⟩,
    ⟨"GL1C".toList⟩, ⟨"GL1W".toList⟩, ⟨"GL2L".toList⟩, ⟨"GL2W".toList⟩, ⟨"GL5Q".toList⟩,
    ⟨"GS1C".toList⟩, ⟨"GS1W".toList⟩, ⟨"GS2L".toList⟩, ⟨"GS2W".toList⟩, ⟨"GS5Q".toList⟩ ]

/-- A header whose scale-factor map gives the factor 100 to the twenty codes
of G. -/
def twentyCodesHeader : Rinex3ObsHeader :=
  { sampleHeader with
    valid := sampleHeader.valid ||| validSystemScaleFac
    sysSfacMap := [("G".toList, sfacOf twentyCodes 100)] }

/-- The text of a list of observation counts, each in six columns. -/
def countsText : List Int → Str
  | [] => []
  | c :: cs => rightJustify (asStringInt c) 6 ++ countsText cs

/-- An opening PRN / # OF OBS line: three blanks, the satellite, the counts of
the line and the blanks up to column 60. -/
def prnOpeningLine (sat : RinexSatID) (counts : List Int) : Str :=
  mkString 3 ' ' ++ sat.toString ++ countsText counts ++
    mkString (60 - (6 + 6 * counts.length)) ' ' ++ stringPrnObs

/-- A PRN / # OF OBS continuation line: six blanks, the counts of the line and
the blanks up to column 60. -/
def prnContinuationLine (counts : List Int) : Str :=
  mkString 6 ' ' ++ countsText counts ++ mkString (60 - (6 + 6 * counts.length)) ' ' ++
    stringPrnObs

/-- Twelve observation counts. -/
def twelveCounts : List Int := [2880, 2879, 2880, 2880, 2871, 2870, 2871, 2871, 0, 15, 120, 99999]

/-- A header with the PRN / # OF OBS flag set and the twelve counts for the
satellite G07. -/
def twelveCountsHeader : Rinex3ObsHeader :=
  { sampleHeader with
    valid := sampleHeader.valid ||| validPrnObs
    numObsForSat := [(⟨.systemGPS, 7⟩, twelveCounts)] }

/-- A header under decoding whose observation-type map holds twelve codes for
G. -/
def twelveCodesRead : Rinex3ObsHeader :=
  { Rinex3ObsHeader.empty with mapObsTypes := [("G".toList, twentyCodes.take 12)] }

/-- An ANTENNA: ZERODIR AZI line with the azimuth 45 degrees. -/
def zeroDirAziSampleLine : Str :=
  "       45.0000".toList ++ mkString 46 ' ' ++ stringAntennaZeroDirAzi

/-- An ANTENNA: ZERODIR XYZ line with the vector (0, 0, 1). -/
def zeroDirXYZSampleLine : Str :=
  "        0.0000        0.0000        1.0000".toList ++ mkString 18 ' ' ++
    stringAntennaZeroDirXYZ

/-- Twenty-six observation codes of the system G. -/
def twentySixCodes : List ObsID :=
  twentyCodes ++
    [ ⟨"GC6A".toList⟩, ⟨"GD6A".toList⟩, ⟨"GL6A".toList⟩, ⟨"GS6A".toList⟩, ⟨"GC7A".toList⟩,
      ⟨"GD7A".toList⟩ ]

/-- A PRN / # OF OBS line for the satellite G01 with two counts. -/
def prnSampleLine : Str :=
  "   G01  2880  2879".toList ++ mkString 42 ' ' ++ stringPrnObs

/-- The registry indices of the labels found in columns 60-79 of the lines;
the index 32 stands for a text that is not a label of the registry. -/
def labelIndices (lines : List Str) : List Nat :=
  lines.map fun l => labelPos (lineLabel l) labelRegistry

/-- A SYS / PHASE SHIFTS line with the system G and blanks in every other data
column. -/
def phaseShiftSystemOnlyLine : Str := "G".toList ++ mkString 59 ' ' ++ stringSystemPhaseShift

/-- A SYS / PHASE SHIFTS continuation line with the satellite G15. -/
def phaseShiftExtraContinuation : Str :=
  mkString 19 ' ' ++ "G15".toList ++ mkString 38 ' ' ++ stringSystemPhaseShift

/-- A SYS / PHASE SHIFTS opening line for the code L2C with two satellites. -/
def phaseShiftTwoSatsLine : Str :=
  "G L2C  0.50000   2 G01 G02".toList ++ mkString 34 ' ' ++ stringSystemPhaseShift

/-- The exception thrown for a continuation line that continues nothing. -/
def unexpectedContinuation : Err :=
  .FFStreamError "SYS / PHASE SHIFT: unexpected continuation line".toList

/-- No validity bit of the header `g` is cleared in the outcome `r`. -/
def FlagsKept (g : Rinex3ObsHeader) (r : Parsed) : Prop := g.valid &&& r.1.valid = g.valid

/-- The outcome `r` has the phase-shift map of `g` and its remembered
continuation code. -/
def PhaseFrame (g : Rinex3ObsHeader) (r : Parsed) : Prop :=
  r.1.sysPhaseShiftObsID = g.sysPhaseShiftObsID ∧ r.1.sysPhaseShift = g.sysPhaseShift

/-- The outcome `r` has the observation-count map, the observation-type map and
the last satellite of `g`. -/
def CountFrame (g : Rinex3ObsHeader) (r : Parsed) : Prop :=
  r.1.numObsForSat = g.numObsForSat ∧ r.1.mapObsTypes = g.mapObsTypes ∧ r.1.lastPRN = g.lastPRN

/-- What the branch of a label leaves alone, whether it throws or not: the bits
already set; the phase-shift members unless the label is SYS / PHASE SHIFTS;
the observation counts and types unless the label is SYS / # / OBS TYPES,
SYS / SCALE FACTOR or PRN / # OF OBS. -/
def Frames (label : Str) (g : Rinex3ObsHeader) (r : Parsed) : Prop :=
  FlagsKept g r ∧ (label ≠ stringSystemPhaseShift → PhaseFrame g r) ∧
  (label ≠ stringSystemNumObs → label ≠ stringSystemScaleFac → label ≠ stringPrnObs →
    CountFrame g r)

/-- A COMMENT line. -/
def commentSampleLine : Str := leftJustify "first remark".toList 60 ++ stringComment

/-- No SYS / PHASE SHIFTS record awaits a continuation: the remembered
continuation code is the default one, and no entry of the phase-shift map has
that key. -/
def PhaseIdle (h : Rinex3ObsHeader) : Prop :=
  h.sysPhaseShiftObsID = ObsID.default ∧ ∀ e ∈ h.sysPhaseShift, e.1 ≠ ObsID.default

/-- A line of the stream that is not a SYS / PHASE SHIFTS line with a declared
satellite count above 10. -/
def DeclaresAtMostTen (raw : Str) : Prop :=
  lineLabel raw = stringSystemPhaseShift →
    asInt (strip (substr (stripTrailing raw) 16 2)) ≤ 10

instance (raw : Str) : Decidable (DeclaresAtMostTen raw) :=
  inferInstanceAs (Decidable (lineLabel raw = stringSystemPhaseShift →
    asInt (strip (substr (stripTrailing raw) 16 2)) ≤ 10))

/-- The texts of the (satellite, slot number) positions `l` of a GLONASS
SLOT / FRQ # line: position `i` has its satellite in the three columns from
`4 + 7 i` and its number in the two columns from `8 + 7 i`; both are stripped. -/
def glonassFields (line : Str) (l : List Nat) : List (Str × Str) :=
  l.map fun i => (strip (substr line (4 + i * 7) 3), strip (substr line (8 + i * 7) 2))

/-- The positions before the first one whose satellite field is blank. -/
def glonassTaken (line : Str) (l : List Nat) : List (Str × Str) :=
  (glonassFields line l).takeWhile fun p => decide (p.1 ≠ [])

/-- The pairs inserted one after the other into a map of slot numbers. -/
def insertPairs (m : SMap RinexSatID Int) (sats : List RinexSatID) (numbers : List Int) :
    SMap RinexSatID Int :=
  (sats.zip numbers).foldl (fun acc e => SMap.insert acc e.1 e.2) m

/-- The data columns from column 3 of a GLONASS SLOT / FRQ # line with the
satellites R01 (number 1) and R02 (number -4), followed by the label. -/
def glonassSampleRest : Str :=
  " R01  1 R02 -4".toList ++ mkString 43 ' ' ++ stringGlonassSlotFreqNo

/-- A list of codes cut into consecutive groups of 13, the last group holding
what is left; `fuel` bounds the number of groups. -/
def chunks13 : Nat → List ObsID → List (List ObsID)
  | 0, _ => []
  | fuel + 1, l => if l = [] then [] else l.take 13 :: chunks13 fuel (l.drop 13)

/-- The SYS / # / OBS TYPES lines of one system: for an empty list a line of
blanks with the label; otherwise the opening line with the first 13 codes and a
continuation line for each further group of 13. -/
def systemLines (e : Str × List ObsID) : List Str :=
  if e.2 = [] then [mkString 60 ' ' ++ stringSystemNumObs]
  else obsOpeningLine e.1 e.2.length (e.2.take 13) ::
    (chunks13 e.2.length (e.2.drop 13)).map obsContinuationLine

/-- The texts of the 13 code slots of a SYS / # / OBS TYPES line, three columns
each from column `7 + 4 i`. -/
def codeSlots (line : Str) : List Str :=
  (List.range 13).map fun i => substr line (7 + 4 * i) 3

/-- Every count list of the observation-count map is at most as long as the
observation-code list recorded for the system of its satellite (an absent list
counts as empty). -/
def CountsFit (h : Rinex3ObsHeader) : Prop :=
  ∀ e ∈ h.numObsForSat, e.2.length ≤ (SMap.getD h.mapObsTypes [e.1.systemChar] []).length

instance (h : Rinex3ObsHeader) : Decidable (CountsFit h) :=
  inferInstanceAs (Decidable (∀ e ∈ h.numObsForSat,
    e.2.length ≤ (SMap.getD h.mapObsTypes [e.1.systemChar] []).length))

/-- No SYS / # / OBS TYPES line comes after a PRN / # OF OBS line. -/
def TypesBeforeCounts (lines : List Str) : Prop :=
  lines.Pairwise fun a b => ¬ (lineLabel a = stringPrnObs ∧ lineLabel b = stringSystemNumObs)

instance (lines : List Str) : Decidable (TypesBeforeCounts lines) :=
  inferInstanceAs (Decidable (lines.Pairwise fun a b =>
    ¬ (lineLabel a = stringPrnObs ∧ lineLabel b = stringSystemNumObs)))

/-- Three lines: two observation codes for G, two counts for the satellite
G01, and then a single observation code for G. -/
def shrinkingLines : List Str :=
  [ obsOpeningLine "G".toList 2 [⟨"GC1C".toList⟩, ⟨"GL1C".toList⟩],
    prnSampleLine,
    obsOpeningLine "G".toList 1 [⟨"GC1C".toList⟩] ]

/-- A LEAP SECONDS line whose count field holds the text "abc". -/
def leapSecondsTextLine : Str := "   abc".toList ++ mkString 54 ' ' ++ stringLeapSeconds

/-- A LEAP SECONDS line whose count field is blank. -/
def leapSecondsBlankLine : Str := mkString 60 ' ' ++ stringLeapSeconds

/-- An INTERVAL line whose field holds the text "fast". -/
def intervalTextLine : Str := "      fast".toList ++ mkString 50 ' ' ++ stringInterval

/-- A RCV CLOCK OFFS APPL line whose field holds the text "yes". -/
def receiverOffsetTextLine : Str := "   yes".toList ++ mkString 54 ' ' ++ stringReceiverOffset

/-- A # OF SATELLITES line whose field holds the text "many". -/
def numSatsTextLine : Str := "  many".toList ++ mkString 54 ' ' ++ stringNumSats

/-- A MARKER NAME line. -/
def markerNameSampleLine : Str := leftJustify "STATION A".toList 60 ++ stringMarkerName

/-- Three lines: an opening SYS / # / OBS TYPES line for G that declares 15
codes and holds 13, a SYS / SCALE FACTOR line for R, and the SYS / # / OBS
TYPES continuation line with the last two codes of G. -/
def interleavedScaleFacLines : List Str :=
  [ obsOpeningLine "G".toList 15 (fifteenCodes.take 13),
    sfacOpeningLine "R".toList 10 1 [⟨"RC1C".toList⟩],
    obsContinuationLine (fifteenCodes.drop 13) ]

/-- The same three lines with a SYS / PHASE SHIFTS line for R in the middle. -/
def interleavedPhaseShiftLines : List Str :=
  [ obsOpeningLine "G".toList 15 (fifteenCodes.take 13),
    "R L1C  0.25000   1 R01".toList ++ mkString 38 ' ' ++ stringSystemPhaseShift,
    obsContinuationLine (fifteenCodes.drop 13) ]

/-- Two applied corrections. -/
def corrInfoSamples : List Rinex3CorrInfo :=
  [ ⟨"G".toList, "CC2NONCC".toList, "p1c1bias.hist @ goby.nrl.navy.mil".toList⟩,
    ⟨"R".toList, "".toList, "igs08.atx".toList⟩ ]

/-- The sample header with the comment flag set and no comment. -/
def noCommentHeader : Rinex3ObsHeader :=
  { sampleHeader with valid := sampleHeader.valid ||| validComment, commentList := [] }

/-- The sample header with the comment flag set and three comments, the second
one empty. -/
def threeCommentsHeader : Rinex3ObsHeader :=
  { sampleHeader with
    valid := sampleHeader.valid ||| validComment
    commentList := ["first remark".toList, [], "third, after an empty one".toList] }

/-- The counter after the statements `if (valid & bit) n++;` for the bits of a
list, started at `n`. -/
def countFrom (valid : Nat) (bits : List Nat) (n : Int) : Int :=
  bits.foldl (fun n bit => if isSet valid bit then n + 1 else n) n

/-- The number of flags of a list that are set. -/
def flagCount (valid : Nat) (bits : List Nat) : Nat := bits.countP fun bit => isSet valid bit

/-- The flags of the record kinds that take one line each. -/
def singleLineFlags : List Nat :=
  [ validVersion, validRunBy, validMarkerName, validMarkerNumber, validMarkerType, validObserver,
    validReceiver, validAntennaType, validAntennaPosition, validAntennaDeltaHEN,
    validAntennaDeltaXYZ, validAntennaPhaseCtr, validAntennaBsightXYZ, validAntennaZeroDirAzi,
    validAntennaZeroDirXYZ, validCenterOfMass, validSigStrengthUnit, validInterval,
    validFirstTime, validLastTime, validReceiverOffset, validLeapSeconds, validNumSats,
    validEoH ]

/-- None of the flags of SYS / # / OBS TYPES, SYS / DCBS APPLIED, SYS / PCVS
APPLIED, SYS / SCALE FACTOR, SYS / PHASE SHIFTS, GLONASS SLOT / FRQ # and
PRN / # OF OBS is set. -/
def OnlySingleLineKinds (h : Rinex3ObsHeader) : Prop :=
  isSet h.valid validSystemObsType = false ∧ isSet h.valid validSystemDCBSapplied = false ∧
  isSet h.valid validSystemPCVSapplied = false ∧ NoMultiLineKinds h

instance (h : Rinex3ObsHeader) : Decidable (OnlySingleLineKinds h) :=
  inferInstanceAs (Decidable (
    isSet h.valid validSystemObsType = false ∧ isSet h.valid validSystemDCBSapplied = false ∧
    isSet h.valid validSystemPCVSapplied = false ∧ NoMultiLineKinds h))

/-- A header with the flags of version, marker name, interval and END OF
HEADER and of comments, with two comments. -/
def fewRecordsHeader : Rinex3ObsHeader :=
  { sampleHeader with
    valid := validVersion ||| validComment ||| validMarkerName ||| validInterval ||| validEoH
    commentList := ["one".toList, "two".toList] }

/-- A header whose only flag is the one of comments, with 2147483648 empty
comments. -/
def manyCommentsHeader : Rinex3ObsHeader :=
  { Rinex3ObsHeader.empty with
    valid := validComment
    commentList := List.replicate 2147483648 [] }

/-- The 60 data columns of a PRN / # OF OBS line for the satellite G01 with nine
counts: the last count ends in column 59. -/
def nineCountsData : Str :=
  "   G01".toList ++ "     1     2     3     4     5     6     7     8     9".toList

/-- A list of codes cut into consecutive groups of 12, the last group holding
what is left; `fuel` bounds the number of groups. -/
def chunks12 : Nat → List ObsID → List (List ObsID)
  | 0, _ => []
  | fuel + 1, l => if l = [] then [] else l.take 12 :: chunks12 fuel (l.drop 12)

/-- The entries of a scale-factor map that have the factor `f`, in map order. -/
def entriesWithFactor (m : sfacMap) (f : Int) : sfacMap := m.filter fun e => e.2 = f

/-- The codes of a scale-factor map that have the factor `f`, in map order. -/
def codesWithFactor (m : sfacMap) (f : Int) : List ObsID := (entriesWithFactor m f).map Prod.fst

/-- The first ten columns of the opening line of a SYS / SCALE FACTOR group: the
system in one column, a blank, the factor in four columns, two blanks and the
count `n` in two columns. -/
def sfacGroupHead (sys : Str) (f : Int) (n : Nat) : Str :=
  leftJustify sys 1 ++ mkString 1 ' ' ++ rightJustify (asStringInt f) 4 ++ mkString 2 ' ' ++
    rightJustify (asStringInt n) 2

/-- The end of the last line of a SYS / SCALE FACTOR group of `n` codes: the
blanks computed from `n % 12`, and the label. -/
def sfacGroupEnd (n : Nat) : Str := mkString (60 - 10 - 4 * (n % 12)) ' ' ++ stringSystemScaleFac

/-- A full SYS / SCALE FACTOR continuation line that is not the last line of
its group: ten blanks, the codes, two blanks and the label. -/
def sfacInnerLine (ids : List ObsID) : Str :=
  mkString 10 ' ' ++ codesText ids ++ mkString 2 ' ' ++ stringSystemScaleFac

/-- The lines of the SYS / SCALE FACTOR group of a system, a factor and the
codes `ids`: none for no code; one line for at most 12 codes; otherwise the
opening line with the first 12 codes and one continuation line for each further
group of 12 codes. The first line declares the number of codes. -/
def sfacGroupLines (sys : Str) (f : Int) (ids : List ObsID) : List Str :=
  if ids = [] then []
  else if ids.length ≤ 12 then
    [sfacGroupHead sys f ids.length ++ codesText ids ++ sfacGroupEnd ids.length]
  else
    (sfacGroupHead sys f ids.length ++ codesText (ids.take 12) ++ mkString 2 ' ' ++
        stringSystemScaleFac) ::
      ((chunks12 ids.length (ids.drop 12)).dropLast.map sfacInnerLine ++
        [mkString 10 ' ' ++ codesText ((chunks12 ids.length (ids.drop 12)).getLastD []) ++
          sfacGroupEnd ids.length])

/-- The scale-factor maps without the entries whose factor is none of 1, 10,
100 and 1000. -/
def keepWrittenFactors (m : SMap Str sfacMap) : SMap Str sfacMap :=
  m.map fun e => (e.1, e.2.filter fun x => decide (x.2 ∈ ([1, 10, 100, 1000] : List Int)))

/-- A header with scale factors for two systems: for G the factor 1 for one
code, 100 for two codes and 7 for one code; for R the factor 10 for one code. -/
def mixedFactorsHeader : Rinex3ObsHeader :=
  { sampleHeader with
    valid := sampleHeader.valid ||| validSystemScaleFac
    sysSfacMap :=
      [ ("G".toList, [(⟨"GC1C".toList⟩, 100), (⟨"GD1C".toList⟩, 7), (⟨"GL1C".toList⟩, 1),
          (⟨"GS1C".toList⟩, 100)]),
        ("R".toList, [(⟨"RC1C".toList⟩, 10)]) ] }

/-- A hundred observation codes of the system G, `C00` to `C99`. -/
def hundredCodes : List ObsID :=
  (List.range 100).map fun i => ⟨['G', 'C', digitChar (i / 10), digitChar (i % 10)]⟩

/-- The sample header with the scale-factor flag set and the factor 1 for each
of the hundred codes of G. -/
def hundredCodesHeader : Rinex3ObsHeader :=
  { sampleHeader with
    valid := sampleHeader.valid ||| validSystemScaleFac
    sysSfacMap := [("G".toList, sfacOf hundredCodes 1)] }

/-! # Theorems -/

/-! ## Validity masks -/

theorem land_ne_iff_missing (valid mask : Nat) :
    valid &&& mask ≠ mask ↔ ∃ i, mask.testBit i = true ∧ valid.testBit i = false := by
  constructor
  · intro h
    by_contra hc
    push_neg at hc
    apply h
    apply Nat.eq_of_testBit_eq
    intro i
    rw [Nat.testBit_land]
    cases hm : mask.testBit i
    · simp
    · have := hc i hm
      simp at this
      simp [this]
  · rintro ⟨i, hm, hv⟩ heq
    have := congrArg (fun n => n.testBit i) heq
    simp [Nat.testBit_land, hm, hv] at this

/-! ## Errors of the encoder -/

theorem andThen_err {r : Put} {f : PutState → Put} {e : Err} (h : (r.andThen f).2 = some e) :
    r.2 = some e ∨ ∃ s, (f s).2 = some e := by
  unfold Put.andThen at h
  split at h
  · left; exact h
  · right; exact ⟨_, h⟩

theorem fill60_err {s : PutState} {e : Err} (h : (fill60 s).2 = some e) : e = .length_error := by
  unfold fill60 at h
  split at h
  · simp at h
  · simpa using h.symm

theorem obsTypeSystems_err (m : List (Str × List ObsID)) (s : PutState) (e : Err)
    (h : (obsTypeSystems m s).2 = some e) : e = .length_error := by
  induction m generalizing s with
  | nil => simp [obsTypeSystems] at h
  | cons a rest ih =>
    obtain ⟨sys, l⟩ := a
    simp only [obsTypeSystems] at h
    rcases andThen_err h with h1 | ⟨s2, h2⟩
    · exact fill60_err h1
    · exact ih _ h2

theorem phaseShiftSatLoop_err (l : List (RinexSatID × ℚ)) (n : Nat) (s : PutState) (e : Err)
    (h : (phaseShiftSatLoop l n s).2 = some e) : e = .length_error := by
  induction l generalizing n s with
  | nil => simp [phaseShiftSatLoop] at h
  | cons a rest ih =>
    obtain ⟨sat, c⟩ := a
    simp only [phaseShiftSatLoop] at h
    split at h
    · rcases andThen_err h with h1 | ⟨s2, h2⟩
      · exact fill60_err h1
      · exact ih _ _ h2
    · exact ih _ _ h

theorem phaseShiftEntries_err (l : List (ObsID × SMap RinexSatID ℚ)) (s : PutState) (e : Err)
    (h : (phaseShiftEntries l s).2 = some e) : e = .length_error ∨ e = .undefinedBehaviour := by
  induction l generalizing s with
  | nil => simp [phaseShiftEntries] at h
  | cons a rest ih =>
    obtain ⟨o, m⟩ := a
    cases m with
    | nil =>
      simp [phaseShiftEntries] at h
      right; exact h.symm
    | cons b bs =>
      obtain ⟨sat, corr⟩ := b
      simp only [phaseShiftEntries] at h
      split at h
      · rcases andThen_err h with h1 | ⟨s2, h2⟩
        · left; exact fill60_err h1
        · exact ih _ h2
      · rcases andThen_err h with h1 | ⟨s2, h2⟩
        · left; exact phaseShiftSatLoop_err _ _ _ _ h1
        · exact ih _ h2

theorem glonassLoop_err (l : List (RinexSatID × Int)) (n : Nat) (s : PutState) (e : Err)
    (h : (glonassLoop l n s).2 = some e) : e = .length_error := by
  induction l generalizing n s with
  | nil => simp [glonassLoop] at h
  | cons a rest ih =>
    obtain ⟨sat, c⟩ := a
    simp only [glonassLoop] at h
    split at h
    · rcases andThen_err h with h1 | ⟨s2, h2⟩
      · exact fill60_err h1
      · exact ih _ _ h2
    · exact ih _ _ h

theorem prnObsSats_err (l : List (RinexSatID × List Int)) (s : PutState) (e : Err)
    (h : (prnObsSats l s).2 = some e) : e = .length_error := by
  induction l generalizing s with
  | nil => simp [prnObsSats] at h
  | cons a rest ih =>
    obtain ⟨sat, c⟩ := a
    simp only [prnObsSats] at h
    rcases andThen_err h with h1 | ⟨s2, h2⟩
    · exact fill60_err h1
    · exact ih _ h2

theorem putSimple_err (bit : Nat) (text : Str) (h : Rinex3ObsHeader) (s : PutState) :
    (putSimple bit text h s).2 = none := by
  unfold putSimple; split <;> rfl

theorem putTime_err (bit : Nat) (t : CivilTime) (label : Str) (h : Rinex3ObsHeader)
    (s : PutState) (e : Err) (he : (putTime bit t label h s).2 = some e) : e = .length_error := by
  unfold putTime at he
  split at he
  · rcases andThen_err he with h1 | ⟨s2, h2⟩
    · exact fill60_err h1
    · simp at h2
  · simp at he

theorem putVersion_err (h : Rinex3ObsHeader) (s : PutState) (e : Err)
    (he : (putVersion h s).2 = some e) : WriteErr e := by
  unfold putVersion at he
  split at he
  · split at he
    · right; right; left
      exact ⟨_, by simpa using he.symm⟩
    · split at he
      · right; right; right
        simpa using he.symm
      · simp at he
  · simp at he

theorem runBlocks_err (P : Err → Prop) (bs : List (PutState → Put))
    (hb : ∀ b ∈ bs, ∀ s e, (b s).2 = some e → P e) (r : Put) (hr : ∀ e, r.2 = some e → P e)
    (e : Err) (he : (runBlocks bs r).2 = some e) : P e := by
  induction bs generalizing r with
  | nil => exact hr e he
  | cons b rest ih =>
    simp only [runBlocks] at he
    apply ih (fun b' hb' => hb b' (List.mem_cons_of_mem _ hb')) _ _ he
    intro e' he'
    rcases andThen_err he' with h1 | ⟨s, h2⟩
    · exact hr e' h1
    · exact hb b (List.mem_cons_self _ _) s e' h2

theorem putSimple_werr (bit : Nat) (text : Str) (h : Rinex3ObsHeader) (s : PutState) (e : Err)
    (he : (putSimple bit text h s).2 = some e) : LateErr e := by
  rw [putSimple_err] at he; exact absurd he (by simp)

theorem putTime_werr (bit : Nat) (t : CivilTime) (label : Str) (h : Rinex3ObsHeader)
    (s : PutState) (e : Err) (he : (putTime bit t label h s).2 = some e) : LateErr e :=
  Or.inl (putTime_err bit t label h s e he)

theorem putComments_werr (h : Rinex3ObsHeader) (s : PutState) (e : Err)
    (he : (putComments h s).2 = some e) : LateErr e := by
  unfold putComments at he; split at he <;> simp at he

theorem putSystemObsType_werr (h : Rinex3ObsHeader) (s : PutState) (e : Err)
    (he : (putSystemObsType h s).2 = some e) : LateErr e := by
  unfold putSystemObsType at he
  split at he
  · exact Or.inl (obsTypeSystems_err _ _ _ he)
  · simp at he

theorem putSystemScaleFac_werr (h : Rinex3ObsHeader) (s : PutState) (e : Err)
    (he : (putSystemScaleFac h s).2 = some e) : LateErr e := by
  unfold putSystemScaleFac at he; split at he <;> simp at he

theorem putSystemPhaseShift_werr (h : Rinex3ObsHeader) (s : PutState) (e : Err)
    (he : (putSystemPhaseShift h s).2 = some e) : LateErr e := by
  unfold putSystemPhaseShift at he
  split at he
  · exact phaseShiftEntries_err _ _ _ he
  · simp at he

theorem putGlonassFreqNo_werr (h : Rinex3ObsHeader) (s : PutState) (e : Err)
    (he : (putGlonassFreqNo h s).2 = some e) : LateErr e := by
  unfold putGlonassFreqNo at he
  split at he
  · exact Or.inl (glonassLoop_err _ _ _ _ he)
  · simp at he

theorem putPrnObs_werr (h : Rinex3ObsHeader) (s : PutState) (e : Err)
    (he : (putPrnObs h s).2 = some e) : LateErr e := by
  unfold putPrnObs at he
  split at he
  · exact Or.inl (prnObsSats_err _ _ _ he)
  · simp at he

theorem headerBlocks_eq_cons (curDate : Str) (h : Rinex3ObsHeader) :
    headerBlocks curDate h = putVersion h :: (headerBlocks curDate h).tail := rfl

theorem headerBlocks_tail_err (curDate : Str) (h : Rinex3ObsHeader) :
    ∀ b ∈ (headerBlocks curDate h).tail, ∀ s e, (b s).2 = some e → LateErr e := by
  unfold headerBlocks
  simp only [List.tail_cons, List.forall_mem_cons]
  refine ⟨putSimple_werr _ _ h, putComments_werr h, putSimple_werr _ _ h,
    putSimple_werr _ _ h, putSimple_werr _ _ h, putSimple_werr _ _ h, putSimple_werr _ _ h,
    putSimple_werr _ _ h, putSimple_werr _ _ h, putSimple_werr _ _ h, putSimple_werr _ _ h,
    putSimple_werr _ _ h, putSimple_werr _ _ h, putSimple_werr _ _ h, putSimple_werr _ _ h,
    putSimple_werr _ _ h, putSystemObsType_werr h, putSimple_werr _ _ h, putSimple_werr _ _ h,
    putTime_werr _ _ _ h, putTime_werr _ _ _ h, putSimple_werr _ _ h, ?_, ?_,
    putSystemScaleFac_werr h, putSystemPhaseShift_werr h, putGlonassFreqNo_werr h,
    putSimple_werr _ _ h, putSimple_werr _ _ h, putPrnObs_werr h, putSimple_werr _ _ h, ?_⟩
  · intro s e he; split at he <;> simp at he
  · intro s e he; split at he <;> simp at he
  · intro b hb; simp at hb

theorem headerBlocks_err (curDate : Str) (h : Rinex3ObsHeader) :
    ∀ b ∈ headerBlocks curDate h, ∀ s e, (b s).2 = some e → WriteErr e := by
  rw [headerBlocks_eq_cons]
  intro b hb s e he
  rcases List.mem_cons.mp hb with rfl | hb
  · exact putVersion_err h s e he
  · rcases headerBlocks_tail_err curDate h b hb s e he with h1 | h1
    · exact Or.inl h1
    · exact Or.inr (Or.inl h1)

theorem WriteHeaderRecords_err (curDate : Str) (h : Rinex3ObsHeader) (e : Err)
    (he : (WriteHeaderRecords curDate h).2 = some e) : WriteErr e :=
  runBlocks_err WriteErr _ (headerBlocks_err curDate h) _ (by simp) e he

theorem runBlocks_of_err (bs : List (PutState → Put)) (r : Put) (e : Err) (hr : r.2 = some e) :
    runBlocks bs r = r := by
  induction bs with
  | nil => rfl
  | cons b rest ih =>
    simp only [runBlocks]
    have : r.andThen b = r := by
      unfold Put.andThen
      rw [hr]
    rw [this, ih]

theorem putVersion_out (h : Rinex3ObsHeader) (s : PutState) (e : Err)
    (he : (putVersion h s).2 = some e) : (putVersion h s).1.out = s.out := by
  unfold putVersion at he ⊢
  split
  · rename_i hv
    simp only [hv, if_true] at he
    split
    · rfl
    · rename_i hf
      simp only [hf, if_false] at he
      split
      · rfl
      · rename_i hs
        simp only [hs, if_false] at he
        cases he
  · rfl

theorem runBlocks_cons_FFStreamError_out (b : PutState → Put) (bs : List (PutState → Put))
    (s0 : PutState) (t : Str)
    (hbs : ∀ b' ∈ bs, ∀ s e, (b' s).2 = some e → LateErr e)
    (hb : ∀ e, (b s0).2 = some e → (b s0).1.out = s0.out)
    (he : (runBlocks (b :: bs) (s0, none)).2 = some (.FFStreamError t)) :
    (runBlocks (b :: bs) (s0, none)).1.out = s0.out := by
  simp only [runBlocks] at he ⊢
  have h0 : Put.andThen (s0, none) b = b s0 := rfl
  rw [h0] at he ⊢
  cases hv : (b s0).2 with
  | some e =>
    rw [runBlocks_of_err _ _ e hv]
    exact hb e hv
  | none =>
    exfalso
    have := runBlocks_err LateErr _ hbs _ (by rw [hv]; intro e he'; cases he') _ he
    rcases this with h1 | h1 <;> cases h1

/-- An `FFStreamError` of `WriteHeaderRecords` is thrown by the block of the
version record before any line is written. -/
theorem WriteHeaderRecords_FFStreamError_out (curDate : Str) (h : Rinex3ObsHeader) (t : Str)
    (he : (WriteHeaderRecords curDate h).2 = some (.FFStreamError t)) :
    (WriteHeaderRecords curDate h).1.out = [] := by
  unfold WriteHeaderRecords at he ⊢
  rw [headerBlocks_eq_cons] at he ⊢
  exact runBlocks_cons_FFStreamError_out _ _ _ t (headerBlocks_tail_err curDate h)
    (putVersion_out h _) he

theorem not_WriteErr_incompletePut : ¬ WriteErr incompletePut := by
  unfold WriteErr incompletePut
  rintro (h | h | ⟨t, h⟩ | h)
  · exact absurd h (by decide)
  · exact absurd h (by decide)
  · injection h with h
    have h0 := congrArg List.head? h
    have h1 : ("This isn't a RINEX Observation file: ".toList ++ t).head? = some 'T' := rfl
    have h2 : "Incomplete or invalid header.".toList.head? = some 'I' := rfl
    rw [h1, h2] at h0
    exact absurd h0 (by decide)
  · exact absurd h (by decide)

theorem reallyPutRecord_incomplete_iff (curDate : Str) (h : Rinex3ObsHeader)
    (strm : Rinex3ObsStream) (hv : h.version = 3 ∨ h.version = mkRat 301 100) :
    (reallyPutRecord curDate h strm).2 = some incompletePut ↔
      h.valid &&& requiredMask h.version ≠ requiredMask h.version := by
  have hw : (WriteHeaderRecords curDate h).2 ≠ some incompletePut := fun hc =>
    not_WriteErr_incompletePut (WriteHeaderRecords_err _ _ _ hc)
  have h3 : (mkRat 301 100 : ℚ) ≠ 3 := by decide
  rcases hv with hv | hv
  · simp only [reallyPutRecord, requiredMask, hv, if_true]
    by_cases hm : h.valid &&& allValid30 ≠ allValid30
    · simp [hm, incompletePut]
    · simp only [hm, if_false]
      exact ⟨fun hc => absurd hc hw, fun hc => False.elim (by simp_all)⟩
  · simp only [reallyPutRecord, requiredMask, hv, h3, if_true, if_false]
    by_cases hm : h.valid &&& allValid301 ≠ allValid301
    · simp [hm, incompletePut]
    · simp only [hm, if_false]
      exact ⟨fun hc => absurd hc hw, fun hc => False.elim (by simp_all)⟩

/-- C3: for a header of version 3.0 or 3.01, `reallyPutRecord` throws the
incomplete-header error exactly when some record kind required for the version
has its validity flag unset. In particular a header of version 3.0 without the
marker-name flag is rejected, a header of version 3.01 without the phase-shift
flag is rejected, and the mask of 3.01 is the mask of 3.0 with the phase-shift
flag added. -/
theorem C3_incomplete_header_iff_required_flag_unset (curDate : Str) (h : Rinex3ObsHeader)
    (strm : Rinex3ObsStream) (hv : h.version = 3 ∨ h.version = mkRat 301 100) :
    ((reallyPutRecord curDate h strm).2 = some incompletePut ↔
      ∃ i, (requiredMask h.version).testBit i = true ∧ h.valid.testBit i = false) ∧
    (h.version = 3 → h.valid &&& validMarkerName = 0 →
      (reallyPutRecord curDate h strm).2 = some incompletePut) ∧
    (h.version = mkRat 301 100 → h.valid &&& validSystemPhaseShift = 0 →
      (reallyPutRecord curDate h strm).2 = some incompletePut) ∧
    allValid301 = allValid30 ||| validSystemPhaseShift := by
  have key := (reallyPutRecord_incomplete_iff curDate h strm hv).trans
    (land_ne_iff_missing h.valid (requiredMask h.version))
  refine ⟨key, ?_, ?_, by decide⟩
  · intro h3 hm
    refine key.mpr ⟨3, ?_, ?_⟩
    · rw [requiredMask, if_pos h3]; decide
    · have := congrArg (fun n => n.testBit 3) hm
      simpa [Nat.testBit_land, validMarkerName, show Nat.testBit 8 3 = true by decide] using this
  · intro h301 hm
    refine key.mpr ⟨26, ?_, ?_⟩
    · rw [requiredMask, h301, if_neg (by decide)]; decide
    · have := congrArg (fun n => n.testBit 26) hm
      simpa [Nat.testBit_land, validSystemPhaseShift,
        show Nat.testBit 0x4000000 26 = true by decide] using this

theorem C3_witness :
    ((reallyPutRecord sampleDate { sampleHeader with valid := 0x801207C3 } emptyStream).2
        = some incompletePut ↔
      ∃ i, (requiredMask (3 : ℚ)).testBit i = true ∧ (0x801207C3 : Nat).testBit i = false) :=
  (C3_incomplete_header_iff_required_flag_unset sampleDate
    { sampleHeader with valid := 0x801207C3 } emptyStream (Or.inl rfl)).1


/-! ## Errors of the decoder -/

theorem fromString_err (s : Str) (e : Err) (h : RinexSatID.fromString s = .error e) :
    ∃ t, e = .Exception t := by
  unfold RinexSatID.fromString at h
  split at h
  · simp at h
  · simp only at h
    split_ifs at h
    exact ⟨_, by injection h with h; exact h.symm⟩

theorem parseVersion_err (h : Rinex3ObsHeader) (line : Str) (e : Err)
    (he : (parseVersion h line).2 = some e) : ParseErr e := by
  unfold parseVersion at he
  simp only at he
  split at he
  · rename_i e' h'
    obtain ⟨t, ht⟩ := fromString_err _ _ h'
    cases he
    right; left; exact ⟨t, ht⟩
  · split_ifs at he
    · cases he; right; right; left; rfl
    · cases he; right; right; right; left; rfl

theorem parseSystemNumObs_err (h : Rinex3ObsHeader) (line : Str) (e : Err)
    (he : (parseSystemNumObs h line).2 = some e) : ParseErr e := by
  unfold parseSystemNumObs at he
  simp only at he
  split_ifs at he
  · split at he
    · cases he; left; rfl
    · cases he

theorem parseSystemScaleFac_err (h : Rinex3ObsHeader) (line : Str) :
    (parseSystemScaleFac h line).2 = none := by
  unfold parseSystemScaleFac; rfl

theorem phaseShiftContinuation_err (line : Str) (corr : ℚ) (l : List Nat) (m : SMap RinexSatID ℚ)
    (e : Err) (he : (phaseShiftContinuation line corr l m).2 = some e) : ∃ t, e = .Exception t := by
  induction l generalizing m with
  | nil => cases he
  | cons i is ih =>
    simp only [phaseShiftContinuation] at he
    split_ifs at he
    split at he
    · rename_i e' h'
      obtain ⟨t, ht⟩ := fromString_err _ _ h'
      cases he
      exact ⟨t, ht⟩
    · exact ih _ he

theorem phaseShiftSats_err (line : Str) (corr : ℚ) (l : List Nat) (m : SMap RinexSatID ℚ)
    (e : Err) (he : phaseShiftSats line corr l m = .error e) : ∃ t, e = .Exception t := by
  induction l generalizing m with
  | nil => cases he
  | cons i is ih =>
    simp only [phaseShiftSats] at he
    split at he
    · rename_i e' h'
      obtain ⟨t, ht⟩ := fromString_err _ _ h'
      cases he
      exact ⟨t, ht⟩
    · exact ih _ he

theorem glonassPairs_err (line : Str) (l : List Nat) (m : SMap RinexSatID Int)
    (e : Err) (he : (glonassPairs line l m).2 = some e) : ∃ t, e = .Exception t := by
  induction l generalizing m with
  | nil => cases he
  | cons i is ih =>
    simp only [glonassPairs] at he
    split_ifs at he
    split at he
    · rename_i e' h'
      obtain ⟨t, ht⟩ := fromString_err _ _ h'
      cases he
      exact ⟨t, ht⟩
    · exact ih _ he

theorem parseGlonassSlotFreqNo_err (h : Rinex3ObsHeader) (line : Str) (e : Err)
    (he : (parseGlonassSlotFreqNo h line).2 = some e) : ParseErr e := by
  unfold parseGlonassSlotFreqNo at he
  simp only at he
  split at he
  · rename_i e' h'
    cases he
    right; left
    exact glonassPairs_err _ _ _ _ h'
  · cases he

theorem parsePrnObs_err (h : Rinex3ObsHeader) (line : Str) (e : Err)
    (he : (parsePrnObs h line).2 = some e) : ParseErr e := by
  unfold parsePrnObs at he
  simp only at he
  split_ifs at he
  · split at he
    · cases he; left; rfl
    · split_ifs at he
  · split at he
    · rename_i e' h'
      obtain ⟨t, ht⟩ := fromString_err _ _ h'
      cases he
      right; left; exact ⟨t, ht⟩
    · split at he
      · cases he; left; rfl
      · cases he

theorem parseSystemPhaseShift_err (h : Rinex3ObsHeader) (line : Str) (e : Err)
    (he : (parseSystemPhaseShift h line).2 = some e) : ParseErr e := by
  unfold parseSystemPhaseShift at he
  simp only at he
  split_ifs at he
  · split at he
    · cases he; right; right; right; right; left; rfl
    · split at he
      · cases he; left; rfl
      · right; left; exact phaseShiftContinuation_err _ _ _ _ _ he
  all_goals
    split at he
    · rename_i e' h'
      obtain ⟨t, ht⟩ := fromString_err _ _ h'
      cases he
      right; left; exact ⟨t, ht⟩
    · first
      | cases he
      | (split at he
         · rename_i e' h'
           obtain ⟨t, ht⟩ := phaseShiftSats_err _ _ _ _ _ h'
           cases he
           right; left; exact ⟨t, ht⟩
         · cases he)

theorem parseLabelled_cases (P : Parsed → Prop) (h : Rinex3ObsHeader) (line label : Str)
    (hp : ∀ p ∈ recordParsers, label = p.1 → P (p.2 h line))
    (hn : (∀ p ∈ recordParsers, label ≠ p.1) →
      P (h, some (.FFStreamError ("Unidentified label: ".toList ++ label)))) :
    P (parseLabelled h line label) := by
  unfold parseLabelled
  split
  · rename_i p hf
    exact hp p (List.mem_of_find?_eq_some hf) (by simpa using List.find?_some hf)
  · rename_i hf
    apply hn
    intro p hp'
    have := List.find?_eq_none.mp hf p hp'
    simpa using this

theorem unidentified_ParseErr (label : Str) :
    ParseErr (.FFStreamError ("Unidentified label: ".toList ++ label)) := by
  right; right; right; right; right; left
  exact ⟨_, rfl⟩

theorem recordParsers_err (h : Rinex3ObsHeader) (line : Str) :
    ∀ p ∈ recordParsers, ∀ e, (p.2 h line).2 = some e → ParseErr e := by
  have simple : ∀ (f : Rinex3ObsHeader → Str → Parsed), (f h line).2 = none →
      ∀ e, (f h line).2 = some e → ParseErr e := by
    intro f hf e he
    rw [hf] at he
    cases he
  unfold recordParsers
  simp only [List.forall_mem_cons]
  refine ⟨parseVersion_err h line, simple _ rfl, simple _ rfl, simple _ rfl, simple _ rfl,
    simple _ rfl, simple _ rfl, simple _ rfl, simple _ rfl, simple _ rfl, simple _ rfl,
    simple _ rfl, simple _ rfl, simple _ rfl, simple _ rfl, simple _ rfl, simple _ rfl,
    parseSystemNumObs_err h line, simple _ rfl, simple _ rfl, simple _ rfl, simple _ rfl,
    simple _ rfl, simple _ rfl, simple _ rfl, simple _ (parseSystemScaleFac_err h line),
    parseSystemPhaseShift_err h line, parseGlonassSlotFreqNo_err h line, simple _ rfl,
    simple _ rfl, parsePrnObs_err h line, simple _ rfl, ?_⟩
  intro p hp
  simp at hp

theorem parseLabelled_err (h : Rinex3ObsHeader) (line label : Str) (e : Err)
    (he : (parseLabelled h line label).2 = some e) : ParseErr e := by
  revert he
  apply parseLabelled_cases (fun r => r.2 = some e → ParseErr e)
  · intro p hp _ he
    exact recordParsers_err h line p hp e he
  · intro _ he
    cases he
    exact unidentified_ParseErr label

theorem ParseHeaderRecord_of_le (h : Rinex3ObsHeader) (line : Str) (hl : 60 ≤ line.length) :
    ParseHeaderRecord h line = parseLabelled h line (substr line 60 20) := by
  unfold ParseHeaderRecord
  rw [if_neg (by omega)]

theorem ParseHeaderRecord_short (h : Rinex3ObsHeader) (line : Str) (hl : line.length < 60) :
    ParseHeaderRecord h line = (h, some .out_of_range) := by
  unfold ParseHeaderRecord
  rw [if_pos hl]

/-- A line whose label field is not empty has more than 60 characters. -/
theorem length_of_label (line label : Str) (hl : substr line 60 20 = label) (hne : label ≠ []) :
    60 ≤ line.length := by
  by_contra hc
  apply hne
  rw [← hl]
  unfold substr
  rw [List.drop_of_length_le (by omega)]
  rfl

theorem ParseHeaderRecord_label (h : Rinex3ObsHeader) (line label : Str)
    (hl : substr line 60 20 = label) (hne : label ≠ []) :
    ParseHeaderRecord h line = parseLabelled h line label := by
  rw [ParseHeaderRecord_of_le h line (length_of_label line label hl hne), hl]

theorem ParseHeaderRecord_err (h : Rinex3ObsHeader) (line : Str) (e : Err)
    (he : (ParseHeaderRecord h line).2 = some e) : ParseErr e := by
  by_cases hl : line.length < 60
  · rw [ParseHeaderRecord_short h line hl] at he
    cases he
    right; right; right; right; right; right
    rfl
  · rw [ParseHeaderRecord_of_le h line (by omega)] at he
    exact parseLabelled_err h line _ e he


/-! ## The length check of the decoding loop -/

theorem not_MalformedLine_of_ParseErr (e : Err) (hp : ParseErr e) : ¬ MalformedLine e := by
  rintro (hm | hm) <;> subst hm
  · rcases hp with h | ⟨t, h⟩ | h | h | h | ⟨l, h⟩ | h
    · exact absurd h (by decide)
    · cases h
    · exact absurd h (by decide)
    · exact absurd h (by decide)
    · exact absurd h (by decide)
    · injection h with h
      have h0 := congrArg List.head? h
      have h1 : ("Unidentified label: ".toList ++ l).head? = some 'U' := rfl
      have h2 : "No data read".toList.head? = some 'N' := rfl
      rw [h1, h2] at h0
      exact absurd h0 (by decide)
    · exact absurd h (by decide)
  · rcases hp with h | ⟨t, h⟩ | h | h | h | ⟨l, h⟩ | h
    · exact absurd h (by decide)
    · cases h
    · exact absurd h (by decide)
    · exact absurd h (by decide)
    · exact absurd h (by decide)
    · injection h with h
      have h0 := congrArg List.head? h
      have h1 : ("Unidentified label: ".toList ++ l).head? = some 'U' := rfl
      have h2 : "Invalid line length".toList.head? = some 'I' := rfl
      rw [h1, h2] at h0
      exact absurd h0 (by decide)
    · exact absurd h (by decide)

/-- C10: a line obtained by the decoding loop makes the loop body throw one of
the two malformed-line errors exactly when the line, with its trailing blanks
stripped, is empty or shorter than 60 or longer than 80 characters; in that
case the header is left as it was. Every line whose stripped length lies in
[60, 80] is handed to `ParseHeaderRecord`, and the loop stops at a malformed
line with that error. -/
theorem C10_malformed_line_iff_length_out_of_range (hdr : Rinex3ObsHeader) (raw : Str) :
    ((∃ e, (readLine hdr raw).2 = some e ∧ MalformedLine e) ↔
      ((stripTrailing raw).length = 0 ∨ (stripTrailing raw).length < 60 ∨
        (stripTrailing raw).length > 80)) ∧
    (((stripTrailing raw).length = 0 ∨ (stripTrailing raw).length < 60 ∨
        (stripTrailing raw).length > 80) → (readLine hdr raw).1 = hdr) ∧
    ((60 ≤ (stripTrailing raw).length ∧ (stripTrailing raw).length ≤ 80) →
      readLine hdr raw = ParseHeaderRecord hdr (stripTrailing raw)) ∧
    (∀ rest n e, isSet hdr.valid validEoH = false → (readLine hdr raw).2 = some e →
      getLoop (raw :: rest) hdr n = (((readLine hdr raw).1, rest, n + 1), some e)) := by
  refine ⟨⟨?_, ?_⟩, ?_, ?_, ?_⟩
  · rintro ⟨e, he, hm⟩
    by_contra hc
    push_neg at hc
    have h0 : ¬ (stripTrailing raw).length = 0 := hc.1
    have h1 : ¬ ((stripTrailing raw).length < 60 ∨ (stripTrailing raw).length > 80) := by omega
    simp only [readLine, h0, h1, if_false] at he
    exact not_MalformedLine_of_ParseErr e (ParseHeaderRecord_err _ _ _ he) hm
  · intro hc
    by_cases h0 : (stripTrailing raw).length = 0
    · exact ⟨_, by simp only [readLine, h0, if_true], Or.inl rfl⟩
    · have h1 : (stripTrailing raw).length < 60 ∨ (stripTrailing raw).length > 80 := by omega
      exact ⟨_, by simp only [readLine, h0, h1, if_true, if_false], Or.inr rfl⟩
  · intro hc
    by_cases h0 : (stripTrailing raw).length = 0
    · simp only [readLine, h0, if_true]
    · have h1 : (stripTrailing raw).length < 60 ∨ (stripTrailing raw).length > 80 := by omega
      simp only [readLine, h0, h1, if_true, if_false]
  · rintro ⟨h60, h80⟩
    have h0 : ¬ (stripTrailing raw).length = 0 := by omega
    have h1 : ¬ ((stripTrailing raw).length < 60 ∨ (stripTrailing raw).length > 80) := by omega
    simp only [readLine, h0, h1, if_false]
  · intro rest n e hE he
    rw [getLoop, hE]
    simp only [Bool.false_eq_true, if_false]
    generalize readLine hdr raw = r at he
    obtain ⟨h1, oe⟩ := r
    cases he
    rfl


/-! ## Unknown labels -/

theorem recordParsers_labels : recordParsers.map Prod.fst = labelRegistry := rfl

theorem stripLeading_append (x y : Str) :
    stripLeading (x ++ y) = if stripLeading x = [] then stripLeading y else stripLeading x ++ y := by
  induction x with
  | nil => simp [stripLeading]
  | cons c cs ih =>
    by_cases hc : c = ' '
    · simp [stripLeading, hc, ih]
    · simp [stripLeading, hc]

theorem stripTrailing_append (a b : Str) :
    stripTrailing (a ++ b) = if stripTrailing b = [] then stripTrailing a else a ++ stripTrailing b := by
  unfold stripTrailing
  rw [List.reverse_append, stripLeading_append]
  by_cases hb : stripLeading b.reverse = []
  · simp [hb]
  · simp [hb]

theorem stripTrailing_length_le (s : Str) : (stripTrailing s).length ≤ s.length := by
  have h : ∀ t : Str, (stripLeading t).length ≤ t.length := by
    intro t
    induction t with
    | nil => simp [stripLeading]
    | cons c cs ih =>
      by_cases hc : c = ' '
      · simp [stripLeading, hc]; omega
      · simp [stripLeading, hc]
  unfold stripTrailing
  simpa using h s.reverse

/-- The label that the decoding loop sees is the label field of the line
without its trailing blanks. -/
theorem label_of_stripped (raw : Str) (h80 : raw.length ≤ 80)
    (h60 : 60 ≤ (stripTrailing raw).length) :
    substr (stripTrailing raw) 60 20 = stripTrailing (substr raw 60 20) := by
  have hsplit : raw = raw.take 60 ++ raw.drop 60 := (List.take_append_drop 60 raw).symm
  have hlen : (raw.take 60).length = 60 := by
    have := stripTrailing_length_le raw
    simp; omega
  have hsub : substr raw 60 20 = raw.drop 60 := by
    unfold substr
    apply List.take_of_length_le
    simp; omega
  rw [hsub]
  have key := stripTrailing_append (raw.take 60) (raw.drop 60)
  rw [← hsplit] at key
  by_cases hb : stripTrailing (raw.drop 60) = []
  · rw [if_pos hb] at key
    have h1 : (stripTrailing raw).length ≤ 60 := by
      rw [key]; have := stripTrailing_length_le (raw.take 60); omega
    rw [hb]
    unfold substr
    rw [List.drop_of_length_le (by omega)]
    rfl
  · rw [if_neg hb] at key
    rw [key]
    unfold substr
    rw [List.drop_append_of_le_length (by omega), List.drop_of_length_le (by omega)]
    simp
    have := stripTrailing_length_le (raw.drop 60)
    simp at this
    omega

theorem parseLabelled_unknown (h : Rinex3ObsHeader) (line label : Str)
    (hl : label ∉ labelRegistry) :
    parseLabelled h line label =
      (h, some (.FFStreamError ("Unidentified label: ".toList ++ label))) := by
  apply parseLabelled_cases (fun r => r =
      (h, some (.FFStreamError ("Unidentified label: ".toList ++ label))))
  · intro p hp hlp
    exfalso
    apply hl
    rw [← recordParsers_labels, hlp]
    exact List.mem_map_of_mem _ hp
  · intro _; rfl

/-! ## The encoder at its failing inputs -/

set_option maxRecDepth 100000 in
/-- C2 (failing input): for the header `prnEmptyHeader`, whose version, flags,
file type and system pass every check, `reallyPutRecord` writes ten lines and
then throws `std::length_error` in the PRN / # OF OBS block, so a partial
header is left on the output. Such a header is also what the decoder returns
for the complete header `prnContinuationLines`. -/
theorem C2_failing_input_partial_header :
    (reallyPutRecord sampleDate prnEmptyHeader emptyStream).2 = some .length_error ∧
    (reallyPutRecord sampleDate prnEmptyHeader emptyStream).1.output.length = 10 ∧
    (reallyGetRecord Rinex3ObsHeader.empty (streamOf prnContinuationLines)).2 = none ∧
    (reallyPutRecord sampleDate
      (reallyGetRecord Rinex3ObsHeader.empty (streamOf prnContinuationLines)).1.hdr
      emptyStream).2 = some .length_error ∧
    (reallyPutRecord sampleDate
      (reallyGetRecord Rinex3ObsHeader.empty (streamOf prnContinuationLines)).1.hdr
      emptyStream).1.output.length = 10 := by
  refine ⟨by decide, by decide, by decide, by decide, by decide⟩

set_option maxRecDepth 100000 in
/-- C6 (failing input): the header `prnEmptyHeader` has a supported version,
every required flag, a file type that begins with the letter O and a known
system, and yet `reallyPutRecord` does not succeed on it. -/
theorem C6_failing_input_checks_pass_encode_fails :
    prnEmptyHeader.version = 3 ∧
    prnEmptyHeader.valid &&& allValid30 = allValid30 ∧
    firstChar prnEmptyHeader.fileType = 'O' ∧
    prnEmptyHeader.system.system ≠ .systemUnknown ∧
    (reallyPutRecord sampleDate prnEmptyHeader emptyStream).2 ≠ none := by
  refine ⟨by decide, by decide, by decide, by decide, by decide⟩

set_option maxRecDepth 100000 in
/-- C7 (failing input): with twelve codes in one scale-factor group the
SYS / SCALE FACTOR line holds 108 data columns before its label, and the line
of the GLONASS SLOT / FRQ # block holds 60 columns and no label at all. -/
theorem C7_failing_input_scale_factor_and_glonass_lines :
    (WriteHeaderRecords sampleDate scaleFac12Header).2 = none ∧
    (WriteHeaderRecords sampleDate scaleFac12Header).1.out.get? 10 =
      some ("G    1  12 C1C C1P C1W C2C C2P C2W L1C L1P L1W L2C L2P L2W".toList ++
        mkString 50 ' ' ++ stringSystemScaleFac) ∧
    ("G    1  12 C1C C1P C1W C2C C2P C2W L1C L1P L1W L2C L2P L2W".toList ++
        mkString 50 ' ').length = 108 ∧
    (WriteHeaderRecords sampleDate glonassHeader).2 = none ∧
    (WriteHeaderRecords sampleDate glonassHeader).1.out.get? 10 =
      some ("  2 R01  1R02 -4".toList ++ mkString 44 ' ') ∧
    ("  2 R01  1R02 -4".toList ++ mkString 44 ' ').length = 60 := by
  refine ⟨by decide, by decide, by decide, by decide, by decide, by decide⟩

set_option maxRecDepth 100000 in
/-- C8 (failing input): for the header `dcbsTwoHeader`, which the encoder
accepts, `WriteHeaderRecords` writes 13 lines while
`NumberHeaderRecordsToBeWritten` returns 12: the counter adds one for the
SYS / DCBS APPLIED flag, the encoder writes one line for each of the two
corrections. -/
theorem C8_failing_input_count_differs :
    (WriteHeaderRecords sampleDate dcbsTwoHeader).2 = none ∧
    (WriteHeaderRecords sampleDate dcbsTwoHeader).1.out.length = 13 ∧
    NumberHeaderRecordsToBeWritten dcbsTwoHeader = .ok 12 := by
  refine ⟨by decide, by decide, by rfl⟩


/-! ## The effect of one record on the validity bits -/

theorem simple_effect (label : Str) (p : Rinex3ObsHeader → Str → Parsed) (idx : Nat)
    (hne : label ≠ stringVersion) (hidx : codeIndex label = some idx)
    (hp : ∀ h line, p h line = ({ (p h line).1 with valid := h.valid ||| 2 ^ idx }, none) ∧
      (p h line).1.version = h.version ∧ (p h line).1.sysPhaseShift = h.sysPhaseShift) :
    RecordEffect label p := by
  intro h line h' hh
  obtain ⟨h1, h2, h3⟩ := hp h line
  have hv : h'.valid = h.valid ||| 2 ^ idx := by
    rw [hh] at h1
    have := congrArg (fun r => r.1.valid) h1
    simpa using this
  rw [hh] at h2 h3
  exact ⟨fun hl => absurd hl hne, fun _ => h2, Or.inl ⟨idx, hidx, hv, fun _ => h3⟩⟩

theorem parsed_fst {a h' : Rinex3ObsHeader} {e : Option Err} (hh : (a, e) = (h', none)) :
    a = h' := congrArg Prod.fst hh

theorem parseVersion_effect : RecordEffect stringVersion parseVersion := by
  intro h line h' hh
  unfold parseVersion at hh
  simp only at hh
  split at hh
  · (have hs := congrArg Prod.snd hh; simp at hs)
  · split_ifs at hh
    all_goals first
      | (have hs := congrArg Prod.snd hh; simp at hs; done)
      | (have e1 := parsed_fst hh
         subst e1
         exact ⟨fun _ => rfl, fun hl => absurd rfl hl, Or.inl ⟨0, by decide, rfl, fun _ => rfl⟩⟩)

theorem parseSystemNumObs_effect : RecordEffect stringSystemNumObs parseSystemNumObs := by
  intro h line h' hh
  unfold parseSystemNumObs at hh
  simp only at hh
  split_ifs at hh
  · split at hh
    · (have hs := congrArg Prod.snd hh; simp at hs)
    · have := parsed_fst hh
      subst this
      exact ⟨fun hl => absurd hl (by decide), fun _ => rfl, Or.inl ⟨17, by decide, rfl, fun _ => rfl⟩⟩
  · have := parsed_fst hh
    subst this
    exact ⟨fun hl => absurd hl (by decide), fun _ => rfl, Or.inl ⟨17, by decide, rfl, fun _ => rfl⟩⟩

theorem parseSystemScaleFac_effect : RecordEffect stringSystemScaleFac parseSystemScaleFac := by
  intro h line h' hh
  unfold parseSystemScaleFac at hh
  simp only at hh
  have := parsed_fst hh
  subst this
  refine ⟨fun hl => absurd hl (by decide), fun _ => ?_, Or.inl ⟨25, by decide, ?_, fun _ => ?_⟩⟩
  all_goals split_ifs <;> rfl

theorem parseGlonassSlotFreqNo_effect :
    RecordEffect stringGlonassSlotFreqNo parseGlonassSlotFreqNo := by
  intro h line h' hh
  unfold parseGlonassSlotFreqNo at hh
  simp only at hh
  split at hh
  · (have hs := congrArg Prod.snd hh; simp at hs)
  · have := parsed_fst hh
    subst this
    exact ⟨fun hl => absurd hl (by decide), fun _ => rfl, Or.inl ⟨27, by decide, rfl, fun _ => rfl⟩⟩

theorem parsePrnObs_effect : RecordEffect stringPrnObs parsePrnObs := by
  intro h line h' hh
  unfold parsePrnObs at hh
  simp only at hh
  split_ifs at hh
  · split at hh
    · (have hs := congrArg Prod.snd hh; simp at hs)
    · split_ifs at hh
      all_goals
        have := parsed_fst hh
        subst this
        exact ⟨fun hl => absurd hl (by decide), fun _ => rfl,
          Or.inl ⟨30, by decide, rfl, fun _ => rfl⟩⟩
  · split at hh
    · (have hs := congrArg Prod.snd hh; simp at hs)
    · split at hh
      · (have hs := congrArg Prod.snd hh; simp at hs)
      · have := parsed_fst hh
        subst this
        refine ⟨fun hl => absurd hl (by decide), fun _ => ?_, Or.inl ⟨30, by decide, ?_, fun _ => ?_⟩⟩
        all_goals split_ifs <;> rfl

theorem SMap.find_some_ne_nil {κ β : Type} [KeyOrder κ] [DecidableEq κ] (m : SMap κ β) (k : κ)
    (v : β) (h : SMap.find m k = some v) : m ≠ [] := by
  intro hm
  subst hm
  simp [SMap.find] at h

theorem parseSystemPhaseShift_effect :
    RecordEffect stringSystemPhaseShift parseSystemPhaseShift := by
  intro h line h' hh
  unfold parseSystemPhaseShift at hh
  simp only at hh
  split_ifs at hh
  · split at hh
    · (have hs := congrArg Prod.snd hh; simp at hs)
    · rename_i m hfind
      split at hh
      · (have hs := congrArg Prod.snd hh; simp at hs)
      · have hfst := congrArg Prod.fst hh
        simp only at hfst
        subst hfst
        exact ⟨fun hl => absurd hl (by decide), fun _ => rfl,
          Or.inr ⟨rfl, rfl, SMap.find_some_ne_nil _ _ _ hfind⟩⟩
  all_goals
    split at hh
    · (have hs := congrArg Prod.snd hh; simp at hs)
    · first
      | (have e1 := parsed_fst hh
         subst e1
         exact ⟨fun hl => absurd hl (by decide), fun _ => rfl,
           Or.inl ⟨26, by decide, rfl, fun hc => absurd rfl hc⟩⟩)
      | (split at hh
         · (have hs := congrArg Prod.snd hh; simp at hs)
         · have := parsed_fst hh
           subst this
           exact ⟨fun hl => absurd hl (by decide), fun _ => rfl,
             Or.inl ⟨26, by decide, rfl, fun hc => absurd rfl hc⟩⟩)


theorem recordParsers_effect : ∀ p ∈ recordParsers, RecordEffect p.1 p.2 := by
  unfold recordParsers
  simp only [List.forall_mem_cons]
  refine ⟨parseVersion_effect,
    simple_effect _ _ 1 (by decide) (by decide) (fun h line => ⟨rfl, rfl, rfl⟩),
    simple_effect _ _ 2 (by decide) (by decide) (fun h line => ⟨rfl, rfl, rfl⟩),
    simple_effect _ _ 3 (by decide) (by decide) (fun h line => ⟨rfl, rfl, rfl⟩),
    simple_effect _ _ 4 (by decide) (by decide) (fun h line => ⟨rfl, rfl, rfl⟩),
    simple_effect _ _ 5 (by decide) (by decide) (fun h line => ⟨rfl, rfl, rfl⟩),
    simple_effect _ _ 6 (by decide) (by decide) (fun h line => ⟨rfl, rfl, rfl⟩),
    simple_effect _ _ 7 (by decide) (by decide) (fun h line => ⟨rfl, rfl, rfl⟩),
    simple_effect _ _ 8 (by decide) (by decide) (fun h line => ⟨rfl, rfl, rfl⟩),
    simple_effect _ _ 9 (by decide) (by decide) (fun h line => ⟨rfl, rfl, rfl⟩),
    simple_effect _ _ 10 (by decide) (by decide) (fun h line => ⟨rfl, rfl, rfl⟩),
    simple_effect _ _ 11 (by decide) (by decide) (fun h line => ⟨rfl, rfl, rfl⟩),
    simple_effect _ _ 12 (by decide) (by decide) (fun h line => ⟨rfl, rfl, rfl⟩),
    simple_effect _ _ 13 (by decide) (by decide) (fun h line => ⟨rfl, rfl, rfl⟩),
    simple_effect _ _ 13 (by decide) (by decide) (fun h line => ⟨rfl, rfl, rfl⟩),
    simple_effect _ _ 13 (by decide) (by decide) (fun h line => ⟨rfl, rfl, rfl⟩),
    simple_effect _ _ 16 (by decide) (by decide) (fun h line => ⟨rfl, rfl, rfl⟩),
    parseSystemNumObs_effect,
    simple_effect _ _ 18 (by decide) (by decide) (fun h line => ⟨rfl, rfl, rfl⟩),
    simple_effect _ _ 19 (by decide) (by decide) (fun h line => ⟨rfl, rfl, rfl⟩),
    simple_effect _ _ 20 (by decide) (by decide) (fun h line => ⟨rfl, rfl, rfl⟩),
    simple_effect _ _ 21 (by decide) (by decide) (fun h line => ⟨rfl, rfl, rfl⟩),
    simple_effect _ _ 22 (by decide) (by decide) (fun h line => ⟨rfl, rfl, rfl⟩),
    simple_effect _ _ 23 (by decide) (by decide) (fun h line => ⟨rfl, rfl, rfl⟩),
    simple_effect _ _ 24 (by decide) (by decide) (fun h line => ⟨rfl, rfl, rfl⟩),
    parseSystemScaleFac_effect, parseSystemPhaseShift_effect, parseGlonassSlotFreqNo_effect,
    simple_effect _ _ 28 (by decide) (by decide) (fun h line => ⟨rfl, rfl, rfl⟩),
    simple_effect _ _ 29 (by decide) (by decide) (fun h line => ⟨rfl, rfl, rfl⟩),
    parsePrnObs_effect,
    simple_effect _ _ 31 (by decide) (by decide) (fun h line => ⟨rfl, rfl, rfl⟩), ?_⟩
  intro p hp
  simp at hp

theorem parseLabelled_effect (h : Rinex3ObsHeader) (line label : Str) (h' : Rinex3ObsHeader)
    (hh : parseLabelled h line label = (h', none)) : LineEffect label h line h' := by
  revert hh
  apply parseLabelled_cases (fun r => r = (h', none) → LineEffect label h line h')
  · intro p hp hl hh
    have := recordParsers_effect p hp h line h' hh
    rw [← hl] at this
    exact this
  · intro _ hh
    have hs := congrArg Prod.snd hh
    simp only at hs
    cases hs


/-! ## The decoding loop and the required records -/

theorem testBit_lor_two_pow (v k i : Nat) :
    (v ||| 2 ^ k).testBit i = (v.testBit i || decide (k = i)) := by
  rw [Nat.testBit_lor, Nat.testBit_two_pow]

theorem labelRegistry_nodup : labelRegistry.Nodup := by decide

theorem get?_labelPos (label : Str) (ls : List Str) (h : labelPos label ls < ls.length) :
    ls[labelPos label ls]? = some label := by
  induction ls with
  | nil => simp at h
  | cons l rest ih =>
    unfold labelPos at h ⊢
    split_ifs with hl
    · simp [hl]
    · rw [if_neg hl] at h
      simp only [List.length_cons, Nat.add_lt_add_iff_right] at h
      simpa using ih h

theorem labelPos_of_get? (label : Str) (ls : List Str) (hn : ls.Nodup) (i : Nat)
    (h : ls[i]? = some label) : labelPos label ls = i := by
  induction ls generalizing i with
  | nil => simp at h
  | cons l rest ih =>
    obtain ⟨hnot, hrest⟩ := List.nodup_cons.mp hn
    unfold labelPos
    cases i with
    | zero =>
      simp at h
      simp [h]
    | succ k =>
      simp at h
      have hmem : label ∈ rest := List.getElem?_mem h
      have hne : label ≠ l := fun hc => hnot (hc ▸ hmem)
      rw [if_neg hne, ih hrest k h]

theorem labelPos_eq_iff_get? (label : Str) (i : Nat) (hi : i < 32) :
    labelPos label labelRegistry = i ↔ labelRegistry[i]? = some label := by
  constructor
  · intro h
    rw [← h]
    apply get?_labelPos
    rw [h]
    exact hi
  · exact labelPos_of_get? label labelRegistry labelRegistry_nodup i

theorem codeIndex_spec (label : Str) (idx : Nat) (h : codeIndex label = some idx) :
    labelPos label labelRegistry < 32 ∧
    idx = (if labelPos label labelRegistry = 14 ∨ labelPos label labelRegistry = 15 then 13
      else labelPos label labelRegistry) := by
  unfold codeIndex at h
  simp only at h
  split_ifs at h with h1 h2
  · simp at h; exact ⟨h1, by rw [if_pos h2]; exact h.symm⟩
  · simp at h; exact ⟨h1, by rw [if_neg h2]; exact h.symm⟩

theorem codeIndex_required (label : Str) (idx : Nat) (h : codeIndex label = some idx) (i : Nat)
    (hi : i ∈ requiredKinds301) : idx = i ↔ labelRegistry[i]? = some label := by
  obtain ⟨hj, hidx⟩ := codeIndex_spec label idx h
  have hi32 : i < 32 ∧ i ≠ 13 ∧ i ≠ 14 ∧ i ≠ 15 := by
    simp [requiredKinds301] at hi
    omega
  rw [← labelPos_eq_iff_get? label i hi32.1, hidx]
  split_ifs with hc
  · omega
  · rfl

theorem codeIndex_of_get? (label : Str) (i : Nat) (hi : i ∈ requiredKinds301)
    (h : labelRegistry[i]? = some label) : codeIndex label = some i := by
  have hi32 : i < 32 ∧ i ≠ 13 ∧ i ≠ 14 ∧ i ≠ 15 := by
    simp [requiredKinds301] at hi
    omega
  have hj := (labelPos_eq_iff_get? label i hi32.1).mpr h
  unfold codeIndex
  simp only [hj]
  rw [if_pos hi32.1, if_neg (by omega)]

theorem readLine_ok (h : Rinex3ObsHeader) (raw : Str) (h' : Rinex3ObsHeader)
    (hh : readLine h raw = (h', none)) :
    parseLabelled h (stripTrailing raw) (lineLabel raw) = (h', none) := by
  unfold readLine at hh
  simp only at hh
  split_ifs at hh
  · have hs := congrArg Prod.snd hh
    simp at hs
  · have hs := congrArg Prod.snd hh
    simp at hs
  · rename_i h0 h1
    rw [ParseHeaderRecord_of_le _ _ (by omega)] at hh
    exact hh

theorem readLine_step (h : Rinex3ObsHeader) (raw : Str) (h' : Rinex3ObsHeader)
    (hh : readLine h raw = (h', none)) (hJ : PhaseFlagInv h) :
    PhaseFlagInv h' ∧
    (∀ i ∈ requiredKinds301, h'.valid.testBit i = true ↔
      (h.valid.testBit i = true ∨ labelRegistry[i]? = some (lineLabel raw))) ∧
    (lineLabel raw = stringVersion → h'.version = asDouble (substr (stripTrailing raw) 0 20)) ∧
    (lineLabel raw ≠ stringVersion → h'.version = h.version) := by
  obtain ⟨hv1, hv2, hcase⟩ := parseLabelled_effect _ _ _ _ (readLine_ok h raw h' hh)
  refine ⟨?_, ?_, hv1, hv2⟩
  · rcases hcase with ⟨idx, hidx, hval, hmap⟩ | ⟨hl, hval, hne⟩
    · intro hne'
      rw [hval, testBit_lor_two_pow]
      by_cases hl : lineLabel raw = stringSystemPhaseShift
      · have h26 : codeIndex stringSystemPhaseShift = some 26 := by decide
        rw [hl, h26] at hidx
        injection hidx with hidx
        simp [← hidx]
      · rw [hmap hl] at hne'
        simp [hJ hne']
    · intro _
      rw [hval]
      exact hJ hne
  · intro i hi
    rcases hcase with ⟨idx, hidx, hval, hmap⟩ | ⟨hl, hval, hne⟩
    · rw [hval, testBit_lor_two_pow, Bool.or_eq_true, decide_eq_true_iff,
        codeIndex_required _ _ hidx i hi]
    · rw [hval]
      constructor
      · intro hb; exact Or.inl hb
      · rintro (hb | hb)
        · exact hb
        · have h26 : codeIndex (lineLabel raw) = some 26 := by rw [hl]; decide
          have := (codeIndex_required _ _ h26 i hi).mpr hb
          rw [← this]
          exact hJ hne

theorem getLoop_inv (lines : List Str) :
    ∀ (hdr : Rinex3ObsHeader) (n : Nat) (h1 : Rinex3ObsHeader) (rest : List Str) (n1 : Nat),
      getLoop lines hdr n = ((h1, rest, n1), none) → PhaseFlagInv hdr →
      ∃ consumed, lines = consumed ++ rest ∧ PhaseFlagInv h1 ∧
        (∀ i ∈ requiredKinds301, h1.valid.testBit i = true ↔
          (hdr.valid.testBit i = true ∨
            ∃ raw ∈ consumed, labelRegistry[i]? = some (lineLabel raw))) ∧
        (∀ v, (∀ raw ∈ consumed, lineLabel raw = stringVersion →
            asDouble (substr (stripTrailing raw) 0 20) = v) →
          (hdr.valid.testBit 0 = true → hdr.version = v) →
          (h1.valid.testBit 0 = true → h1.version = v)) := by
  induction lines with
  | nil =>
    intro hdr n h1 rest n1 hh hJ
    unfold getLoop at hh
    split_ifs at hh
    · have e1 : hdr = h1 := congrArg (fun r => r.1.1) hh
      have e2 : ([] : List Str) = rest := congrArg (fun r => r.1.2.1) hh
      subst e1; subst e2
      exact ⟨[], rfl, hJ, by simp, fun v _ h0 => h0⟩
    · have hs := congrArg Prod.snd hh
      simp at hs
  | cons raw tail ih =>
    intro hdr n h1 rest n1 hh hJ
    unfold getLoop at hh
    split_ifs at hh
    · have e1 : hdr = h1 := congrArg (fun r => r.1.1) hh
      have e2 : raw :: tail = rest := congrArg (fun r => r.1.2.1) hh
      subst e1; subst e2
      exact ⟨[], rfl, hJ, by simp, fun v _ h0 => h0⟩
    · split at hh
      · have hs := congrArg Prod.snd hh
        simp at hs
      · rename_i hdr1 hrl
        obtain ⟨hJ1, hbits, hvl, hvn⟩ := readLine_step hdr raw hdr1 hrl hJ
        obtain ⟨consumed, hc, hJ2, hb2, hver2⟩ := ih hdr1 (n + 1) h1 rest n1 hh hJ1
        refine ⟨raw :: consumed, by rw [hc]; rfl, hJ2, ?_, ?_⟩
        · intro i hi
          rw [hb2 i hi, hbits i hi]
          simp only [List.mem_cons, exists_eq_or_imp]
          tauto
        · intro v hall h0
          apply hver2 v (fun r hr => hall r (List.mem_cons_of_mem _ hr))
          intro hb
          by_cases hl : lineLabel raw = stringVersion
          · rw [hvl hl]
            exact hall raw (List.mem_cons_self _ _) hl
          · rw [hvn hl]
            apply h0
            have h00 : (0 : Nat) ∈ requiredKinds301 := by decide
            rcases (hbits 0 h00).mp hb with hb' | hb'
            · exact hb'
            · exfalso
              apply hl
              have : labelRegistry[0]? = some stringVersion := rfl
              rw [this] at hb'
              injection hb' with hb'
              exact hb'.symm


theorem allValid30_testBit (i : Nat) : allValid30.testBit i = true ↔ i ∈ requiredKinds30 := by
  by_cases hi : i < 32
  · interval_cases i <;> decide
  · have h1 : allValid30.testBit i = false := by
      apply Nat.testBit_eq_false_of_lt
      calc allValid30 < 2 ^ 32 := by decide
        _ ≤ 2 ^ i := Nat.pow_le_pow_right (by decide) (by omega)
    have h2 : i ∉ requiredKinds30 := by
      simp [requiredKinds30]; omega
    simp [h1, h2]

theorem allValid301_testBit (i : Nat) : allValid301.testBit i = true ↔ i ∈ requiredKinds301 := by
  by_cases hi : i < 32
  · interval_cases i <;> decide
  · have h1 : allValid301.testBit i = false := by
      apply Nat.testBit_eq_false_of_lt
      calc allValid301 < 2 ^ 32 := by decide
        _ ≤ 2 ^ i := Nat.pow_le_pow_right (by decide) (by omega)
    have h2 : i ∉ requiredKinds301 := by
      simp [requiredKinds301]; omega
    simp [h1, h2]

theorem land_eq_iff_kinds (v mask : Nat) (kinds : List Nat)
    (hk : ∀ i, mask.testBit i = true ↔ i ∈ kinds) :
    v &&& mask = mask ↔ ∀ i ∈ kinds, v.testBit i = true := by
  have := land_ne_iff_missing v mask
  constructor
  · intro h i hi
    by_contra hc
    exact (this.mpr ⟨i, (hk i).mpr hi, by simpa using hc⟩) h
  · intro h
    by_contra hc
    obtain ⟨i, hm, hv⟩ := this.mp hc
    rw [h i ((hk i).mp hm)] at hv
    cases hv

theorem requiredKinds30_subset : ∀ i ∈ requiredKinds30, i ∈ requiredKinds301 := by decide

theorem requiredKinds_subset (v : ℚ) : ∀ i ∈ requiredKinds v, i ∈ requiredKinds301 := by
  unfold requiredKinds
  split_ifs
  · exact requiredKinds30_subset
  · exact fun i hi => hi

theorem clear_inv (hdr : Rinex3ObsHeader) : PhaseFlagInv hdr.clear := by
  intro h
  exact absurd rfl h

theorem clear_valid (hdr : Rinex3ObsHeader) (i : Nat) : hdr.clear.valid.testBit i = false := by
  show (0 : Nat).testBit i = false
  simp

/-- The outcome of `reallyGetRecord` once its loop has ended without an
exception. -/
theorem reallyGetRecord_after_loop (hdr : Rinex3ObsHeader) (strm : Rinex3ObsStream)
    (h1 : Rinex3ObsHeader) (rest : List Str) (n1 : Nat) (hread : strm.headerRead = false)
    (hloop : getLoop strm.input hdr.clear strm.lineNumber = ((h1, rest, n1), none)) :
    (reallyGetRecord hdr strm).2 =
      if roundDouble h1.version = roundDouble 3 then
        (if h1.valid &&& allValid30 ≠ allValid30 then some incompleteGet else none)
      else if roundDouble h1.version = roundDouble (mkRat 301 100) then
        (if h1.valid &&& allValid301 ≠ allValid301 then some incompleteGet else none)
      else some (.FFStreamError
        ("Unknown or unsupported RINEX version ".toList ++ versionText h1.version)) := by
  unfold reallyGetRecord
  rw [hread]
  simp only [Bool.false_eq_true, if_false, hloop]
  split_ifs <;> rfl


theorem loop_result_eta (r : (Rinex3ObsHeader × List Str × Nat) × Option Err) (h : r.2 = none) :
    r = ((r.1.1, r.1.2.1, r.1.2.2), none) := by
  obtain ⟨⟨a, b, c⟩, e⟩ := r
  simp only at h
  subst h
  rfl

theorem reallyGetRecord_iff_required_occur (hdr : Rinex3ObsHeader)
    (strm : Rinex3ObsStream) (h1 : Rinex3ObsHeader) (rest : List Str) (n1 : Nat)
    (hread : strm.headerRead = false)
    (hloop : getLoop strm.input hdr.clear strm.lineNumber = ((h1, rest, n1), none))
    (hver : h1.version = 3 ∨ h1.version = mkRat 301 100) :
    ∃ consumed, strm.input = consumed ++ rest ∧
      ((reallyGetRecord hdr strm).2 = none ↔
        ∀ i ∈ requiredKinds h1.version,
          ∃ raw ∈ consumed, labelRegistry[i]? = some (lineLabel raw)) ∧
      ((reallyGetRecord hdr strm).2 ≠ none → (reallyGetRecord hdr strm).2 = some incompleteGet) ∧
      (∀ i, (requiredMask h1.version).testBit i = true ↔ i ∈ requiredKinds h1.version) := by
  obtain ⟨consumed, hc, _, hbits, _⟩ := getLoop_inv _ _ _ _ _ _ hloop (clear_inv hdr)
  have hocc : ∀ i ∈ requiredKinds301, h1.valid.testBit i = true ↔
      ∃ raw ∈ consumed, labelRegistry[i]? = some (lineLabel raw) := by
    intro i hi
    rw [hbits i hi, clear_valid]
    simp
  have h3 : (mkRat 301 100 : ℚ) ≠ 3 := by decide
  have hr3 : roundDouble (mkRat 301 100) ≠ roundDouble 3 := by decide
  refine ⟨consumed, hc, ?_⟩
  rw [reallyGetRecord_after_loop hdr strm h1 rest n1 hread hloop]
  rcases hver with hv | hv
  · simp only [hv, if_true, requiredKinds, requiredMask]
    have key := land_eq_iff_kinds h1.valid allValid30 requiredKinds30 allValid30_testBit
    refine ⟨?_, ?_, allValid30_testBit⟩
    · by_cases hm : h1.valid &&& allValid30 = allValid30
      · simp only [hm, ne_eq, not_true_eq_false, if_false, true_iff]
        intro i hi
        exact (hocc i (requiredKinds30_subset i hi)).mp (key.mp hm i hi)
      · simp only [ne_eq, hm, not_false_eq_true, if_true]
        constructor
        · intro hcontra; cases hcontra
        · intro hall
          exfalso
          apply hm
          exact key.mpr (fun i hi => (hocc i (requiredKinds30_subset i hi)).mpr (hall i hi))
    · split_ifs
      · intro _; rfl
      · intro hcontra; exact absurd rfl hcontra
  · simp only [hv, h3, hr3, if_true, if_false, requiredKinds, requiredMask]
    have key := land_eq_iff_kinds h1.valid allValid301 requiredKinds301 allValid301_testBit
    refine ⟨?_, ?_, allValid301_testBit⟩
    · by_cases hm : h1.valid &&& allValid301 = allValid301
      · simp only [hm, ne_eq, not_true_eq_false, if_false, true_iff]
        intro i hi
        exact (hocc i hi).mp (key.mp hm i hi)
      · simp only [ne_eq, hm, not_false_eq_true, if_true]
        constructor
        · intro hcontra; cases hcontra
        · intro hall
          exfalso
          apply hm
          exact key.mpr (fun i hi => (hocc i hi).mpr (hall i hi))
    · split_ifs
      · intro _; rfl
      · intro hcontra; exact absurd rfl hcontra

/-- C4: when the decoding loop has run to an END OF HEADER line without an
exception and the version read is 3.0 or 3.01, `reallyGetRecord` succeeds
exactly when every record kind required for that version occurs among the
lines consumed by the loop (the lines up to and including END OF HEADER); when
it does not succeed, it throws the incomplete-header error. -/
theorem C4_decode_succeeds_iff_required_records_occur (hdr : Rinex3ObsHeader)
    (strm : Rinex3ObsStream) (h1 : Rinex3ObsHeader) (rest : List Str) (n1 : Nat)
    (hread : strm.headerRead = false)
    (hloop : getLoop strm.input hdr.clear strm.lineNumber = ((h1, rest, n1), none))
    (hver : h1.version = 3 ∨ h1.version = mkRat 301 100) :
    ∃ consumed, strm.input = consumed ++ rest ∧
      ((reallyGetRecord hdr strm).2 = none ↔
        ∀ i ∈ requiredKinds h1.version,
          ∃ raw ∈ consumed, labelRegistry[i]? = some (lineLabel raw)) ∧
      ((reallyGetRecord hdr strm).2 ≠ none → (reallyGetRecord hdr strm).2 = some incompleteGet) ∧
      (∀ i, (requiredMask h1.version).testBit i = true ↔ i ∈ requiredKinds h1.version) :=
  reallyGetRecord_iff_required_occur hdr strm h1 rest n1 hread hloop hver

set_option maxRecDepth 100000 in
theorem C4_witness :
    (streamOf (sampleLines "3.00".toList)).headerRead = false ∧
    ((loopOn (sampleLines "3.00".toList)).1.1.version = 3 ∨
      (loopOn (sampleLines "3.00".toList)).1.1.version = mkRat 301 100) ∧
    ∃ consumed, (streamOf (sampleLines "3.00".toList)).input =
        consumed ++ (loopOn (sampleLines "3.00".toList)).1.2.1 ∧
      ((reallyGetRecord Rinex3ObsHeader.empty (streamOf (sampleLines "3.00".toList))).2 = none ↔
        ∀ i ∈ requiredKinds (loopOn (sampleLines "3.00".toList)).1.1.version,
          ∃ raw ∈ consumed, labelRegistry[i]? = some (lineLabel raw)) :=
  ⟨rfl, by decide,
    (C4_decode_succeeds_iff_required_records_occur Rinex3ObsHeader.empty
      (streamOf (sampleLines "3.00".toList)) _ _ _ rfl
      (loop_result_eta (loopOn (sampleLines "3.00".toList)) (by decide)) (by decide)).imp
      (fun _ hc => ⟨hc.1, hc.2.1⟩)⟩


/-! ## The version gate of the decoder -/

theorem dropWhile_blanks_append (a : Nat) (s : Str) :
    (mkString a ' ' ++ s).dropWhile isSpaceChar = s.dropWhile isSpaceChar := by
  induction a with
  | zero => rfl
  | succ k ih =>
    have : mkString (k + 1) ' ' = ' ' :: mkString k ' ' := rfl
    rw [this, List.cons_append, List.dropWhile_cons_of_pos (by decide), ih]

theorem takeWhile_isDigit_blanks (b : Nat) : (mkString b ' ').takeWhile Char.isDigit = [] := by
  cases b with
  | zero => rfl
  | succ k => rfl

theorem dropWhile_isDigit_blanks (b : Nat) :
    (mkString b ' ').dropWhile Char.isDigit = mkString b ' ' := by
  cases b with
  | zero => rfl
  | succ k => rfl

theorem readExponent_blanks (b : Nat) : readExponent (mkString b ' ') = 0 := by
  cases b with
  | zero => rfl
  | succ k => rfl

/-- The reading of a decimal text `d.ff` that stands between blanks. -/
theorem asDouble_of_not_hex (s : Str)
    (h : hexValue (readSign (s.dropWhile isSpaceChar)).1
      (readSign (s.dropWhile isSpaceChar)).2 = none) :
    asDouble s = asDoubleDecimal s := by
  unfold asDouble
  simp only [h]

/-- A text whose second character is a point or a digit has not the
hexadecimal form. -/
theorem hexValue_none (neg : Bool) (c0 c1 : Char) (cs : Str)
    (h1 : c1 = '.' ∨ c1.isDigit = true) : hexValue neg (c0 :: c1 :: cs) = none := by
  have hx : ¬ (c1 = 'x' ∨ c1 = 'X') := by
    rintro (h | h) <;> subst h <;> rcases h1 with h1 | h1 <;> revert h1 <;> decide
  unfold hexValue
  simp only
  rw [if_neg (fun hc => hx hc.2)]

theorem asDouble_padded (a b : Nat) (d f1 f2 : Char) (hd : d.isDigit = true)
    (h1 : f1.isDigit = true) (h2 : f2.isDigit = true) (hsp : isSpaceChar d = false)
    (hsign : ∀ rest, readSign (d :: rest) = (false, d :: rest)) :
    asDouble (mkString a ' ' ++ [d, '.', f1, f2] ++ mkString b ' ') =
      mkRat (digitsVal [d, f1, f2]) 100 := by
  have hdot : Char.isDigit '.' = false := by decide
  rw [asDouble_of_not_hex _ (by
    rw [List.append_assoc, dropWhile_blanks_append]
    simp only [List.cons_append, List.nil_append]
    rw [List.dropWhile_cons_of_neg (by simp [hsp]), hsign]
    exact hexValue_none _ _ _ _ (Or.inl rfl))]
  unfold asDoubleDecimal
  rw [List.append_assoc, dropWhile_blanks_append]
  simp only [List.cons_append, List.nil_append]
  rw [List.dropWhile_cons_of_neg (by simp [hsp]), hsign]
  simp only [List.takeWhile_cons, List.dropWhile_cons, hd, h1, h2, hdot, if_true,
    takeWhile_isDigit_blanks, dropWhile_isDigit_blanks, readExponent_blanks]
  simp [List.takeWhile_cons, List.dropWhile_cons, h1, h2, takeWhile_isDigit_blanks,
    dropWhile_isDigit_blanks, readExponent_blanks]


theorem asDouble_2_11 (a b : Nat) :
    asDouble (mkString a ' ' ++ "2.11".toList ++ mkString b ' ') = mkRat 211 100 :=
  asDouble_padded a b '2' '1' '1' (by decide) (by decide) (by decide) (by decide) (fun _ => rfl)

theorem asDouble_3_00 (a b : Nat) :
    asDouble (mkString a ' ' ++ "3.00".toList ++ mkString b ' ') = 3 := by
  have := asDouble_padded a b '3' '0' '0' (by decide) (by decide) (by decide) (by decide)
    (fun _ => rfl)
  rw [show "3.00".toList = ['3', '.', '0', '0'] from rfl, this]
  decide

theorem asDouble_3_01 (a b : Nat) :
    asDouble (mkString a ' ' ++ "3.01".toList ++ mkString b ' ') = mkRat 301 100 :=
  asDouble_padded a b '3' '0' '1' (by decide) (by decide) (by decide) (by decide) (fun _ => rfl)

/-! ## Fixed-width text fields -/

theorem length_mkString (n : Nat) (c : Char) : (mkString n c).length = n := by
  simp [mkString]

theorem length_leftJustify (s : Str) (n : Nat) : (leftJustify s n).length = n := by
  unfold leftJustify
  split_ifs with h
  · simp; omega
  · simp [length_mkString]; omega

theorem length_rightJustify (s : Str) (n : Nat) : (rightJustify s n).length = n := by
  unfold rightJustify
  split_ifs with h
  · simp; omega
  · simp [length_mkString]; omega

theorem leftJustify_of_le (s : Str) (n : Nat) (h : s.length ≤ n) :
    leftJustify s n = s ++ mkString (n - s.length) ' ' := by
  unfold leftJustify
  rw [if_neg (by omega)]

theorem rightJustify_of_le (s : Str) (n : Nat) (h : s.length ≤ n) :
    rightJustify s n = mkString (n - s.length) ' ' ++ s := by
  unfold rightJustify
  rw [if_neg (by omega)]

theorem substr_zero_append (a b : Str) (n : Nat) (h : a.length = n) :
    substr (a ++ b) 0 n = a := by
  unfold substr
  simp [List.take_append_of_le_length, h.symm]

theorem substr_append_right (a b : Str) (pos n : Nat) (h : a.length ≤ pos) :
    substr (a ++ b) pos n = substr b (pos - a.length) n := by
  unfold substr
  rw [List.drop_append_eq_append_drop, List.drop_of_length_le h]
  simp

theorem substr_all (a : Str) (n : Nat) (h : a.length ≤ n) : substr a 0 n = a := by
  unfold substr
  simp [List.take_of_length_le h]

theorem stripLeading_blanks (k : Nat) : stripLeading (mkString k ' ') = [] := by
  induction k with
  | zero => rfl
  | succ n ih =>
    show stripLeading (' ' :: mkString n ' ') = []
    simp [stripLeading, ih]

theorem reverse_mkString (k : Nat) (c : Char) : (mkString k c).reverse = mkString k c := by
  simp [mkString]

theorem stripTrailing_append_blanks (s : Str) (k : Nat) :
    stripTrailing (s ++ mkString k ' ') = stripTrailing s := by
  unfold stripTrailing
  rw [List.reverse_append, reverse_mkString, stripLeading_append, stripLeading_blanks]
  simp

theorem stripLeading_idem (s : Str) : stripLeading (stripLeading s) = stripLeading s := by
  induction s with
  | nil => rfl
  | cons c cs ih =>
    by_cases hc : c = ' '
    · simp [stripLeading, hc, ih]
    · simp [stripLeading, hc]

theorem stripLeading_append_blanks_of_canon (s : Str) (k : Nat) :
    stripLeading (s ++ mkString k ' ') = stripLeading s ++
      (if stripLeading s = [] then [] else mkString k ' ') := by
  rw [stripLeading_append]
  split_ifs with h1
  · simp [stripLeading_blanks, h1]
  · rfl

theorem stripLeading_of_strip_eq (s : Str) (h : strip s = s) : stripLeading s = s := by
  cases s with
  | nil => rfl
  | cons c cs =>
    by_cases hc : c = ' '
    · exfalso
      subst hc
      have hlen := congrArg List.length h
      unfold strip at hlen
      have h1 := stripTrailing_length_le (stripLeading (' ' :: cs))
      have h2 : (stripLeading (' ' :: cs)).length ≤ cs.length := by
        have : stripLeading (' ' :: cs) = stripLeading cs := by simp [stripLeading]
        rw [this]
        have : ∀ t : Str, (stripLeading t).length ≤ t.length := by
          intro t
          induction t with
          | nil => simp [stripLeading]
          | cons d ds ih =>
            by_cases hd : d = ' '
            · simp [stripLeading, hd]; omega
            · simp [stripLeading, hd]
        exact this cs
      simp at hlen
      omega
    · simp [stripLeading, hc]

theorem stripTrailing_of_strip_eq (s : Str) (h : strip s = s) : stripTrailing s = s := by
  have h1 := stripLeading_of_strip_eq s h
  unfold strip at h
  rw [h1] at h
  exact h

/-- A text without blanks at its ends is read back from a left-justified
field. -/
theorem strip_leftJustify (s : Str) (n : Nat) (h : Canon n s) : strip (leftJustify s n) = s := by
  obtain ⟨hs, hl⟩ := h
  rw [leftJustify_of_le s n hl]
  unfold strip
  rw [stripLeading_append, stripLeading_of_strip_eq s hs]
  split_ifs with h1
  · rw [stripLeading_blanks, h1]; rfl
  · rw [stripTrailing_append_blanks, stripTrailing_of_strip_eq s hs]

theorem stripTrailing_append_label (data label : Str) (c : Char) (pre : Str)
    (hl : label = pre ++ [c]) (hc : c ≠ ' ') : stripTrailing (data ++ label) = data ++ label := by
  subst hl
  unfold stripTrailing
  simp [stripLeading, hc]


/-! ## Numbers written and read back -/

theorem digitChar_isDigit (d : Nat) (h : d < 10) : (digitChar d).isDigit = true := by
  interval_cases d <;> decide

theorem digitChar_toNat (d : Nat) (h : d < 10) : (digitChar d).toNat - 48 = d := by
  interval_cases d <;> decide

theorem digitChar_not_space (d : Nat) (h : d < 10) : isSpaceChar (digitChar d) = false := by
  interval_cases d <;> decide

theorem digitChar_readSign (d : Nat) (h : d < 10) (rest : Str) :
    readSign (digitChar d :: rest) = (false, digitChar d :: rest) := by
  interval_cases d <;> rfl

theorem digitsVal_append_single (s : Str) (c : Char) :
    digitsVal (s ++ [c]) = 10 * digitsVal s + (c.toNat - 48) := by
  unfold digitsVal
  rw [List.foldl_append]
  rfl

theorem natDigits_spec (fuel : Nat) : ∀ n, n < fuel →
    (∀ c ∈ natDigits fuel n, c.isDigit = true) ∧ digitsVal (natDigits fuel n) = n ∧
    (∃ d rest, d < 10 ∧ natDigits fuel n = digitChar d :: rest) := by
  induction fuel with
  | zero => intro n h; omega
  | succ f ih =>
    intro n hn
    unfold natDigits
    split_ifs with h10
    · refine ⟨?_, ?_, n, [], h10, rfl⟩
      · intro c hc
        simp at hc
        rw [hc]
        exact digitChar_isDigit n h10
      · show (0 * 10 + ((digitChar n).toNat - 48) : Nat) = n
        rw [digitChar_toNat n h10]; omega
    · have hlt : n / 10 < f := by omega
      obtain ⟨h1, h2, d, rest, hd, hr⟩ := ih (n / 10) hlt
      have hm : n % 10 < 10 := Nat.mod_lt _ (by decide)
      refine ⟨?_, ?_, d, rest ++ [digitChar (n % 10)], hd, by rw [hr]; rfl⟩
      · intro c hc
        rcases List.mem_append.mp hc with hc | hc
        · exact h1 c hc
        · simp at hc
          rw [hc]
          exact digitChar_isDigit _ hm
      · rw [digitsVal_append_single, h2, digitChar_toNat _ hm]
        omega

theorem natToStr_digits (n : Nat) : ∀ c ∈ natToStr n, c.isDigit = true :=
  (natDigits_spec (n + 1) n (by omega)).1

theorem natToStr_val (n : Nat) : digitsVal (natToStr n) = n :=
  (natDigits_spec (n + 1) n (by omega)).2.1

theorem natToStr_head (n : Nat) : ∃ d rest, d < 10 ∧ natToStr n = digitChar d :: rest :=
  (natDigits_spec (n + 1) n (by omega)).2.2

theorem takeWhile_all {p : Char → Bool} (s t : Str) (hs : ∀ c ∈ s, p c = true)
    (ht : ∀ c, t.head? = some c → p c = false) : (s ++ t).takeWhile p = s := by
  induction s with
  | nil =>
    cases t with
    | nil => rfl
    | cons c cs => simp [List.takeWhile, ht c rfl]
  | cons c cs ih =>
    simp only [List.cons_append, List.takeWhile_cons, hs c (List.mem_cons_self _ _), if_true]
    rw [ih (fun d hd => hs d (List.mem_cons_of_mem _ hd))]

theorem dropWhile_all {p : Char → Bool} (s t : Str) (hs : ∀ c ∈ s, p c = true)
    (ht : ∀ c, t.head? = some c → p c = false) : (s ++ t).dropWhile p = t := by
  induction s with
  | nil =>
    cases t with
    | nil => rfl
    | cons c cs => simp [List.dropWhile, ht c rfl]
  | cons c cs ih =>
    simp only [List.cons_append, List.dropWhile_cons, hs c (List.mem_cons_self _ _), if_true]
    rw [ih (fun d hd => hs d (List.mem_cons_of_mem _ hd))]

/-- An integer is read back from its right-justified decimal text. -/
theorem asInt_rightJustify (x : Int) (w : Nat) (h : FitsInt w x) :
    asInt (rightJustify (asStringInt x) w) = x := by
  rw [rightJustify_of_le _ _ h]
  unfold asInt
  rw [dropWhile_blanks_append]
  obtain ⟨d, rest, hd, hr⟩ := natToStr_head x.natAbs
  have hdig := natToStr_digits x.natAbs
  have htw : (natToStr x.natAbs).takeWhile Char.isDigit = natToStr x.natAbs := by
    have := takeWhile_all (p := Char.isDigit) (natToStr x.natAbs) [] hdig (by simp)
    simpa using this
  unfold asStringInt
  split_ifs with hneg
  · have h1 : ('-' :: natToStr x.natAbs).dropWhile isSpaceChar = '-' :: natToStr x.natAbs := by
      rw [List.dropWhile_cons_of_neg (by decide)]
    rw [h1]
    have h2 : readSign ('-' :: natToStr x.natAbs) = (true, natToStr x.natAbs) := rfl
    rw [h2]
    simp only [htw, natToStr_val, if_true]
    omega
  · have h1 : (natToStr x.natAbs).dropWhile isSpaceChar = natToStr x.natAbs := by
      rw [hr, List.dropWhile_cons_of_neg (by simp [digitChar_not_space d hd])]
    rw [h1]
    have h2 : readSign (natToStr x.natAbs) = (false, natToStr x.natAbs) := by
      rw [hr]; exact digitChar_readSign d hd rest
    rw [h2]
    simp only [htw, natToStr_val]
    simp
    omega


theorem digitsVal_zeros (k : Nat) (s : Str) : digitsVal (mkString k '0' ++ s) = digitsVal s := by
  induction k with
  | zero => rfl
  | succ n ih =>
    have h1 : mkString (n + 1) '0' ++ s = '0' :: (mkString n '0' ++ s) := rfl
    rw [h1]
    unfold digitsVal at ih ⊢
    rw [List.foldl_cons]
    exact ih

theorem zeroPad_digits (s : Str) (w : Nat) (hs : ∀ c ∈ s, c.isDigit = true) :
    ∀ c ∈ zeroPad s w, c.isDigit = true := by
  intro c hc
  unfold zeroPad at hc
  rcases List.mem_append.mp hc with h | h
  · simp [mkString] at h
    rw [h.2]; rfl
  · exact hs c h

theorem zeroPad_length (s : Str) (w : Nat) : w ≤ (zeroPad s w).length := by
  unfold zeroPad
  simp [length_mkString]
  omega

theorem zeroPad_head (n w : Nat) : ∃ d rest, d < 10 ∧ zeroPad (natToStr n) w = digitChar d :: rest := by
  unfold zeroPad
  obtain ⟨d, rest, hd, hr⟩ := natToStr_head n
  cases hk : w - (natToStr n).length with
  | zero => exact ⟨d, rest, hd, by rw [hr]; rfl⟩
  | succ k => exact ⟨0, mkString k '0' ++ natToStr n, by decide, rfl⟩

theorem scaledRound_exact (x : ℚ) (p : Nat) (h : x.den ∣ 10 ^ p) :
    scaledRound x p = x.num * ((10 ^ p / x.den : Nat) : Int) := by
  obtain ⟨k, hk⟩ := h
  have hden : (0 : Int) < x.den := by exact_mod_cast x.den_pos
  have hk' : ((10 : Int) ^ p) = (x.den : Int) * k := by exact_mod_cast hk
  have hdiv : 10 ^ p / x.den = k := by
    rw [hk]; exact Nat.mul_div_cancel_left k x.den_pos
  unfold scaledRound
  rw [hdiv, hk']
  have e : 2 * x.num * ((x.den : Int) * k) + x.den = x.den + 2 * x.den * (x.num * k) := by ring
  rw [e, Int.add_mul_ediv_left _ _ (by omega), Int.ediv_eq_zero_of_lt (by omega) (by omega)]
  simp

theorem mkRat_scaled (x : ℚ) (p : Nat) (h : x.den ∣ 10 ^ p) :
    mkRat (scaledRound x p) (10 ^ p) = x := by
  rw [scaledRound_exact x p h]
  obtain ⟨k, hk⟩ := h
  have hdiv : 10 ^ p / x.den = k := by
    rw [hk]; exact Nat.mul_div_cancel_left k x.den_pos
  have hk0 : k ≠ 0 := by
    intro h0
    rw [h0, Nat.mul_zero] at hk
    exact absurd hk (by positivity)
  rw [hdiv]
  conv_lhs => rw [hk]
  rw [Rat.mkRat_mul_right hk0, Rat.mkRat_self]

/-- The reading of a decimal text: blanks, an optional minus sign, digits, a
point and digits. -/
theorem asDouble_text (a : Nat) (neg : Bool) (d : Nat) (hd : d < 10) (ip fp : Str)
    (hip : ∀ c ∈ ip, c.isDigit = true) (hfp : ∀ c ∈ fp, c.isDigit = true) :
    asDouble (mkString a ' ' ++ ((if neg then ['-'] else []) ++
        (digitChar d :: ip ++ '.' :: fp))) =
      mkRat (if neg then -(digitsVal (digitChar d :: ip ++ fp) : Int)
        else digitsVal (digitChar d :: ip ++ fp)) (10 ^ fp.length) := by
  have hdot : Char.isDigit '.' = false := by decide
  have hd1 : ∀ c ∈ digitChar d :: ip, c.isDigit = true := by
    intro c hc
    rcases List.mem_cons.mp hc with h | h
    · rw [h]; exact digitChar_isDigit d hd
    · exact hip c h
  have htw : (digitChar d :: ip ++ '.' :: fp).takeWhile Char.isDigit = digitChar d :: ip := by
    have := takeWhile_all (p := Char.isDigit) (digitChar d :: ip) ('.' :: fp) hd1
      (by intro c hc; simp at hc; rw [← hc]; exact hdot)
    simpa using this
  have hdw : (digitChar d :: ip ++ '.' :: fp).dropWhile Char.isDigit = '.' :: fp := by
    have := dropWhile_all (p := Char.isDigit) (digitChar d :: ip) ('.' :: fp) hd1
      (by intro c hc; simp at hc; rw [← hc]; exact hdot)
    simpa using this
  have hfw : fp.takeWhile Char.isDigit = fp := by
    have := takeWhile_all (p := Char.isDigit) fp [] hfp (by simp)
    simpa using this
  have hfd : fp.dropWhile Char.isDigit = [] := by
    have := dropWhile_all (p := Char.isDigit) fp [] hfp (by simp)
    simpa using this
  have hnh : ∀ b : Bool, hexValue b (digitChar d :: ip ++ '.' :: fp) = none := by
    intro b
    cases ip with
    | nil => exact hexValue_none _ _ _ _ (Or.inl rfl)
    | cons c cs => exact hexValue_none _ _ _ _ (Or.inr (hip c (List.mem_cons_self _ _)))
  have hdec : asDouble (mkString a ' ' ++ ((if neg then ['-'] else []) ++
      (digitChar d :: ip ++ '.' :: fp))) =
      asDoubleDecimal (mkString a ' ' ++ ((if neg then ['-'] else []) ++
        (digitChar d :: ip ++ '.' :: fp))) := by
    apply asDouble_of_not_hex
    rw [dropWhile_blanks_append]
    cases neg with
    | true =>
      simp only [if_true, List.singleton_append]
      rw [List.dropWhile_cons_of_neg (by decide)]
      exact hnh true
    | false =>
      simp only [Bool.false_eq_true, if_false, List.nil_append]
      rw [List.cons_append, List.dropWhile_cons_of_neg (by simp [digitChar_not_space d hd]),
        ← List.cons_append]
      have h2 : readSign (digitChar d :: ip ++ '.' :: fp) =
          (false, digitChar d :: ip ++ '.' :: fp) := digitChar_readSign d hd _
      rw [h2]
      exact hnh false
  rw [hdec]
  unfold asDoubleDecimal
  rw [dropWhile_blanks_append]
  cases neg with
  | true =>
    simp only [if_true, List.singleton_append]
    rw [List.dropWhile_cons_of_neg (by decide)]
    have h2 : readSign ('-' :: (digitChar d :: ip ++ '.' :: fp)) =
        (true, digitChar d :: ip ++ '.' :: fp) := rfl
    rw [h2]
    simp only [htw, hdw, hfw, hfd, readExponent]
    simp
  | false =>
    simp only [Bool.false_eq_true, if_false, List.nil_append]
    have h1 : (digitChar d :: ip ++ '.' :: fp).dropWhile isSpaceChar =
        digitChar d :: ip ++ '.' :: fp := by
      rw [List.cons_append, List.dropWhile_cons_of_neg (by simp [digitChar_not_space d hd])]
    rw [h1]
    have h2 : readSign (digitChar d :: ip ++ '.' :: fp) =
        (false, digitChar d :: ip ++ '.' :: fp) := digitChar_readSign d hd _
    rw [h2]
    simp only [htw, hdw, hfw, hfd, readExponent]
    simp

theorem asStringFixed_shape (x : ℚ) (p : Nat) (hp : 0 < p) :
    ∃ d ip fp, d < 10 ∧ (∀ c ∈ ip, c.isDigit = true) ∧ (∀ c ∈ fp, c.isDigit = true) ∧
      fp.length = p ∧ digitsVal (digitChar d :: ip ++ fp) = (scaledRound x p).natAbs ∧
      asStringFixed x p = (if decide (scaledRound x p < 0) then ['-'] else []) ++
        (digitChar d :: ip ++ '.' :: fp) := by
  have hp0 : p ≠ 0 := by omega
  unfold asStringFixed
  simp only
  generalize scaledRound x p = n
  have hds : ∀ c ∈ zeroPad (natToStr n.natAbs) (p + 1), c.isDigit = true :=
    zeroPad_digits _ _ (natToStr_digits _)
  have hlen := zeroPad_length (natToStr n.natAbs) (p + 1)
  have hdv : digitsVal (zeroPad (natToStr n.natAbs) (p + 1)) = n.natAbs := by
    unfold zeroPad
    rw [digitsVal_zeros, natToStr_val]
  obtain ⟨d, rest, hd, hhead⟩ := zeroPad_head n.natAbs (p + 1)
  generalize zeroPad (natToStr n.natAbs) (p + 1) = ds at hds hlen hdv hhead
  subst hhead
  have htake : (digitChar d :: rest).take ((digitChar d :: rest).length - p) =
      digitChar d :: rest.take (rest.length - p) := by
    have : (digitChar d :: rest).length - p = (rest.length - p) + 1 := by
      simp at hlen ⊢; omega
    rw [this]; rfl
  have hdrop : (digitChar d :: rest).drop ((digitChar d :: rest).length - p) =
      rest.drop (rest.length - p) := by
    have : (digitChar d :: rest).length - p = (rest.length - p) + 1 := by
      simp at hlen ⊢; omega
    rw [this]; rfl
  refine ⟨d, rest.take (rest.length - p), rest.drop (rest.length - p), hd, ?_, ?_, ?_, ?_, ?_⟩
  · intro c hc
    exact hds c (List.mem_cons_of_mem _ (List.mem_of_mem_take hc))
  · intro c hc
    exact hds c (List.mem_cons_of_mem _ (List.mem_of_mem_drop hc))
  · simp at hlen ⊢; omega
  · rw [List.cons_append, List.take_append_drop]; exact hdv
  · rw [htake, hdrop, if_neg hp0]
    by_cases hn : n < 0
    · simp [hn]
    · simp [hn]

/-- A decimal value with `p` decimals is read back from its right-justified
fixed notation. -/
theorem asDouble_rightJustify (x : ℚ) (p w : Nat) (hp : 0 < p) (h : FitsFixed p w x) :
    asDouble (rightJustify (asStringFixed x p) w) = x := by
  obtain ⟨hden, hfit⟩ := h
  rw [rightJustify_of_le _ _ hfit]
  obtain ⟨d, ip, fp, hd, hip, hfp, hfl, hdv, hshape⟩ := asStringFixed_shape x p hp
  rw [hshape, asDouble_text _ _ d hd ip fp hip hfp, hfl, hdv]
  have hval := mkRat_scaled x p hden
  conv_rhs => rw [← hval]
  congr 1
  by_cases hn : scaledRound x p < 0
  · rw [decide_eq_true hn, if_pos rfl]
    omega
  · rw [decide_eq_false hn, if_neg (by simp)]
    omega


/-! ## Reading back one written line -/

theorem labels_last_not_blank :
    ∀ label ∈ labelRegistry, label.reverse.head? ≠ some ' ' ∧ label.reverse.head? ≠ none ∧
      label.length ≤ 20 := by decide

theorem stripTrailing_of_last (s : Str) (h1 : s.reverse.head? ≠ some ' ') :
    stripTrailing s = s := by
  unfold stripTrailing
  cases hr : s.reverse with
  | nil =>
    have : s = [] := by simpa using hr
    rw [this]; rfl
  | cons c cs =>
    rw [hr] at h1
    have hc : c ≠ ' ' := by
      intro hc; apply h1; rw [hc]; rfl
    simp only [stripLeading, hc, if_false]
    rw [← hr, List.reverse_reverse]

/-- A written line of 60 data columns and a registry label is handed by the
decoding loop to the branch of that label. -/
theorem readLine_record (g : Rinex3ObsHeader) (data label : Str) (hd : data.length = 60)
    (hl : label ∈ labelRegistry) :
    readLine g (data ++ label) = parseLabelled g (data ++ label) label := by
  obtain ⟨h1, h2, h3⟩ := labels_last_not_blank label hl
  have hlast : (data ++ label).reverse.head? ≠ some ' ' := by
    rw [List.reverse_append]
    cases hr : label.reverse with
    | nil => rw [hr] at h2; exact absurd rfl h2
    | cons c cs => rw [hr] at h1; simpa using h1
  have hst := stripTrailing_of_last _ hlast
  have hlen : (data ++ label).length = 60 + label.length := by simp [hd]
  unfold readLine
  simp only [hst, hlen]
  rw [if_neg (by omega), if_neg (by omega), ParseHeaderRecord_of_le _ _ (by omega),
    substr_append_right _ _ _ _ (by omega), hd, Nat.sub_self, substr_all _ _ h3]

theorem substr_append_left (a b : Str) (pos n : Nat) (h : pos + n ≤ a.length) :
    substr (a ++ b) pos n = substr a pos n := by
  unfold substr
  rw [List.drop_append_of_le_length (by omega), List.take_append_of_le_length (by simp; omega)]

theorem parseLabelled_runBy (g : Rinex3ObsHeader) (line : Str) :
    parseLabelled g line stringRunBy = parseRunBy g line := rfl

theorem parseLabelled_eoh (g : Rinex3ObsHeader) (line : Str) :
    parseLabelled g line stringEoH = parseEoH g line := rfl


/-! ## The lines written by the encoder -/

theorem putSimple_emits (bit : Nat) (text : Str) (h : Rinex3ObsHeader) :
    Emits (putSimple bit text h) (if isSet h.valid bit = true then [text] else []) := by
  intro s
  unfold putSimple
  split_ifs with hb
  · exact ⟨rfl, rfl⟩
  · exact ⟨rfl, by simp⟩

theorem emits_of_unset (b : PutState → Put) (hb : ∀ s, b s = (s, none)) : Emits b [] := by
  intro s
  rw [hb s]
  exact ⟨rfl, by simp⟩

theorem foldl_putLine_out (f : α → Str) (l : List α) (s : PutState) :
    (l.foldl (fun st c => putLine st (f c)) s).out = s.out ++ l.map f := by
  induction l generalizing s with
  | nil => simp
  | cons a rest ih =>
    rw [List.foldl_cons, ih]
    simp [putLine, emit]

theorem putComments_emits (h : Rinex3ObsHeader) :
    Emits (putComments h) (if isSet h.valid validComment = true then
      h.commentList.map (fun c => leftJustify c 60 ++ stringComment) else []) := by
  intro s
  unfold putComments
  split_ifs with hb
  · exact ⟨rfl, foldl_putLine_out _ _ _⟩
  · exact ⟨rfl, by simp⟩

theorem length_writeTime (t : CivilTime) : (writeTime t).length = 51 := by
  unfold writeTime
  simp [length_rightJustify]

theorem putTime_emits (bit : Nat) (t : CivilTime) (label : Str) (h : Rinex3ObsHeader) :
    Emits (putTime bit t label h) (if isSet h.valid bit = true then [timeLine t label] else []) := by
  intro s
  unfold putTime
  split_ifs with hb
  · unfold fill60
    simp only [length_writeTime]
    rw [if_pos (by omega)]
    exact ⟨rfl, rfl⟩
  · exact ⟨rfl, by simp⟩

theorem putCorrInfos_out (label : Str) (infos : List Rinex3CorrInfo) (s : PutState) :
    (putCorrInfos label infos s).out = s.out ++ infos.map (fun c =>
      leftJustify c.satSys 1 ++ mkString 1 ' ' ++ leftJustify c.name 17 ++ mkString 1 ' ' ++
        leftJustify c.source 40 ++ label) := by
  unfold putCorrInfos
  exact foldl_putLine_out _ _ _

theorem length_codesText (l : List ObsID) : (codesText l).length = 4 * l.length := by
  induction l with
  | nil => rfl
  | cons o os ih =>
    unfold codesText
    simp [length_mkString, length_rightJustify, ih]
    omega

theorem obsTypeLoop_rest (sys : Str) (size : Nat) (l : List ObsID) :
    ∀ (k : Nat) (s : PutState), 0 < k → k + l.length ≤ 13 →
      obsTypeLoop sys size l k s = { s with line := s.line ++ codesText l } := by
  induction l with
  | nil => intro k s _ _; simp [obsTypeLoop, codesText]
  | cons o os ih =>
    intro k s hk hlen
    simp only [List.length_cons] at hlen
    unfold obsTypeLoop
    simp only
    rw [if_neg (by omega), if_neg (by omega), ih (k + 1) _ (by omega) (by omega)]
    simp [codesText]

theorem obsTypeLoop_line (sys : Str) (l : List ObsID) (s : PutState) (h0 : l ≠ [])
    (h13 : l.length ≤ 13) :
    obsTypeLoop sys l.length l 0 { s with line := [] } =
      { s with line := leftJustify sys 1 ++ mkString 2 ' ' ++
        rightJustify (asStringInt l.length) 3 ++ codesText l } := by
  cases l with
  | nil => exact absurd rfl h0
  | cons o os =>
    simp only [List.length_cons] at h13
    unfold obsTypeLoop
    simp only [if_true]
    rw [obsTypeLoop_rest _ _ _ _ _ (by omega) (by omega)]
    simp [codesText]

theorem obsTypeSystems_emits (m : List (Str × List ObsID))
    (hm : ∀ e ∈ m, e.2 ≠ [] ∧ e.2.length ≤ 13) (s : PutState) :
    (obsTypeSystems m s).2 = none ∧ (obsTypeSystems m s).1.out = s.out ++ m.map obsTypeLine := by
  induction m generalizing s with
  | nil => exact ⟨rfl, by simp [obsTypeSystems]⟩
  | cons e rest ih =>
    obtain ⟨sys, l⟩ := e
    obtain ⟨h0, h13⟩ := hm (sys, l) (List.mem_cons_self _ _)
    simp only at h0 h13
    unfold obsTypeSystems
    rw [obsTypeLoop_line sys l s h0 h13]
    unfold fill60
    have hlen : (leftJustify sys 1 ++ mkString 2 ' ' ++ rightJustify (asStringInt l.length) 3 ++
        codesText l).length = 6 + 4 * l.length := by
      simp [length_leftJustify, length_rightJustify, length_mkString, length_codesText]
      omega
    simp only [hlen]
    rw [if_pos (by omega)]
    simp only [Put.andThen]
    obtain ⟨i1, i2⟩ := ih (fun e he => hm e (List.mem_cons_of_mem _ he))
      (emit { out := s.out, line := leftJustify sys 1 ++ mkString 2 ' ' ++
        rightJustify (asStringInt l.length) 3 ++ codesText l ++
        mkString (60 - (6 + 4 * l.length)) ' ' ++ stringSystemNumObs })
    refine ⟨i1, ?_⟩
    rw [i2]
    simp [emit, obsTypeLine]


theorem runBlocks_emits (bs : List (PutState → Put)) (Ls : List (List Str))
    (hf : List.Forall₂ Emits bs Ls) (r : Put) (hr : r.2 = none) :
    (runBlocks bs r).2 = none ∧ (runBlocks bs r).1.out = r.1.out ++ Ls.flatten := by
  induction hf generalizing r with
  | nil => exact ⟨hr, by simp [runBlocks]⟩
  | @cons b L bs' Ls' hb _ ih =>
    simp only [runBlocks]
    have hstep : r.andThen b = b r.1 := by
      unfold Put.andThen
      rw [hr]
    obtain ⟨e1, e2⟩ := hb r.1
    obtain ⟨i1, i2⟩ := ih (r.andThen b) (by rw [hstep]; exact e1)
    refine ⟨i1, ?_⟩
    rw [i2, hstep, e2]
    simp

theorem putVersion_emits (h : Rinex3ObsHeader) (ha : EncoderAccepts h) :
    Emits (putVersion h) (whenSet h validVersion [versionLine h]) := by
  intro s
  obtain ⟨hf, hs⟩ := ha
  unfold putVersion whenSet
  split_ifs with hb h1
  · exfalso
    rcases hf with hf | hf
    · exact h1.1 hf
    · exact h1.2 hf
  · exact ⟨rfl, rfl⟩
  · exact ⟨rfl, by simp⟩

theorem headerBlocks_emits (curDate : Str) (h : Rinex3ObsHeader) (ha : EncoderAccepts h)
    (hn : NoMultiLineKinds h) (ho : ObsListsFitOneLine h) :
    List.Forall₂ Emits (headerBlocks curDate h) (encodedBlocks curDate h) := by
  obtain ⟨hsf, hps, hgl, hprn⟩ := hn
  have simple : ∀ bit text, Emits (putSimple bit text h) (whenSet h bit [text]) :=
    fun bit text => putSimple_emits bit text h
  have time : ∀ bit t label, Emits (putTime bit t label h) (whenSet h bit [timeLine t label]) :=
    fun bit t label => putTime_emits bit t label h
  unfold headerBlocks encodedBlocks
  refine .cons (putVersion_emits h ha) <| .cons (simple _ _) <| .cons (putComments_emits h) <|
    .cons (simple _ _) <| .cons (simple _ _) <| .cons (simple _ _) <| .cons (simple _ _) <|
    .cons (simple _ _) <| .cons (simple _ _) <| .cons (simple _ _) <| .cons (simple _ _) <|
    .cons (simple _ _) <| .cons (simple _ _) <| .cons (simple _ _) <| .cons (simple _ _) <|
    .cons (simple _ _) <| .cons (simple _ _) <| .cons ?obs <| .cons (simple _ _) <|
    .cons (simple _ _) <| .cons (time _ _ _) <| .cons (time _ _ _) <| .cons (simple _ _) <|
    .cons ?dcbs <| .cons ?pcvs <| .cons ?sf <| .cons ?ps <| .cons ?gl <| .cons (simple _ _) <|
    .cons (simple _ _) <| .cons ?prn <| .cons (simple _ _) <| .nil
  case obs =>
    intro s
    unfold putSystemObsType whenSet
    split_ifs with hb
    · exact obsTypeSystems_emits _ ho s
    · exact ⟨rfl, by simp⟩
  case dcbs =>
    intro s
    unfold whenSet
    split_ifs with hb
    · exact ⟨rfl, putCorrInfos_out _ _ _⟩
    · exact ⟨rfl, by simp⟩
  case pcvs =>
    intro s
    unfold whenSet
    split_ifs with hb
    · exact ⟨rfl, putCorrInfos_out _ _ _⟩
    · exact ⟨rfl, by simp⟩
  case sf =>
    apply emits_of_unset
    intro s
    unfold putSystemScaleFac
    rw [hsf]; rfl
  case ps =>
    apply emits_of_unset
    intro s
    unfold putSystemPhaseShift
    rw [hps]; rfl
  case gl =>
    apply emits_of_unset
    intro s
    unfold putGlonassFreqNo
    rw [hgl]; rfl
  case prn =>
    apply emits_of_unset
    intro s
    unfold putPrnObs
    rw [hprn]; rfl

/-- The lines that `WriteHeaderRecords` writes for a header that the encoder
accepts and that has no multi-line record kind other than observation
types. -/
theorem WriteHeaderRecords_lines (curDate : Str) (h : Rinex3ObsHeader) (ha : EncoderAccepts h)
    (hn : NoMultiLineKinds h) (ho : ObsListsFitOneLine h) :
    (WriteHeaderRecords curDate h).2 = none ∧
    (WriteHeaderRecords curDate h).1.out = (encodedBlocks curDate h).flatten := by
  have := runBlocks_emits _ _ (headerBlocks_emits curDate h ha hn ho) (⟨[], []⟩, none) rfl
  exact ⟨this.1, by simpa using this.2⟩


/-! ## The decoding loop on a list of lines -/

theorem Feeds.nil (g : Rinex3ObsHeader) : Feeds [] g g := by
  intro rest n
  simp

theorem Feeds.append {L1 L2 : List Str} {g g1 g2 : Rinex3ObsHeader} (h1 : Feeds L1 g g1)
    (h2 : Feeds L2 g1 g2) : Feeds (L1 ++ L2) g g2 := by
  intro rest n
  rw [List.append_assoc, h1, h2, List.length_append, Nat.add_assoc]

theorem Feeds.single {g g1 : Rinex3ObsHeader} {raw : Str} (ho : Open g)
    (hr : readLine g raw = (g1, none)) : Feeds [raw] g g1 := by
  intro rest n
  unfold Open at ho
  simp only [List.singleton_append, getLoop, ho, hr, List.length_singleton]
  simp

theorem lor_eq_zero (x y : Nat) : x ||| y = 0 ↔ x = 0 ∧ y = 0 := by
  constructor
  · intro h
    constructor
    · apply Nat.eq_of_testBit_eq
      intro i
      have := congrArg (fun z => Nat.testBit z i) h
      simp only [Nat.testBit_or, Nat.zero_testBit, Bool.or_eq_false_iff] at this
      rw [this.1, Nat.zero_testBit]
    · apply Nat.eq_of_testBit_eq
      intro i
      have := congrArg (fun z => Nat.testBit z i) h
      simp only [Nat.testBit_or, Nat.zero_testBit, Bool.or_eq_false_iff] at this
      rw [this.2, Nat.zero_testBit]
  · rintro ⟨rfl, rfl⟩
    rfl

theorem isSet_or (v b e : Nat) : isSet (v ||| b) e = (isSet v e || isSet b e) := by
  unfold isSet
  rw [Nat.and_comm, Nat.and_or_distrib_left, Nat.and_comm e v, Nat.and_comm e b]
  rw [Bool.eq_iff_iff]
  simp only [Bool.or_eq_true, bne_iff_ne, ne_eq, lor_eq_zero]
  tauto

theorem sel_pos {α : Type} {h : Rinex3ObsHeader} {bit : Nat} (hb : isSet h.valid bit = true)
    (a b : α) : sel h bit a b = a := by
  unfold sel
  rw [if_pos hb]

theorem sel_neg {α : Type} {h : Rinex3ObsHeader} {bit : Nat} (hb : ¬ isSet h.valid bit = true)
    (a b : α) : sel h bit a b = b := by
  unfold sel
  rw [if_neg hb]

theorem open_sel (h g : Rinex3ObsHeader) (bit : Nat) (ho : Open g)
    (hbit : isSet bit validEoH = false) : isSet (g.valid ||| sel h bit bit 0) validEoH = false := by
  unfold sel
  split_ifs
  · rw [isSet_or, ho, hbit]; rfl
  · rw [Nat.or_zero]; exact ho


/-! ## The decoder on the single lines of the encoder -/

theorem substr_field (pre f post : Str) (pos n : Nat) (hp : pre.length = pos) (hf : f.length = n) :
    substr (pre ++ f ++ post) pos n = f := by
  subst hp hf
  simp [substr]

theorem feeds_whenSet (h g u : Rinex3ObsHeader) (bit : Nat) (line : Str) (ho : Open g)
    (hset : isSet h.valid bit = true → readLine g line = (u, none))
    (hunset : ¬ isSet h.valid bit = true → u = g) : Feeds (whenSet h bit [line]) g u := by
  unfold whenSet
  split_ifs with hb
  · exact Feeds.single ho (hset hb)
  · rw [hunset hb]
    exact Feeds.nil g

theorem open_got (h g u : Rinex3ObsHeader) (bit : Nat)
    (hv : u.valid = g.valid ||| sel h bit bit 0) (ho : Open g)
    (hbit : isSet bit validEoH = false) : Open u := by
  unfold Open
  rw [hv]
  exact open_sel h g bit ho hbit

theorem block_id (h : Rinex3ObsHeader) (bit : Nat) (L : List Str)
    (hb : isSet h.valid bit = false) : Block (whenSet h bit L) id := by
  intro g ho
  unfold whenSet
  rw [hb]
  exact ⟨Feeds.nil g, ho⟩

theorem block_nil : Block [] id := fun g ho => ⟨Feeds.nil g, ho⟩

theorem block_line (h : Rinex3ObsHeader) (bit : Nat) (data label : Str)
    (step : Rinex3ObsHeader → Rinex3ObsHeader) (parser : Rinex3ObsHeader → Str → Parsed)
    (hd : data.length = 60) (hl : label ∈ labelRegistry) (hbit : isSet bit validEoH = false)
    (hfind : ∀ g line, parseLabelled g line label = parser g line)
    (hv : ∀ g, (step g).valid = g.valid ||| sel h bit bit 0)
    (hset : ∀ g, isSet h.valid bit = true → parser g (data ++ label) = (step g, none))
    (hunset : ∀ g, ¬ isSet h.valid bit = true → step g = g) :
    Block (whenSet h bit [data ++ label]) step := by
  intro g ho
  refine ⟨feeds_whenSet h g _ _ _ ho (fun hb => ?_) (hunset g), open_got h g _ _ (hv g) ho hbit⟩
  rw [readLine_record g data label hd hl, hfind]
  exact hset g hb

theorem fields2 (a b l : Str) (n1 n2 : Nat) (ha : a.length = n1) (hb : b.length = n2) :
    substr (a ++ b ++ l) 0 n1 = a ∧ substr (a ++ b ++ l) n1 n2 = b := by
  refine ⟨?_, substr_field a b l n1 n2 ha hb⟩
  simpa [List.append_assoc] using substr_field [] a (b ++ l) 0 n1 rfl ha

theorem fields3 (a b c l : Str) (n1 n2 n3 : Nat) (ha : a.length = n1) (hb : b.length = n2)
    (hc : c.length = n3) :
    substr (a ++ b ++ c ++ l) 0 n1 = a ∧ substr (a ++ b ++ c ++ l) n1 n2 = b ∧
      substr (a ++ b ++ c ++ l) (n1 + n2) n3 = c := by
  refine ⟨?_, ?_, substr_field (a ++ b) c l (n1 + n2) n3 (by simp [ha, hb]) hc⟩
  · simpa [List.append_assoc] using substr_field [] a (b ++ c ++ l) 0 n1 rfl ha
  · simpa [List.append_assoc] using substr_field a b (c ++ l) n1 n2 ha hb

theorem parseTriple_tripleLine (t : Triple) (label : Str) (ht : FitsTriple t) :
    parseTriple (tripleLine t label) = t := by
  obtain ⟨hx, hy, hz⟩ := ht
  unfold parseTriple tripleLine tripleText
  have e := fields3 (rightJustify (asStringFixed t.x 4) 14) (rightJustify (asStringFixed t.y 4) 14)
    (rightJustify (asStringFixed t.z 4) 14) (mkString 18 ' ' ++ label) 14 14 14
    (length_rightJustify _ _) (length_rightJustify _ _) (length_rightJustify _ _)
  simp only [← List.append_assoc] at e
  obtain ⟨e1, e2, e3⟩ := e
  rw [e1, e2, show substr _ 28 14 = _ from e3, asDouble_rightJustify _ 4 14 (by decide) hx,
    asDouble_rightJustify _ 4 14 (by decide) hy, asDouble_rightJustify _ 4 14 (by decide) hz]

theorem length_tripleText (t : Triple) : (tripleText t).length = 60 := by
  simp [tripleText, length_rightJustify, length_mkString]

theorem block_runBy (curDate : Str) (h : Rinex3ObsHeader)
    (hc : isSet h.valid validRunBy = true → Canon 20 h.fileProgram ∧ Canon 20 h.fileAgency) :
    Block (whenSet h validRunBy [runByLine curDate h]) (gotRunBy curDate h) := by
  refine block_line h validRunBy _ stringRunBy _ parseRunBy (by simp [length_leftJustify])
    (by decide) (by decide) (fun _ _ => rfl) (fun _ => rfl) (fun g hb => ?_)
    (fun g hb => by simp only [gotRunBy, sel_neg hb, Nat.or_zero])
  obtain ⟨c1, c2⟩ := hc hb
  obtain ⟨e1, e2, e3⟩ := fields3 (leftJustify h.fileProgram 20) (leftJustify h.fileAgency 20)
    (leftJustify curDate 20) stringRunBy 20 20 20 (length_leftJustify _ _)
    (length_leftJustify _ _) (length_leftJustify _ _)
  simp only [parseRunBy, gotRunBy, sel_pos hb]
  rw [e1, e2, show substr _ 40 20 = _ from e3, strip_leftJustify _ _ c1,
    strip_leftJustify _ _ c2]

theorem block_markerName (h : Rinex3ObsHeader)
    (hc : isSet h.valid validMarkerName = true → Canon 60 h.markerName) :
    Block (whenSet h validMarkerName [leftJustify h.markerName 60 ++ stringMarkerName])
      (gotMarkerName h) := by
  refine block_line h validMarkerName _ stringMarkerName _ parseMarkerName
    (length_leftJustify _ _) (by decide) (by decide) (fun _ _ => rfl) (fun _ => rfl)
    (fun g hb => ?_) (fun g hb => by simp only [gotMarkerName, sel_neg hb, Nat.or_zero])
  simp only [parseMarkerName, gotMarkerName, sel_pos hb]
  rw [substr_zero_append _ _ _ (length_leftJustify _ _), strip_leftJustify _ _ (hc hb)]

theorem text20_field (t label : Str) (hc : Canon 20 t) :
    strip (substr (leftJustify t 20 ++ mkString 40 ' ' ++ label) 0 20) = t := by
  rw [(fields2 (leftJustify t 20) (mkString 40 ' ') label 20 40 (length_leftJustify _ _)
    (length_mkString _ _)).1, strip_leftJustify _ _ hc]

theorem block_markerNumber (h : Rinex3ObsHeader)
    (hc : isSet h.valid validMarkerNumber = true → Canon 20 h.markerNumber) :
    Block (whenSet h validMarkerNumber [text20Line h.markerNumber stringMarkerNumber])
      (gotMarkerNumber h) := by
  refine block_line h validMarkerNumber _ stringMarkerNumber _ parseMarkerNumber
    (by simp [length_leftJustify, length_mkString]) (by decide) (by decide) (fun _ _ => rfl)
    (fun _ => rfl) (fun g hb => ?_) (fun g hb => by simp only [gotMarkerNumber, sel_neg hb, Nat.or_zero])
  simp only [parseMarkerNumber, gotMarkerNumber, sel_pos hb]
  rw [text20_field _ _ (hc hb)]

theorem block_markerType (h : Rinex3ObsHeader)
    (hc : isSet h.valid validMarkerType = true → Canon 20 h.markerType) :
    Block (whenSet h validMarkerType [text20Line h.markerType stringMarkerType])
      (gotMarkerType h) := by
  refine block_line h validMarkerType _ stringMarkerType _ parseMarkerType
    (by simp [length_leftJustify, length_mkString]) (by decide) (by decide) (fun _ _ => rfl)
    (fun _ => rfl) (fun g hb => ?_) (fun g hb => by simp only [gotMarkerType, sel_neg hb, Nat.or_zero])
  simp only [parseMarkerType, gotMarkerType, sel_pos hb]
  rw [text20_field _ _ (hc hb)]

theorem block_sigStrengthUnit (h : Rinex3ObsHeader)
    (hc : isSet h.valid validSigStrengthUnit = true → Canon 20 h.sigStrengthUnit) :
    Block (whenSet h validSigStrengthUnit [text20Line h.sigStrengthUnit stringSigStrengthUnit])
      (gotSigStrengthUnit h) := by
  refine block_line h validSigStrengthUnit _ stringSigStrengthUnit _ parseSigStrengthUnit
    (by simp [length_leftJustify, length_mkString]) (by decide) (by decide) (fun _ _ => rfl)
    (fun _ => rfl) (fun g hb => ?_) (fun g hb => by simp only [gotSigStrengthUnit, sel_neg hb, Nat.or_zero])
  simp only [parseSigStrengthUnit, gotSigStrengthUnit, sel_pos hb]
  rw [text20_field _ _ (hc hb)]

theorem block_observer (h : Rinex3ObsHeader)
    (hc : isSet h.valid validObserver = true → Canon 20 h.observer ∧ Canon 40 h.agency) :
    Block (whenSet h validObserver [observerLine h]) (gotObserver h) := by
  refine block_line h validObserver _ stringObserver _ parseObserver
    (by simp [length_leftJustify]) (by decide) (by decide) (fun _ _ => rfl) (fun _ => rfl)
    (fun g hb => ?_) (fun g hb => by simp only [gotObserver, sel_neg hb, Nat.or_zero])
  obtain ⟨c1, c2⟩ := hc hb
  obtain ⟨e1, e2⟩ := fields2 (leftJustify h.observer 20) (leftJustify h.agency 40)
    stringObserver 20 40 (length_leftJustify _ _) (length_leftJustify _ _)
  simp only [parseObserver, gotObserver, sel_pos hb]
  rw [e1, e2, strip_leftJustify _ _ c1, strip_leftJustify _ _ c2]

theorem block_receiver (h : Rinex3ObsHeader)
    (hc : isSet h.valid validReceiver = true →
      Canon 20 h.recNo ∧ Canon 20 h.recType ∧ Canon 20 h.recVers) :
    Block (whenSet h validReceiver [receiverLine h]) (gotReceiver h) := by
  refine block_line h validReceiver _ stringReceiver _ parseReceiver
    (by simp [length_leftJustify]) (by decide) (by decide) (fun _ _ => rfl) (fun _ => rfl)
    (fun g hb => ?_) (fun g hb => by simp only [gotReceiver, sel_neg hb, Nat.or_zero])
  obtain ⟨c1, c2, c3⟩ := hc hb
  obtain ⟨e1, e2, e3⟩ := fields3 (leftJustify h.recNo 20) (leftJustify h.recType 20)
    (leftJustify h.recVers 20) stringReceiver 20 20 20 (length_leftJustify _ _)
    (length_leftJustify _ _) (length_leftJustify _ _)
  simp only [parseReceiver, gotReceiver, sel_pos hb]
  rw [e1, e2, show substr _ 40 20 = _ from e3, strip_leftJustify _ _ c1,
    strip_leftJustify _ _ c2, strip_leftJustify _ _ c3]

theorem block_antennaType (h : Rinex3ObsHeader)
    (hc : isSet h.valid validAntennaType = true → Canon 20 h.antNo ∧ Canon 20 h.antType) :
    Block (whenSet h validAntennaType [antennaTypeLine h]) (gotAntennaType h) := by
  refine block_line h validAntennaType _ stringAntennaType _ parseAntennaType
    (by simp [length_leftJustify, length_mkString]) (by decide) (by decide) (fun _ _ => rfl)
    (fun _ => rfl) (fun g hb => ?_) (fun g hb => by simp only [gotAntennaType, sel_neg hb, Nat.or_zero])
  obtain ⟨c1, c2⟩ := hc hb
  obtain ⟨e1, e2, -⟩ := fields3 (leftJustify h.antNo 20) (leftJustify h.antType 20)
    (mkString 20 ' ') stringAntennaType 20 20 20 (length_leftJustify _ _)
    (length_leftJustify _ _) (length_mkString _ _)
  simp only [parseAntennaType, gotAntennaType, sel_pos hb]
  rw [e1, e2, strip_leftJustify _ _ c1, strip_leftJustify _ _ c2]

theorem block_antennaPosition (h : Rinex3ObsHeader)
    (hc : isSet h.valid validAntennaPosition = true → FitsTriple h.antennaPosition) :
    Block (whenSet h validAntennaPosition [tripleLine h.antennaPosition stringAntennaPosition])
      (gotAntennaPosition h) := by
  refine block_line h validAntennaPosition (tripleText _) stringAntennaPosition _
    parseAntennaPosition (length_tripleText _) (by decide) (by decide) (fun _ _ => rfl)
    (fun _ => rfl) (fun g hb => ?_) (fun g hb => by simp only [gotAntennaPosition, sel_neg hb, Nat.or_zero])
  simp only [parseAntennaPosition, gotAntennaPosition, sel_pos hb]
  rw [show parseTriple (tripleText _ ++ _) = _ from parseTriple_tripleLine _ _ (hc hb)]

theorem block_antennaDeltaHEN (h : Rinex3ObsHeader)
    (hc : isSet h.valid validAntennaDeltaHEN = true → FitsTriple h.antennaDeltaHEN) :
    Block (whenSet h validAntennaDeltaHEN [tripleLine h.antennaDeltaHEN stringAntennaDeltaHEN])
      (gotAntennaDeltaHEN h) := by
  refine block_line h validAntennaDeltaHEN (tripleText _) stringAntennaDeltaHEN _
    parseAntennaDeltaHEN (length_tripleText _) (by decide) (by decide) (fun _ _ => rfl)
    (fun _ => rfl) (fun g hb => ?_) (fun g hb => by simp only [gotAntennaDeltaHEN, sel_neg hb, Nat.or_zero])
  simp only [parseAntennaDeltaHEN, gotAntennaDeltaHEN, sel_pos hb]
  rw [show parseTriple (tripleText _ ++ _) = _ from parseTriple_tripleLine _ _ (hc hb)]

theorem block_antennaDeltaXYZ (h : Rinex3ObsHeader)
    (hc : isSet h.valid validAntennaDeltaXYZ = true → FitsTriple h.antennaDeltaXYZ) :
    Block (whenSet h validAntennaDeltaXYZ [tripleLine h.antennaDeltaXYZ stringAntennaDeltaXYZ])
      (gotAntennaDeltaXYZ h) := by
  refine block_line h validAntennaDeltaXYZ (tripleText _) stringAntennaDeltaXYZ _
    parseAntennaDeltaXYZ (length_tripleText _) (by decide) (by decide) (fun _ _ => rfl)
    (fun _ => rfl) (fun g hb => ?_) (fun g hb => by simp only [gotAntennaDeltaXYZ, sel_neg hb, Nat.or_zero])
  simp only [parseAntennaDeltaXYZ, gotAntennaDeltaXYZ, sel_pos hb]
  rw [show parseTriple (tripleText _ ++ _) = _ from parseTriple_tripleLine _ _ (hc hb)]

theorem block_antennaBsightXYZ (h : Rinex3ObsHeader)
    (hc : isSet h.valid validAntennaBsightXYZ = true → FitsTriple h.antennaBsightXYZ) :
    Block (whenSet h validAntennaBsightXYZ
        [tripleLine h.antennaBsightXYZ stringAntennaBsightXYZ])
      (gotAntennaBsightXYZ h) := by
  refine block_line h validAntennaBsightXYZ (tripleText _) stringAntennaBsightXYZ _
    parseAntennaBsightXYZ (length_tripleText _) (by decide) (by decide) (fun _ _ => rfl)
    (fun _ => rfl) (fun g hb => ?_) (fun g hb => by simp only [gotAntennaBsightXYZ, sel_neg hb, Nat.or_zero])
  simp only [parseAntennaBsightXYZ, gotAntennaBsightXYZ, sel_pos hb]
  rw [show parseTriple (tripleText _ ++ _) = _ from parseTriple_tripleLine _ _ (hc hb)]

theorem block_centerOfMass (h : Rinex3ObsHeader)
    (hc : isSet h.valid validCenterOfMass = true → FitsTriple h.centerOfMass) :
    Block (whenSet h validCenterOfMass [tripleLine h.centerOfMass stringCenterOfMass])
      (gotCenterOfMass h) := by
  refine block_line h validCenterOfMass (tripleText _) stringCenterOfMass _
    parseCenterOfMass (length_tripleText _) (by decide) (by decide) (fun _ _ => rfl)
    (fun _ => rfl) (fun g hb => ?_) (fun g hb => by simp only [gotCenterOfMass, sel_neg hb, Nat.or_zero])
  simp only [parseCenterOfMass, gotCenterOfMass, sel_pos hb]
  rw [show parseTriple (tripleText _ ++ _) = _ from parseTriple_tripleLine _ _ (hc hb)]

theorem block_interval (h : Rinex3ObsHeader)
    (hc : isSet h.valid validInterval = true → FitsFixed 3 10 h.interval) :
    Block (whenSet h validInterval [intervalLine h]) (gotInterval h) := by
  refine block_line h validInterval _ stringInterval _ parseInterval
    (by simp [length_rightJustify, length_mkString]) (by decide) (by decide) (fun _ _ => rfl)
    (fun _ => rfl) (fun g hb => ?_) (fun g hb => by simp only [gotInterval, sel_neg hb, Nat.or_zero])
  simp only [parseInterval, gotInterval, sel_pos hb]
  rw [(fields2 (rightJustify (asStringFixed h.interval 3) 10) (mkString 50 ' ') stringInterval
    10 50 (length_rightJustify _ _) (length_mkString _ _)).1,
    asDouble_rightJustify _ 3 10 (by decide) (hc hb)]

theorem int_field (x : Int) (label : Str) (hc : FitsInt 6 x) :
    asInt (substr (rightJustify (asStringInt x) 6 ++ mkString 54 ' ' ++ label) 0 6) = x := by
  rw [(fields2 (rightJustify (asStringInt x) 6) (mkString 54 ' ') label 6 54
    (length_rightJustify _ _) (length_mkString _ _)).1, asInt_rightJustify _ _ hc]

theorem block_receiverOffset (h : Rinex3ObsHeader)
    (hc : isSet h.valid validReceiverOffset = true → FitsInt 6 h.receiverOffset) :
    Block (whenSet h validReceiverOffset [intLine h.receiverOffset stringReceiverOffset])
      (gotReceiverOffset h) := by
  refine block_line h validReceiverOffset _ stringReceiverOffset _ parseReceiverOffset
    (by simp [length_rightJustify, length_mkString]) (by decide) (by decide) (fun _ _ => rfl)
    (fun _ => rfl) (fun g hb => ?_) (fun g hb => by simp only [gotReceiverOffset, sel_neg hb, Nat.or_zero])
  simp only [parseReceiverOffset, gotReceiverOffset, sel_pos hb]
  rw [int_field _ _ (hc hb)]

theorem block_leapSeconds (h : Rinex3ObsHeader)
    (hc : isSet h.valid validLeapSeconds = true → FitsInt 6 h.leapSeconds) :
    Block (whenSet h validLeapSeconds [intLine h.leapSeconds stringLeapSeconds])
      (gotLeapSeconds h) := by
  refine block_line h validLeapSeconds _ stringLeapSeconds _ parseLeapSeconds
    (by simp [length_rightJustify, length_mkString]) (by decide) (by decide) (fun _ _ => rfl)
    (fun _ => rfl) (fun g hb => ?_) (fun g hb => by simp only [gotLeapSeconds, sel_neg hb, Nat.or_zero])
  simp only [parseLeapSeconds, gotLeapSeconds, sel_pos hb]
  rw [int_field _ _ (hc hb)]

theorem block_numSats (h : Rinex3ObsHeader)
    (hc : isSet h.valid validNumSats = true → FitsInt 6 h.numSVs) :
    Block (whenSet h validNumSats [intLine h.numSVs stringNumSats]) (gotNumSats h) := by
  refine block_line h validNumSats _ stringNumSats _ parseNumSats
    (by simp [length_rightJustify, length_mkString]) (by decide) (by decide) (fun _ _ => rfl)
    (fun _ => rfl) (fun g hb => ?_) (fun g hb => by simp only [gotNumSats, sel_neg hb, Nat.or_zero])
  simp only [parseNumSats, gotNumSats, sel_pos hb]
  rw [int_field _ _ (hc hb)]


theorem strip_padded (s : Str) (a b : Nat) (hs : strip s = s) :
    strip (mkString a ' ' ++ s ++ mkString b ' ') = s := by
  unfold strip
  rw [List.append_assoc, stripLeading_append, stripLeading_blanks, if_pos rfl,
    stripLeading_append, stripLeading_of_strip_eq s hs]
  split_ifs with h1
  · rw [stripLeading_blanks, h1]; rfl
  · rw [stripTrailing_append_blanks, stripTrailing_of_strip_eq s hs]

theorem strip_rightJustify (s : Str) (n : Nat) (h : Canon n s) : strip (rightJustify s n) = s := by
  obtain ⟨hs, hl⟩ := h
  rw [rightJustify_of_le s n hl]
  have := strip_padded s (n - s.length) 0 hs
  simpa [mkString] using this

theorem strip_leftJustify_blanks (s : Str) (n k : Nat) (h : Canon n s) :
    strip (leftJustify s n ++ mkString k ' ') = s := by
  obtain ⟨hs, hl⟩ := h
  rw [leftJustify_of_le s n hl]
  have := strip_padded s 0 (n - s.length + k) hs
  have e : mkString (n - s.length + k) ' ' = mkString (n - s.length) ' ' ++ mkString k ' ' := by
    unfold mkString
    exact List.replicate_add _ _ _
  rw [e] at this
  simpa [mkString] using this

theorem block_antennaPhaseCtr (h : Rinex3ObsHeader)
    (hc : isSet h.valid validAntennaPhaseCtr = true →
      Canon 1 h.antennaSatSys ∧ Canon 3 h.antennaObsCode ∧ FitsFixed 4 9 h.antennaPhaseCtr.x ∧
      FitsFixed 4 14 h.antennaPhaseCtr.y ∧ FitsFixed 4 14 h.antennaPhaseCtr.z) :
    Block (whenSet h validAntennaPhaseCtr [phaseCtrLine h]) (gotAntennaPhaseCtr h) := by
  refine block_line h validAntennaPhaseCtr _ stringAntennaPhaseCtr _ parseAntennaPhaseCtr
    (by simp [length_leftJustify, length_rightJustify, length_mkString]) (by decide) (by decide)
    (fun _ _ => rfl) (fun _ => rfl) (fun g hb => ?_)
    (fun g hb => by simp only [gotAntennaPhaseCtr, sel_neg hb, Nat.or_zero])
  obtain ⟨c1, c2, c3, c4, c5⟩ := hc hb
  have l1 : (leftJustify h.antennaSatSys 1 ++ mkString 1 ' ').length = 2 := by
    simp [length_leftJustify, length_mkString]
  have e1 : substr (leftJustify h.antennaSatSys 1 ++ mkString 1 ' ' ++
      rightJustify h.antennaObsCode 3 ++
      rightJustify (asStringFixed h.antennaPhaseCtr.x 4) 9 ++
      rightJustify (asStringFixed h.antennaPhaseCtr.y 4) 14 ++
      rightJustify (asStringFixed h.antennaPhaseCtr.z 4) 14 ++ mkString 18 ' ' ++
      stringAntennaPhaseCtr) 0 2 = leftJustify h.antennaSatSys 1 ++ mkString 1 ' ' := by
    simpa [List.append_assoc] using substr_field []
      (leftJustify h.antennaSatSys 1 ++ mkString 1 ' ')
      (rightJustify h.antennaObsCode 3 ++
      rightJustify (asStringFixed h.antennaPhaseCtr.x 4) 9 ++
      rightJustify (asStringFixed h.antennaPhaseCtr.y 4) 14 ++
      rightJustify (asStringFixed h.antennaPhaseCtr.z 4) 14 ++ mkString 18 ' ' ++
      stringAntennaPhaseCtr) 0 2 rfl l1
  have e2 : substr (leftJustify h.antennaSatSys 1 ++ mkString 1 ' ' ++
      rightJustify h.antennaObsCode 3 ++
      rightJustify (asStringFixed h.antennaPhaseCtr.x 4) 9 ++
      rightJustify (asStringFixed h.antennaPhaseCtr.y 4) 14 ++
      rightJustify (asStringFixed h.antennaPhaseCtr.z 4) 14 ++ mkString 18 ' ' ++
      stringAntennaPhaseCtr) 2 3 = rightJustify h.antennaObsCode 3 := by
    simpa [List.append_assoc] using substr_field
      (leftJustify h.antennaSatSys 1 ++ mkString 1 ' ') (rightJustify h.antennaObsCode 3)
      (rightJustify (asStringFixed h.antennaPhaseCtr.x 4) 9 ++
      rightJustify (asStringFixed h.antennaPhaseCtr.y 4) 14 ++
      rightJustify (asStringFixed h.antennaPhaseCtr.z 4) 14 ++ mkString 18 ' ' ++
      stringAntennaPhaseCtr) 2 3 l1 (length_rightJustify _ _)
  have e3 : substr (leftJustify h.antennaSatSys 1 ++ mkString 1 ' ' ++
      rightJustify h.antennaObsCode 3 ++
      rightJustify (asStringFixed h.antennaPhaseCtr.x 4) 9 ++
      rightJustify (asStringFixed h.antennaPhaseCtr.y 4) 14 ++
      rightJustify (asStringFixed h.antennaPhaseCtr.z 4) 14 ++ mkString 18 ' ' ++
      stringAntennaPhaseCtr) 5 9 = rightJustify (asStringFixed h.antennaPhaseCtr.x 4) 9 := by
    simpa [List.append_assoc] using substr_field
      (leftJustify h.antennaSatSys 1 ++ mkString 1 ' ' ++ rightJustify h.antennaObsCode 3)
      (rightJustify (asStringFixed h.antennaPhaseCtr.x 4) 9)
      (rightJustify (asStringFixed h.antennaPhaseCtr.y 4) 14 ++
      rightJustify (asStringFixed h.antennaPhaseCtr.z 4) 14 ++ mkString 18 ' ' ++
      stringAntennaPhaseCtr) 5 9
      (by simp [length_leftJustify, length_rightJustify, length_mkString])
      (length_rightJustify _ _)
  have e4 : substr (leftJustify h.antennaSatSys 1 ++ mkString 1 ' ' ++
      rightJustify h.antennaObsCode 3 ++
      rightJustify (asStringFixed h.antennaPhaseCtr.x 4) 9 ++
      rightJustify (asStringFixed h.antennaPhaseCtr.y 4) 14 ++
      rightJustify (asStringFixed h.antennaPhaseCtr.z 4) 14 ++ mkString 18 ' ' ++
      stringAntennaPhaseCtr) 14 14 = rightJustify (asStringFixed h.antennaPhaseCtr.y 4) 14 := by
    simpa [List.append_assoc] using substr_field
      (leftJustify h.antennaSatSys 1 ++ mkString 1 ' ' ++ rightJustify h.antennaObsCode 3 ++
        rightJustify (asStringFixed h.antennaPhaseCtr.x 4) 9)
      (rightJustify (asStringFixed h.antennaPhaseCtr.y 4) 14)
      (rightJustify (asStringFixed h.antennaPhaseCtr.z 4) 14 ++ mkString 18 ' ' ++
      stringAntennaPhaseCtr) 14 14
      (by simp [length_leftJustify, length_rightJustify, length_mkString])
      (length_rightJustify _ _)
  have e5 : substr (leftJustify h.antennaSatSys 1 ++ mkString 1 ' ' ++
      rightJustify h.antennaObsCode 3 ++
      rightJustify (asStringFixed h.antennaPhaseCtr.x 4) 9 ++
      rightJustify (asStringFixed h.antennaPhaseCtr.y 4) 14 ++
      rightJustify (asStringFixed h.antennaPhaseCtr.z 4) 14 ++ mkString 18 ' ' ++
      stringAntennaPhaseCtr) 28 14 = rightJustify (asStringFixed h.antennaPhaseCtr.z 4) 14 := by
    simpa [List.append_assoc] using substr_field
      (leftJustify h.antennaSatSys 1 ++ mkString 1 ' ' ++ rightJustify h.antennaObsCode 3 ++
        rightJustify (asStringFixed h.antennaPhaseCtr.x 4) 9 ++
        rightJustify (asStringFixed h.antennaPhaseCtr.y 4) 14)
      (rightJustify (asStringFixed h.antennaPhaseCtr.z 4) 14)
      (mkString 18 ' ' ++ stringAntennaPhaseCtr) 28 14
      (by simp [length_leftJustify, length_rightJustify, length_mkString])
      (length_rightJustify _ _)
  simp only [parseAntennaPhaseCtr, gotAntennaPhaseCtr, sel_pos hb]
  rw [e1, e2, e3, e4, e5, strip_leftJustify_blanks _ _ _ c1, strip_rightJustify _ _ c2,
    asDouble_rightJustify _ 4 9 (by decide) c3, asDouble_rightJustify _ 4 14 (by decide) c4,
    asDouble_rightJustify _ 4 14 (by decide) c5]


theorem parseTime_timeLine (t : CivilTime) (label : Str) (ht : FitsTime t) :
    parseTime (timeLine t label) = t := by
  obtain ⟨⟨y1, y2⟩, ⟨m1, m2⟩, ⟨d1, d2⟩, ⟨h1, h2⟩, ⟨n1, n2⟩, hs, htag⟩ := ht
  obtain ⟨year, month, day, hour, minute, second, ⟨tag⟩⟩ := t
  simp only at y1 y2 m1 m2 d1 d2 h1 h2 n1 n2 hs htag
  unfold parseTime timeLine writeTime
  simp only [y1, m1, d1, h1, n1]
  have htagr : rightJustify tag 8 = mkString 5 ' ' ++ tag := by
    rw [rightJustify_of_le tag 8 (by omega), htag]
  rw [htagr]
  generalize hA : rightJustify (asStringInt year) 6 = A
  generalize hB : rightJustify (asStringInt month) 6 = B
  generalize hC : rightJustify (asStringInt day) 6 = C
  generalize hD : rightJustify (asStringInt hour) 6 = D
  generalize hE : rightJustify (asStringInt minute) 6 = E
  generalize hF : rightJustify (asStringFixed second 7) 13 = F
  have lA : A.length = 6 := by rw [← hA]; exact length_rightJustify _ _
  have lB : B.length = 6 := by rw [← hB]; exact length_rightJustify _ _
  have lC : C.length = 6 := by rw [← hC]; exact length_rightJustify _ _
  have lD : D.length = 6 := by rw [← hD]; exact length_rightJustify _ _
  have lE : E.length = 6 := by rw [← hE]; exact length_rightJustify _ _
  have lF : F.length = 13 := by rw [← hF]; exact length_rightJustify _ _
  generalize hR : mkString 9 ' ' = R
  generalize hP : mkString 5 ' ' = P
  have lP : P.length = 5 := by rw [← hP]; exact length_mkString _ _
  have e1 : substr (A ++ B ++ C ++ D ++ E ++ F ++ (P ++ tag) ++ R ++ label) 0 6 = A := by
    simpa [List.append_assoc] using
      substr_field [] A (B ++ C ++ D ++ E ++ F ++ (P ++ tag) ++ R ++ label) 0 6 rfl lA
  have e2 : substr (A ++ B ++ C ++ D ++ E ++ F ++ (P ++ tag) ++ R ++ label) 6 6 = B := by
    simpa [List.append_assoc] using
      substr_field A B (C ++ D ++ E ++ F ++ (P ++ tag) ++ R ++ label) 6 6 lA lB
  have e3 : substr (A ++ B ++ C ++ D ++ E ++ F ++ (P ++ tag) ++ R ++ label) 12 6 = C := by
    simpa [List.append_assoc] using
      substr_field (A ++ B) C (D ++ E ++ F ++ (P ++ tag) ++ R ++ label) 12 6
        (by simp [lA, lB]) lC
  have e4 : substr (A ++ B ++ C ++ D ++ E ++ F ++ (P ++ tag) ++ R ++ label) 18 6 = D := by
    simpa [List.append_assoc] using
      substr_field (A ++ B ++ C) D (E ++ F ++ (P ++ tag) ++ R ++ label) 18 6
        (by simp [lA, lB, lC]) lD
  have e5 : substr (A ++ B ++ C ++ D ++ E ++ F ++ (P ++ tag) ++ R ++ label) 24 6 = E := by
    simpa [List.append_assoc] using
      substr_field (A ++ B ++ C ++ D) E (F ++ (P ++ tag) ++ R ++ label) 24 6
        (by simp [lA, lB, lC, lD]) lE
  have e6 : substr (A ++ B ++ C ++ D ++ E ++ F ++ (P ++ tag) ++ R ++ label) 30 13 = F := by
    simpa [List.append_assoc] using
      substr_field (A ++ B ++ C ++ D ++ E) F ((P ++ tag) ++ R ++ label) 30 13
        (by simp [lA, lB, lC, lD, lE]) lF
  have e7 : substr (A ++ B ++ C ++ D ++ E ++ F ++ (P ++ tag) ++ R ++ label) 48 3 = tag := by
    simpa [List.append_assoc] using
      substr_field (A ++ B ++ C ++ D ++ E ++ F ++ P) tag (R ++ label) 48 3
        (by simp [lA, lB, lC, lD, lE, lF, lP]) htag
  rw [e1, e2, e3, e4, e5, e6, e7, ← hA, ← hB, ← hC, ← hD, ← hE, ← hF,
    asInt_rightJustify _ _ y2, asInt_rightJustify _ _ m2, asInt_rightJustify _ _ d2,
    asInt_rightJustify _ _ h2, asInt_rightJustify _ _ n2,
    asDouble_rightJustify _ 7 13 (by decide) hs]

theorem length_writeTime_pad (t : CivilTime) : (writeTime t ++ mkString 9 ' ').length = 60 := by
  simp [length_writeTime, length_mkString]

theorem block_firstTime (h : Rinex3ObsHeader)
    (hc : isSet h.valid validFirstTime = true → FitsTime h.firstObs) :
    Block (whenSet h validFirstTime [timeLine h.firstObs stringFirstTime]) (gotFirstTime h) := by
  refine block_line h validFirstTime (writeTime h.firstObs ++ mkString 9 ' ') stringFirstTime _
    parseFirstTime (length_writeTime_pad _) (by decide) (by decide) (fun _ _ => rfl)
    (fun _ => rfl) (fun g hb => ?_) (fun g hb => by simp only [gotFirstTime, sel_neg hb, Nat.or_zero])
  simp only [parseFirstTime, gotFirstTime, sel_pos hb]
  rw [show parseTime (writeTime _ ++ mkString 9 ' ' ++ _) = _ from
    parseTime_timeLine _ _ (hc hb)]

theorem block_lastTime (h : Rinex3ObsHeader)
    (hc : isSet h.valid validLastTime = true → FitsTime h.lastObs) :
    Block (whenSet h validLastTime [timeLine h.lastObs stringLastTime]) (gotLastTime h) := by
  refine block_line h validLastTime (writeTime h.lastObs ++ mkString 9 ' ') stringLastTime _
    parseLastTime (length_writeTime_pad _) (by decide) (by decide) (fun _ _ => rfl)
    (fun _ => rfl) (fun g hb => ?_) (fun g hb => by simp only [gotLastTime, sel_neg hb, Nat.or_zero])
  simp only [parseLastTime, gotLastTime, sel_pos hb]
  rw [show parseTime (writeTime _ ++ mkString 9 ' ' ++ _) = _ from
    parseTime_timeLine _ _ (hc hb)]


theorem feeds_list {α : Type} (line : α → Str) (step : α → Rinex3ObsHeader → Rinex3ObsHeader)
    (P : α → Prop)
    (hstep : ∀ a g, P a → Open g → readLine g (line a) = (step a g, none) ∧ Open (step a g)) :
    ∀ (l : List α) (g : Rinex3ObsHeader), (∀ a ∈ l, P a) → Open g →
      Feeds (l.map line) g (l.foldl (fun g a => step a g) g) ∧
        Open (l.foldl (fun g a => step a g) g) := by
  intro l
  induction l with
  | nil => intro g _ ho; exact ⟨Feeds.nil g, ho⟩
  | cons a l ih =>
    intro g hP ho
    obtain ⟨h1, h2⟩ := hstep a g (hP a (List.mem_cons_self _ _)) ho
    obtain ⟨h3, h4⟩ := ih (step a g) (fun b hb => hP b (List.mem_cons_of_mem _ hb)) h2
    exact ⟨Feeds.append (Feeds.single ho h1) h3, h4⟩

theorem block_list {α : Type} (h : Rinex3ObsHeader) (bit : Nat) (l : List α) (line : α → Str)
    (step : α → Rinex3ObsHeader → Rinex3ObsHeader) (P : α → Prop)
    (U : Rinex3ObsHeader → Rinex3ObsHeader)
    (hstep : ∀ a g, P a → Open g → readLine g (line a) = (step a g, none) ∧ Open (step a g))
    (hP : isSet h.valid bit = true → ∀ a ∈ l, P a)
    (hset : ∀ g, isSet h.valid bit = true → U g = l.foldl (fun g a => step a g) g)
    (hunset : ∀ g, ¬ isSet h.valid bit = true → U g = g) :
    Block (whenSet h bit (l.map line)) U := by
  intro g ho
  unfold whenSet
  split_ifs with hb
  · rw [hset g hb]
    exact feeds_list line step P hstep l g (hP hb) ho
  · rw [hunset g hb]
    exact ⟨Feeds.nil g, ho⟩

theorem open_or (g : Rinex3ObsHeader) (bit : Nat) (ho : Open g)
    (hbit : isSet bit validEoH = false) : isSet (g.valid ||| bit) validEoH = false := by
  rw [isSet_or, ho, hbit]; rfl

theorem lor_lor_self (a b : Nat) : a ||| b ||| b = a ||| b := by
  rw [Nat.or_assoc, Nat.or_self]

theorem foldl_comments (l : List Str) : ∀ g : Rinex3ObsHeader, l ≠ [] →
    l.foldl (fun g c => { g with
      commentList := g.commentList ++ [c], valid := g.valid ||| validComment }) g =
    { g with commentList := g.commentList ++ l, valid := g.valid ||| validComment } := by
  induction l with
  | nil => intro g hne; exact absurd rfl hne
  | cons c l ih =>
    intro g _
    cases l with
    | nil => rfl
    | cons d l =>
      rw [List.foldl_cons, ih _ (List.cons_ne_nil _ _)]
      simp only [lor_lor_self, List.append_assoc, List.singleton_append]

theorem block_comments (h : Rinex3ObsHeader)
    (hc : isSet h.valid validComment = true →
      h.commentList ≠ [] ∧ ∀ c ∈ h.commentList, Canon 60 c) :
    Block (whenSet h validComment (h.commentList.map commentLine)) (gotComments h) := by
  refine block_list h validComment h.commentList commentLine
    (fun c g => { g with
      commentList := g.commentList ++ [c], valid := g.valid ||| validComment })
    (Canon 60) _ (fun c g hcan ho => ⟨?_, open_or g _ ho (by decide)⟩) (fun hb => (hc hb).2)
    (fun g hb => ?_) (fun g hb => by simp only [gotComments, sel_neg hb, Nat.or_zero])
  · unfold commentLine
    rw [readLine_record g _ _ (length_leftJustify _ _) (by decide)]
    show parseComment g _ = _
    simp only [parseComment]
    rw [substr_zero_append _ _ _ (length_leftJustify _ _), strip_leftJustify _ _ hcan]
  · rw [foldl_comments _ _ (hc hb).1]
    simp only [gotComments, sel_pos hb]

theorem parseCorrInfo_corrInfoLine (label : Str) (c : Rinex3CorrInfo) (hc : FitsCorrInfo c) :
    parseCorrInfo (corrInfoLine label c) = c := by
  obtain ⟨c1, c2, c3⟩ := hc
  obtain ⟨satSys, name, source⟩ := c
  simp only at c1 c2 c3
  unfold parseCorrInfo corrInfoLine
  simp only
  generalize hA : leftJustify satSys 1 = A
  generalize hB : leftJustify name 17 = B
  generalize hC : leftJustify source 40 = C
  generalize hR : mkString 1 ' ' = R
  have lA : A.length = 1 := by rw [← hA]; exact length_leftJustify _ _
  have lB : B.length = 17 := by rw [← hB]; exact length_leftJustify _ _
  have lC : C.length = 40 := by rw [← hC]; exact length_leftJustify _ _
  have lR : R.length = 1 := by rw [← hR]; exact length_mkString _ _
  have e1 : substr (A ++ R ++ B ++ R ++ C ++ label) 0 1 = A := by
    simpa [List.append_assoc] using substr_field [] A (R ++ B ++ R ++ C ++ label) 0 1 rfl lA
  have e2 : substr (A ++ R ++ B ++ R ++ C ++ label) 2 17 = B := by
    simpa [List.append_assoc] using substr_field (A ++ R) B (R ++ C ++ label) 2 17
      (by simp [lA, lR]) lB
  have e3 : substr (A ++ R ++ B ++ R ++ C ++ label) 20 40 = C := by
    simpa [List.append_assoc] using substr_field (A ++ R ++ B ++ R) C label 20 40
      (by simp [lA, lR, lB]) lC
  rw [e1, e2, e3, ← hA, ← hB, ← hC, strip_leftJustify _ _ c1, strip_leftJustify _ _ c2,
    strip_leftJustify _ _ c3]

theorem length_corrInfoData (c : Rinex3CorrInfo) :
    (leftJustify c.satSys 1 ++ mkString 1 ' ' ++ leftJustify c.name 17 ++ mkString 1 ' ' ++
      leftJustify c.source 40).length = 60 := by
  simp [length_leftJustify, length_mkString]

theorem foldl_dcbs (l : List Rinex3CorrInfo) : ∀ g : Rinex3ObsHeader, l ≠ [] →
    l.foldl (fun g c => { g with
      infoDCBS := g.infoDCBS ++ [c], valid := g.valid ||| validSystemDCBSapplied }) g =
    { g with infoDCBS := g.infoDCBS ++ l, valid := g.valid ||| validSystemDCBSapplied } := by
  induction l with
  | nil => intro g hne; exact absurd rfl hne
  | cons c l ih =>
    intro g _
    cases l with
    | nil => rfl
    | cons d l =>
      rw [List.foldl_cons, ih _ (List.cons_ne_nil _ _)]
      simp only [lor_lor_self, List.append_assoc, List.singleton_append]

theorem foldl_pcvs (l : List Rinex3CorrInfo) : ∀ g : Rinex3ObsHeader, l ≠ [] →
    l.foldl (fun g c => { g with
      infoPCVS := g.infoPCVS ++ [c], valid := g.valid ||| validSystemPCVSapplied }) g =
    { g with infoPCVS := g.infoPCVS ++ l, valid := g.valid ||| validSystemPCVSapplied } := by
  induction l with
  | nil => intro g hne; exact absurd rfl hne
  | cons c l ih =>
    intro g _
    cases l with
    | nil => rfl
    | cons d l =>
      rw [List.foldl_cons, ih _ (List.cons_ne_nil _ _)]
      simp only [lor_lor_self, List.append_assoc, List.singleton_append]

theorem block_dcbs (h : Rinex3ObsHeader)
    (hc : isSet h.valid validSystemDCBSapplied = true →
      h.infoDCBS ≠ [] ∧ ∀ c ∈ h.infoDCBS, FitsCorrInfo c) :
    Block (whenSet h validSystemDCBSapplied
        (h.infoDCBS.map (corrInfoLine stringSystemDCBSapplied)))
      (gotSystemDCBSapplied h) := by
  refine block_list h validSystemDCBSapplied h.infoDCBS (corrInfoLine stringSystemDCBSapplied)
    (fun c g => { g with
      infoDCBS := g.infoDCBS ++ [c], valid := g.valid ||| validSystemDCBSapplied })
    FitsCorrInfo _ (fun c g hcan ho => ⟨?_, open_or g _ ho (by decide)⟩) (fun hb => (hc hb).2)
    (fun g hb => ?_) (fun g hb => by simp only [gotSystemDCBSapplied, sel_neg hb, Nat.or_zero])
  · have hp := parseCorrInfo_corrInfoLine stringSystemDCBSapplied c hcan
    unfold corrInfoLine at hp ⊢
    rw [readLine_record g _ _ (length_corrInfoData c) (by decide)]
    show parseSystemDCBSapplied g _ = _
    simp only [parseSystemDCBSapplied]
    rw [hp]
  · rw [foldl_dcbs _ _ (hc hb).1]
    simp only [gotSystemDCBSapplied, sel_pos hb]

theorem block_pcvs (h : Rinex3ObsHeader)
    (hc : isSet h.valid validSystemPCVSapplied = true →
      h.infoPCVS ≠ [] ∧ ∀ c ∈ h.infoPCVS, FitsCorrInfo c) :
    Block (whenSet h validSystemPCVSapplied
        (h.infoPCVS.map (corrInfoLine stringSystemPCVSapplied)))
      (gotSystemPCVSapplied h) := by
  refine block_list h validSystemPCVSapplied h.infoPCVS (corrInfoLine stringSystemPCVSapplied)
    (fun c g => { g with
      infoPCVS := g.infoPCVS ++ [c], valid := g.valid ||| validSystemPCVSapplied })
    FitsCorrInfo _ (fun c g hcan ho => ⟨?_, open_or g _ ho (by decide)⟩) (fun hb => (hc hb).2)
    (fun g hb => ?_) (fun g hb => by simp only [gotSystemPCVSapplied, sel_neg hb, Nat.or_zero])
  · have hp := parseCorrInfo_corrInfoLine stringSystemPCVSapplied c hcan
    unfold corrInfoLine at hp ⊢
    rw [readLine_record g _ _ (length_corrInfoData c) (by decide)]
    show parseSystemPCVSapplied g _ = _
    simp only [parseSystemPCVSapplied]
    rw [hp]
  · rw [foldl_pcvs _ _ (hc hb).1]
    simp only [gotSystemPCVSapplied, sel_pos hb]

theorem feeds_eoh (h g : Rinex3ObsHeader) (ho : Open g) :
    Feeds (whenSet h validEoH [eohLine]) g (gotEoH h g) := by
  refine feeds_whenSet h g _ _ _ ho (fun hb => ?_) (fun hb => by simp only [gotEoH, sel_neg hb, Nat.or_zero])
  unfold eohLine
  rw [readLine_record g _ _ (length_mkString _ _) (by decide)]
  show parseEoH g (mkString 60 ' ' ++ stringEoH) = _
  simp only [parseEoH, gotEoH, sel_pos hb]


theorem version_text_3 :
    asDouble (rightJustify (asStringFixed 3 2) 9 ++ mkString 11 ' ') = 3 := by
  rw [show rightJustify (asStringFixed 3 2) 9 = mkString 5 ' ' ++ "3.00".toList from by decide]
  exact asDouble_3_00 5 11

theorem canon_fileType : Canon 20 "OBSERVATION DATA".toList := ⟨by decide, by decide⟩

theorem systemText_eq (s : RinexSatID) : systemText s = systemText ⟨s.system, 0⟩ := rfl

theorem canon_systemText (s : RinexSatID) : Canon 20 (systemText s) := by
  rw [systemText_eq]
  generalize s.system = sys
  cases sys <;> exact ⟨by decide, by decide⟩

theorem fromString_systemText (s : RinexSatID) (hs : s.system ≠ .systemUnknown) :
    RinexSatID.fromString (systemText s) = .ok ⟨s.system, -1⟩ := by
  rw [systemText_eq]
  generalize s.system = sys at hs
  cases sys
  · rfl
  · rfl
  · rfl
  · rfl
  · rfl
  · exact absurd rfl hs

theorem firstChar_systemText (s : RinexSatID) (hs : s.system ≠ .systemUnknown) :
    ¬ (firstChar (systemText s) ≠ 'G' ∧ firstChar (systemText s) ≠ 'g' ∧
        firstChar (systemText s) ≠ 'R' ∧ firstChar (systemText s) ≠ 'r' ∧
        firstChar (systemText s) ≠ 'E' ∧ firstChar (systemText s) ≠ 'e' ∧
        firstChar (systemText s) ≠ 'S' ∧ firstChar (systemText s) ≠ 's' ∧
        firstChar (systemText s) ≠ 'M' ∧ firstChar (systemText s) ≠ 'm') := by
  rw [systemText_eq]
  generalize s.system = sys at hs
  cases sys
  · decide
  · decide
  · decide
  · decide
  · decide
  · exact absurd rfl hs

theorem parseVersion_ok (g : Rinex3ObsHeader) (line : Str) (sys : RinexSatID)
    (hsat : RinexSatID.fromString (strip (substr line 40 20)) = .ok sys)
    (hft : ¬ (firstChar (strip (substr line 20 20)) ≠ 'O' ∧
      firstChar (strip (substr line 20 20)) ≠ 'o'))
    (hss : ¬ (firstChar (strip (substr line 40 20)) ≠ 'G' ∧
        firstChar (strip (substr line 40 20)) ≠ 'g' ∧
        firstChar (strip (substr line 40 20)) ≠ 'R' ∧
        firstChar (strip (substr line 40 20)) ≠ 'r' ∧
        firstChar (strip (substr line 40 20)) ≠ 'E' ∧
        firstChar (strip (substr line 40 20)) ≠ 'e' ∧
        firstChar (strip (substr line 40 20)) ≠ 'S' ∧
        firstChar (strip (substr line 40 20)) ≠ 's' ∧
        firstChar (strip (substr line 40 20)) ≠ 'M' ∧
        firstChar (strip (substr line 40 20)) ≠ 'm')) :
    parseVersion g line = ({ g with
      version := asDouble (substr line 0 20)
      fileType := strip (substr line 20 20)
      satSys := strip (substr line 40 20)
      system := sys
      valid := g.valid ||| validVersion }, none) := by
  unfold parseVersion
  simp only [hsat]
  rw [if_neg hft, if_neg hss]

theorem block_version (h : Rinex3ObsHeader)
    (hc : isSet h.valid validVersion = true →
      h.version = 3 ∧ h.system.system ≠ .systemUnknown ∧ h.system.id = -1) :
    Block (whenSet h validVersion [versionLine h]) (gotVersion h) := by
  unfold versionLine
  refine block_line h validVersion (rightJustify (asStringFixed h.version 2) 9 ++
      mkString 11 ' ' ++ leftJustify "OBSERVATION DATA".toList 20 ++
      leftJustify (systemText h.system) 20) stringVersion (gotVersion h) parseVersion
    (by simp [length_leftJustify, length_rightJustify, length_mkString]) (by decide) (by decide)
    (fun _ _ => rfl) (fun _ => rfl) (fun g hb => ?_)
    (fun g hb => by simp only [gotVersion, sel_neg hb, Nat.or_zero])
  obtain ⟨hv, hs, hid⟩ := hc hb
  have hsys : (⟨h.system.system, -1⟩ : RinexSatID) = h.system := by
    rw [← hid]
  obtain ⟨e1, e2, e3⟩ := fields3 (rightJustify (asStringFixed h.version 2) 9 ++ mkString 11 ' ')
    (leftJustify "OBSERVATION DATA".toList 20) (leftJustify (systemText h.system) 20)
    stringVersion 20 20 20 (by rw [List.length_append, length_rightJustify, length_mkString])
    (length_leftJustify _ _) (length_leftJustify _ _)
  have e3 : substr (rightJustify (asStringFixed h.version 2) 9 ++ mkString 11 ' ' ++
      leftJustify "OBSERVATION DATA".toList 20 ++ leftJustify (systemText h.system) 20 ++
      stringVersion) 40 20 = leftJustify (systemText h.system) 20 := e3
  have f2 := strip_leftJustify _ _ canon_fileType
  have f3 := strip_leftJustify _ _ (canon_systemText h.system)
  rw [parseVersion_ok g _ ⟨h.system.system, -1⟩
    (by rw [e3, f3]; exact fromString_systemText _ hs)
    (by rw [e2, f2]; decide)
    (by rw [e3, f3]; exact firstChar_systemText _ hs)]
  rw [e1, e2, e3, f2, f3, hsys]
  simp only [gotVersion, sel_pos hb]
  rw [hv, version_text_3]


theorem parseSystemNumObs_first (g : Rinex3ObsHeader) (line : Str)
    (hne : strip (substr line 0 1) ≠ []) :
    parseSystemNumObs g line = ({ g with
      satSysTemp := strip (substr line 0 1)
      numObs := asInt (substr line 3 3)
      mapObsTypes := SMap.set g.mapObsTypes (strip (substr line 0 1))
        ((forIndices (fun i => decide ((i : Int) < asInt (substr line 3 3)) && decide (i < 13))
          13 0).map (fun i => ObsID.mk (strip (substr line 0 1) ++ substr line (4 * i + 6 + 1) 3)))
      satSysPrev := strip (substr line 0 1)
      numObsPrev := asInt (substr line 3 3)
      valid := g.valid ||| validSystemObsType }, none) := by
  unfold parseSystemNumObs
  simp only
  rw [if_neg hne]

theorem forIndices_range (n : Nat) (hn : n ≤ 13) :
    forIndices (fun i => decide ((i : Int) < (n : Int)) && decide (i < 13)) 13 0 =
      List.range n := by
  interval_cases n <;> decide

theorem fitsInt_count (n : Nat) (hn : n ≤ 13) : FitsInt 3 (n : Int) := by
  unfold FitsInt
  interval_cases n <;> decide

theorem asRinex3ID_of_text (o : ObsID) (sys code : Str) (hl : code.length = 3)
    (ht : o.text = sys ++ code) : o.asRinex3ID = code := by
  unfold ObsID.asRinex3ID
  rw [ht, List.length_append, hl, Nat.add_sub_cancel, List.drop_left]

theorem codes_read (sys : Str) (codes : List ObsID) :
    ∀ (pre post : Str) (p : Nat), pre.length = p →
      (∀ o ∈ codes, ∃ code : Str, code.length = 3 ∧ o.text = sys ++ code) →
      (List.range codes.length).map
        (fun i => ObsID.mk (sys ++ substr (pre ++ codesText codes ++ post) (4 * i + p + 1) 3)) =
      codes := by
  induction codes with
  | nil => intro pre post p _ _; rfl
  | cons o os ih =>
    intro pre post p hp hall
    obtain ⟨code, hl, ht⟩ := hall o (List.mem_cons_self _ _)
    have hid := asRinex3ID_of_text o sys code hl ht
    have hrj : rightJustify code 3 = code := by
      rw [rightJustify_of_le code 3 (by omega), hl]
      rfl
    have hline : pre ++ codesText (o :: os) ++ post =
        (pre ++ mkString 1 ' ' ++ code) ++ codesText os ++ post := by
      simp only [codesText, hid, hrj, List.append_assoc]
    rw [hline, List.length_cons, List.range_succ_eq_map, List.map_cons, List.map_map]
    congr 1
    · have := substr_field (pre ++ mkString 1 ' ') code (codesText os ++ post) (4 * 0 + p + 1) 3
        (by simp [hp, length_mkString]) hl
      simp only [← List.append_assoc] at this
      rw [this]
      obtain ⟨t⟩ := o
      simp only at ht
      rw [ht]
    · have := ih (pre ++ mkString 1 ' ' ++ code) post (p + 4)
        (by simp [hp, hl, length_mkString]) (fun o ho => hall o (List.mem_cons_of_mem _ ho))
      refine Eq.trans ?_ this
      apply List.map_congr_left
      intro i _
      simp only [Function.comp]
      rw [show 4 * Nat.succ i + p + 1 = 4 * i + (p + 4) + 1 by omega]

theorem strip_single (c : Char) (hc : c ≠ ' ') : strip [c] = [c] := by
  simp [strip, stripTrailing, stripLeading, hc]

theorem readLine_obsTypeLine (g : Rinex3ObsHeader) (e : Str × List ObsID) (he : FitsObsEntry e) :
    readLine g (obsTypeLine e) = (gotObsEntry e g, none) := by
  obtain ⟨hk1, hk2, hne, hlen, hcodes1⟩ := he
  obtain ⟨sys, codes⟩ := e
  simp only at hk1 hk2 hne hlen hcodes1
  obtain ⟨c, hk⟩ := List.length_eq_one.mp hk1
  subst hk
  have hcb : c ≠ ' ' := fun hc => hk2 (by rw [hc])
  have hcodes : ∀ o ∈ codes, ∃ code : Str, code.length = 3 ∧ o.text = [c] ++ code := by
    intro o ho
    obtain ⟨l4, t1⟩ := hcodes1 o ho
    refine ⟨o.text.drop 1, by rw [List.length_drop, l4], ?_⟩
    rw [← t1, List.take_append_drop]
  unfold obsTypeLine
  simp only
  have hcanon : Canon 1 [c] := ⟨strip_single c hcb, by simp⟩
  have hd : (leftJustify [c] 1 ++ mkString 2 ' ' ++ rightJustify (asStringInt codes.length) 3 ++
      codesText codes ++ mkString (60 - (6 + 4 * codes.length)) ' ').length = 60 := by
    simp only [List.length_append, length_leftJustify, length_mkString, length_rightJustify,
      length_codesText]
    omega
  rw [readLine_record g _ _ hd (by decide)]
  show parseSystemNumObs g _ = _
  generalize hpad : mkString (60 - (6 + 4 * codes.length)) ' ' = pad at hd ⊢
  have e1 : substr (leftJustify [c] 1 ++ mkString 2 ' ' ++
      rightJustify (asStringInt codes.length) 3 ++ codesText codes ++ pad ++
      stringSystemNumObs) 0 1 = leftJustify [c] 1 := by
    simpa [List.append_assoc] using substr_field [] (leftJustify [c] 1) (mkString 2 ' ' ++
      rightJustify (asStringInt codes.length) 3 ++ codesText codes ++ pad ++
      stringSystemNumObs) 0 1 rfl (length_leftJustify _ _)
  have e2 : substr (leftJustify [c] 1 ++ mkString 2 ' ' ++
      rightJustify (asStringInt codes.length) 3 ++ codesText codes ++ pad ++
      stringSystemNumObs) 3 3 = rightJustify (asStringInt codes.length) 3 := by
    simpa [List.append_assoc] using substr_field (leftJustify [c] 1 ++ mkString 2 ' ')
      (rightJustify (asStringInt codes.length) 3) (codesText codes ++ pad ++
      stringSystemNumObs) 3 3 (by simp [length_leftJustify, length_mkString])
      (length_rightJustify _ _)
  have f1 : strip (substr (leftJustify [c] 1 ++ mkString 2 ' ' ++
      rightJustify (asStringInt codes.length) 3 ++ codesText codes ++ pad ++
      stringSystemNumObs) 0 1) = [c] := by
    rw [e1, strip_leftJustify _ _ hcanon]
  have f2 : asInt (substr (leftJustify [c] 1 ++ mkString 2 ' ' ++
      rightJustify (asStringInt codes.length) 3 ++ codesText codes ++ pad ++
      stringSystemNumObs) 3 3) = (codes.length : Int) := by
    rw [e2, asInt_rightJustify _ _ (fitsInt_count _ hlen)]
  rw [parseSystemNumObs_first g _ (by rw [f1]; simp), f1, f2, forIndices_range _ hlen]
  have f4 := codes_read [c] codes (leftJustify [c] 1 ++ mkString 2 ' ' ++
      rightJustify (asStringInt codes.length) 3) (pad ++ stringSystemNumObs) 6
      (by simp [length_leftJustify, length_mkString, length_rightJustify]) hcodes
  simp only [← List.append_assoc] at f4
  rw [f4]
  rfl


theorem getLast_getD {β : Type} (f : (Str × List ObsID) → β) (d : Str × List ObsID)
    (m : List (Str × List ObsID)) (a : β) :
    (((d :: m).getLast?).map f).getD a = f ((d :: m).getLast (List.cons_ne_nil d m)) := by
  rw [List.getLast?_eq_getLast _ (List.cons_ne_nil d m)]
  rfl

theorem foldl_obs (m : List (Str × List ObsID)) : ∀ g : Rinex3ObsHeader, m ≠ [] →
    m.foldl (fun g e => gotObsEntry e g) g =
    { g with
      satSysTemp := (m.getLast?.map Prod.fst).getD g.satSysTemp
      numObs := (m.getLast?.map fun e => (e.2.length : Int)).getD g.numObs
      mapObsTypes := setAll g.mapObsTypes m
      satSysPrev := (m.getLast?.map Prod.fst).getD g.satSysPrev
      numObsPrev := (m.getLast?.map fun e => (e.2.length : Int)).getD g.numObsPrev
      valid := g.valid ||| validSystemObsType } := by
  induction m with
  | nil => intro g hne; exact absurd rfl hne
  | cons e m ih =>
    intro g _
    cases m with
    | nil => rfl
    | cons d m =>
      rw [List.foldl_cons, ih _ (List.cons_ne_nil _ _)]
      simp only [gotObsEntry, lor_lor_self]
      simp only [List.getLast?_cons_cons, getLast_getD]
      rfl

theorem block_systemObsType (h : Rinex3ObsHeader)
    (hc : isSet h.valid validSystemObsType = true →
      h.mapObsTypes ≠ [] ∧ ∀ e ∈ h.mapObsTypes, FitsObsEntry e) :
    Block (whenSet h validSystemObsType (h.mapObsTypes.map obsTypeLine))
      (gotSystemObsType h) := by
  refine block_list h validSystemObsType h.mapObsTypes obsTypeLine gotObsEntry FitsObsEntry _
    (fun e g he ho => ⟨readLine_obsTypeLine g e he, open_or g _ ho (by decide)⟩)
    (fun hb => (hc hb).2) (fun g hb => ?_)
    (fun g hb => by simp only [gotSystemObsType, sel_neg hb, Nat.or_zero])
  rw [foldl_obs _ _ (hc hb).1]
  simp only [gotSystemObsType, sel_pos hb]


/-! ## The map of observation types read back -/

theorem strLt_irrefl (a : Str) : strLt a a = false := by
  induction a with
  | nil => rfl
  | cons c cs ih => simp [strLt, ih]

theorem strLt_asymm (a : Str) : ∀ b, strLt a b = true → strLt b a = false := by
  induction a with
  | nil =>
    intro b h
    cases b with
    | nil => rfl
    | cons d ds => rfl
  | cons c cs ih =>
    intro b h
    cases b with
    | nil => simp [strLt] at h
    | cons d ds =>
      simp only [strLt] at h ⊢
      split_ifs at h with h1 h2
      · rw [if_neg (by omega), if_pos h1]
      · have := ih ds h
        rw [if_neg h2, if_neg h1, this]

theorem set_append (m : SMap Str (List ObsID)) (k : Str) (v : List ObsID)
    (hlt : ∀ p ∈ m, strLt p.1 k = true) : SMap.set m k v = m ++ [(k, v)] := by
  induction m with
  | nil => rfl
  | cons p m ih =>
    obtain ⟨k1, v1⟩ := p
    have h1 : strLt k1 k = true := hlt (k1, v1) (List.mem_cons_self _ _)
    have hne : ¬ k1 = k := by
      intro he
      rw [he, strLt_irrefl] at h1
      exact absurd h1 (by decide)
    have h2 : KeyOrder.lt k k1 = false := strLt_asymm k1 k h1
    unfold SMap.set
    rw [if_neg hne, h2, ih (fun p hp => hlt p (List.mem_cons_of_mem _ hp))]
    simp

theorem setAll_append (l : List (Str × List ObsID)) : ∀ m : SMap Str (List ObsID),
    (m ++ l).Pairwise (fun a b => strLt a.1 b.1 = true) → setAll m l = m ++ l := by
  induction l with
  | nil => intro m _; simp [setAll]
  | cons e l ih =>
    intro m hp
    have hm : ∀ p ∈ m, strLt p.1 e.1 = true := by
      intro p hpm
      exact (List.pairwise_append.mp hp).2.2 p hpm e (List.mem_cons_self _ _)
    have hstep : setAll m (e :: l) = setAll (SMap.set m e.1 e.2) l := rfl
    rw [hstep, set_append m e.1 e.2 hm]
    have hp2 : ((m ++ [(e.1, e.2)]) ++ l).Pairwise (fun a b => strLt a.1 b.1 = true) := by
      simpa using hp
    rw [ih _ hp2]
    simp

/-! ## The flags read back -/

theorem isSet_two_pow (v k : Nat) : isSet v (2 ^ k) = v.testBit k := by
  unfold isSet
  by_cases ht : v.testBit k = true
  · rw [ht]
    have h1 : (v &&& 2 ^ k).testBit k = true := by
      rw [Nat.testBit_and, ht, Nat.testBit_two_pow]
      simp
    have h2 : v &&& 2 ^ k ≠ 0 := by
      intro h0
      rw [h0, Nat.zero_testBit] at h1
      exact absurd h1 (by decide)
    simpa using h2
  · have hf : v.testBit k = false := by simpa using ht
    rw [hf]
    have h0 : v &&& 2 ^ k = 0 := by
      apply Nat.eq_of_testBit_eq
      intro i
      rw [Nat.testBit_and, Nat.testBit_two_pow, Nat.zero_testBit]
      by_cases hki : k = i
      · subst hki
        rw [hf]; rfl
      · simp [hki]
    rw [h0]
    rfl

theorem sel_flag (h : Rinex3ObsHeader) (v k : Nat) :
    sel h (2 ^ k) (v ||| 2 ^ k) v = v ||| (if h.valid.testBit k = true then 2 ^ k else 0) := by
  unfold sel
  rw [isSet_two_pow]
  split_ifs
  · rfl
  · simp

theorem testBit_flag (c : Prop) [Decidable c] (k i : Nat) :
    (if c then 2 ^ k else 0).testBit i = (decide c && decide (k = i)) := by
  split_ifs with hc
  · simp [Nat.testBit_two_pow, hc]
  · simp [hc]


/-! ## The decoder on all the lines of the encoder -/

theorem feeds_blocks (Ls : List (List Str)) (Us : List (Rinex3ObsHeader → Rinex3ObsHeader))
    (hf : List.Forall₂ Block Ls Us) :
    ∀ g, Open g → Feeds Ls.flatten g (applySteps Us g) ∧ Open (applySteps Us g) := by
  induction hf with
  | nil => intro g ho; exact ⟨Feeds.nil g, ho⟩
  | @cons L U Ls1 Us1 hb _ ih =>
    intro g ho
    obtain ⟨h1, h2⟩ := hb g ho
    obtain ⟨h3, h4⟩ := ih (U g) h2
    exact ⟨by rw [List.flatten_cons]; exact Feeds.append h1 h3, h4⟩

theorem required_set (h : Rinex3ObsHeader) (hreq : h.valid &&& allValid30 = allValid30)
    (k : Nat) (hk : k ∈ requiredKinds30) : isSet h.valid (2 ^ k) = true := by
  rw [isSet_two_pow]
  exact (land_eq_iff_kinds h.valid allValid30 requiredKinds30 allValid30_testBit).mp hreq k hk

theorem blocks_decode (curDate : Str) (h : Rinex3ObsHeader) (hr : Representable h) :
    List.Forall₂ Block (encodedBlocks curDate h).dropLast (decodeSteps curDate h) := by
  obtain ⟨hsf, hps, hgl, hprn⟩ := hr.noMultiLine
  refine .cons (block_version h fun _ => ⟨hr.version, hr.accepted.2, hr.systemOnly⟩) <|
    .cons (block_runBy curDate h fun _ => hr.runBy) <|
    .cons (block_comments h hr.comments) <|
    .cons (block_markerName h fun _ => hr.markerName) <|
    .cons (block_markerNumber h hr.markerNumber) <|
    .cons (block_markerType h hr.markerType) <|
    .cons (block_observer h fun _ => hr.observer) <|
    .cons (block_receiver h fun _ => hr.receiver) <|
    .cons (block_antennaType h fun _ => hr.antennaType) <|
    .cons (block_antennaPosition h fun _ => hr.antennaPosition) <|
    .cons (block_antennaDeltaHEN h fun _ => hr.antennaDeltaHEN) <|
    .cons (block_antennaDeltaXYZ h hr.antennaDeltaXYZ) <|
    .cons (block_antennaPhaseCtr h hr.antennaPhaseCtr) <|
    .cons (block_antennaBsightXYZ h hr.antennaBsightXYZ) <|
    .cons (block_id h _ _ hr.noZeroDirAzi) <|
    .cons (block_id h _ _ hr.noZeroDirXYZ) <|
    .cons (block_centerOfMass h hr.centerOfMass) <|
    .cons (block_systemObsType h fun _ => ⟨hr.obsTypes.1, hr.obsTypes.2.1⟩) <|
    .cons (block_sigStrengthUnit h hr.sigStrengthUnit) <|
    .cons (block_interval h hr.interval) <|
    .cons (block_firstTime h fun _ => hr.firstObs) <|
    .cons (block_lastTime h hr.lastObs) <|
    .cons (block_receiverOffset h hr.receiverOffset) <|
    .cons (block_dcbs h hr.infoDCBS) <|
    .cons (block_pcvs h hr.infoPCVS) <|
    .cons block_nil <| .cons block_nil <| .cons block_nil <|
    .cons (block_leapSeconds h hr.leapSeconds) <|
    .cons (block_numSats h hr.numSVs) <|
    .cons block_nil <| .nil

theorem encodedBlocks_flatten (curDate : Str) (h : Rinex3ObsHeader) :
    (encodedBlocks curDate h).flatten =
      (encodedBlocks curDate h).dropLast.flatten ++ whenSet h validEoH [eohLine] := by
  simp [encodedBlocks, List.dropLast]

theorem open_clear (hdr : Rinex3ObsHeader) : Open hdr.clear := by
  show isSet 0 validEoH = false
  decide

/-- The decoding loop reads all the lines written for a representable header
and leaves the header object `decoded`. -/
theorem feeds_encoded (curDate : Str) (h hdr : Rinex3ObsHeader) (hr : Representable h) :
    Feeds (encodedBlocks curDate h).flatten hdr.clear (decoded curDate h hdr.clear) := by
  obtain ⟨h1, h2⟩ := feeds_blocks _ _ (blocks_decode curDate h hr) hdr.clear (open_clear hdr)
  rw [encodedBlocks_flatten]
  exact Feeds.append h1 (feeds_eoh h _ h2)


theorem sel_bit (h : Rinex3ObsHeader) (k : Nat) :
    sel h (2 ^ k) (2 ^ k) 0 = if h.valid.testBit k = true then 2 ^ k else 0 := by
  unfold sel
  rw [isSet_two_pow]

theorem testBit_of_unset (v bit k : Nat) (hbit : bit = 2 ^ k) (h : isSet v bit = false) :
    v.testBit k = false := by
  rw [← isSet_two_pow, ← hbit]
  exact h

theorem decoded_valid (curDate : Str) (h hdr : Rinex3ObsHeader) (hr : Representable h) :
    (decoded curDate h hdr.clear).valid = h.valid := by
  have e : (decoded curDate h hdr.clear).valid =
      0 ||| sel h (2 ^ 0) (2 ^ 0) 0 ||| sel h (2 ^ 1) (2 ^ 1) 0 ||| sel h (2 ^ 2) (2 ^ 2) 0 |||
      sel h (2 ^ 3) (2 ^ 3) 0 ||| sel h (2 ^ 4) (2 ^ 4) 0 ||| sel h (2 ^ 5) (2 ^ 5) 0 |||
      sel h (2 ^ 6) (2 ^ 6) 0 ||| sel h (2 ^ 7) (2 ^ 7) 0 ||| sel h (2 ^ 8) (2 ^ 8) 0 |||
      sel h (2 ^ 9) (2 ^ 9) 0 ||| sel h (2 ^ 10) (2 ^ 10) 0 ||| sel h (2 ^ 11) (2 ^ 11) 0 |||
      sel h (2 ^ 12) (2 ^ 12) 0 ||| sel h (2 ^ 13) (2 ^ 13) 0 ||| sel h (2 ^ 16) (2 ^ 16) 0 |||
      sel h (2 ^ 17) (2 ^ 17) 0 ||| sel h (2 ^ 18) (2 ^ 18) 0 ||| sel h (2 ^ 19) (2 ^ 19) 0 |||
      sel h (2 ^ 20) (2 ^ 20) 0 ||| sel h (2 ^ 21) (2 ^ 21) 0 ||| sel h (2 ^ 22) (2 ^ 22) 0 |||
      sel h (2 ^ 23) (2 ^ 23) 0 ||| sel h (2 ^ 24) (2 ^ 24) 0 ||| sel h (2 ^ 28) (2 ^ 28) 0 |||
      sel h (2 ^ 29) (2 ^ 29) 0 ||| sel h (2 ^ 31) (2 ^ 31) 0 := rfl
  obtain ⟨hsf, hps, hgl, hprn⟩ := hr.noMultiLine
  have u14 := testBit_of_unset h.valid _ 14 rfl hr.noZeroDirAzi
  have u15 := testBit_of_unset h.valid _ 15 rfl hr.noZeroDirXYZ
  have u25 := testBit_of_unset h.valid _ 25 rfl hsf
  have u26 := testBit_of_unset h.valid _ 26 rfl hps
  have u27 := testBit_of_unset h.valid _ 27 rfl hgl
  have u30 := testBit_of_unset h.valid _ 30 rfl hprn
  rw [e]
  apply Nat.eq_of_testBit_eq
  intro i
  simp only [Nat.testBit_or, sel_bit, testBit_flag, Nat.zero_testBit]
  by_cases hi : i < 32
  · interval_cases i <;> simp [u14, u15, u25, u26, u27, u30]
  · have hne : ∀ k, k < 32 → decide (k = i) = false := by
      intro k hk
      simp only [decide_eq_false_iff_not]
      omega
    have hv : h.valid.testBit i = false := by
      apply Nat.testBit_eq_false_of_lt
      calc h.valid < 2 ^ 32 := hr.flagsInRange
        _ ≤ 2 ^ i := Nat.pow_le_pow_right (by decide) (by omega)
    rw [hv]
    simp [hne]

theorem setAll_sorted (m : List (Str × List ObsID))
    (hp : m.Pairwise (fun a b => strLt a.1 b.1 = true)) : setAll [] m = m := by
  have := setAll_append m [] (by simpa using hp)
  simpa using this

theorem decoded_readsBack (curDate : Str) (h hdr : Rinex3ObsHeader) (hr : Representable h) :
    ReadsBack curDate h (decoded curDate h hdr.clear) := by
  have req : ∀ k, k ∈ requiredKinds30 → isSet h.valid (2 ^ k) = true :=
    required_set h hr.required
  have r0 : isSet h.valid validVersion = true := req 0 (by decide)
  have r1 : isSet h.valid validRunBy = true := req 1 (by decide)
  have r3 : isSet h.valid validMarkerName = true := req 3 (by decide)
  have r6 : isSet h.valid validObserver = true := req 6 (by decide)
  have r7 : isSet h.valid validReceiver = true := req 7 (by decide)
  have r8 : isSet h.valid validAntennaType = true := req 8 (by decide)
  have r9 : isSet h.valid validAntennaPosition = true := req 9 (by decide)
  have r10 : isSet h.valid validAntennaDeltaHEN = true := req 10 (by decide)
  have r17 : isSet h.valid validSystemObsType = true := req 17 (by decide)
  have r20 : isSet h.valid validFirstTime = true := req 20 (by decide)
  exact {
    valid := decoded_valid curDate h hdr hr
    version := sel_pos r0 _ _
    fileType := sel_pos r0 _ _
    satSys := sel_pos r0 _ _
    system := sel_pos r0 _ _
    fileProgram := sel_pos r1 _ _
    fileAgency := sel_pos r1 _ _
    date := sel_pos r1 _ _
    commentList := fun hb => sel_pos hb _ _
    markerName := sel_pos r3 _ _
    markerNumber := fun hb => sel_pos hb _ _
    markerType := fun hb => sel_pos hb _ _
    observer := sel_pos r6 _ _
    agency := sel_pos r6 _ _
    recNo := sel_pos r7 _ _
    recType := sel_pos r7 _ _
    recVers := sel_pos r7 _ _
    antNo := sel_pos r8 _ _
    antType := sel_pos r8 _ _
    antennaPosition := sel_pos r9 _ _
    antennaDeltaHEN := sel_pos r10 _ _
    antennaDeltaXYZ := fun hb => sel_pos hb _ _
    antennaPhaseCtr := fun hb => ⟨sel_pos hb _ _, sel_pos hb _ _, sel_pos hb _ _⟩
    antennaBsightXYZ := fun hb => sel_pos hb _ _
    centerOfMass := fun hb => sel_pos hb _ _
    mapObsTypes := (sel_pos r17 _ _).trans (setAll_sorted _ hr.obsTypes.2.2)
    obsTypeList := rfl
    sigStrengthUnit := fun hb => sel_pos hb _ _
    interval := fun hb => sel_pos hb _ _
    firstObs := sel_pos r20 _ _
    lastObs := fun hb => sel_pos hb _ _
    receiverOffset := fun hb => sel_pos hb _ _
    infoDCBS := fun hb => sel_pos hb _ _
    infoPCVS := fun hb => sel_pos hb _ _
    leapSeconds := fun hb => sel_pos hb _ _
    numSVs := fun hb => sel_pos hb _ _ }


theorem reallyPutRecord_representable (curDate : Str) (h : Rinex3ObsHeader)
    (hr : Representable h) :
    (reallyPutRecord curDate h emptyStream).2 = none ∧
    (reallyPutRecord curDate h emptyStream).1.output = (encodedBlocks curDate h).flatten := by
  obtain ⟨w1, w2⟩ := WriteHeaderRecords_lines curDate h hr.accepted hr.noMultiLine
    (fun e he => ⟨(hr.obsTypes.2.1 e he).2.2.1, (hr.obsTypes.2.1 e he).2.2.2.1⟩)
  unfold reallyPutRecord
  simp only [if_pos hr.version, hr.required, ne_eq, not_true_eq_false, if_false]
  exact ⟨w1, by rw [w2]; rfl⟩

theorem decoded_closed (curDate : Str) (h hdr : Rinex3ObsHeader) (hr : Representable h) :
    isSet (decoded curDate h hdr.clear).valid validEoH = true := by
  rw [decoded_valid curDate h hdr hr]
  exact required_set h hr.required 31 (by decide)

theorem getLoop_encoded (curDate : Str) (h hdr : Rinex3ObsHeader) (hr : Representable h)
    (n : Nat) :
    getLoop (encodedBlocks curDate h).flatten hdr.clear n =
      ((decoded curDate h hdr.clear, [], n + (encodedBlocks curDate h).flatten.length), none) := by
  have hf := feeds_encoded curDate h hdr hr [] n
  rw [List.append_nil] at hf
  rw [hf]
  unfold getLoop
  rw [if_pos (decoded_closed curDate h hdr hr)]


/-! ## The round trip -/

/-- The lines written for a representable header decode without an exception
to a header object that holds the records of the header. -/
theorem round_trip_representable (curDate : Str) (h hdr : Rinex3ObsHeader)
    (hr : Representable h) :
    (reallyPutRecord curDate h emptyStream).2 = none ∧
    ∃ g : GetState,
      reallyGetRecord hdr (streamOf (reallyPutRecord curDate h emptyStream).1.output) =
        (g, none) ∧
      g.strm.headerRead = true ∧ g.strm.input = [] ∧ ReadsBack curDate h g.hdr := by
  obtain ⟨p1, p2⟩ := reallyPutRecord_representable curDate h hr
  refine ⟨p1, ?_⟩
  rw [p2]
  have hloop := getLoop_encoded curDate h hdr hr 0
  have hrb := decoded_readsBack curDate h hdr hr
  have hver : (decoded curDate h hdr.clear).version = 3 := hrb.version.trans hr.version
  have hval : (decoded curDate h hdr.clear).valid &&& allValid30 = allValid30 := by
    rw [hrb.valid]; exact hr.required
  refine ⟨⟨decoded curDate h hdr.clear,
    { streamOf (encodedBlocks curDate h).flatten with
      input := []
      lineNumber := 0 + (encodedBlocks curDate h).flatten.length
      header := decoded curDate h hdr.clear
      headerRead := true }⟩, ?_, rfl, rfl, hrb⟩
  unfold reallyGetRecord
  have hread : (streamOf (encodedBlocks curDate h).flatten).headerRead = false := rfl
  have hin : (streamOf (encodedBlocks curDate h).flatten).input =
    (encodedBlocks curDate h).flatten := rfl
  have hn : (streamOf (encodedBlocks curDate h).flatten).lineNumber = 0 := rfl
  simp only [hread, hin, hn, hloop, hver, hval, Bool.false_eq_true, if_false, if_true, ne_eq,
    not_true_eq_false]


set_option maxRecDepth 100000 in
theorem sampleHeader_representable : Representable sampleHeader where
  version := rfl
  required := by decide
  flagsInRange := by decide
  noZeroDirAzi := by decide
  noZeroDirXYZ := by decide
  noMultiLine := by decide
  accepted := by decide
  systemOnly := rfl
  runBy := by decide
  comments := fun hb => absurd hb (by decide)
  markerName := by decide
  markerNumber := fun hb => absurd hb (by decide)
  markerType := fun hb => absurd hb (by decide)
  observer := by decide
  receiver := by decide
  antennaType := by decide
  antennaPosition := by decide
  antennaDeltaHEN := by decide
  antennaDeltaXYZ := fun hb => absurd hb (by decide)
  antennaPhaseCtr := fun hb => absurd hb (by decide)
  antennaBsightXYZ := fun hb => absurd hb (by decide)
  centerOfMass := fun hb => absurd hb (by decide)
  obsTypes := by decide
  sigStrengthUnit := fun hb => absurd hb (by decide)
  interval := fun hb => absurd hb (by decide)
  firstObs := by decide
  lastObs := fun hb => absurd hb (by decide)
  receiverOffset := fun hb => absurd hb (by decide)
  infoDCBS := fun hb => absurd hb (by decide)
  infoPCVS := fun hb => absurd hb (by decide)
  leapSeconds := fun hb => absurd hb (by decide)
  numSVs := fun hb => absurd hb (by decide)

set_option maxRecDepth 100000 in
theorem phaseShiftHeader_fails :
    (reallyPutRecord sampleDate phaseShiftHeader emptyStream).2 = none ∧
    (reallyGetRecord Rinex3ObsHeader.empty
      (streamOf (reallyPutRecord sampleDate phaseShiftHeader emptyStream).1.output)).2 =
      some (.FFStreamError "SYS / PHASE SHIFT: unexpected continuation line".toList) := by
  decide


/-- C1 (counterexample): the sample header has version 3.0 and every required
flag, and its file type is "O"; encoding it and decoding the written lines
succeeds, but the file type of the decoded header differs from the one of the
header that was encoded. The header `phaseShiftHeader` has version 3.01 and
every flag required by 3.01; encoding it succeeds and decoding the written
lines throws, because the SYS / PHASE SHIFTS line is written with a blank in
its first column and is read as a continuation line. -/
theorem C1_counterexample_file_type_lost_and_3_01_fails :
    (sampleHeader.version = 3 ∧ sampleHeader.valid &&& allValid30 = allValid30 ∧
      (reallyPutRecord sampleDate sampleHeader emptyStream).2 = none ∧
      ∃ g : GetState,
        reallyGetRecord Rinex3ObsHeader.empty
          (streamOf (reallyPutRecord sampleDate sampleHeader emptyStream).1.output) = (g, none) ∧
        g.hdr.fileType ≠ sampleHeader.fileType) ∧
    (phaseShiftHeader.version = mkRat 301 100 ∧
      phaseShiftHeader.valid &&& allValid301 = allValid301 ∧
      (reallyPutRecord sampleDate phaseShiftHeader emptyStream).2 = none ∧
      (reallyGetRecord Rinex3ObsHeader.empty
        (streamOf (reallyPutRecord sampleDate phaseShiftHeader emptyStream).1.output)).2 =
        some (.FFStreamError "SYS / PHASE SHIFT: unexpected continuation line".toList)) := by
  obtain ⟨hput, g, hg, _, _, hrb⟩ :=
    round_trip_representable sampleDate sampleHeader Rinex3ObsHeader.empty
      sampleHeader_representable
  refine ⟨⟨rfl, by decide, hput, g, hg, ?_⟩, rfl, by decide, phaseShiftHeader_fails⟩
  rw [hrb.fileType]
  decide

/-- C1 (amended): for every header of version 3.0 that is representable
(every record required by version 3.0 is flagged; no flag is set for the
records ANTENNA: ZERODIR AZI, ANTENNA: ZERODIR XYZ, SYS / SCALE FACTOR,
SYS / PHASE SHIFTS, GLONASS SLOT / FRQ # and PRN / # OF OBS; the file type
begins with O; the system is a known one without a slot number; each value of
a flagged record fits the columns of its field; each flagged list has an
entry; the map of observation types has ascending one-letter keys with 1 to
13 codes each), `reallyPutRecord` writes the header without an exception, and
`reallyGetRecord` decodes the written lines without an exception, consumes
all of them, and leaves a header object with the same validity flags and the
same values of all flagged records, the comments, the corrections and the map
of observation types in the same order. The file type is read back as
"OBSERVATION DATA", the system text as the letter with the name of the
system, the date as the date of writing, and `obsTypeList` is left empty. -/
theorem C1_round_trip_of_representable_header (curDate : Str) (h hdr : Rinex3ObsHeader)
    (hr : Representable h) :
    (reallyPutRecord curDate h emptyStream).2 = none ∧
    ∃ g : GetState,
      reallyGetRecord hdr (streamOf (reallyPutRecord curDate h emptyStream).1.output) =
        (g, none) ∧
      g.strm.headerRead = true ∧ g.strm.input = [] ∧ ReadsBack curDate h g.hdr :=
  round_trip_representable curDate h hdr hr

theorem C1_witness :
    Representable sampleHeader ∧
    (reallyPutRecord sampleDate sampleHeader emptyStream).2 = none ∧
    ∃ g : GetState,
      reallyGetRecord Rinex3ObsHeader.empty
        (streamOf (reallyPutRecord sampleDate sampleHeader emptyStream).1.output) = (g, none) ∧
      g.strm.headerRead = true ∧ g.strm.input = [] ∧ ReadsBack sampleDate sampleHeader g.hdr :=
  ⟨sampleHeader_representable,
    C1_round_trip_of_representable_header sampleDate sampleHeader Rinex3ObsHeader.empty
      sampleHeader_representable⟩


/-! ## The lines after END OF HEADER -/

theorem length_substr (s : Str) (pos n : Nat) : (substr s pos n).length = min n (s.length - pos) := by
  simp [substr]

theorem readLine_eoh (g : Rinex3ObsHeader) (raw : Str) (h : lineLabel raw = stringEoH) :
    readLine g raw = ({ g with valid := g.valid ||| validEoH }, none) := by
  unfold lineLabel at h
  have hl := congrArg List.length h
  rw [length_substr] at hl
  have h13 : stringEoH.length = 13 := by decide
  rw [h13] at hl
  have hlen : (stripTrailing raw).length = 73 := by omega
  unfold readLine
  simp only [hlen]
  rw [if_neg (by decide), if_neg (by decide), ParseHeaderRecord_of_le _ _ (by omega), h]
  rfl

theorem getLoop_closed (L : List Str) (g : Rinex3ObsHeader) (n : Nat)
    (hc : isSet g.valid validEoH = true) : getLoop L g n = ((g, L, n), none) := by
  cases L with
  | nil => unfold getLoop; rw [if_pos hc]
  | cons a L => unfold getLoop; rw [if_pos hc]

theorem isSet_eoh_or (v : Nat) : isSet (v ||| validEoH) validEoH = true := by
  rw [isSet_or]
  have : isSet validEoH validEoH = true := by decide
  rw [this, Bool.or_true]

theorem getLoop_after_eoh (eoh : Str) (post : List Str) (heoh : lineLabel eoh = stringEoH)
    (pre : List Str) : ∀ (g : Rinex3ObsHeader) (n : Nat),
    getLoop (pre ++ eoh :: post) g n =
      (((getLoop (pre ++ [eoh]) g n).1.1, (getLoop (pre ++ [eoh]) g n).1.2.1 ++ post,
        (getLoop (pre ++ [eoh]) g n).1.2.2), (getLoop (pre ++ [eoh]) g n).2) := by
  induction pre with
  | nil =>
    intro g n
    simp only [List.nil_append]
    by_cases hc : isSet g.valid validEoH = true
    · rw [getLoop_closed _ g n hc, getLoop_closed _ g n hc]
      rfl
    · unfold getLoop
      rw [if_neg hc, if_neg hc, readLine_eoh g eoh heoh]
      simp only
      rw [getLoop_closed _ _ _ (isSet_eoh_or _), getLoop_closed _ _ _ (isSet_eoh_or _)]
      rfl
  | cons raw pre ih =>
    intro g n
    simp only [List.cons_append]
    by_cases hc : isSet g.valid validEoH = true
    · rw [getLoop_closed _ g n hc, getLoop_closed _ g n hc]
      simp
    · unfold getLoop
      rw [if_neg hc, if_neg hc]
      rcases hr : readLine g raw with ⟨g1, _ | e⟩
      · simp only
        exact ih g1 (n + 1)
      · simp

/-- The outcome of `reallyGetRecord` does not depend on the lines that follow
an END OF HEADER line, which stay in the stream. -/
theorem reallyGetRecord_after_eoh (hdr : Rinex3ObsHeader) (strm : Rinex3ObsStream)
    (pre post : List Str) (eoh : Str) (heoh : lineLabel eoh = stringEoH) :
    (reallyGetRecord hdr { strm with input := pre ++ eoh :: post }).1.hdr =
      (reallyGetRecord hdr { strm with input := pre ++ [eoh] }).1.hdr ∧
    (reallyGetRecord hdr { strm with input := pre ++ eoh :: post }).2 =
      (reallyGetRecord hdr { strm with input := pre ++ [eoh] }).2 ∧
    (reallyGetRecord hdr { strm with input := pre ++ eoh :: post }).1.strm.input =
      (reallyGetRecord hdr { strm with input := pre ++ [eoh] }).1.strm.input ++ post ∧
    (reallyGetRecord hdr { strm with input := pre ++ eoh :: post }).1.strm.lineNumber =
      (reallyGetRecord hdr { strm with input := pre ++ [eoh] }).1.strm.lineNumber ∧
    (reallyGetRecord hdr { strm with input := pre ++ eoh :: post }).1.strm.headerRead =
      (reallyGetRecord hdr { strm with input := pre ++ [eoh] }).1.strm.headerRead ∧
    (reallyGetRecord hdr { strm with input := pre ++ eoh :: post }).1.strm.header =
      (reallyGetRecord hdr { strm with input := pre ++ [eoh] }).1.strm.header := by
  unfold reallyGetRecord
  by_cases hread : strm.headerRead = true
  · simp [hread]
  · simp only [hread, if_false]
    rw [getLoop_after_eoh eoh post heoh pre]
    generalize getLoop (pre ++ [eoh]) hdr.clear strm.lineNumber = r
    obtain ⟨⟨h1, rest, n1⟩, e⟩ := r
    cases e with
    | some e => simp
    | none =>
      simp only
      split_ifs <;> simp

/-- C11: for every stream whose input holds an END OF HEADER line `eoh` (a line
whose label field, after the trailing blanks are stripped, is END OF HEADER),
in particular the first one, `reallyGetRecord` gives the same header object
and the same outcome (success, or the same exception) whatever lines `post`
follow that line, and the lines `post` stay in the stream behind whatever the
call leaves unread; the line counter, the header copy and the flag of the
stream are the same as well. -/
theorem C11_lines_after_end_of_header_not_read (hdr : Rinex3ObsHeader) (strm : Rinex3ObsStream)
    (pre post : List Str) (eoh : Str) (heoh : lineLabel eoh = stringEoH) :
    (reallyGetRecord hdr { strm with input := pre ++ eoh :: post }).1.hdr =
      (reallyGetRecord hdr { strm with input := pre ++ [eoh] }).1.hdr ∧
    (reallyGetRecord hdr { strm with input := pre ++ eoh :: post }).2 =
      (reallyGetRecord hdr { strm with input := pre ++ [eoh] }).2 ∧
    (reallyGetRecord hdr { strm with input := pre ++ eoh :: post }).1.strm.input =
      (reallyGetRecord hdr { strm with input := pre ++ [eoh] }).1.strm.input ++ post ∧
    (reallyGetRecord hdr { strm with input := pre ++ eoh :: post }).1.strm.lineNumber =
      (reallyGetRecord hdr { strm with input := pre ++ [eoh] }).1.strm.lineNumber ∧
    (reallyGetRecord hdr { strm with input := pre ++ eoh :: post }).1.strm.headerRead =
      (reallyGetRecord hdr { strm with input := pre ++ [eoh] }).1.strm.headerRead ∧
    (reallyGetRecord hdr { strm with input := pre ++ eoh :: post }).1.strm.header =
      (reallyGetRecord hdr { strm with input := pre ++ [eoh] }).1.strm.header :=
  reallyGetRecord_after_eoh hdr strm pre post eoh heoh

set_option maxRecDepth 100000 in
theorem C11_witness :
    lineLabel eohLine = stringEoH ∧
    (reallyGetRecord Rinex3ObsHeader.empty { emptyStream with
        input := (sampleLines "3.00".toList).dropLast ++ eohLine :: ["> 2011 06 06".toList] }).1.hdr =
      (reallyGetRecord Rinex3ObsHeader.empty { emptyStream with
        input := (sampleLines "3.00".toList).dropLast ++ [eohLine] }).1.hdr ∧
    (reallyGetRecord Rinex3ObsHeader.empty { emptyStream with
        input := (sampleLines "3.00".toList).dropLast ++ eohLine :: ["> 2011 06 06".toList] }).2 =
      none ∧
    (reallyGetRecord Rinex3ObsHeader.empty { emptyStream with
        input := (sampleLines "3.00".toList).dropLast ++ eohLine ::
          ["> 2011 06 06".toList] }).1.strm.input = ["> 2011 06 06".toList] := by
  have h := C11_lines_after_end_of_header_not_read Rinex3ObsHeader.empty emptyStream
    (sampleLines "3.00".toList).dropLast ["> 2011 06 06".toList] eohLine (by decide)
  refine ⟨by decide, h.1, ?_, ?_⟩
  · rw [h.2.1]; decide
  · rw [h.2.2.1]; decide


/-! ## The RINEX VERSION / TYPE record -/

theorem fromString_ok_of_letter (s : Str)
    (h : firstChar s = 'G' ∨ firstChar s = 'g' ∨ firstChar s = 'R' ∨
      firstChar s = 'r' ∨ firstChar s = 'E' ∨ firstChar s = 'e' ∨
      firstChar s = 'S' ∨ firstChar s = 's' ∨ firstChar s = 'M' ∨ firstChar s = 'm') :
    ∃ sys, RinexSatID.fromString s = .ok sys := by
  cases s with
  | nil =>
    exfalso
    revert h
    decide
  | cons c cs =>
    have hc : firstChar (c :: cs) = c := rfl
    rw [hc] at h
    rcases h with h | h | h | h | h | h | h | h | h | h <;> subst h <;> exact ⟨_, rfl⟩

theorem parseVersion_fields (g : Rinex3ObsHeader) (line : Str) :
    (parseVersion g line).1.version = asDouble (substr line 0 20) ∧
    (parseVersion g line).1.fileType = strip (substr line 20 20) ∧
    (parseVersion g line).1.satSys = strip (substr line 40 20) := by
  unfold parseVersion
  simp only
  cases RinexSatID.fromString (strip (substr line 40 20)) with
  | error e => exact ⟨rfl, rfl, rfl⟩
  | ok sys =>
    simp only
    split_ifs <;> exact ⟨rfl, rfl, rfl⟩

theorem parseVersion_accepts (g : Rinex3ObsHeader) (line : Str)
    (h : VersionTextsAccepted (strip (substr line 20 20)) (strip (substr line 40 20))) :
    (parseVersion g line).2 = none ∧
    (parseVersion g line).1.valid = g.valid ||| validVersion := by
  obtain ⟨hf, hs⟩ := h
  obtain ⟨sys, hsys⟩ := fromString_ok_of_letter _ hs
  rw [parseVersion_ok g line sys hsys (by tauto) (by tauto)]
  exact ⟨rfl, rfl⟩

theorem parseVersion_rejects (g : Rinex3ObsHeader) (line : Str)
    (h : ¬ VersionTextsAccepted (strip (substr line 20 20)) (strip (substr line 40 20))) :
    (∃ e, (parseVersion g line).2 = some e) ∧ (parseVersion g line).1.valid = g.valid := by
  unfold parseVersion
  simp only
  cases RinexSatID.fromString (strip (substr line 40 20)) with
  | error e => exact ⟨⟨e, rfl⟩, rfl⟩
  | ok sys =>
    simp only
    split_ifs with h1 h2
    · exact ⟨⟨_, rfl⟩, rfl⟩
    · exact ⟨⟨_, rfl⟩, rfl⟩
    · exfalso
      apply h
      unfold VersionTextsAccepted
      constructor
      · by_contra hc
        exact h1 ⟨fun a => hc (Or.inl a), fun a => hc (Or.inr a)⟩
      · by_contra hc
        apply h2
        refine ⟨?_, ?_, ?_, ?_, ?_, ?_, ?_, ?_, ?_, ?_⟩ <;> intro a <;> apply hc <;> simp [a]

/-- C12: for every line whose label field is RINEX VERSION / TYPE,
`ParseHeaderRecord` takes the version from the 20 columns at 0, the file type
from the 20 columns at 20 and the system text from the 20 columns at 40 (the
two texts without the blanks at their ends); it returns without an exception
exactly when the file type begins with O or o and the system text begins with
one of G, R, E, S, M in either case, and then the version flag is set;
otherwise it throws and the validity flags are as before the call. -/
theorem C12_version_record_accepted_iff_texts_accepted (g : Rinex3ObsHeader) (line : Str)
    (hlabel : substr line 60 20 = stringVersion) :
    (ParseHeaderRecord g line).1.version = asDouble (substr line 0 20) ∧
    (ParseHeaderRecord g line).1.fileType = strip (substr line 20 20) ∧
    (ParseHeaderRecord g line).1.satSys = strip (substr line 40 20) ∧
    ((ParseHeaderRecord g line).2 = none ↔
      VersionTextsAccepted (strip (substr line 20 20)) (strip (substr line 40 20))) ∧
    ((ParseHeaderRecord g line).2 = none →
      (ParseHeaderRecord g line).1.valid = g.valid ||| validVersion ∧
      isSet (ParseHeaderRecord g line).1.valid validVersion = true) ∧
    ((ParseHeaderRecord g line).2 ≠ none → (ParseHeaderRecord g line).1.valid = g.valid) := by
  have hp : ParseHeaderRecord g line = parseVersion g line := by
    rw [ParseHeaderRecord_label g line _ hlabel (by decide)]
    rfl
  rw [hp]
  obtain ⟨f1, f2, f3⟩ := parseVersion_fields g line
  refine ⟨f1, f2, f3, ?_, ?_, ?_⟩
  · constructor
    · intro hn
      by_contra hc
      obtain ⟨⟨e, he⟩, _⟩ := parseVersion_rejects g line hc
      rw [he] at hn
      cases hn
    · intro ha
      exact (parseVersion_accepts g line ha).1
  · intro hn
    have ha : VersionTextsAccepted (strip (substr line 20 20)) (strip (substr line 40 20)) := by
      by_contra hc
      obtain ⟨⟨e, he⟩, _⟩ := parseVersion_rejects g line hc
      rw [he] at hn
      cases hn
    have hv := (parseVersion_accepts g line ha).2
    refine ⟨hv, ?_⟩
    rw [hv, isSet_or]
    have : isSet validVersion validVersion = true := by decide
    rw [this, Bool.or_true]
  · intro hn
    have ha : ¬ VersionTextsAccepted (strip (substr line 20 20)) (strip (substr line 40 20)) := by
      intro ha
      exact hn (parseVersion_accepts g line ha).1
    exact (parseVersion_rejects g line ha).2

set_option maxRecDepth 100000 in
theorem C12_witness :
    substr ((sampleLines "3.00".toList).headD []) 60 20 = stringVersion ∧
    (ParseHeaderRecord Rinex3ObsHeader.empty ((sampleLines "3.00".toList).headD [])).1.fileType =
      "OBSERVATION DATA".toList ∧
    (ParseHeaderRecord Rinex3ObsHeader.empty ((sampleLines "3.00".toList).headD [])).2 = none ∧
    isSet (ParseHeaderRecord Rinex3ObsHeader.empty
      ((sampleLines "3.00".toList).headD [])).1.valid validVersion = true := by
  have h := C12_version_record_accepted_iff_texts_accepted Rinex3ObsHeader.empty
    ((sampleLines "3.00".toList).headD []) (by decide)
  have hn := h.2.2.2.1.mpr (by decide)
  exact ⟨by decide, h.2.1.trans (by decide), hn, (h.2.2.2.2.1 hn).2⟩

/-! ## The literal scenario of the version line -/

/-- C13 (counterexample): the line worded by the spec has 98 characters, its
label starts at column 78, and columns 20-39 hold "SERVATION DATA    G "; the
decoding loop rejects it for its length, and `ParseHeaderRecord` alone finds no
known label in columns 60-79. -/
theorem C13_counterexample_literal_line_rejected :
    literalScenarioLine.length = 98 ∧
    (readLine Rinex3ObsHeader.empty literalScenarioLine).2 =
      some (.FFStreamError "Invalid line length".toList) ∧
    (ParseHeaderRecord Rinex3ObsHeader.empty literalScenarioLine).2 =
      some (.FFStreamError ("Unidentified label: ".toList ++ mkString 18 ' ' ++ "RI".toList)) ∧
    strip (substr literalScenarioLine 20 20) = "SERVATION DATA    G".toList := by
  decide

/-- C13 (amended): the line that holds "3.00" in columns 3-6, "OBSERVATION
DATA" from column 20, "G (GPS)" from column 40 and the label RINEX VERSION /
TYPE from column 60 is accepted by the decoding loop, whatever the header
object held before, and decodes to version 3.0, file type "OBSERVATION DATA",
system text "G (GPS)" with the letter G, and system GPS; the version flag is
set. -/
theorem C13_column_line_decodes (g : Rinex3ObsHeader) :
    columnScenarioLine.length = 80 ∧
    (readLine g columnScenarioLine).2 = none ∧
    (readLine g columnScenarioLine).1.version = 3 ∧
    (readLine g columnScenarioLine).1.fileType = "OBSERVATION DATA".toList ∧
    (readLine g columnScenarioLine).1.satSys = "G (GPS)".toList ∧
    firstChar (readLine g columnScenarioLine).1.satSys = 'G' ∧
    (readLine g columnScenarioLine).1.system = ⟨.systemGPS, -1⟩ ∧
    (readLine g columnScenarioLine).1.valid = g.valid ||| validVersion := by
  have hr : readLine g columnScenarioLine = parseVersion g columnScenarioLine :=
    readLine_record g ("   3.00".toList ++ mkString 13 ' ' ++ "OBSERVATION DATA".toList ++
      mkString 4 ' ' ++ "G (GPS)".toList ++ mkString 13 ' ') stringVersion (by decide) (by decide)
  have e2 : strip (substr columnScenarioLine 20 20) = "OBSERVATION DATA".toList := by decide
  have e3 : strip (substr columnScenarioLine 40 20) = "G (GPS)".toList := by decide
  have e1 : asDouble (substr columnScenarioLine 0 20) = 3 := by
    rw [show substr columnScenarioLine 0 20 = mkString 3 ' ' ++ "3.00".toList ++ mkString 13 ' '
      from by decide]
    exact asDouble_3_00 3 13
  have hp := parseVersion_ok g columnScenarioLine ⟨.systemGPS, -1⟩
    (by rw [e3]; rfl) (by rw [e2]; decide) (by rw [e3]; decide)
  rw [hr, hp]
  exact ⟨by decide, rfl, e1, e2, e3, by rw [show ({ g with
      version := asDouble (substr columnScenarioLine 0 20)
      fileType := strip (substr columnScenarioLine 20 20)
      satSys := strip (substr columnScenarioLine 40 20)
      system := ⟨.systemGPS, -1⟩
      valid := g.valid ||| validVersion } : Rinex3ObsHeader).satSys =
        strip (substr columnScenarioLine 40 20) from rfl, e3]; decide, rfl, rfl⟩


/-! ## The time field codec -/

theorem natDigits_length (fuel : Nat) : ∀ n k, n < 10 ^ (k + 1) →
    (natDigits fuel n).length ≤ k + 1 := by
  induction fuel with
  | zero => intro n k _; simp [natDigits]
  | succ f ih =>
    intro n k hn
    unfold natDigits
    split_ifs with h10
    · simp
    · cases k with
      | zero => simp at hn; omega
      | succ k =>
        have : n / 10 < 10 ^ (k + 1) := by
          rw [Nat.div_lt_iff_lt_mul (by decide)]
          rw [Nat.pow_succ] at hn
          exact hn
        have := ih (n / 10) k this
        simp
        omega

theorem fitsInt_of_short (x : Int) (h : toShort x = x) : FitsInt 6 x := by
  unfold toShort at h
  have hb : -32768 ≤ x ∧ x < 32768 := by omega
  unfold FitsInt asStringInt
  have hn : x.natAbs < 10 ^ (4 + 1) := by
    have : x.natAbs ≤ 32768 := by omega
    calc x.natAbs ≤ 32768 := this
      _ < 10 ^ (4 + 1) := by decide
  have hl := natDigits_length (x.natAbs + 1) x.natAbs 4 hn
  split_ifs
  · simp only [List.length_cons]
    unfold natToStr
    omega
  · unfold natToStr
    omega

theorem parseTime_prefix (w rest : Str) (hw : 51 ≤ w.length) :
    parseTime (w ++ rest) = parseTime w := by
  unfold parseTime
  rw [substr_append_left w rest 0 6 (by omega), substr_append_left w rest 6 6 (by omega),
    substr_append_left w rest 12 6 (by omega), substr_append_left w rest 18 6 (by omega),
    substr_append_left w rest 24 6 (by omega), substr_append_left w rest 30 13 (by omega),
    substr_append_left w rest 48 3 (by omega)]

theorem parseTime_writeTime (t : CivilTime) (ht : FitsTime t) : parseTime (writeTime t) = t := by
  have h := parseTime_timeLine t [] ht
  unfold timeLine at h
  rw [List.append_assoc, parseTime_prefix _ _ (by rw [length_writeTime])] at h
  exact h

/-- C19 (counterexample): the epoch with the year 100000 meets the conditions
of the claim (each integer fits 6 columns, the seconds have one decimal and
fit 13 columns, the tag has 3 characters), and the year read back from the
written text is -31072. -/
theorem C19_counterexample_year_beyond_short :
    (FitsInt 6 wideYearTime.year ∧ FitsInt 6 wideYearTime.month ∧ FitsInt 6 wideYearTime.day ∧
      FitsInt 6 wideYearTime.hour ∧ FitsInt 6 wideYearTime.minute ∧
      FitsFixed 7 13 wideYearTime.second ∧ wideYearTime.timeSystem.tag.length = 3) ∧
    (parseTime (writeTime wideYearTime)).year = -31072 ∧
    parseTime (writeTime wideYearTime) ≠ wideYearTime := by
  decide

/-- C19 (amended): for every civil time whose year, month, day, hour and
minute are in the range of `short` (-32768 to 32767), whose seconds are a
multiple of 10^-7 and fit 13 columns, and whose time-system tag has 3
characters, `writeTime` gives a text of 51 columns made of the five integers
right-justified in 6 columns each, the seconds with 7 decimals right-justified
in 13 columns and the tag right-justified in 8 columns, and `parseTime` reads
the same civil time back from it. -/
theorem C19_time_round_trip_in_short_range (t : CivilTime)
    (hy : toShort t.year = t.year) (hmo : toShort t.month = t.month)
    (hd : toShort t.day = t.day) (hh : toShort t.hour = t.hour)
    (hmi : toShort t.minute = t.minute) (hs : FitsFixed 7 13 t.second)
    (htag : t.timeSystem.tag.length = 3) :
    (writeTime t).length = 51 ∧
    writeTime t =
      rightJustify (asStringInt t.year) 6 ++ rightJustify (asStringInt t.month) 6 ++
      rightJustify (asStringInt t.day) 6 ++ rightJustify (asStringInt t.hour) 6 ++
      rightJustify (asStringInt t.minute) 6 ++ rightJustify (asStringFixed t.second 7) 13 ++
      rightJustify t.timeSystem.tag 8 ∧
    parseTime (writeTime t) = t := by
  refine ⟨length_writeTime t, ?_, parseTime_writeTime t
    ⟨⟨hy, fitsInt_of_short _ hy⟩, ⟨hmo, fitsInt_of_short _ hmo⟩, ⟨hd, fitsInt_of_short _ hd⟩,
      ⟨hh, fitsInt_of_short _ hh⟩, ⟨hmi, fitsInt_of_short _ hmi⟩, hs, htag⟩⟩
  unfold writeTime
  rw [hy, hmo, hd, hh, hmi]

theorem C19_witness :
    (toShort sampleHeader.firstObs.year = sampleHeader.firstObs.year ∧
      FitsFixed 7 13 sampleHeader.firstObs.second ∧
      sampleHeader.firstObs.timeSystem.tag.length = 3) ∧
    (writeTime sampleHeader.firstObs).length = 51 ∧
    parseTime (writeTime sampleHeader.firstObs) = sampleHeader.firstObs := by
  have h := C19_time_round_trip_in_short_range sampleHeader.firstObs (by decide) (by decide)
    (by decide) (by decide) (by decide) (by decide) (by decide)
  exact ⟨by decide, h.1, h.2.2⟩


/-! ## The fixed-width text records -/

theorem ParseHeaderRecord_record (g : Rinex3ObsHeader) (data label : Str)
    (hd : data.length = 60) (hl : label.length ≤ 20) :
    ParseHeaderRecord g (data ++ label) = parseLabelled g (data ++ label) label := by
  rw [ParseHeaderRecord_of_le _ _ (by rw [List.length_append]; omega),
    substr_append_right data label 60 20 (by omega), hd, Nat.sub_self, substr_all label 20 hl]

theorem putSimple_set (bit : Nat) (text : Str) (h : Rinex3ObsHeader)
    (hb : isSet h.valid bit = true) (s : PutState) :
    putSimple bit text h s = (putLine s text, none) := by
  unfold putSimple
  rw [if_pos hb]

theorem parse_markerName_line (g : Rinex3ObsHeader) (t : Str) (hc : Canon 60 t) :
    ParseHeaderRecord g (leftJustify t 60 ++ stringMarkerName) =
      ({ g with markerName := t, valid := g.valid ||| validMarkerName }, none) := by
  rw [ParseHeaderRecord_record g _ _ (length_leftJustify _ _) (by decide)]
  show parseMarkerName g _ = _
  simp only [parseMarkerName]
  rw [substr_zero_append _ _ _ (length_leftJustify _ _), strip_leftJustify _ _ hc]

theorem parse_markerNumber_line (g : Rinex3ObsHeader) (t : Str) (hc : Canon 20 t) :
    ParseHeaderRecord g (text20Line t stringMarkerNumber) =
      ({ g with markerNumber := t, valid := g.valid ||| validMarkerNumber }, none) := by
  unfold text20Line
  rw [ParseHeaderRecord_record g _ _ (by simp [length_leftJustify, length_mkString])
    (by decide)]
  show parseMarkerNumber g _ = _
  simp only [parseMarkerNumber]
  rw [text20_field _ _ hc]

theorem parse_markerType_line (g : Rinex3ObsHeader) (t : Str) (hc : Canon 20 t) :
    ParseHeaderRecord g (text20Line t stringMarkerType) =
      ({ g with markerType := t, valid := g.valid ||| validMarkerType }, none) := by
  unfold text20Line
  rw [ParseHeaderRecord_record g _ _ (by simp [length_leftJustify, length_mkString])
    (by decide)]
  show parseMarkerType g _ = _
  simp only [parseMarkerType]
  rw [text20_field _ _ hc]

theorem parse_sigStrengthUnit_line (g : Rinex3ObsHeader) (t : Str) (hc : Canon 20 t) :
    ParseHeaderRecord g (text20Line t stringSigStrengthUnit) =
      ({ g with sigStrengthUnit := t, valid := g.valid ||| validSigStrengthUnit }, none) := by
  unfold text20Line
  rw [ParseHeaderRecord_record g _ _ (by simp [length_leftJustify, length_mkString])
    (by decide)]
  show parseSigStrengthUnit g _ = _
  simp only [parseSigStrengthUnit]
  rw [text20_field _ _ hc]

theorem parse_observer_line (g h : Rinex3ObsHeader) (c1 : Canon 20 h.observer)
    (c2 : Canon 40 h.agency) :
    ParseHeaderRecord g (observerLine h) =
      ({ g with observer := h.observer, agency := h.agency,
                valid := g.valid ||| validObserver }, none) := by
  unfold observerLine
  rw [ParseHeaderRecord_record g _ _ (by simp [length_leftJustify]) (by decide)]
  show parseObserver g _ = _
  obtain ⟨e1, e2⟩ := fields2 (leftJustify h.observer 20) (leftJustify h.agency 40)
    stringObserver 20 40 (length_leftJustify _ _) (length_leftJustify _ _)
  simp only [parseObserver]
  rw [e1, e2, strip_leftJustify _ _ c1, strip_leftJustify _ _ c2]

theorem parse_receiver_line (g h : Rinex3ObsHeader) (c1 : Canon 20 h.recNo)
    (c2 : Canon 20 h.recType) (c3 : Canon 20 h.recVers) :
    ParseHeaderRecord g (receiverLine h) =
      ({ g with recNo := h.recNo, recType := h.recType, recVers := h.recVers,
                valid := g.valid ||| validReceiver }, none) := by
  unfold receiverLine
  rw [ParseHeaderRecord_record g _ _ (by simp [length_leftJustify]) (by decide)]
  show parseReceiver g _ = _
  obtain ⟨e1, e2, e3⟩ := fields3 (leftJustify h.recNo 20) (leftJustify h.recType 20)
    (leftJustify h.recVers 20) stringReceiver 20 20 20 (length_leftJustify _ _)
    (length_leftJustify _ _) (length_leftJustify _ _)
  simp only [parseReceiver]
  rw [e1, e2, show substr _ 40 20 = _ from e3, strip_leftJustify _ _ c1,
    strip_leftJustify _ _ c2, strip_leftJustify _ _ c3]

theorem parse_antennaType_line (g h : Rinex3ObsHeader) (c1 : Canon 20 h.antNo)
    (c2 : Canon 20 h.antType) :
    ParseHeaderRecord g (antennaTypeLine h) =
      ({ g with antNo := h.antNo, antType := h.antType,
                valid := g.valid ||| validAntennaType }, none) := by
  unfold antennaTypeLine
  rw [ParseHeaderRecord_record g _ _ (by simp [length_leftJustify, length_mkString])
    (by decide)]
  show parseAntennaType g _ = _
  obtain ⟨e1, e2, -⟩ := fields3 (leftJustify h.antNo 20) (leftJustify h.antType 20)
    (mkString 20 ' ') stringAntennaType 20 20 20 (length_leftJustify _ _)
    (length_leftJustify _ _) (length_mkString _ _)
  simp only [parseAntennaType]
  rw [e1, e2, strip_leftJustify _ _ c1, strip_leftJustify _ _ c2]

/-- C20: for each of the records MARKER NAME, MARKER NUMBER, MARKER TYPE,
OBSERVER / AGENCY, REC # / TYPE / VERS, ANT # / TYPE and SIGNAL STRENGTH UNIT,
when each text of the record has no blank at either end and is no longer than
its field (60 columns for the marker name, 40 for the agency, 20 for the
others), the block of `WriteHeaderRecords` for that record writes, when the
flag is set, one line, and `ParseHeaderRecord` on that line returns without an
exception, stores the same texts and sets the flag of that record, leaving
everything else in the header object as it was. -/
theorem C20_text_records_read_back (curDate : Str) (h g : Rinex3ObsHeader) :
    (Canon 60 h.markerName →
      WrittenAndReadBack curDate h g 3 validMarkerName
        (leftJustify h.markerName 60 ++ stringMarkerName)
        { g with markerName := h.markerName, valid := g.valid ||| validMarkerName }) ∧
    (Canon 20 h.markerNumber →
      WrittenAndReadBack curDate h g 4 validMarkerNumber
        (leftJustify h.markerNumber 20 ++ mkString 40 ' ' ++ stringMarkerNumber)
        { g with markerNumber := h.markerNumber, valid := g.valid ||| validMarkerNumber }) ∧
    (Canon 20 h.markerType →
      WrittenAndReadBack curDate h g 5 validMarkerType
        (leftJustify h.markerType 20 ++ mkString 40 ' ' ++ stringMarkerType)
        { g with markerType := h.markerType, valid := g.valid ||| validMarkerType }) ∧
    (Canon 20 h.observer ∧ Canon 40 h.agency →
      WrittenAndReadBack curDate h g 6 validObserver
        (leftJustify h.observer 20 ++ leftJustify h.agency 40 ++ stringObserver)
        { g with observer := h.observer, agency := h.agency,
                 valid := g.valid ||| validObserver }) ∧
    (Canon 20 h.recNo ∧ Canon 20 h.recType ∧ Canon 20 h.recVers →
      WrittenAndReadBack curDate h g 7 validReceiver
        (leftJustify h.recNo 20 ++ leftJustify h.recType 20 ++ leftJustify h.recVers 20 ++
          stringReceiver)
        { g with recNo := h.recNo, recType := h.recType, recVers := h.recVers,
                 valid := g.valid ||| validReceiver }) ∧
    (Canon 20 h.antNo ∧ Canon 20 h.antType →
      WrittenAndReadBack curDate h g 8 validAntennaType
        (leftJustify h.antNo 20 ++ leftJustify h.antType 20 ++ mkString 20 ' ' ++
          stringAntennaType)
        { g with antNo := h.antNo, antType := h.antType,
                 valid := g.valid ||| validAntennaType }) ∧
    (Canon 20 h.sigStrengthUnit →
      WrittenAndReadBack curDate h g 18 validSigStrengthUnit
        (leftJustify h.sigStrengthUnit 20 ++ mkString 40 ' ' ++ stringSigStrengthUnit)
        { g with sigStrengthUnit := h.sigStrengthUnit,
                 valid := g.valid ||| validSigStrengthUnit }) := by
  refine ⟨fun c => ⟨⟨_, rfl, fun hb s => putSimple_set _ _ h hb s⟩, parse_markerName_line g _ c⟩,
    fun c => ⟨⟨_, rfl, fun hb s => putSimple_set _ _ h hb s⟩, parse_markerNumber_line g _ c⟩,
    fun c => ⟨⟨_, rfl, fun hb s => putSimple_set _ _ h hb s⟩, parse_markerType_line g _ c⟩,
    fun c => ⟨⟨_, rfl, fun hb s => putSimple_set _ _ h hb s⟩, parse_observer_line g h c.1 c.2⟩,
    fun c => ⟨⟨_, rfl, fun hb s => putSimple_set _ _ h hb s⟩,
      parse_receiver_line g h c.1 c.2.1 c.2.2⟩,
    fun c => ⟨⟨_, rfl, fun hb s => putSimple_set _ _ h hb s⟩,
      parse_antennaType_line g h c.1 c.2⟩,
    fun c => ⟨⟨_, rfl, fun hb s => putSimple_set _ _ h hb s⟩,
      parse_sigStrengthUnit_line g _ c⟩⟩

theorem C20_witness :
    (Canon 60 textRecordsHeader.markerName ∧ Canon 20 textRecordsHeader.markerNumber ∧
      Canon 20 textRecordsHeader.markerType ∧
      (Canon 20 textRecordsHeader.observer ∧ Canon 40 textRecordsHeader.agency) ∧
      (Canon 20 textRecordsHeader.recNo ∧ Canon 20 textRecordsHeader.recType ∧
        Canon 20 textRecordsHeader.recVers) ∧
      (Canon 20 textRecordsHeader.antNo ∧ Canon 20 textRecordsHeader.antType) ∧
      Canon 20 textRecordsHeader.sigStrengthUnit) ∧
    WrittenAndReadBack sampleDate textRecordsHeader Rinex3ObsHeader.empty 3 validMarkerName
      (leftJustify textRecordsHeader.markerName 60 ++ stringMarkerName)
      { Rinex3ObsHeader.empty with
        markerName := "MRK 1".toList, valid := 0 ||| validMarkerName } ∧
    WrittenAndReadBack sampleDate textRecordsHeader Rinex3ObsHeader.empty 6 validObserver
      (leftJustify textRecordsHeader.observer 20 ++ leftJustify textRecordsHeader.agency 40 ++
        stringObserver)
      { Rinex3ObsHeader.empty with
        observer := "J. Doe".toList, agency := "Survey Office".toList,
        valid := 0 ||| validObserver } ∧
    WrittenAndReadBack sampleDate textRecordsHeader Rinex3ObsHeader.empty 7 validReceiver
      (leftJustify textRecordsHeader.recNo 20 ++ leftJustify textRecordsHeader.recType 20 ++
        leftJustify textRecordsHeader.recVers 20 ++ stringReceiver)
      { Rinex3ObsHeader.empty with
        recNo := "R123".toList, recType := "RCV TYPE".toList, recVers := "1.2.3".toList,
        valid := 0 ||| validReceiver } :=
  ⟨by decide,
    (C20_text_records_read_back sampleDate textRecordsHeader Rinex3ObsHeader.empty).1
      (by decide),
    (C20_text_records_read_back sampleDate textRecordsHeader Rinex3ObsHeader.empty).2.2.2.1
      (by decide),
    (C20_text_records_read_back sampleDate textRecordsHeader Rinex3ObsHeader.empty).2.2.2.2.1
      (by decide)⟩


/-! ## Phase shifts of 14 satellites, and the scale factor for all codes -/

set_option maxRecDepth 100000 in
/-- C15 (failing input): for the phase-shift entry of the code L1C with 14 GPS
satellites and the correction 0.25, the encoder writes an opening line with 10
satellites and a continuation line with 4; the opening line has a blank in
column 0 and the system letter in column 1, so the decoder takes it for a
continuation line and throws. The same two lines with the system letter in
column 0 decode to the entry that was written. -/
theorem C15_failing_input_phase_shift_lines_rejected :
    (putSystemPhaseShift phaseShift14Header ⟨[], []⟩).2 = none ∧
    (putSystemPhaseShift phaseShift14Header ⟨[], []⟩).1.out =
      [ " GL1C  0.25000  14 G01 G02 G03 G04 G05 G06 G07 G08 G09 G10  SYS / PHASE SHIFTS".toList,
        "                   G11 G12 G13 G14                          SYS / PHASE SHIFTS".toList ] ∧
    (readLine Rinex3ObsHeader.empty
      " GL1C  0.25000  14 G01 G02 G03 G04 G05 G06 G07 G08 G09 G10  SYS / PHASE SHIFTS".toList).2 =
      some (.FFStreamError "SYS / PHASE SHIFT: unexpected continuation line".toList) ∧
    (reallyPutRecord sampleDate phaseShift14Header emptyStream).2 = none ∧
    (reallyGetRecord Rinex3ObsHeader.empty
      (streamOf (reallyPutRecord sampleDate phaseShift14Header emptyStream).1.output)).2 =
      some (.FFStreamError "SYS / PHASE SHIFT: unexpected continuation line".toList) ∧
    (readLine (readLine Rinex3ObsHeader.empty (phaseShift14LinesSystemFirst.headD [])).1
      (phaseShift14LinesSystemFirst.getD 1 [])).2 = none ∧
    (readLine (readLine Rinex3ObsHeader.empty (phaseShift14LinesSystemFirst.headD [])).1
      (phaseShift14LinesSystemFirst.getD 1 [])).1.sysPhaseShift =
      phaseShift14Header.sysPhaseShift := by
  decide

set_option maxRecDepth 100000 in
/-- C18 (failing input): in a decode state where the system G has five
observation codes, a SYS / SCALE FACTOR line for G with the factor 10 and a
blank count, or the count 0, is read without an exception and leaves the
scale-factor map of G with a single entry, whose key is built from the system
letter and the blank code columns of the line; none of the five codes has an
entry. -/
theorem C18_failing_input_scale_factor_for_all_codes :
    (SMap.find fiveCodesHeader.mapObsTypes "G".toList).map List.length = some 5 ∧
    (readLine fiveCodesHeader (scaleAllLine "  ".toList)).2 = none ∧
    (readLine fiveCodesHeader (scaleAllLine "  ".toList)).1.sysSfacMap =
      [("G".toList, [(⟨"G".toList⟩, 10)])] ∧
    (readLine fiveCodesHeader (scaleAllLine " 0".toList)).1.sysSfacMap =
      [("G".toList, [(⟨"G".toList⟩, 10)])] ∧
    (∀ o ∈ (SMap.getD fiveCodesHeader.mapObsTypes "G".toList []),
      SMap.find (SMap.getD (readLine fiveCodesHeader (scaleAllLine "  ".toList)).1.sysSfacMap
        "G".toList []) o = none) := by
  decide


/-! ## Observation types on two lines: the encoder -/

theorem forIndices_eq_range' (cond : Nat → Bool) : ∀ (fuel start k : Nat),
    (∀ i, start ≤ i → i < start + k → cond i = true) →
    (k < fuel → cond (start + k) = false) → k ≤ fuel →
    forIndices cond fuel start = List.range' start k := by
  intro fuel
  induction fuel with
  | zero =>
    intro start k _ _ hk
    have : k = 0 := by omega
    subst this
    rfl
  | succ f ih =>
    intro start k htrue hfalse hk
    unfold forIndices
    cases k with
    | zero =>
      have := hfalse (by omega)
      simp only [Nat.add_zero] at this
      rw [this]
      rfl
    | succ k =>
      rw [if_pos (htrue start (Nat.le_refl _) (by omega))]
      rw [ih (start + 1) k (fun i h1 h2 => htrue i (by omega) (by omega))
        (fun h => by
          have := hfalse (by omega)
          rw [show start + 1 + k = start + (k + 1) by omega]
          exact this) (by omega)]
      rfl

theorem obsTypeLoop_cons (sys : Str) (size : Nat) (o : ObsID) (os : List ObsID) (k : Nat)
    (s : PutState) :
    obsTypeLoop sys size (o :: os) k s =
      obsTypeLoop sys size os (k + 1)
        { (if k = 0 then
            { s with line := leftJustify sys 1 ++ mkString 2 ' ' ++
              rightJustify (asStringInt size) 3 }
          else if k % 13 = 0 then
            { emit { s with line := s.line ++ mkString 2 ' ' ++ stringSystemNumObs } with
              line := mkString 6 ' ' }
          else s) with
          line := (if k = 0 then
            { s with line := leftJustify sys 1 ++ mkString 2 ' ' ++
              rightJustify (asStringInt size) 3 }
          else if k % 13 = 0 then
            { emit { s with line := s.line ++ mkString 2 ' ' ++ stringSystemNumObs } with
              line := mkString 6 ' ' }
          else s).line ++ mkString 1 ' ' ++ rightJustify o.asRinex3ID 3 } := rfl

theorem obsTypeLoop_append (sys : Str) (size : Nat) (l1 l2 : List ObsID) :
    ∀ (k : Nat) (s : PutState),
      obsTypeLoop sys size (l1 ++ l2) k s =
        obsTypeLoop sys size l2 (k + l1.length) (obsTypeLoop sys size l1 k s) := by
  induction l1 with
  | nil => intro k s; rfl
  | cons o os ih =>
    intro k s
    simp only [List.cons_append, List.length_cons]
    rw [obsTypeLoop_cons, obsTypeLoop_cons, ih,
      show k + 1 + os.length = k + (os.length + 1) by omega]

theorem obsTypeLoop_rest_mod (sys : Str) (size : Nat) (l : List ObsID) :
    ∀ (k : Nat) (s : PutState), 0 < k % 13 → k % 13 + l.length ≤ 13 →
      obsTypeLoop sys size l k s = { s with line := s.line ++ codesText l } := by
  induction l with
  | nil => intro k s _ _; simp [obsTypeLoop, codesText]
  | cons o os ih =>
    intro k s hk hlen
    simp only [List.length_cons] at hlen
    unfold obsTypeLoop
    simp only
    rw [if_neg (by omega), if_neg (by omega)]
    cases os with
    | nil => simp [obsTypeLoop, codesText]
    | cons o2 os2 =>
      simp only [List.length_cons] at hlen
      rw [ih (k + 1) _ (by omega) (by simp only [List.length_cons]; omega)]
      simp [codesText]

theorem obsTypeLoop_first (sys : Str) (size : Nat) (l : List ObsID) (s : PutState)
    (h0 : l ≠ []) (h13 : l.length ≤ 13) :
    obsTypeLoop sys size l 0 s =
      { s with line := leftJustify sys 1 ++ mkString 2 ' ' ++
        rightJustify (asStringInt size) 3 ++ codesText l } := by
  cases l with
  | nil => exact absurd rfl h0
  | cons o os =>
    simp only [List.length_cons] at h13
    unfold obsTypeLoop
    simp only [if_true]
    rw [obsTypeLoop_rest _ _ _ _ _ (by omega) (by omega)]
    simp [codesText]

theorem obsTypeLoop_wrap (sys : Str) (size : Nat) (l : List ObsID) (k : Nat) (s : PutState)
    (h0 : l ≠ []) (h13 : l.length ≤ 13) (hk : 0 < k) (hmod : k % 13 = 0) :
    obsTypeLoop sys size l k s =
      { out := s.out ++ [s.line ++ mkString 2 ' ' ++ stringSystemNumObs],
        line := mkString 6 ' ' ++ codesText l } := by
  cases l with
  | nil => exact absurd rfl h0
  | cons o os =>
    simp only [List.length_cons] at h13
    unfold obsTypeLoop
    simp only
    rw [if_neg (by omega), if_pos hmod]
    cases os with
    | nil => simp [obsTypeLoop, codesText, emit]
    | cons o2 os2 =>
      simp only [List.length_cons] at h13
      rw [obsTypeLoop_rest_mod _ _ _ (k + 1) _ (by omega) (by simp only [List.length_cons]; omega)]
      simp [codesText, emit]

/-- The lines written for a system with more than 13 and at most 26 codes: an
opening line with the first 13 codes and one continuation line. -/
theorem obsTypeSystems_two_lines (sys : Str) (codes : List ObsID) (s : PutState)
    (h1 : 13 < codes.length) (h2 : codes.length ≤ 26) :
    obsTypeSystems [(sys, codes)] s =
      (⟨s.out ++ [obsOpeningLine sys codes.length (codes.take 13),
          obsContinuationLine (codes.drop 13)],
        obsContinuationLine (codes.drop 13)⟩, none) := by
  have hsplit : codes = codes.take 13 ++ codes.drop 13 := (List.take_append_drop 13 codes).symm
  have lt : (codes.take 13).length = 13 := by rw [List.length_take]; omega
  have ld : (codes.drop 13).length = codes.length - 13 := List.length_drop _ _
  have hd0 : codes.drop 13 ≠ [] := by
    intro h
    rw [h] at ld
    simp at ld
    omega
  have ht0 : codes.take 13 ≠ [] := by
    intro h
    rw [h] at lt
    simp at lt
  unfold obsTypeSystems
  simp only
  conv_lhs => rw [hsplit]
  simp only [List.length_append, lt, ld]
  rw [show 13 + (codes.length - 13) = codes.length by omega] at *
  rw [obsTypeLoop_append, obsTypeLoop_first _ _ _ _ ht0 (by omega), lt,
    obsTypeLoop_wrap _ _ _ (0 + 13) _ hd0 (by omega) (by omega) (by decide)]
  unfold fill60
  have hlen : (mkString 6 ' ' ++ codesText (codes.drop 13)).length =
      6 + 4 * (codes.drop 13).length := by
    simp [length_mkString, length_codesText]
  simp only [hlen]
  rw [if_pos (by omega)]
  simp only [Put.andThen, obsTypeSystems, emit, obsOpeningLine, obsContinuationLine, lt]
  simp

/-! ## Observation types on two lines: the decoder -/

theorem forIndices_opening (n : Nat) :
    forIndices (fun i => decide ((i : Int) < (n : Int)) && decide (i < 13)) 13 0 =
      List.range (min n 13) := by
  rw [List.range_eq_range']
  apply forIndices_eq_range'
  · intro i _ hi
    simp only [Bool.and_eq_true, decide_eq_true_eq]
    omega
  · intro hk
    simp only [Nat.zero_add, Bool.and_eq_false_iff, decide_eq_false_iff_not]
    omega
  · omega

theorem forIndices_continuation (n start k : Nat) (hn : start + k = n) :
    forIndices (fun i => decide ((i : Int) < (n : Int)) && decide (i % 13 < 13))
      (n : Int).toNat start = List.range' start k := by
  apply forIndices_eq_range'
  · intro i _ hi
    simp only [Bool.and_eq_true, decide_eq_true_eq]
    omega
  · intro _
    simp only [Bool.and_eq_false_iff, decide_eq_false_iff_not]
    omega
  · simp only [Int.toNat_ofNat]
    omega

theorem parseLabelled_numObs (g : Rinex3ObsHeader) (line : Str) :
    parseLabelled g line stringSystemNumObs = parseSystemNumObs g line := rfl

theorem readLine_obsOpening (g : Rinex3ObsHeader) (c : Char) (hc : c ≠ ' ') (n : Nat)
    (hn : FitsInt 3 (n : Int)) (codes : List ObsID) (hm : codes.length = min n 13)
    (hcodes : ∀ o ∈ codes, ∃ code : Str, code.length = 3 ∧ o.text = [c] ++ code) :
    readLine g (obsOpeningLine [c] n codes) =
      ({ g with
        satSysTemp := [c]
        numObs := n
        mapObsTypes := SMap.set g.mapObsTypes [c] codes
        satSysPrev := [c]
        numObsPrev := n
        valid := g.valid ||| validSystemObsType }, none) := by
  have hlen : codes.length ≤ 13 := by omega
  unfold obsOpeningLine
  have hcanon : Canon 1 [c] := ⟨strip_single c hc, by simp⟩
  have hd : (leftJustify [c] 1 ++ mkString 2 ' ' ++ rightJustify (asStringInt n) 3 ++
      codesText codes ++ mkString (60 - (6 + 4 * codes.length)) ' ').length = 60 := by
    simp only [List.length_append, length_leftJustify, length_mkString, length_rightJustify,
      length_codesText]
    omega
  rw [readLine_record g _ _ hd (by decide), parseLabelled_numObs]
  generalize hpad : mkString (60 - (6 + 4 * codes.length)) ' ' = pad at hd ⊢
  have e1 : substr (leftJustify [c] 1 ++ mkString 2 ' ' ++
      rightJustify (asStringInt n) 3 ++ codesText codes ++ pad ++
      stringSystemNumObs) 0 1 = leftJustify [c] 1 := by
    simpa [List.append_assoc] using substr_field [] (leftJustify [c] 1) (mkString 2 ' ' ++
      rightJustify (asStringInt n) 3 ++ codesText codes ++ pad ++
      stringSystemNumObs) 0 1 rfl (length_leftJustify _ _)
  have e2 : substr (leftJustify [c] 1 ++ mkString 2 ' ' ++
      rightJustify (asStringInt n) 3 ++ codesText codes ++ pad ++
      stringSystemNumObs) 3 3 = rightJustify (asStringInt n) 3 := by
    simpa [List.append_assoc] using substr_field (leftJustify [c] 1 ++ mkString 2 ' ')
      (rightJustify (asStringInt n) 3) (codesText codes ++ pad ++
      stringSystemNumObs) 3 3 (by simp [length_leftJustify, length_mkString])
      (length_rightJustify _ _)
  have f1 : strip (substr (leftJustify [c] 1 ++ mkString 2 ' ' ++
      rightJustify (asStringInt n) 3 ++ codesText codes ++ pad ++
      stringSystemNumObs) 0 1) = [c] := by
    rw [e1, strip_leftJustify _ _ hcanon]
  have f2 : asInt (substr (leftJustify [c] 1 ++ mkString 2 ' ' ++
      rightJustify (asStringInt n) 3 ++ codesText codes ++ pad ++
      stringSystemNumObs) 3 3) = (n : Int) := by
    rw [e2, asInt_rightJustify _ _ hn]
  rw [parseSystemNumObs_first g _ (by rw [f1]; simp), f1, f2, forIndices_opening, ← hm]
  have f4 := codes_read [c] codes (leftJustify [c] 1 ++ mkString 2 ' ' ++
      rightJustify (asStringInt n) 3) (pad ++ stringSystemNumObs) 6
      (by simp [length_leftJustify, length_mkString, length_rightJustify]) hcodes
  simp only [← List.append_assoc] at f4
  rw [f4]

theorem parseSystemNumObs_cont (g : Rinex3ObsHeader) (line : Str) (types : List ObsID)
    (h0 : strip (substr line 0 1) = [])
    (hfind : SMap.find g.mapObsTypes g.satSysPrev = some types) :
    parseSystemNumObs g line = ({ g with
      satSysTemp := g.satSysPrev
      numObs := g.numObsPrev
      mapObsTypes := SMap.set g.mapObsTypes g.satSysPrev (types ++
        (forIndices (fun i => decide ((i : Int) < g.numObsPrev) && decide (i % 13 < 13))
          g.numObsPrev.toNat types.length).map
          (fun i => ObsID.mk (g.satSysPrev ++ substr line (4 * (i % 13) + 6 + 1) 3)))
      satSysPrev := g.satSysPrev
      numObsPrev := g.numObsPrev
      valid := g.valid ||| validSystemObsType }, none) := by
  unfold parseSystemNumObs
  simp only [h0, if_true, hfind]

theorem readLine_obsContinuation (g : Rinex3ObsHeader) (types rest : List ObsID) (n : Nat)
    (hprev : g.numObsPrev = (n : Int))
    (hfind : SMap.find g.mapObsTypes g.satSysPrev = some types)
    (h13 : types.length % 13 = 0) (hrest : rest.length ≤ 13)
    (hn : types.length + rest.length = n)
    (hcodes : ∀ o ∈ rest, ∃ code : Str, code.length = 3 ∧ o.text = g.satSysPrev ++ code) :
    readLine g (obsContinuationLine rest) =
      ({ g with
        satSysTemp := g.satSysPrev
        numObs := n
        mapObsTypes := SMap.set g.mapObsTypes g.satSysPrev (types ++ rest)
        valid := g.valid ||| validSystemObsType }, none) := by
  unfold obsContinuationLine
  have hd : (mkString 6 ' ' ++ codesText rest ++
      mkString (60 - (6 + 4 * rest.length)) ' ').length = 60 := by
    simp only [List.length_append, length_mkString, length_codesText]
    omega
  rw [readLine_record g _ _ hd (by decide), parseLabelled_numObs]
  generalize hpad : mkString (60 - (6 + 4 * rest.length)) ' ' = pad at hd ⊢
  have h0 : strip (substr (mkString 6 ' ' ++ codesText rest ++ pad ++ stringSystemNumObs) 0 1) =
      [] := by
    have : substr (mkString 6 ' ' ++ codesText rest ++ pad ++ stringSystemNumObs) 0 1 =
        mkString 1 ' ' := by
      have hm : mkString 6 ' ' = mkString 1 ' ' ++ mkString 5 ' ' := rfl
      rw [hm]
      simpa [List.append_assoc] using substr_field [] (mkString 1 ' ')
        (mkString 5 ' ' ++ codesText rest ++ pad ++ stringSystemNumObs) 0 1 rfl rfl
    rw [this]
    rfl
  rw [parseSystemNumObs_cont g _ types h0 hfind, hprev, forIndices_continuation n _ _ hn]
  have f4 := codes_read g.satSysPrev rest (mkString 6 ' ') (pad ++ stringSystemNumObs) 6
    (length_mkString _ _) hcodes
  simp only [← List.append_assoc] at f4
  have hmap : (List.range' types.length rest.length).map
      (fun i => ObsID.mk (g.satSysPrev ++
        substr (mkString 6 ' ' ++ codesText rest ++ pad ++ stringSystemNumObs)
          (4 * (i % 13) + 6 + 1) 3)) = rest := by
    rw [List.range'_eq_map_range, List.map_map]
    refine Eq.trans ?_ f4
    apply List.map_congr_left
    intro j hj
    have hj' : j < rest.length := List.mem_range.mp hj
    simp only [Function.comp]
    rw [show (types.length + j) % 13 = j by omega]
  rw [hmap]

/-! ## Observation types on two lines: the round trip -/

theorem find_set_self (m : SMap Str (List ObsID)) (k : Str) (v : List ObsID) :
    SMap.find (SMap.set m k v) k = some v := by
  induction m with
  | nil => simp [SMap.set, SMap.find]
  | cons p m ih =>
    obtain ⟨k1, v1⟩ := p
    unfold SMap.set
    split_ifs with h1 h2
    · simp [SMap.find]
    · simp [SMap.find]
    · simp only [SMap.find, if_neg h1]
      exact ih

theorem set_set (m : SMap Str (List ObsID)) (k : Str) (v w : List ObsID) :
    SMap.set (SMap.set m k v) k w = SMap.set m k w := by
  induction m with
  | nil => simp [SMap.set]
  | cons p m ih =>
    obtain ⟨k1, v1⟩ := p
    by_cases h1 : k1 = k
    · simp [SMap.set, h1]
    · by_cases h2 : KeyOrder.lt k k1 = true
      · simp [SMap.set, h1, h2]
      · simp only [SMap.set, if_neg h1, if_neg h2]
        rw [ih]

/-- The two lines written for a list of more than 13 and at most 26 codes of
one system are read back to the same list. -/
theorem obsTypes_two_lines_read_back (g : Rinex3ObsHeader) (sys : Str) (codes : List ObsID)
    (hsys : sys.length = 1 ∧ sys ≠ [' ']) (h1 : 13 < codes.length) (h2 : codes.length ≤ 26)
    (hcodes : ∀ o ∈ codes, o.text.length = 4 ∧ o.text.take 1 = sys) :
    ∃ g1 g2, readLine g (obsOpeningLine sys codes.length (codes.take 13)) = (g1, none) ∧
      readLine g1 (obsContinuationLine (codes.drop 13)) = (g2, none) ∧
      g2.mapObsTypes = SMap.set g.mapObsTypes sys codes ∧
      SMap.find g2.mapObsTypes sys = some codes := by
  obtain ⟨c, hk⟩ := List.length_eq_one.mp hsys.1
  subst hk
  have hcb : c ≠ ' ' := fun hc => hsys.2 (by rw [hc])
  have hall : ∀ o ∈ codes, ∃ code : Str, code.length = 3 ∧ o.text = [c] ++ code := by
    intro o ho
    obtain ⟨l4, t1⟩ := hcodes o ho
    refine ⟨o.text.drop 1, by rw [List.length_drop, l4], ?_⟩
    rw [← t1, List.take_append_drop]
  have lt : (codes.take 13).length = 13 := by rw [List.length_take]; omega
  have ld : (codes.drop 13).length = codes.length - 13 := List.length_drop _ _
  have hfits : FitsInt 3 (codes.length : Int) := by
    unfold FitsInt
    have : codes.length ≤ 26 := h2
    interval_cases codes.length <;> decide
  have r1 := readLine_obsOpening g c hcb codes.length hfits (codes.take 13)
    (by rw [lt]; omega) (fun o ho => hall o (List.mem_of_mem_take ho))
  have r2 := readLine_obsContinuation
    ({ g with
        satSysTemp := [c]
        numObs := codes.length
        mapObsTypes := SMap.set g.mapObsTypes [c] (codes.take 13)
        satSysPrev := [c]
        numObsPrev := codes.length
        valid := g.valid ||| validSystemObsType })
    (codes.take 13) (codes.drop 13) codes.length rfl (find_set_self _ _ _)
    (by rw [lt]) (by omega) (by rw [lt, ld]; omega)
    (fun o ho => hall o (List.mem_of_mem_drop ho))
  exact ⟨_, _, r1, r2, by simp only [set_set, List.take_append_drop],
    by simp only [set_set, List.take_append_drop, find_set_self]⟩

/-- C14: for every header whose observation-type map holds, for one system of
one character other than a blank, a list of 15 codes (each identifier the
system followed by a code of three characters), the SYS / # / OBS TYPES block
writes two lines, an opening line with the count 15 and the first 13 codes and
a continuation line with the last 2, and the decoding loop reads both lines
without an exception and leaves exactly the 15 codes, in the same order, under
that system in the observation-type map. -/
theorem C14_fifteen_codes_read_back (h g : Rinex3ObsHeader) (s : PutState) (sys : Str)
    (codes : List ObsID) (hflag : isSet h.valid validSystemObsType = true)
    (hmap : h.mapObsTypes = [(sys, codes)]) (hsys : sys.length = 1 ∧ sys ≠ [' '])
    (hlen : codes.length = 15)
    (hcodes : ∀ o ∈ codes, o.text.length = 4 ∧ o.text.take 1 = sys) :
    putSystemObsType h s =
      (⟨s.out ++ [obsOpeningLine sys 15 (codes.take 13), obsContinuationLine (codes.drop 13)],
        obsContinuationLine (codes.drop 13)⟩, none) ∧
    (codes.take 13).length = 13 ∧ (codes.drop 13).length = 2 ∧
    ∃ g1 g2, readLine g (obsOpeningLine sys 15 (codes.take 13)) = (g1, none) ∧
      readLine g1 (obsContinuationLine (codes.drop 13)) = (g2, none) ∧
      g2.mapObsTypes = SMap.set g.mapObsTypes sys codes ∧
      SMap.find g2.mapObsTypes sys = some codes := by
  have hw := obsTypeSystems_two_lines sys codes s (by omega) (by omega)
  have hr := obsTypes_two_lines_read_back g sys codes hsys (by omega) (by omega) hcodes
  rw [hlen] at hw hr
  refine ⟨?_, by rw [List.length_take]; omega, by rw [List.length_drop]; omega, hr⟩
  unfold putSystemObsType
  rw [if_pos hflag, hmap]
  exact hw

set_option maxRecDepth 100000 in
theorem C14_witness :
    (isSet fifteenCodesHeader.valid validSystemObsType = true ∧
      fifteenCodesHeader.mapObsTypes = [("G".toList, fifteenCodes)] ∧
      fifteenCodes.length = 15) ∧
    (putSystemObsType fifteenCodesHeader ⟨[], []⟩).1.out =
      [ "G   15 C1C L1C D1C S1C C1W L1W D1W S1W C2W L2W D2W S2W C5Q  SYS / # / OBS TYPES".toList,
        "       L5Q D5Q                                              SYS / # / OBS TYPES".toList ] ∧
    ∃ g1 g2,
      readLine Rinex3ObsHeader.empty (obsOpeningLine "G".toList 15 (fifteenCodes.take 13)) =
        (g1, none) ∧
      readLine g1 (obsContinuationLine (fifteenCodes.drop 13)) = (g2, none) ∧
      SMap.find g2.mapObsTypes "G".toList = some fifteenCodes := by
  have h := C14_fifteen_codes_read_back fifteenCodesHeader Rinex3ObsHeader.empty ⟨[], []⟩
    "G".toList fifteenCodes (by decide) rfl (by decide) (by decide) (by decide)
  obtain ⟨hw, _, _, g1, g2, r1, r2, _, hf⟩ := h
  exact ⟨by decide, by rw [hw]; decide, g1, g2, r1, r2, hf⟩


/-! ## Scale factors on two lines: the encoder -/

theorem scaleFacCodes_cons (code : Str) (codes : List Str) (j : Nat) (s : PutState) :
    scaleFacCodes (code :: codes) j s =
      scaleFacCodes codes (j + 1)
        { (if j > 12 - 1 ∧ j % 12 = 0 then
            { emit { s with line := s.line ++ mkString 2 ' ' ++ stringSystemScaleFac } with
              line := mkString 10 ' ' }
          else s) with
          line := (if j > 12 - 1 ∧ j % 12 = 0 then
            { emit { s with line := s.line ++ mkString 2 ' ' ++ stringSystemScaleFac } with
              line := mkString 10 ' ' }
          else s).line ++ mkString 1 ' ' ++ rightJustify code 3 } := rfl

theorem scaleFacCodes_plain (ids : List ObsID) : ∀ (j : Nat) (s : PutState),
    (∀ i, i < ids.length → j + i ≤ 11 ∨ (j + i) % 12 ≠ 0) →
    scaleFacCodes (ids.map fun o => o.asRinex3ID) j s =
      { s with line := s.line ++ codesText ids } := by
  induction ids with
  | nil => intro j s _; simp [scaleFacCodes, codesText]
  | cons o os ih =>
    intro j s hj
    have h0 := hj 0 (by simp)
    simp only [Nat.add_zero] at h0
    rw [List.map_cons, scaleFacCodes_cons, if_neg (by omega),
      ih (j + 1) _ (fun i hi => by
        have := hj (i + 1) (by simp only [List.length_cons]; omega)
        omega)]
    simp [codesText]

theorem scaleFacCodes_append (l1 l2 : List Str) : ∀ (j : Nat) (s : PutState),
    scaleFacCodes (l1 ++ l2) j s = scaleFacCodes l2 (j + l1.length) (scaleFacCodes l1 j s) := by
  induction l1 with
  | nil => intro j s; rfl
  | cons c cs ih =>
    intro j s
    simp only [List.cons_append, List.length_cons]
    rw [scaleFacCodes_cons, scaleFacCodes_cons, ih,
      show j + 1 + cs.length = j + (cs.length + 1) by omega]

theorem scaleFacCodes_wrap (ids : List ObsID) (j : Nat) (s : PutState) (h0 : ids ≠ [])
    (h12 : ids.length ≤ 12) (hj : 11 < j) (hmod : j % 12 = 0) :
    scaleFacCodes (ids.map fun o => o.asRinex3ID) j s =
      { out := s.out ++ [s.line ++ mkString 2 ' ' ++ stringSystemScaleFac],
        line := mkString 10 ' ' ++ codesText ids } := by
  cases ids with
  | nil => exact absurd rfl h0
  | cons o os =>
    simp only [List.length_cons] at h12
    rw [List.map_cons, scaleFacCodes_cons, if_pos ⟨by omega, hmod⟩,
      scaleFacCodes_plain os (j + 1) _ (fun i hi => by right; omega)]
    simp [codesText, emit]

theorem filter_sfacOf_same (ids : List ObsID) (f : Int) :
    (sfacOf ids f).filter (fun e => decide (e.2 = f)) = sfacOf ids f := by
  unfold sfacOf
  rw [List.filter_eq_self]
  intro e he
  obtain ⟨o, _, rfl⟩ := List.mem_map.mp he
  simp

theorem filter_sfacOf_other (ids : List ObsID) (f f1 : Int) (hne : f ≠ f1) :
    (sfacOf ids f).filter (fun e => decide (e.2 = f1)) = [] := by
  unfold sfacOf
  rw [List.filter_eq_nil_iff]
  intro e he
  obtain ⟨o, _, rfl⟩ := List.mem_map.mp he
  simp [hne]

theorem scaleFacGroup_other (sys : Str) (ids : List ObsID) (f f1 : Int) (hne : f ≠ f1)
    (s : PutState) : scaleFacGroup sys (sfacOf ids f) f1 s = s := by
  unfold scaleFacGroup
  simp only [filter_sfacOf_other ids f f1 hne, List.map_nil, List.length_nil, if_true]

/-- The lines written for one system whose codes, more than 12 and fewer than
24, all have the factor `f`: an opening line with the first 12 codes and one
continuation line. -/
theorem scaleFacGroup_two_lines (sys : Str) (ids : List ObsID) (f : Int) (s : PutState)
    (h1 : 12 < ids.length) (h2 : ids.length < 24) :
    scaleFacGroup sys (sfacOf ids f) f s =
      ⟨s.out ++ [sfacOpeningLine sys f ids.length (ids.take 12),
          sfacContinuationLine (ids.drop 12)],
        sfacContinuationLine (ids.drop 12)⟩ := by
  have hsplit : ids = ids.take 12 ++ ids.drop 12 := (List.take_append_drop 12 ids).symm
  have lt : (ids.take 12).length = 12 := by rw [List.length_take]; omega
  have ld : (ids.drop 12).length = ids.length - 12 := List.length_drop _ _
  have hd0 : ids.drop 12 ≠ [] := by
    intro h
    rw [h] at ld
    simp at ld
    omega
  have hmap : ((sfacOf ids f).map fun e => e.1.asRinex3ID) =
      (ids.take 12).map (fun o => o.asRinex3ID) ++ (ids.drop 12).map (fun o => o.asRinex3ID) := by
    rw [← List.map_append, ← hsplit]
    unfold sfacOf
    rw [List.map_map]
    rfl
  unfold scaleFacGroup
  simp only [filter_sfacOf_same, hmap, List.length_append, List.length_map, lt, ld]
  rw [if_neg (by omega), scaleFacCodes_append, List.length_map, lt,
    scaleFacCodes_plain (ids.take 12) 0 _ (fun i hi => by left; omega),
    scaleFacCodes_wrap (ids.drop 12) (0 + 12) _ hd0 (by omega) (by omega) (by decide)]
  have hmod : (12 + (ids.length - 12)) % 12 = ids.length - 12 := by omega
  simp only [emit, sfacOpeningLine, sfacContinuationLine, lt, ld, hmod]
  have e1 : 60 - 10 - 4 * (ids.length - 12) = 60 - (10 + 4 * (ids.length - 12)) := by omega
  rw [e1]
  have e3 : ((12 + (ids.length - 12) : Nat) : Int) = (ids.length : Int) := by
    congr 1
    omega
  simp [e3]

/-! ## Scale factors on two lines: the map of one system -/

theorem codes_read_via (t : Str → Str) (sys : Str) (codes : List ObsID) :
    ∀ (pre post : Str) (p : Nat), pre.length = p →
      (∀ o ∈ codes, ∃ code : Str, code.length = 3 ∧ t code = code ∧ o.text = sys ++ code) →
      (List.range codes.length).map
        (fun i => ObsID.mk (sys ++ t (substr (pre ++ codesText codes ++ post) (4 * i + p + 1) 3))) =
      codes := by
  induction codes with
  | nil => intro pre post p _ _; rfl
  | cons o os ih =>
    intro pre post p hp hall
    obtain ⟨code, hl, hst, ht⟩ := hall o (List.mem_cons_self _ _)
    have hid := asRinex3ID_of_text o sys code hl ht
    have hrj : rightJustify code 3 = code := by
      rw [rightJustify_of_le code 3 (by omega), hl]
      rfl
    have hline : pre ++ codesText (o :: os) ++ post =
        (pre ++ mkString 1 ' ' ++ code) ++ codesText os ++ post := by
      simp only [codesText, hid, hrj, List.append_assoc]
    rw [hline, List.length_cons, List.range_succ_eq_map, List.map_cons, List.map_map]
    congr 1
    · have := substr_field (pre ++ mkString 1 ' ') code (codesText os ++ post) (4 * 0 + p + 1) 3
        (by simp [hp, length_mkString]) hl
      simp only [← List.append_assoc] at this
      rw [this, hst]
      obtain ⟨t⟩ := o
      simp only at ht
      rw [ht]
    · have := ih (pre ++ mkString 1 ' ' ++ code) post (p + 4)
        (by simp [hp, hl, length_mkString]) (fun o ho => hall o (List.mem_cons_of_mem _ ho))
      refine Eq.trans ?_ this
      apply List.map_congr_left
      intro i _
      simp only [Function.comp]
      rw [show 4 * Nat.succ i + p + 1 = 4 * i + (p + 4) + 1 by omega]

theorem obsLt_irrefl (a : ObsID) : KeyOrder.lt a a = false := strLt_irrefl a.text

theorem obsLt_asymm (a b : ObsID) (h : KeyOrder.lt a b = true) : KeyOrder.lt b a = false :=
  strLt_asymm a.text b.text h

theorem sfac_find_none (m : sfacMap) (k : ObsID) (hlt : ∀ p ∈ m, KeyOrder.lt p.1 k = true) :
    SMap.find m k = none := by
  induction m with
  | nil => rfl
  | cons p m ih =>
    obtain ⟨k1, v1⟩ := p
    have h1 : KeyOrder.lt k1 k = true := hlt (k1, v1) (List.mem_cons_self _ _)
    have hne : ¬ k1 = k := by
      intro he
      rw [he, obsLt_irrefl] at h1
      exact absurd h1 (by decide)
    unfold SMap.find
    rw [if_neg hne]
    exact ih (fun p hp => hlt p (List.mem_cons_of_mem _ hp))

theorem sfac_set_append (m : sfacMap) (k : ObsID) (v : Int)
    (hlt : ∀ p ∈ m, KeyOrder.lt p.1 k = true) : SMap.set m k v = m ++ [(k, v)] := by
  induction m with
  | nil => rfl
  | cons p m ih =>
    obtain ⟨k1, v1⟩ := p
    have h1 : KeyOrder.lt k1 k = true := hlt (k1, v1) (List.mem_cons_self _ _)
    have hne : ¬ k1 = k := by
      intro he
      rw [he, obsLt_irrefl] at h1
      exact absurd h1 (by decide)
    have h2 : KeyOrder.lt k k1 = false := obsLt_asymm k1 k h1
    unfold SMap.set
    rw [if_neg hne, h2, ih (fun p hp => hlt p (List.mem_cons_of_mem _ hp))]
    simp

theorem sfac_insert_append (m : sfacMap) (k : ObsID) (v : Int)
    (hlt : ∀ p ∈ m, KeyOrder.lt p.1 k = true) : SMap.insert m k v = m ++ [(k, v)] := by
  unfold SMap.insert
  rw [sfac_find_none m k hlt]
  exact sfac_set_append m k v hlt

theorem sfac_insert_present (m : sfacMap) (k : ObsID) (v w : Int)
    (h : SMap.find m k = some w) : SMap.insert m k v = m := by
  unfold SMap.insert
  rw [h]

theorem foldl_insert_new (f : Int) (ids : List ObsID) : ∀ m : sfacMap,
    (m.map Prod.fst ++ ids).Pairwise (fun a b => KeyOrder.lt a b = true) →
    ids.foldl (fun m k => SMap.insert m k f) m = m ++ sfacOf ids f := by
  induction ids with
  | nil => intro m _; simp [sfacOf]
  | cons k ks ih =>
    intro m hp
    have hm : ∀ p ∈ m, KeyOrder.lt p.1 k = true := by
      intro p hpm
      exact (List.pairwise_append.mp hp).2.2 p.1 (List.mem_map_of_mem _ hpm) k
        (List.mem_cons_self _ _)
    rw [List.foldl_cons, sfac_insert_append m k f hm, ih]
    · simp [sfacOf]
    · simpa using hp

theorem find_sfacOf (f : Int) (ids : List ObsID) (k : ObsID) (hk : k ∈ ids) :
    SMap.find (sfacOf ids f) k = some f := by
  induction ids with
  | nil => cases hk
  | cons o os ih =>
    unfold sfacOf
    simp only [List.map_cons, SMap.find]
    by_cases h : o = k
    · rw [if_pos h]
    · rw [if_neg h]
      rcases List.mem_cons.mp hk with h1 | h1
      · exact absurd h1.symm h
      · exact ih h1

theorem foldl_insert_present (f : Int) (m : sfacMap) (ids : List ObsID)
    (h : ∀ k ∈ ids, ∃ w, SMap.find m k = some w) :
    ids.foldl (fun m k => SMap.insert m k f) m = m := by
  induction ids with
  | nil => rfl
  | cons k ks ih =>
    obtain ⟨w, hw⟩ := h k (List.mem_cons_self _ _)
    rw [List.foldl_cons, sfac_insert_present m k f w hw]
    exact ih (fun k hk => h k (List.mem_cons_of_mem _ hk))

/-! ## Scale factors on two lines: the decoder -/

theorem forIndices_mod (q n start k : Nat) (hq : 0 < q) (hn : start + k = n) :
    forIndices (fun i => decide ((i : Int) < (n : Int)) && decide (i % q < q))
      (n : Int).toNat start = List.range' start k := by
  apply forIndices_eq_range'
  · intro i _ hi
    simp only [Bool.and_eq_true, decide_eq_true_eq]
    exact ⟨by omega, Nat.mod_lt _ hq⟩
  · intro _
    simp only [Bool.and_eq_false_iff, decide_eq_false_iff_not]
    left
    omega
  · simp only [Int.toNat_ofNat]
    omega

theorem str_find_set_self {β : Type} (m : SMap Str β) (k : Str) (v : β) :
    SMap.find (SMap.set m k v) k = some v := by
  induction m with
  | nil => simp [SMap.set, SMap.find]
  | cons p m ih =>
    obtain ⟨k1, v1⟩ := p
    unfold SMap.set
    split_ifs with h1 h2
    · simp [SMap.find]
    · simp [SMap.find]
    · simp only [SMap.find, if_neg h1]
      exact ih

theorem str_set_set {β : Type} (m : SMap Str β) (k : Str) (v w : β) :
    SMap.set (SMap.set m k v) k w = SMap.set m k w := by
  induction m with
  | nil => simp [SMap.set]
  | cons p m ih =>
    obtain ⟨k1, v1⟩ := p
    by_cases h1 : k1 = k
    · simp [SMap.set, h1]
    · by_cases h2 : KeyOrder.lt k k1 = true
      · simp [SMap.set, h1, h2]
      · simp only [SMap.set, if_neg h1, if_neg h2]
        rw [ih]

theorem parseLabelled_scaleFac (g : Rinex3ObsHeader) (line : Str) :
    parseLabelled g line stringSystemScaleFac = parseSystemScaleFac g line := rfl

theorem parseSystemScaleFac_first (g : Rinex3ObsHeader) (line : Str)
    (hne : strip (substr line 0 1) ≠ []) (hnum : asInt (substr line 8 2) ≠ 0) :
    parseSystemScaleFac g line = ({ g with
      satSysTemp := strip (substr line 0 1)
      factor := asInt (substr line 2 4)
      numObs := asInt (substr line 8 2)
      sysSfacMap := SMap.set g.sysSfacMap (strip (substr line 0 1))
        ((forIndices
            (fun i => decide ((i : Int) < asInt (substr line 8 2)) && decide (i % 12 < 12))
            (asInt (substr line 8 2)).toNat 0).foldl
          (fun m i => SMap.insert m
            (ObsID.mk (strip (substr line 0 1) ++ strip (substr line (4 * (i % 12) + 10 + 1) 3)))
            (asInt (substr line 2 4)))
          (SMap.getD g.sysSfacMap (strip (substr line 0 1)) []))
      satSysPrev := strip (substr line 0 1)
      factorPrev := asInt (substr line 2 4)
      numObsPrev := asInt (substr line 8 2)
      valid := g.valid ||| validSystemScaleFac }, none) := by
  unfold parseSystemScaleFac
  simp only [if_neg hne, if_neg hnum]

theorem parseSystemScaleFac_cont (g : Rinex3ObsHeader) (line : Str) (m0 : sfacMap)
    (h0 : strip (substr line 0 1) = []) (hnum : g.numObsPrev ≠ 0)
    (hfind : SMap.find g.sysSfacMap g.satSysPrev = some m0) :
    parseSystemScaleFac g line = ({ g with
      satSysTemp := g.satSysPrev
      factor := g.factorPrev
      numObs := g.numObsPrev
      sysSfacMap := SMap.set g.sysSfacMap g.satSysPrev
        ((forIndices
            (fun i => decide ((i : Int) < g.numObsPrev) && decide (i % 12 < 12))
            g.numObsPrev.toNat m0.length).foldl
          (fun m i => SMap.insert m
            (ObsID.mk (g.satSysPrev ++ strip (substr line (4 * (i % 12) + 10 + 1) 3)))
            g.factorPrev) m0)
      valid := g.valid ||| validSystemScaleFac }, none) := by
  have ht : SMap.touch g.sysSfacMap g.satSysPrev ([] : sfacMap) = g.sysSfacMap := by
    unfold SMap.touch SMap.insert
    rw [hfind]
  have hg : SMap.getD g.sysSfacMap g.satSysPrev ([] : sfacMap) = m0 := by
    unfold SMap.getD
    rw [hfind]
    rfl
  unfold parseSystemScaleFac
  simp only [h0, if_true, if_neg hnum, ht, hg]

theorem codes_read_mod (t : Str → Str) (sys : Str) (codes : List ObsID) (pre post : Str)
    (p q start : Nat) (hp : pre.length = p) (hstart : start % q = 0) (hlen : codes.length ≤ q)
    (hcodes : ∀ o ∈ codes, ∃ code : Str, code.length = 3 ∧ t code = code ∧ o.text = sys ++ code) :
    (List.range' start codes.length).map
      (fun i => ObsID.mk (sys ++ t (substr (pre ++ codesText codes ++ post)
        (4 * (i % q) + p + 1) 3))) = codes := by
  rw [List.range'_eq_map_range, List.map_map]
  refine Eq.trans ?_ (codes_read_via t sys codes pre post p hp hcodes)
  apply List.map_congr_left
  intro j hj
  have hj1 : j < codes.length := List.mem_range.mp hj
  have hmod : (start + j) % q = j := by
    rw [Nat.add_mod, hstart, Nat.zero_add, Nat.mod_mod, Nat.mod_eq_of_lt (by omega)]
  simp only [Function.comp, hmod]

theorem readLine_sfacOpening (g : Rinex3ObsHeader) (c : Char) (hc : c ≠ ' ') (f : Int)
    (hf : FitsInt 4 f) (n : Nat) (hn : FitsInt 2 (n : Int)) (hn12 : 12 ≤ n)
    (codes : List ObsID) (hlen : codes.length = 12)
    (hcodes : ∀ o ∈ codes, ∃ code : Str, code.length = 3 ∧ strip code = code ∧
      o.text = [c] ++ code)
    (hsorted : codes.Pairwise (fun a b => KeyOrder.lt a b = true))
    (hfind : SMap.find g.sysSfacMap [c] = none) :
    readLine g (sfacOpeningLine [c] f n codes) =
      ({ g with
        satSysTemp := [c]
        factor := f
        numObs := n
        sysSfacMap := SMap.set g.sysSfacMap [c] (sfacOf codes f)
        satSysPrev := [c]
        factorPrev := f
        numObsPrev := n
        valid := g.valid ||| validSystemScaleFac }, none) := by
  unfold sfacOpeningLine
  have hcanon : Canon 1 [c] := ⟨strip_single c hc, by simp⟩
  have hd : (leftJustify [c] 1 ++ mkString 1 ' ' ++ rightJustify (asStringInt f) 4 ++
      mkString 2 ' ' ++ rightJustify (asStringInt n) 2 ++ codesText codes ++
      mkString (60 - (10 + 4 * codes.length)) ' ').length = 60 := by
    simp only [List.length_append, length_leftJustify, length_mkString, length_rightJustify,
      length_codesText]
    omega
  rw [readLine_record g _ _ hd (by decide), parseLabelled_scaleFac]
  generalize hpad : mkString (60 - (10 + 4 * codes.length)) ' ' = pad at hd ⊢
  generalize hline : leftJustify [c] 1 ++ mkString 1 ' ' ++ rightJustify (asStringInt f) 4 ++
      mkString 2 ' ' ++ rightJustify (asStringInt n) 2 ++ codesText codes ++ pad ++
      stringSystemScaleFac = line
  have e1 : substr line 0 1 = leftJustify [c] 1 := by
    rw [← hline]
    simpa [List.append_assoc] using substr_field [] (leftJustify [c] 1) (mkString 1 ' ' ++
      rightJustify (asStringInt f) 4 ++ mkString 2 ' ' ++ rightJustify (asStringInt n) 2 ++
      codesText codes ++ pad ++ stringSystemScaleFac) 0 1 rfl (length_leftJustify _ _)
  have e2 : substr line 2 4 = rightJustify (asStringInt f) 4 := by
    rw [← hline]
    simpa [List.append_assoc] using substr_field (leftJustify [c] 1 ++ mkString 1 ' ')
      (rightJustify (asStringInt f) 4) (mkString 2 ' ' ++ rightJustify (asStringInt n) 2 ++
      codesText codes ++ pad ++ stringSystemScaleFac) 2 4
      (by simp [length_leftJustify, length_mkString]) (length_rightJustify _ _)
  have e3 : substr line 8 2 = rightJustify (asStringInt n) 2 := by
    rw [← hline]
    simpa [List.append_assoc] using substr_field (leftJustify [c] 1 ++ mkString 1 ' ' ++
      rightJustify (asStringInt f) 4 ++ mkString 2 ' ')
      (rightJustify (asStringInt n) 2) (codesText codes ++ pad ++ stringSystemScaleFac) 8 2
      (by simp [length_leftJustify, length_mkString, length_rightJustify])
      (length_rightJustify _ _)
  have f1 : strip (substr line 0 1) = [c] := by
    rw [e1, strip_leftJustify _ _ hcanon]
  have f2 : asInt (substr line 2 4) = f := by
    rw [e2, asInt_rightJustify _ _ hf]
  have f3 : asInt (substr line 8 2) = (n : Int) := by
    rw [e3, asInt_rightJustify _ _ hn]
  have hget : SMap.getD g.sysSfacMap [c] ([] : sfacMap) = [] := by
    unfold SMap.getD
    rw [hfind]
    rfl
  rw [parseSystemScaleFac_first g line (by rw [f1]; simp) (by rw [f3]; omega), f1, f2, f3,
    forIndices_mod 12 n 0 n (by decide) (by omega), hget]
  have hkeys : (List.range' 0 12).map
      (fun i => ObsID.mk ([c] ++ strip (substr line (4 * (i % 12) + 10 + 1) 3))) = codes := by
    have := codes_read_mod strip [c] codes (leftJustify [c] 1 ++ mkString 1 ' ' ++
      rightJustify (asStringInt f) 4 ++ mkString 2 ' ' ++ rightJustify (asStringInt n) 2)
      (pad ++ stringSystemScaleFac) 10 12 0
      (by simp [length_leftJustify, length_mkString, length_rightJustify]) rfl (by omega) hcodes
    simp only [← List.append_assoc, hline, hlen] at this
    exact this
  have hmem : ∀ i, ObsID.mk ([c] ++ strip (substr line (4 * (i % 12) + 10 + 1) 3)) ∈ codes := by
    intro i
    have hi : i % 12 < 12 := Nat.mod_lt _ (by decide)
    have : ObsID.mk ([c] ++ strip (substr line (4 * ((i % 12) % 12) + 10 + 1) 3)) ∈
        (List.range' 0 12).map
          (fun i => ObsID.mk ([c] ++ strip (substr line (4 * (i % 12) + 10 + 1) 3))) :=
      List.mem_map.mpr ⟨i % 12, by simp [List.mem_range']; omega, rfl⟩
    rw [hkeys, Nat.mod_mod] at this
    exact this
  have hsplit : List.range' 0 n = List.range' 0 12 ++ List.range' 12 (n - 12) := by
    have := List.range'_append_1 0 12 (n - 12)
    rw [Nat.zero_add, Nat.sub_add_cancel hn12] at this
    exact this.symm
  have hfold : (List.range' 0 n).foldl
      (fun m i => SMap.insert m
        (ObsID.mk ([c] ++ strip (substr line (4 * (i % 12) + 10 + 1) 3))) f)
      ([] : sfacMap) = sfacOf codes f := by
    rw [hsplit, List.foldl_append]
    have h1 : (List.range' 0 12).foldl
        (fun m i => SMap.insert m
          (ObsID.mk ([c] ++ strip (substr line (4 * (i % 12) + 10 + 1) 3))) f)
        ([] : sfacMap) = sfacOf codes f := by
      have h := List.foldl_map
        (fun i => ObsID.mk ([c] ++ strip (substr line (4 * (i % 12) + 10 + 1) 3)))
        (fun (m : sfacMap) k => SMap.insert m k f) (List.range' 0 12) []
      rw [hkeys] at h
      rw [← h]
      simpa using foldl_insert_new f codes [] (by simpa using hsorted)
    rw [h1]
    have h2 := foldl_insert_present f (sfacOf codes f)
      ((List.range' 12 (n - 12)).map
        (fun i => ObsID.mk ([c] ++ strip (substr line (4 * (i % 12) + 10 + 1) 3))))
      (by
        intro k hk
        obtain ⟨i, _, rfl⟩ := List.mem_map.mp hk
        exact ⟨f, find_sfacOf f codes _ (hmem i)⟩)
    rw [List.foldl_map] at h2
    exact h2
  rw [hfold]

theorem readLine_sfacContinuation (g : Rinex3ObsHeader) (f : Int) (n : Nat)
    (first rest : List ObsID)
    (hprev : g.numObsPrev = (n : Int)) (hfac : g.factorPrev = f)
    (hfind : SMap.find g.sysSfacMap g.satSysPrev = some (sfacOf first f))
    (h12 : first.length % 12 = 0) (hrest : rest.length ≤ 12) (hpos : n ≠ 0)
    (hn : first.length + rest.length = n)
    (hcodes : ∀ o ∈ rest, ∃ code : Str, code.length = 3 ∧ strip code = code ∧
      o.text = g.satSysPrev ++ code)
    (hsorted : (first ++ rest).Pairwise (fun a b => KeyOrder.lt a b = true)) :
    readLine g (sfacContinuationLine rest) =
      ({ g with
        satSysTemp := g.satSysPrev
        factor := f
        numObs := n
        sysSfacMap := SMap.set g.sysSfacMap g.satSysPrev (sfacOf (first ++ rest) f)
        valid := g.valid ||| validSystemScaleFac }, none) := by
  unfold sfacContinuationLine
  have hd : (mkString 10 ' ' ++ codesText rest ++
      mkString (60 - (10 + 4 * rest.length)) ' ').length = 60 := by
    simp only [List.length_append, length_mkString, length_codesText]
    omega
  rw [readLine_record g _ _ hd (by decide), parseLabelled_scaleFac]
  generalize hpad : mkString (60 - (10 + 4 * rest.length)) ' ' = pad at hd ⊢
  have h0 : strip (substr (mkString 10 ' ' ++ codesText rest ++ pad ++ stringSystemScaleFac)
      0 1) = [] := by
    have : substr (mkString 10 ' ' ++ codesText rest ++ pad ++ stringSystemScaleFac) 0 1 =
        mkString 1 ' ' := by
      have hm : mkString 10 ' ' = mkString 1 ' ' ++ mkString 9 ' ' := rfl
      rw [hm]
      simpa [List.append_assoc] using substr_field [] (mkString 1 ' ')
        (mkString 9 ' ' ++ codesText rest ++ pad ++ stringSystemScaleFac) 0 1 rfl rfl
    rw [this]
    rfl
  have hlen : (sfacOf first f).length = first.length := by simp [sfacOf]
  rw [parseSystemScaleFac_cont g _ (sfacOf first f) h0 (by rw [hprev]; exact_mod_cast hpos) hfind,
    hprev, hfac, hlen, forIndices_mod 12 n first.length rest.length (by decide) hn]
  have hkeys := codes_read_mod strip g.satSysPrev rest (mkString 10 ' ')
    (pad ++ stringSystemScaleFac) 10 12 first.length (length_mkString _ _) h12 hrest hcodes
  simp only [← List.append_assoc] at hkeys
  have h := List.foldl_map
    (fun i => ObsID.mk (g.satSysPrev ++ strip (substr
      (mkString 10 ' ' ++ codesText rest ++ pad ++ stringSystemScaleFac)
      (4 * (i % 12) + 10 + 1) 3)))
    (fun (m : sfacMap) k => SMap.insert m k f) (List.range' first.length rest.length)
    (sfacOf first f)
  rw [hkeys] at h
  have hfst : (sfacOf first f).map Prod.fst = first := by
    unfold sfacOf
    rw [List.map_map]
    exact List.map_id _
  rw [← h, foldl_insert_new f rest (sfacOf first f) (by rw [hfst]; exact hsorted)]
  simp [sfacOf]

/-! ## Scale factors on two lines: the round trip -/

theorem putSystemScaleFac_two_lines (h : Rinex3ObsHeader) (s : PutState) (sys : Str) (f : Int)
    (ids : List ObsID) (hflag : isSet h.valid validSystemScaleFac = true)
    (hmap : h.sysSfacMap = [(sys, sfacOf ids f)])
    (hf : f = 1 ∨ f = 10 ∨ f = 100 ∨ f = 1000)
    (h1 : 12 < ids.length) (h2 : ids.length < 24) :
    putSystemScaleFac h s =
      (⟨s.out ++ [sfacOpeningLine sys f ids.length (ids.take 12),
          sfacContinuationLine (ids.drop 12)],
        sfacContinuationLine (ids.drop 12)⟩, none) := by
  unfold putSystemScaleFac
  rw [if_pos hflag, hmap]
  simp only [List.foldl_cons, List.foldl_nil]
  rcases hf with rfl | rfl | rfl | rfl
  · rw [scaleFacGroup_two_lines sys ids 1 s h1 h2,
      scaleFacGroup_other sys ids 1 10 (by decide), scaleFacGroup_other sys ids 1 100 (by decide),
      scaleFacGroup_other sys ids 1 1000 (by decide)]
  · rw [scaleFacGroup_other sys ids 10 1 (by decide), scaleFacGroup_two_lines sys ids 10 s h1 h2,
      scaleFacGroup_other sys ids 10 100 (by decide),
      scaleFacGroup_other sys ids 10 1000 (by decide)]
  · rw [scaleFacGroup_other sys ids 100 1 (by decide),
      scaleFacGroup_other sys ids 100 10 (by decide),
      scaleFacGroup_two_lines sys ids 100 s h1 h2,
      scaleFacGroup_other sys ids 100 1000 (by decide)]
  · rw [scaleFacGroup_other sys ids 1000 1 (by decide),
      scaleFacGroup_other sys ids 1000 10 (by decide),
      scaleFacGroup_other sys ids 1000 100 (by decide),
      scaleFacGroup_two_lines sys ids 1000 s h1 h2]

theorem fitsInt_factor (f : Int) (hf : f = 1 ∨ f = 10 ∨ f = 100 ∨ f = 1000) : FitsInt 4 f := by
  rcases hf with rfl | rfl | rfl | rfl <;> decide

theorem fitsInt_count2 (n : Nat) (hn : n < 24) : FitsInt 2 (n : Int) := by
  unfold FitsInt
  interval_cases n <;> decide

theorem scaleFac_two_lines_read_back (g : Rinex3ObsHeader) (sys : Str) (f : Int)
    (ids : List ObsID) (hsys : sys.length = 1 ∧ sys ≠ [' '])
    (hf : f = 1 ∨ f = 10 ∨ f = 100 ∨ f = 1000)
    (h1 : 12 < ids.length) (h2 : ids.length < 24)
    (hcodes : ∀ o ∈ ids, o.text.length = 4 ∧ o.text.take 1 = sys ∧
      strip (o.text.drop 1) = o.text.drop 1)
    (hsorted : ids.Pairwise (fun a b => KeyOrder.lt a b = true))
    (hfresh : SMap.find g.sysSfacMap sys = none) :
    ∃ g1 g2, readLine g (sfacOpeningLine sys f ids.length (ids.take 12)) = (g1, none) ∧
      readLine g1 (sfacContinuationLine (ids.drop 12)) = (g2, none) ∧
      g2.sysSfacMap = SMap.set g.sysSfacMap sys (sfacOf ids f) ∧
      SMap.find g2.sysSfacMap sys = some (sfacOf ids f) := by
  obtain ⟨hl, hb⟩ := hsys
  obtain ⟨c, rfl⟩ := List.length_eq_one.mp hl
  have hc : c ≠ ' ' := fun e => hb (by rw [e])
  have hex : ∀ o ∈ ids, ∃ code : Str, code.length = 3 ∧ strip code = code ∧
      o.text = [c] ++ code := by
    intro o ho
    obtain ⟨a, b, d⟩ := hcodes o ho
    refine ⟨o.text.drop 1, by rw [List.length_drop, a], d, ?_⟩
    rw [← b]
    exact (List.take_append_drop 1 o.text).symm
  have hsplit : ids.take 12 ++ ids.drop 12 = ids := List.take_append_drop 12 ids
  have lt : (ids.take 12).length = 12 := by rw [List.length_take]; omega
  have ld : (ids.drop 12).length = ids.length - 12 := List.length_drop _ _
  have hs1 : (ids.take 12).Pairwise (fun a b => KeyOrder.lt a b = true) :=
    hsorted.sublist (List.take_sublist _ _)
  have r1 := readLine_sfacOpening g c hc f (fitsInt_factor f hf) ids.length
    (fitsInt_count2 _ h2) (by omega) (ids.take 12) lt
    (fun o ho => hex o (List.mem_of_mem_take ho)) hs1 hfresh
  have r2 := readLine_sfacContinuation
    { g with
      satSysTemp := [c]
      factor := f
      numObs := ids.length
      sysSfacMap := SMap.set g.sysSfacMap [c] (sfacOf (ids.take 12) f)
      satSysPrev := [c]
      factorPrev := f
      numObsPrev := ids.length
      valid := g.valid ||| validSystemScaleFac }
    f ids.length (ids.take 12) (ids.drop 12) rfl rfl
    (str_find_set_self g.sysSfacMap [c] (sfacOf (ids.take 12) f)) (by rw [lt]) (by omega)
    (by omega) (by rw [lt, ld]; omega) (fun o ho => hex o (List.mem_of_mem_drop ho))
    (by rw [hsplit]; exact hsorted)
  rw [hsplit] at r2
  refine ⟨_, _, r1, r2, ?_, ?_⟩
  · exact str_set_set _ _ _ _
  · show SMap.find (SMap.set (SMap.set g.sysSfacMap [c] _) [c] _) [c] = _
    exact str_find_set_self _ _ _

/-- C16: for every header whose scale-factor map holds, for one system of one
character other than a blank, 20 observation codes in ascending order (each
identifier the system followed by a code of three characters without a blank at
either end) that all carry one factor out of 1, 10, 100 and 1000, the
SYS / SCALE FACTOR block writes two lines, an opening line with the factor, the
count 20 and the first 12 codes and a continuation line with the last 8, and
the decoder, starting from a header without scale factors for that system,
reads both lines without an exception and leaves exactly the 20
code-to-factor entries under that system. -/
theorem C16_twenty_scale_factors_read_back (h g : Rinex3ObsHeader) (s : PutState) (sys : Str)
    (f : Int) (ids : List ObsID) (hflag : isSet h.valid validSystemScaleFac = true)
    (hmap : h.sysSfacMap = [(sys, sfacOf ids f)]) (hsys : sys.length = 1 ∧ sys ≠ [' '])
    (hf : f = 1 ∨ f = 10 ∨ f = 100 ∨ f = 1000) (hlen : ids.length = 20)
    (hcodes : ∀ o ∈ ids, o.text.length = 4 ∧ o.text.take 1 = sys ∧
      strip (o.text.drop 1) = o.text.drop 1)
    (hsorted : ids.Pairwise (fun a b => KeyOrder.lt a b = true))
    (hfresh : SMap.find g.sysSfacMap sys = none) :
    putSystemScaleFac h s =
      (⟨s.out ++ [sfacOpeningLine sys f 20 (ids.take 12), sfacContinuationLine (ids.drop 12)],
        sfacContinuationLine (ids.drop 12)⟩, none) ∧
    (ids.take 12).length = 12 ∧ (ids.drop 12).length = 8 ∧
    ∃ g1 g2, readLine g (sfacOpeningLine sys f 20 (ids.take 12)) = (g1, none) ∧
      readLine g1 (sfacContinuationLine (ids.drop 12)) = (g2, none) ∧
      g2.sysSfacMap = SMap.set g.sysSfacMap sys (sfacOf ids f) ∧
      SMap.find g2.sysSfacMap sys = some (sfacOf ids f) := by
  have hw := putSystemScaleFac_two_lines h s sys f ids hflag hmap hf (by omega) (by omega)
  have hr := scaleFac_two_lines_read_back g sys f ids hsys hf (by omega) (by omega) hcodes
    hsorted hfresh
  rw [hlen] at hw hr
  exact ⟨hw, by rw [List.length_take]; omega, by rw [List.length_drop]; omega, hr⟩

set_option maxRecDepth 100000 in
theorem C16_witness :
    (isSet twentyCodesHeader.valid validSystemScaleFac = true ∧
      twentyCodesHeader.sysSfacMap = [("G".toList, sfacOf twentyCodes 100)] ∧
      twentyCodes.length = 20) ∧
    (putSystemScaleFac twentyCodesHeader ⟨[], []⟩).1.out =
      [ "G  100  20 C1C C1W C2L C2W C5Q D1C D1W D2L D2W D5Q L1C L1W  SYS / SCALE FACTOR".toList,
        "           L2L L2W L5Q S1C S1W S2L S2W S5Q                  SYS / SCALE FACTOR".toList ] ∧
    ∃ g1 g2,
      readLine Rinex3ObsHeader.empty (sfacOpeningLine "G".toList 100 20 (twentyCodes.take 12)) =
        (g1, none) ∧
      readLine g1 (sfacContinuationLine (twentyCodes.drop 12)) = (g2, none) ∧
      SMap.find g2.sysSfacMap "G".toList = some (sfacOf twentyCodes 100) := by
  have h := C16_twenty_scale_factors_read_back twentyCodesHeader Rinex3ObsHeader.empty ⟨[], []⟩
    "G".toList 100 twentyCodes (by decide) rfl (by decide) (by decide) (by decide) (by decide)
    (by decide) (by decide)
  obtain ⟨hw, _, _, g1, g2, r1, r2, _, hf⟩ := h
  exact ⟨by decide, by rw [hw]; decide, g1, g2, r1, r2, hf⟩


/-! ## Observation counts on two lines: the encoder -/

theorem length_countsText (l : List Int) : (countsText l).length = 6 * l.length := by
  induction l with
  | nil => rfl
  | cons c cs ih =>
    unfold countsText
    simp [length_rightJustify, ih]
    omega

theorem countsText_append (l1 l2 : List Int) :
    countsText (l1 ++ l2) = countsText l1 ++ countsText l2 := by
  induction l1 with
  | nil => rfl
  | cons c cs ih =>
    show rightJustify (asStringInt c) 6 ++ countsText (cs ++ l2) =
      rightJustify (asStringInt c) 6 ++ countsText cs ++ countsText l2
    rw [ih, List.append_assoc]

theorem prnObsCounts_cons (sat : RinexSatID) (c : Int) (cs : List Int) (j : Nat) (s : PutState) :
    prnObsCounts sat (c :: cs) j s =
      prnObsCounts sat cs (j + 1)
        { (if j = 0 then { s with line := mkString 3 ' ' ++ sat.toString }
            else if j % 9 = 0 then
              { emit { s with line := s.line ++ stringPrnObs } with line := mkString 6 ' ' }
            else s) with
          line := (if j = 0 then { s with line := mkString 3 ' ' ++ sat.toString }
            else if j % 9 = 0 then
              { emit { s with line := s.line ++ stringPrnObs } with line := mkString 6 ' ' }
            else s).line ++ rightJustify (asStringInt c) 6 } := rfl

theorem prnObsCounts_plain (sat : RinexSatID) (cs : List Int) : ∀ (j : Nat) (s : PutState),
    (∀ i, i < cs.length → (j + i) % 9 ≠ 0) →
    prnObsCounts sat cs j s = { s with line := s.line ++ countsText cs } := by
  induction cs with
  | nil => intro j s _; simp [prnObsCounts, countsText]
  | cons c cs ih =>
    intro j s hj
    have h0 := hj 0 (by simp)
    simp only [Nat.add_zero] at h0
    rw [prnObsCounts_cons, if_neg (by omega), if_neg h0,
      ih (j + 1) _ (fun i hi => by
        have := hj (i + 1) (by simp only [List.length_cons]; omega)
        rw [show j + 1 + i = j + (i + 1) by omega]
        exact this)]
    simp [countsText]

theorem prnObsCounts_append (sat : RinexSatID) (l1 l2 : List Int) : ∀ (j : Nat) (s : PutState),
    prnObsCounts sat (l1 ++ l2) j s =
      prnObsCounts sat l2 (j + l1.length) (prnObsCounts sat l1 j s) := by
  induction l1 with
  | nil => intro j s; rfl
  | cons c cs ih =>
    intro j s
    simp only [List.cons_append, List.length_cons]
    rw [prnObsCounts_cons, prnObsCounts_cons, ih,
      show j + 1 + cs.length = j + (cs.length + 1) by omega]

theorem prnObsCounts_first (sat : RinexSatID) (cs : List Int) (s : PutState) (h0 : cs ≠ [])
    (h9 : cs.length ≤ 9) :
    prnObsCounts sat cs 0 s =
      { s with line := mkString 3 ' ' ++ sat.toString ++ countsText cs } := by
  cases cs with
  | nil => exact absurd rfl h0
  | cons c cs =>
    simp only [List.length_cons] at h9
    rw [prnObsCounts_cons, if_pos rfl,
      prnObsCounts_plain sat cs (0 + 1) _ (fun i hi => by omega)]
    simp [countsText]

theorem prnObsCounts_wrap (sat : RinexSatID) (cs : List Int) (j : Nat) (s : PutState)
    (h0 : cs ≠ []) (h9 : cs.length ≤ 9) (hj : j ≠ 0) (hmod : j % 9 = 0) :
    prnObsCounts sat cs j s =
      { out := s.out ++ [s.line ++ stringPrnObs], line := mkString 6 ' ' ++ countsText cs } := by
  cases cs with
  | nil => exact absurd rfl h0
  | cons c cs =>
    simp only [List.length_cons] at h9
    rw [prnObsCounts_cons, if_neg hj, if_pos hmod,
      prnObsCounts_plain sat cs (j + 1) _ (fun i hi => by omega)]
    simp [countsText, emit]

/-- The lines written for one satellite with more than 9 and at most 18
counts: an opening line with the first 9 counts and one continuation line. -/
theorem prnObsSats_two_lines (sat : RinexSatID) (counts : List Int) (s : PutState)
    (h1 : 9 < counts.length) (h2 : counts.length ≤ 18) :
    prnObsSats [(sat, counts)] s =
      (⟨s.out ++ [prnOpeningLine sat (counts.take 9), prnContinuationLine (counts.drop 9)],
        prnContinuationLine (counts.drop 9)⟩, none) := by
  have hsplit : counts = counts.take 9 ++ counts.drop 9 := (List.take_append_drop 9 counts).symm
  have lt : (counts.take 9).length = 9 := by rw [List.length_take]; omega
  have ld : (counts.drop 9).length = counts.length - 9 := List.length_drop _ _
  have ht0 : counts.take 9 ≠ [] := by
    intro h
    rw [h] at lt
    simp at lt
  have hd0 : counts.drop 9 ≠ [] := by
    intro h
    rw [h] at ld
    simp at ld
    omega
  have hc : prnObsCounts sat counts 0 s =
      { out := s.out ++ [mkString 3 ' ' ++ sat.toString ++ countsText (counts.take 9) ++
          stringPrnObs],
        line := mkString 6 ' ' ++ countsText (counts.drop 9) } := by
    conv_lhs => rw [hsplit]
    rw [prnObsCounts_append, lt, prnObsCounts_first sat _ s ht0 (by omega),
      prnObsCounts_wrap sat _ (0 + 9) _ hd0 (by omega) (by decide) (by decide)]
  unfold prnObsSats
  rw [hc]
  have hl : (mkString 6 ' ' ++ countsText (counts.drop 9)).length = 6 + 6 * (counts.length - 9) := by
    simp [length_mkString, length_countsText, ld]
  unfold fill60
  simp only [hl]
  rw [if_pos (by omega)]
  simp only [Put.andThen, prnObsSats, emit, prnOpeningLine, prnContinuationLine, lt, ld]
  have e1 : 60 - (6 + 6 * 9) = 0 := by decide
  simp [e1, mkString]

/-! ## Observation counts on two lines: the decoder -/

theorem smap_find_set_self {κ β : Type} [DecidableEq κ] [KeyOrder κ] (m : SMap κ β) (k : κ)
    (v : β) : SMap.find (SMap.set m k v) k = some v := by
  induction m with
  | nil => simp [SMap.set, SMap.find]
  | cons p m ih =>
    obtain ⟨k1, v1⟩ := p
    unfold SMap.set
    split_ifs with h1 h2
    · simp [SMap.find]
    · simp [SMap.find]
    · simp only [SMap.find, if_neg h1]
      exact ih

theorem smap_set_set {κ β : Type} [DecidableEq κ] [KeyOrder κ] (m : SMap κ β) (k : κ)
    (v w : β) : SMap.set (SMap.set m k v) k w = SMap.set m k w := by
  induction m with
  | nil => simp [SMap.set]
  | cons p m ih =>
    obtain ⟨k1, v1⟩ := p
    by_cases h1 : k1 = k
    · simp [SMap.set, h1]
    · by_cases h2 : KeyOrder.lt k k1 = true
      · simp [SMap.set, h1, h2]
      · simp only [SMap.set, if_neg h1, if_neg h2]
        rw [ih]

theorem satText_ok (sat : RinexSatID) (hsys : sat.system ≠ .systemUnknown)
    (hlo : 0 < sat.id) (hhi : sat.id < 100) :
    sat.toString.length = 3 ∧ strip sat.toString = sat.toString ∧
      RinexSatID.fromString sat.toString = .ok sat := by
  obtain ⟨sys, id⟩ := sat
  simp only at hsys hlo hhi
  obtain ⟨n, rfl⟩ : ∃ n : Nat, id = (n : Int) := ⟨id.toNat, by omega⟩
  have hn0 : 0 < n := by omega
  have hn1 : n < 100 := by omega
  interval_cases n <;> cases sys <;> first | exact absurd rfl hsys | exact ⟨by decide, by decide, rfl⟩

theorem counts_read (counts : List Int) :
    ∀ (pre post : Str) (p : Nat), pre.length = p → (∀ c ∈ counts, FitsInt 6 c) →
      (List.range counts.length).map
        (fun i => asInt (substr (pre ++ countsText counts ++ post) (6 * i + p) 6)) = counts := by
  induction counts with
  | nil => intro pre post p _ _; rfl
  | cons c cs ih =>
    intro pre post p hp hall
    have hc := hall c (List.mem_cons_self _ _)
    have hline : pre ++ countsText (c :: cs) ++ post =
        (pre ++ rightJustify (asStringInt c) 6) ++ countsText cs ++ post := by
      simp only [countsText, List.append_assoc]
    rw [hline, List.length_cons, List.range_succ_eq_map, List.map_cons, List.map_map]
    congr 1
    · have := substr_field pre (rightJustify (asStringInt c) 6) (countsText cs ++ post)
        (6 * 0 + p) 6 (by simp [hp]) (length_rightJustify _ _)
      simp only [← List.append_assoc] at this
      rw [this, asInt_rightJustify c 6 hc]
    · have := ih (pre ++ rightJustify (asStringInt c) 6) post (p + 6)
        (by simp [hp, length_rightJustify]) (fun o ho => hall o (List.mem_cons_of_mem _ ho))
      refine Eq.trans ?_ this
      apply List.map_congr_left
      intro i _
      simp only [Function.comp]
      rw [show 6 * Nat.succ i + p = 6 * i + (p + 6) by omega]

theorem counts_read_mod (counts : List Int) (pre post : Str) (p q start : Nat)
    (hp : pre.length = p) (hstart : start % q = 0) (hlen : counts.length ≤ q)
    (hfit : ∀ c ∈ counts, FitsInt 6 c) :
    (List.range' start counts.length).map
      (fun i => asInt (substr (pre ++ countsText counts ++ post) (6 * (i % q) + p) 6)) =
      counts := by
  rw [List.range'_eq_map_range, List.map_map]
  refine Eq.trans ?_ (counts_read counts pre post p hp hfit)
  apply List.map_congr_left
  intro j hj
  have hj1 : j < counts.length := List.mem_range.mp hj
  have hmod : (start + j) % q = j := by
    rw [Nat.add_mod, hstart, Nat.zero_add, Nat.mod_mod, Nat.mod_eq_of_lt (by omega)]
  simp only [Function.comp, hmod]

theorem forIndices_prn_opening (n : Nat) :
    forIndices (fun i => decide (i < n) && decide (i < 9)) 9 0 = List.range (min n 9) := by
  rw [List.range_eq_range']
  apply forIndices_eq_range'
  · intro i _ hi
    simp only [Bool.and_eq_true, decide_eq_true_eq]
    omega
  · intro hk
    simp only [Bool.and_eq_false_iff, decide_eq_false_iff_not]
    left
    omega
  · omega

theorem forIndices_prn_continuation (n start k : Nat) (hn : start + k = n) :
    forIndices (fun i => decide (i < n) && decide (i % 9 < 9)) n start = List.range' start k := by
  apply forIndices_eq_range'
  · intro i _ hi
    simp only [Bool.and_eq_true, decide_eq_true_eq]
    exact ⟨by omega, Nat.mod_lt _ (by decide)⟩
  · intro _
    simp only [Bool.and_eq_false_iff, decide_eq_false_iff_not]
    left
    omega
  · omega

theorem parseLabelled_prnObs (g : Rinex3ObsHeader) (line : Str) :
    parseLabelled g line stringPrnObs = parsePrnObs g line := rfl

theorem parsePrnObs_first (g : Rinex3ObsHeader) (line : Str) (PRN : RinexSatID)
    (types : List ObsID) (hne : strip (substr line 3 3) ≠ [])
    (hsat : RinexSatID.fromString (strip (substr line 3 3)) = .ok PRN)
    (hfind : SMap.find g.mapObsTypes [PRN.systemChar] = some types) (hpos : 0 < types.length) :
    parsePrnObs g line = ({ g with
      numObsForSat := SMap.set g.numObsForSat PRN
        ((forIndices (fun i => decide (i < types.length) && decide (i < 9)) 9 0).map
          (fun i => asInt (substr line (6 * i + 6) 6)))
      lastPRN := PRN
      valid := g.valid ||| validPrnObs }, none) := by
  unfold parsePrnObs
  simp only [if_neg hne, hsat, hfind, if_pos hpos]

theorem parsePrnObs_cont (g : Rinex3ObsHeader) (line : Str) (list : List Int)
    (types : List ObsID) (h0 : strip (substr line 3 3) = [])
    (hlist : SMap.find g.numObsForSat g.lastPRN = some list)
    (hfind : SMap.find g.mapObsTypes [g.lastPRN.systemChar] = some types)
    (hlt : list.length < types.length) :
    parsePrnObs g line = ({ g with
      numObsForSat := SMap.set g.numObsForSat g.lastPRN (list ++
        (forIndices (fun i => decide (i < types.length) && decide (i % 9 < 9))
          types.length list.length).map
          (fun i => asInt (substr line (6 * (i % 9) + 6) 6)))
      valid := g.valid ||| validPrnObs }, none) := by
  have ht : SMap.touch g.numObsForSat g.lastPRN ([] : List Int) = g.numObsForSat := by
    unfold SMap.touch SMap.insert
    rw [hlist]
  have hg : SMap.getD g.numObsForSat g.lastPRN ([] : List Int) = list := by
    unfold SMap.getD
    rw [hlist]
    rfl
  unfold parsePrnObs
  simp only [h0, if_true, ht, hg, hfind, if_pos hlt]

theorem readLine_prnOpening (g : Rinex3ObsHeader) (sat : RinexSatID) (types : List ObsID)
    (counts : List Int) (hsys : sat.system ≠ .systemUnknown) (hlo : 0 < sat.id)
    (hhi : sat.id < 100) (hfind : SMap.find g.mapObsTypes [sat.systemChar] = some types)
    (hpos : 0 < types.length) (hm : counts.length = min types.length 9)
    (hfit : ∀ c ∈ counts, FitsInt 6 c) :
    readLine g (prnOpeningLine sat counts) =
      ({ g with
        numObsForSat := SMap.set g.numObsForSat sat counts
        lastPRN := sat
        valid := g.valid ||| validPrnObs }, none) := by
  obtain ⟨hl, hs, hfrom⟩ := satText_ok sat hsys hlo hhi
  unfold prnOpeningLine
  have hd : (mkString 3 ' ' ++ sat.toString ++ countsText counts ++
      mkString (60 - (6 + 6 * counts.length)) ' ').length = 60 := by
    simp only [List.length_append, length_mkString, length_countsText, hl]
    omega
  rw [readLine_record g _ _ hd (by decide), parseLabelled_prnObs]
  generalize hpad : mkString (60 - (6 + 6 * counts.length)) ' ' = pad at hd ⊢
  have e1 : substr (mkString 3 ' ' ++ sat.toString ++ countsText counts ++ pad ++ stringPrnObs)
      3 3 = sat.toString := by
    simpa [List.append_assoc] using substr_field (mkString 3 ' ') sat.toString
      (countsText counts ++ pad ++ stringPrnObs) 3 3 (length_mkString _ _) hl
  have hne : sat.toString ≠ [] := by
    intro h
    rw [h] at hl
    simp at hl
  rw [parsePrnObs_first g _ sat types (by rw [e1, hs]; exact hne) (by rw [e1, hs]; exact hfrom)
    hfind hpos, forIndices_prn_opening, ← hm]
  have f4 := counts_read counts (mkString 3 ' ' ++ sat.toString) (pad ++ stringPrnObs) 6
    (by simp [length_mkString, hl]) hfit
  simp only [← List.append_assoc] at f4
  rw [f4]

theorem readLine_prnContinuation (g : Rinex3ObsHeader) (types : List ObsID)
    (first rest : List Int)
    (hlist : SMap.find g.numObsForSat g.lastPRN = some first)
    (hfind : SMap.find g.mapObsTypes [g.lastPRN.systemChar] = some types)
    (h9 : first.length % 9 = 0) (hrest : rest.length ≤ 9) (hne : rest ≠ [])
    (hn : first.length + rest.length = types.length)
    (hfit : ∀ c ∈ rest, FitsInt 6 c) :
    readLine g (prnContinuationLine rest) =
      ({ g with
        numObsForSat := SMap.set g.numObsForSat g.lastPRN (first ++ rest)
        valid := g.valid ||| validPrnObs }, none) := by
  unfold prnContinuationLine
  have hd : (mkString 6 ' ' ++ countsText rest ++
      mkString (60 - (6 + 6 * rest.length)) ' ').length = 60 := by
    simp only [List.length_append, length_mkString, length_countsText]
    omega
  rw [readLine_record g _ _ hd (by decide), parseLabelled_prnObs]
  generalize hpad : mkString (60 - (6 + 6 * rest.length)) ' ' = pad at hd ⊢
  have h0 : strip (substr (mkString 6 ' ' ++ countsText rest ++ pad ++ stringPrnObs) 3 3) =
      [] := by
    have : substr (mkString 6 ' ' ++ countsText rest ++ pad ++ stringPrnObs) 3 3 =
        mkString 3 ' ' := by
      have hm : mkString 6 ' ' = mkString 3 ' ' ++ mkString 3 ' ' := rfl
      rw [hm]
      simpa [List.append_assoc] using substr_field (mkString 3 ' ') (mkString 3 ' ')
        (countsText rest ++ pad ++ stringPrnObs) 3 3 rfl rfl
    rw [this]
    rfl
  have hpos : 0 < rest.length := List.length_pos.mpr hne
  rw [parsePrnObs_cont g _ first types h0 hlist hfind (by omega),
    forIndices_prn_continuation types.length first.length rest.length hn]
  have hmap := counts_read_mod rest (mkString 6 ' ') (pad ++ stringPrnObs) 6 9 first.length
    (length_mkString _ _) h9 hrest hfit
  simp only [← List.append_assoc] at hmap
  rw [hmap]

/-! ## Observation counts on two lines: the round trip -/

theorem prnObs_two_lines_read_back (g : Rinex3ObsHeader) (sat : RinexSatID)
    (types : List ObsID) (counts : List Int) (hsys : sat.system ≠ .systemUnknown)
    (hlo : 0 < sat.id) (hhi : sat.id < 100)
    (hfind : SMap.find g.mapObsTypes [sat.systemChar] = some types)
    (h1 : 9 < counts.length) (h2 : counts.length ≤ 18) (hlen : types.length = counts.length)
    (hfit : ∀ c ∈ counts, FitsInt 6 c) :
    ∃ g1 g2, readLine g (prnOpeningLine sat (counts.take 9)) = (g1, none) ∧
      readLine g1 (prnContinuationLine (counts.drop 9)) = (g2, none) ∧
      g2.numObsForSat = SMap.set g.numObsForSat sat counts ∧
      SMap.find g2.numObsForSat sat = some counts := by
  have hsplit : counts.take 9 ++ counts.drop 9 = counts := List.take_append_drop 9 counts
  have lt : (counts.take 9).length = 9 := by rw [List.length_take]; omega
  have ld : (counts.drop 9).length = counts.length - 9 := List.length_drop _ _
  have hd0 : counts.drop 9 ≠ [] := by
    intro h
    rw [h] at ld
    simp at ld
    omega
  have r1 := readLine_prnOpening g sat types (counts.take 9) hsys hlo hhi hfind (by omega)
    (by rw [lt, hlen]; omega) (fun c hc => hfit c (List.mem_of_mem_take hc))
  have r2 := readLine_prnContinuation
    { g with
      numObsForSat := SMap.set g.numObsForSat sat (counts.take 9)
      lastPRN := sat
      valid := g.valid ||| validPrnObs }
    types (counts.take 9) (counts.drop 9)
    (smap_find_set_self g.numObsForSat sat (counts.take 9)) hfind (by rw [lt]) (by omega) hd0
    (by rw [lt, ld, hlen]; omega) (fun c hc => hfit c (List.mem_of_mem_drop hc))
  rw [hsplit] at r2
  refine ⟨_, _, r1, r2, ?_, ?_⟩
  · exact smap_set_set _ _ _ _
  · show SMap.find (SMap.set (SMap.set g.numObsForSat sat _) sat _) sat = _
    exact smap_find_set_self _ _ _

/-- C17: for every header whose PRN / # OF OBS map holds one satellite (of a
known system, slot number from 1 to 99) with a list of 12 observation counts,
each fitting in 6 columns, the PRN / # OF OBS block writes two lines, an
opening line with the satellite and the first 9 counts and a continuation line
with the last 3, and the decoder, on a header whose observation-type map holds
12 codes for the system of the satellite, reads both lines without an
exception and leaves exactly the 12 counts, in the same order, under that
satellite. -/
theorem C17_twelve_counts_read_back (h g : Rinex3ObsHeader) (s : PutState) (sat : RinexSatID)
    (types : List ObsID) (counts : List Int) (hflag : isSet h.valid validPrnObs = true)
    (hmap : h.numObsForSat = [(sat, counts)]) (hsys : sat.system ≠ .systemUnknown)
    (hlo : 0 < sat.id) (hhi : sat.id < 100)
    (hfind : SMap.find g.mapObsTypes [sat.systemChar] = some types)
    (htypes : types.length = 12) (hlen : counts.length = 12)
    (hfit : ∀ c ∈ counts, FitsInt 6 c) :
    putPrnObs h s =
      (⟨s.out ++ [prnOpeningLine sat (counts.take 9), prnContinuationLine (counts.drop 9)],
        prnContinuationLine (counts.drop 9)⟩, none) ∧
    (counts.take 9).length = 9 ∧ (counts.drop 9).length = 3 ∧
    ∃ g1 g2, readLine g (prnOpeningLine sat (counts.take 9)) = (g1, none) ∧
      readLine g1 (prnContinuationLine (counts.drop 9)) = (g2, none) ∧
      g2.numObsForSat = SMap.set g.numObsForSat sat counts ∧
      SMap.find g2.numObsForSat sat = some counts := by
  have hw := prnObsSats_two_lines sat counts s (by omega) (by omega)
  have hr := prnObs_two_lines_read_back g sat types counts hsys hlo hhi hfind (by omega)
    (by omega) (by omega) hfit
  refine ⟨?_, by rw [List.length_take]; omega, by rw [List.length_drop]; omega, hr⟩
  unfold putPrnObs
  rw [if_pos hflag, hmap]
  exact hw

set_option maxRecDepth 100000 in
theorem C17_witness :
    (isSet twelveCountsHeader.valid validPrnObs = true ∧
      twelveCountsHeader.numObsForSat = [(⟨.systemGPS, 7⟩, twelveCounts)] ∧
      twelveCounts.length = 12 ∧
      SMap.find twelveCodesRead.mapObsTypes "G".toList = some (twentyCodes.take 12)) ∧
    (putPrnObs twelveCountsHeader ⟨[], []⟩).1.out =
      [ "   G07  2880  2879  2880  2880  2871  2870  2871  2871     0PRN / # OF OBS".toList,
        "          15   120 99999                                    PRN / # OF OBS".toList ] ∧
    ∃ g1 g2,
      readLine twelveCodesRead (prnOpeningLine ⟨.systemGPS, 7⟩ (twelveCounts.take 9)) =
        (g1, none) ∧
      readLine g1 (prnContinuationLine (twelveCounts.drop 9)) = (g2, none) ∧
      SMap.find g2.numObsForSat ⟨.systemGPS, 7⟩ = some twelveCounts := by
  have h := C17_twelve_counts_read_back twelveCountsHeader twelveCodesRead ⟨[], []⟩
    ⟨.systemGPS, 7⟩ (twentyCodes.take 12) twelveCounts (by decide) rfl (by decide) (by decide)
    (by decide) (by decide) (by decide) (by decide) (by decide)
  obtain ⟨hw, _, _, g1, g2, r1, r2, _, hf⟩ := h
  exact ⟨by decide, by rw [hw]; decide, g1, g2, r1, r2, hf⟩


/-! ## The flags set by the ZERODIR records -/

set_option maxRecDepth 100000 in
/-- C21 (failing input): an ANTENNA: ZERODIR AZI line and an ANTENNA: ZERODIR
XYZ line are parsed without an exception, and each sets the bit of ANTENNA:
B.SIGHT XYZ and leaves its own bit unset. -/
theorem C21_failing_input_zerodir_sets_bsight_flag :
    (ParseHeaderRecord Rinex3ObsHeader.empty zeroDirAziSampleLine).2 = none ∧
    (ParseHeaderRecord Rinex3ObsHeader.empty zeroDirAziSampleLine).1.valid =
      validAntennaBsightXYZ ∧
    isSet (ParseHeaderRecord Rinex3ObsHeader.empty zeroDirAziSampleLine).1.valid
      validAntennaZeroDirAzi = false ∧
    (ParseHeaderRecord Rinex3ObsHeader.empty zeroDirXYZSampleLine).2 = none ∧
    (ParseHeaderRecord Rinex3ObsHeader.empty zeroDirXYZSampleLine).1.valid =
      validAntennaBsightXYZ ∧
    isSet (ParseHeaderRecord Rinex3ObsHeader.empty zeroDirXYZSampleLine).1.valid
      validAntennaZeroDirXYZ = false := by
  decide

/-! ## A declared count of 27 observation codes -/

set_option maxRecDepth 100000 in
/-- C22 (failing input): after an opening SYS / # / OBS TYPES line for G with
the declared count 27 the list of G has 13 codes; the continuation line that
follows holds 13 codes, and after it the list has 27 entries, not 26: the
entry 26 was read from the first code slot of the continuation line, which
also gave the entry 13. -/
theorem C22_failing_input_count_27 :
    (readLine Rinex3ObsHeader.empty (obsOpeningLine "G".toList 27 (twentySixCodes.take 13))).2 =
      none ∧
    (SMap.getD (readLine Rinex3ObsHeader.empty
      (obsOpeningLine "G".toList 27 (twentySixCodes.take 13))).1.mapObsTypes
      "G".toList []).length = 13 ∧
    (readLine (readLine Rinex3ObsHeader.empty
        (obsOpeningLine "G".toList 27 (twentySixCodes.take 13))).1
      (obsContinuationLine (twentySixCodes.drop 13))).2 = none ∧
    SMap.getD (readLine (readLine Rinex3ObsHeader.empty
        (obsOpeningLine "G".toList 27 (twentySixCodes.take 13))).1
      (obsContinuationLine (twentySixCodes.drop 13))).1.mapObsTypes "G".toList [] =
      twentySixCodes ++ [⟨"GL2W".toList⟩] ∧
    twentySixCodes.get? 13 = some ⟨"GL2W".toList⟩ ∧
    (twentySixCodes ++ [(⟨"GL2W".toList⟩ : ObsID)]).length = 27 := by
  decide

/-! ## A satellite of a system without observation codes -/

set_option maxRecDepth 100000 in
/-- C26 (failing input): on a header whose observation-type map is empty, a
PRN / # OF OBS line for the satellite G01 dereferences the iterator returned
by `find`, which is `end()`. -/
theorem C26_failing_input_system_without_codes :
    SMap.find Rinex3ObsHeader.empty.mapObsTypes "G".toList = none ∧
    (ParseHeaderRecord Rinex3ObsHeader.empty prnSampleLine).2 = some .undefinedBehaviour := by
  decide

/-! ## The labels of the written lines -/

set_option maxRecDepth 100000 in
/-- C30 (failing input): the header with the GLONASS SLOT / FRQ # flag set is
accepted by the encoder, and the line of the GLONASS block has no label in
columns 60-79: the indices of the labels of the written lines are those of the
registry up to FIRST OBS, then 32 (no label of the registry), then 31. -/
theorem C30_failing_input_glonass_line_without_label :
    (reallyPutRecord sampleDate glonassHeader emptyStream).2 = none ∧
    labelIndices (reallyPutRecord sampleDate glonassHeader emptyStream).1.output =
      [0, 1, 3, 6, 7, 8, 9, 10, 17, 20, 32, 31] ∧
    (reallyPutRecord sampleDate glonassHeader emptyStream).1.output.get? 10 =
      some ("  2 R01  1R02 -4".toList ++ mkString 44 ' ') ∧
    labelRegistry.length = 32 := by
  decide

/-! ## SYS / PHASE SHIFTS: a blank observation code, and continuation lines -/

theorem parseLabelled_phaseShift (g : Rinex3ObsHeader) (line : Str) :
    parseLabelled g line stringSystemPhaseShift = parseSystemPhaseShift g line := rfl

theorem ParseHeaderRecord_phaseShift (g : Rinex3ObsHeader) (line : Str)
    (hl : substr line 60 20 = stringSystemPhaseShift) :
    ParseHeaderRecord g line = parseSystemPhaseShift g line := by
  rw [ParseHeaderRecord_label g line _ hl (by decide), parseLabelled_phaseShift]

theorem phaseShift_blank_code_map (h : Rinex3ObsHeader) (line : Str)
    (hsys : strip (substr line 0 1) ≠ []) (hcode : strip (substr line 2 3) = []) :
    (parseSystemPhaseShift h line).1.sysPhaseShift = h.sysPhaseShift := by
  unfold parseSystemPhaseShift
  simp only [if_neg hsys, hcode]
  split <;> simp

theorem phaseShift_blank_code_ok (h : Rinex3ObsHeader) (line : Str) (sat : RinexSatID)
    (hsys : strip (substr line 0 1) ≠ []) (hcode : strip (substr line 2 3) = [])
    (hsat : RinexSatID.fromString (strip (substr line 0 1)) = .ok sat) :
    parseSystemPhaseShift h line =
      ({ h with
        satSysTemp := strip (substr line 0 1)
        satSysPrev := strip (substr line 0 1)
        valid := h.valid ||| validSystemPhaseShift }, none) := by
  unfold parseSystemPhaseShift
  simp only [if_neg hsys, hcode, hsat]
  simp

theorem phaseShift_continuation_rejected (g : Rinex3ObsHeader) (line : Str)
    (hblank : strip (substr line 0 1) = [])
    (hfind : SMap.find g.sysPhaseShift g.sysPhaseShiftObsID = none) :
    parseSystemPhaseShift g line =
      ({ g with satSysTemp := g.satSysPrev }, some unexpectedContinuation) := by
  unfold parseSystemPhaseShift
  simp only [hblank, if_true, hfind]
  rfl

theorem phaseShift_continuation_taken (g : Rinex3ObsHeader) (line : Str) (m : SMap RinexSatID ℚ)
    (hblank : strip (substr line 0 1) = [])
    (hfind : SMap.find g.sysPhaseShift g.sysPhaseShiftObsID = some m) :
    (parseSystemPhaseShift g line).2 ≠ some unexpectedContinuation := by
  unfold parseSystemPhaseShift
  simp only [hblank, if_true, hfind]
  cases m with
  | nil => simp [unexpectedContinuation]
  | cons p rest =>
    obtain ⟨s0, corr⟩ := p
    simp only
    intro he
    obtain ⟨t, ht⟩ := phaseShiftContinuation_err _ _ _ _ _ he
    simp [unexpectedContinuation] at ht

set_option maxRecDepth 100000 in
/-- C24 (counterexample): a SYS / PHASE SHIFTS line with the system G and a
blank observation code is accepted and leaves the phase-shift map empty: no
entry is recorded. -/
theorem C24_counterexample_no_entry_recorded :
    strip (substr phaseShiftSystemOnlyLine 0 1) = "G".toList ∧
    strip (substr phaseShiftSystemOnlyLine 2 3) = [] ∧
    (ParseHeaderRecord Rinex3ObsHeader.empty phaseShiftSystemOnlyLine).2 = none ∧
    (ParseHeaderRecord Rinex3ObsHeader.empty phaseShiftSystemOnlyLine).1.sysPhaseShift = [] := by
  decide

/-- C24: for every SYS / PHASE SHIFTS line with a system code that is not
blank and a blank observation-code field, the decoder leaves the phase-shift map
as it was, whether the line is accepted or not; when the system code is a
recognised one the line is accepted, the system is remembered for continuation
lines and the phase-shift flag is set, and nothing else changes. -/
theorem C24_blank_code_records_nothing (h : Rinex3ObsHeader) (line : Str)
    (hl : substr line 60 20 = stringSystemPhaseShift)
    (hsys : strip (substr line 0 1) ≠ []) (hcode : strip (substr line 2 3) = []) :
    (ParseHeaderRecord h line).1.sysPhaseShift = h.sysPhaseShift ∧
    ∀ sat, RinexSatID.fromString (strip (substr line 0 1)) = .ok sat →
      ParseHeaderRecord h line =
        ({ h with
          satSysTemp := strip (substr line 0 1)
          satSysPrev := strip (substr line 0 1)
          valid := h.valid ||| validSystemPhaseShift }, none) := by
  rw [ParseHeaderRecord_phaseShift h line hl]
  exact ⟨phaseShift_blank_code_map h line hsys hcode,
    fun sat hsat => phaseShift_blank_code_ok h line sat hsys hcode hsat⟩

set_option maxRecDepth 100000 in
theorem C24_witness :
    (ParseHeaderRecord phaseShift14Header phaseShiftSystemOnlyLine).1.sysPhaseShift =
      phaseShift14Header.sysPhaseShift ∧
    (ParseHeaderRecord phaseShift14Header phaseShiftSystemOnlyLine).2 = none := by
  have h := C24_blank_code_records_nothing phaseShift14Header phaseShiftSystemOnlyLine
    (by decide) (by decide) (by decide)
  refine ⟨h.1, ?_⟩
  rw [h.2 ⟨.systemGPS, -1⟩ rfl]

/-! ## What every record leaves alone -/

theorem land_lor_self (v b : Nat) : v &&& (v ||| b) = v := by
  apply Nat.eq_of_testBit_eq
  intro i
  simp only [Nat.testBit_land, Nat.testBit_lor]
  cases v.testBit i <;> simp

theorem flagsKept_or (g : Rinex3ObsHeader) (r : Parsed) (b : Nat)
    (h : r.1.valid = g.valid ||| b) : FlagsKept g r := by
  unfold FlagsKept
  rw [h, land_lor_self]

theorem flagsKept_eq (g : Rinex3ObsHeader) (r : Parsed) (h : r.1.valid = g.valid) :
    FlagsKept g r := by
  unfold FlagsKept
  rw [h]
  apply Nat.eq_of_testBit_eq
  intro i
  simp only [Nat.testBit_land, Bool.and_self]

theorem simple_frames (label : Str) (p : Rinex3ObsHeader → Str → Parsed) (b : Nat)
    (hp : ∀ g line, (p g line).1.valid = g.valid ||| b ∧ PhaseFrame g (p g line) ∧
      CountFrame g (p g line)) :
    ∀ g line, Frames label g (p g line) := by
  intro g line
  obtain ⟨h1, h2, h3⟩ := hp g line
  exact ⟨flagsKept_or g _ b h1, fun _ => h2, fun _ _ _ => h3⟩

theorem parseVersion_frames : ∀ g line, Frames stringVersion g (parseVersion g line) := by
  intro g line
  have key : ((parseVersion g line).1.valid = g.valid ∨
      (parseVersion g line).1.valid = g.valid ||| validVersion) ∧
      PhaseFrame g (parseVersion g line) ∧ CountFrame g (parseVersion g line) := by
    unfold parseVersion PhaseFrame CountFrame
    simp only
    split
    · exact ⟨Or.inl rfl, ⟨rfl, rfl⟩, ⟨rfl, rfl, rfl⟩⟩
    · split_ifs
      · exact ⟨Or.inl rfl, ⟨rfl, rfl⟩, ⟨rfl, rfl, rfl⟩⟩
      · exact ⟨Or.inl rfl, ⟨rfl, rfl⟩, ⟨rfl, rfl, rfl⟩⟩
      · exact ⟨Or.inr rfl, ⟨rfl, rfl⟩, ⟨rfl, rfl, rfl⟩⟩
  obtain ⟨hv, h2, h3⟩ := key
  refine ⟨?_, fun _ => h2, fun _ _ _ => h3⟩
  rcases hv with hv | hv
  · exact flagsKept_eq _ _ hv
  · exact flagsKept_or _ _ _ hv

theorem parseSystemNumObs_frames :
    ∀ g line, Frames stringSystemNumObs g (parseSystemNumObs g line) := by
  intro g line
  have key : ((parseSystemNumObs g line).1.valid = g.valid ∨
      (parseSystemNumObs g line).1.valid = g.valid ||| validSystemObsType) ∧
      PhaseFrame g (parseSystemNumObs g line) := by
    unfold parseSystemNumObs PhaseFrame
    simp only
    split_ifs
    · split
      · exact ⟨Or.inl rfl, rfl, rfl⟩
      · exact ⟨Or.inr rfl, rfl, rfl⟩
    · exact ⟨Or.inr rfl, rfl, rfl⟩
  obtain ⟨hv, h2⟩ := key
  refine ⟨?_, fun _ => h2, fun h => absurd rfl h⟩
  rcases hv with hv | hv
  · exact flagsKept_eq _ _ hv
  · exact flagsKept_or _ _ _ hv

theorem parseSystemScaleFac_frames :
    ∀ g line, Frames stringSystemScaleFac g (parseSystemScaleFac g line) := by
  intro g line
  have key : (parseSystemScaleFac g line).1.valid = g.valid ||| validSystemScaleFac ∧
      PhaseFrame g (parseSystemScaleFac g line) := by
    unfold parseSystemScaleFac PhaseFrame
    simp only
    refine ⟨?_, ?_, ?_⟩
    all_goals split_ifs <;> rfl
  obtain ⟨hv, h2⟩ := key
  exact ⟨flagsKept_or _ _ _ hv, fun _ => h2, fun _ h => absurd rfl h⟩

theorem parseSystemPhaseShift_frames :
    ∀ g line, Frames stringSystemPhaseShift g (parseSystemPhaseShift g line) := by
  intro g line
  have key : ((parseSystemPhaseShift g line).1.valid = g.valid ∨
      (parseSystemPhaseShift g line).1.valid = g.valid ||| validSystemPhaseShift) ∧
      CountFrame g (parseSystemPhaseShift g line) := by
    unfold parseSystemPhaseShift CountFrame
    simp only
    split_ifs
    · split
      · exact ⟨Or.inl rfl, rfl, rfl, rfl⟩
      · split
        · exact ⟨Or.inl rfl, rfl, rfl, rfl⟩
        · exact ⟨Or.inl rfl, rfl, rfl, rfl⟩
    all_goals
      split
      · exact ⟨Or.inl rfl, rfl, rfl, rfl⟩
      · first
        | exact ⟨Or.inr rfl, rfl, rfl, rfl⟩
        | (split
           · exact ⟨Or.inl rfl, rfl, rfl, rfl⟩
           · exact ⟨Or.inr rfl, rfl, rfl, rfl⟩)
  obtain ⟨hv, h3⟩ := key
  refine ⟨?_, fun h => absurd rfl h, fun _ _ _ => h3⟩
  rcases hv with hv | hv
  · exact flagsKept_eq _ _ hv
  · exact flagsKept_or _ _ _ hv

theorem parseGlonassSlotFreqNo_frames :
    ∀ g line, Frames stringGlonassSlotFreqNo g (parseGlonassSlotFreqNo g line) := by
  intro g line
  have key : ((parseGlonassSlotFreqNo g line).1.valid = g.valid ∨
      (parseGlonassSlotFreqNo g line).1.valid = g.valid ||| validGlonassFreqNo) ∧
      PhaseFrame g (parseGlonassSlotFreqNo g line) ∧
      CountFrame g (parseGlonassSlotFreqNo g line) := by
    unfold parseGlonassSlotFreqNo PhaseFrame CountFrame
    simp only
    split
    · exact ⟨Or.inl rfl, ⟨rfl, rfl⟩, ⟨rfl, rfl, rfl⟩⟩
    · exact ⟨Or.inr rfl, ⟨rfl, rfl⟩, ⟨rfl, rfl, rfl⟩⟩
  obtain ⟨hv, h2, h3⟩ := key
  refine ⟨?_, fun _ => h2, fun _ _ _ => h3⟩
  rcases hv with hv | hv
  · exact flagsKept_eq _ _ hv
  · exact flagsKept_or _ _ _ hv

theorem parsePrnObs_frames : ∀ g line, Frames stringPrnObs g (parsePrnObs g line) := by
  intro g line
  have key : ((parsePrnObs g line).1.valid = g.valid ∨
      (parsePrnObs g line).1.valid = g.valid ||| validPrnObs) ∧
      PhaseFrame g (parsePrnObs g line) := by
    unfold parsePrnObs PhaseFrame
    simp only
    split_ifs
    · split
      · exact ⟨Or.inl rfl, rfl, rfl⟩
      · split_ifs
        · exact ⟨Or.inr rfl, rfl, rfl⟩
        · exact ⟨Or.inr rfl, rfl, rfl⟩
    · split
      · exact ⟨Or.inl rfl, rfl, rfl⟩
      · split
        · exact ⟨Or.inl rfl, rfl, rfl⟩
        · split_ifs
          · exact ⟨Or.inr rfl, rfl, rfl⟩
          · exact ⟨Or.inr rfl, rfl, rfl⟩
  obtain ⟨hv, h2⟩ := key
  refine ⟨?_, fun _ => h2, fun _ _ h => absurd rfl h⟩
  rcases hv with hv | hv
  · exact flagsKept_eq _ _ hv
  · exact flagsKept_or _ _ _ hv

theorem recordParsers_frames :
    ∀ p ∈ recordParsers, ∀ g line, Frames p.1 g (p.2 g line) := by
  unfold recordParsers
  simp only [List.forall_mem_cons]
  refine ⟨parseVersion_frames,
    simple_frames _ _ validRunBy (fun g line => ⟨rfl, ⟨rfl, rfl⟩, ⟨rfl, rfl, rfl⟩⟩),
    simple_frames _ _ validComment (fun g line => ⟨rfl, ⟨rfl, rfl⟩, ⟨rfl, rfl, rfl⟩⟩),
    simple_frames _ _ validMarkerName (fun g line => ⟨rfl, ⟨rfl, rfl⟩, ⟨rfl, rfl, rfl⟩⟩),
    simple_frames _ _ validMarkerNumber (fun g line => ⟨rfl, ⟨rfl, rfl⟩, ⟨rfl, rfl, rfl⟩⟩),
    simple_frames _ _ validMarkerType (fun g line => ⟨rfl, ⟨rfl, rfl⟩, ⟨rfl, rfl, rfl⟩⟩),
    simple_frames _ _ validObserver (fun g line => ⟨rfl, ⟨rfl, rfl⟩, ⟨rfl, rfl, rfl⟩⟩),
    simple_frames _ _ validReceiver (fun g line => ⟨rfl, ⟨rfl, rfl⟩, ⟨rfl, rfl, rfl⟩⟩),
    simple_frames _ _ validAntennaType (fun g line => ⟨rfl, ⟨rfl, rfl⟩, ⟨rfl, rfl, rfl⟩⟩),
    simple_frames _ _ validAntennaPosition (fun g line => ⟨rfl, ⟨rfl, rfl⟩, ⟨rfl, rfl, rfl⟩⟩),
    simple_frames _ _ validAntennaDeltaHEN (fun g line => ⟨rfl, ⟨rfl, rfl⟩, ⟨rfl, rfl, rfl⟩⟩),
    simple_frames _ _ validAntennaDeltaXYZ (fun g line => ⟨rfl, ⟨rfl, rfl⟩, ⟨rfl, rfl, rfl⟩⟩),
    simple_frames _ _ validAntennaPhaseCtr (fun g line => ⟨rfl, ⟨rfl, rfl⟩, ⟨rfl, rfl, rfl⟩⟩),
    simple_frames _ _ validAntennaBsightXYZ (fun g line => ⟨rfl, ⟨rfl, rfl⟩, ⟨rfl, rfl, rfl⟩⟩),
    simple_frames _ _ validAntennaBsightXYZ (fun g line => ⟨rfl, ⟨rfl, rfl⟩, ⟨rfl, rfl, rfl⟩⟩),
    simple_frames _ _ validAntennaBsightXYZ (fun g line => ⟨rfl, ⟨rfl, rfl⟩, ⟨rfl, rfl, rfl⟩⟩),
    simple_frames _ _ validCenterOfMass (fun g line => ⟨rfl, ⟨rfl, rfl⟩, ⟨rfl, rfl, rfl⟩⟩),
    parseSystemNumObs_frames,
    simple_frames _ _ validSigStrengthUnit (fun g line => ⟨rfl, ⟨rfl, rfl⟩, ⟨rfl, rfl, rfl⟩⟩),
    simple_frames _ _ validInterval (fun g line => ⟨rfl, ⟨rfl, rfl⟩, ⟨rfl, rfl, rfl⟩⟩),
    simple_frames _ _ validFirstTime (fun g line => ⟨rfl, ⟨rfl, rfl⟩, ⟨rfl, rfl, rfl⟩⟩),
    simple_frames _ _ validLastTime (fun g line => ⟨rfl, ⟨rfl, rfl⟩, ⟨rfl, rfl, rfl⟩⟩),
    simple_frames _ _ validReceiverOffset (fun g line => ⟨rfl, ⟨rfl, rfl⟩, ⟨rfl, rfl, rfl⟩⟩),
    simple_frames _ _ validSystemDCBSapplied (fun g line => ⟨rfl, ⟨rfl, rfl⟩, ⟨rfl, rfl, rfl⟩⟩),
    simple_frames _ _ validSystemPCVSapplied (fun g line => ⟨rfl, ⟨rfl, rfl⟩, ⟨rfl, rfl, rfl⟩⟩),
    parseSystemScaleFac_frames, parseSystemPhaseShift_frames, parseGlonassSlotFreqNo_frames,
    simple_frames _ _ validLeapSeconds (fun g line => ⟨rfl, ⟨rfl, rfl⟩, ⟨rfl, rfl, rfl⟩⟩),
    simple_frames _ _ validNumSats (fun g line => ⟨rfl, ⟨rfl, rfl⟩, ⟨rfl, rfl, rfl⟩⟩),
    parsePrnObs_frames,
    simple_frames _ _ validEoH (fun g line => ⟨rfl, ⟨rfl, rfl⟩, ⟨rfl, rfl, rfl⟩⟩), ?_⟩
  intro p hp
  simp at hp

theorem parseLabelled_frames (g : Rinex3ObsHeader) (line label : Str) :
    Frames label g (parseLabelled g line label) := by
  apply parseLabelled_cases (fun r => Frames label g r)
  · intro p hp hl
    have := recordParsers_frames p hp g line
    rw [← hl] at this
    exact this
  · intro _
    exact ⟨flagsKept_eq _ _ rfl, fun _ => ⟨rfl, rfl⟩, fun _ _ _ => ⟨rfl, rfl, rfl⟩⟩

theorem ParseHeaderRecord_frames (g : Rinex3ObsHeader) (line : Str) :
    Frames (substr line 60 20) g (ParseHeaderRecord g line) := by
  by_cases hl : line.length < 60
  · rw [ParseHeaderRecord_short g line hl]
    exact ⟨flagsKept_eq _ _ rfl, fun _ => ⟨rfl, rfl⟩, fun _ _ _ => ⟨rfl, rfl, rfl⟩⟩
  · rw [ParseHeaderRecord_of_le g line (by omega)]
    exact parseLabelled_frames g line _

theorem readLine_frames (g : Rinex3ObsHeader) (raw : Str) :
    Frames (lineLabel raw) g (readLine g raw) := by
  unfold readLine
  simp only
  split_ifs
  · exact ⟨flagsKept_eq _ _ rfl, fun _ => ⟨rfl, rfl⟩, fun _ _ _ => ⟨rfl, rfl, rfl⟩⟩
  · exact ⟨flagsKept_eq _ _ rfl, fun _ => ⟨rfl, rfl⟩, fun _ _ _ => ⟨rfl, rfl, rfl⟩⟩
  · exact ParseHeaderRecord_frames g _

theorem parseLabelled_comment (g : Rinex3ObsHeader) (line : Str) :
    parseLabelled g line stringComment = parseComment g line := rfl

/-- C29: for every header and every line, whether `ParseHeaderRecord` returns
or throws, every validity bit set before the call is set after it (the old
flags are a subset of the new ones); and a COMMENT line read when the comment
flag is already set is accepted and leaves that flag set. -/
theorem C29_flags_never_cleared (h : Rinex3ObsHeader) (line : Str) :
    h.valid &&& (ParseHeaderRecord h line).1.valid = h.valid ∧
    (∀ i, h.valid.testBit i = true → (ParseHeaderRecord h line).1.valid.testBit i = true) ∧
    (substr line 60 20 = stringComment → isSet h.valid validComment = true →
      (ParseHeaderRecord h line).2 = none ∧
      isSet (ParseHeaderRecord h line).1.valid validComment = true) := by
  have hk : h.valid &&& (ParseHeaderRecord h line).1.valid = h.valid :=
    (ParseHeaderRecord_frames h line).1
  refine ⟨hk, ?_, ?_⟩
  · intro i hi
    have := congrArg (fun v => Nat.testBit v i) hk
    simp only [Nat.testBit_land, hi, Bool.true_and] at this
    exact this
  · intro hl hset
    rw [ParseHeaderRecord_label h line _ hl (by decide), parseLabelled_comment]
    refine ⟨rfl, ?_⟩
    show isSet (h.valid ||| validComment) validComment = true
    rw [isSet_or, hset, Bool.true_or]

set_option maxRecDepth 100000 in
theorem C29_witness :
    isSet (ParseHeaderRecord Rinex3ObsHeader.empty commentSampleLine).1.valid validComment =
      true ∧
    (ParseHeaderRecord (ParseHeaderRecord Rinex3ObsHeader.empty commentSampleLine).1
      commentSampleLine).2 = none ∧
    isSet (ParseHeaderRecord (ParseHeaderRecord Rinex3ObsHeader.empty commentSampleLine).1
      commentSampleLine).1.valid validComment = true :=
  ⟨by decide,
    (C29_flags_never_cleared (ParseHeaderRecord Rinex3ObsHeader.empty commentSampleLine).1
      commentSampleLine).2.2 (by decide) (by decide)⟩

/-! ## Sessions without a pending phase-shift record -/

theorem smap_find_none_of_keys {κ β : Type} [DecidableEq κ] [KeyOrder κ] (m : SMap κ β)
    (k : κ) (h : ∀ e ∈ m, e.1 ≠ k) : SMap.find m k = none := by
  induction m with
  | nil => rfl
  | cons p m ih =>
    obtain ⟨k1, v1⟩ := p
    have h1 : k1 ≠ k := h (k1, v1) (List.mem_cons_self _ _)
    simp only [SMap.find, if_neg h1]
    exact ih (fun e he => h e (List.mem_cons_of_mem _ he))

theorem smap_mem_set {κ β : Type} [DecidableEq κ] [KeyOrder κ] (m : SMap κ β) (k : κ) (v : β)
    (e : κ × β) (he : e ∈ SMap.set m k v) : e ∈ m ∨ e = (k, v) := by
  induction m with
  | nil =>
    simp only [SMap.set, List.mem_singleton] at he
    exact Or.inr he
  | cons p m ih =>
    obtain ⟨k1, v1⟩ := p
    unfold SMap.set at he
    split_ifs at he
    · rcases List.mem_cons.mp he with h1 | h1
      · exact Or.inr h1
      · exact Or.inl (List.mem_cons_of_mem _ h1)
    · rcases List.mem_cons.mp he with h1 | h1
      · exact Or.inr h1
      · exact Or.inl h1
    · rcases List.mem_cons.mp he with h1 | h1
      · exact Or.inl (by rw [h1]; exact List.mem_cons_self _ _)
      · rcases ih h1 with h2 | h2
        · exact Or.inl (List.mem_cons_of_mem _ h2)
        · exact Or.inr h2

theorem smap_mem_insert {κ β : Type} [DecidableEq κ] [KeyOrder κ] (m : SMap κ β) (k : κ)
    (v : β) (e : κ × β) (he : e ∈ SMap.insert m k v) : e ∈ m ∨ e = (k, v) := by
  unfold SMap.insert at he
  split at he
  · exact Or.inl he
  · exact smap_mem_set m k v e he

theorem idle_find_none (h : Rinex3ObsHeader) (hi : PhaseIdle h) :
    SMap.find h.sysPhaseShift h.sysPhaseShiftObsID = none := by
  rw [hi.1]
  exact smap_find_none_of_keys _ _ hi.2

theorem idle_clear (h : Rinex3ObsHeader) : PhaseIdle h.clear :=
  ⟨rfl, fun e he => by cases he⟩

theorem idle_insert (g : Rinex3ObsHeader) (hi : PhaseIdle g) (sys code : Str) (hs : sys ≠ [])
    (m : SMap RinexSatID ℚ) :
    ∀ e ∈ SMap.insert g.sysPhaseShift (ObsID.mk (sys ++ code)) m, e.1 ≠ ObsID.default := by
  intro e he
  rcases smap_mem_insert _ _ _ _ he with h1 | h1
  · exact hi.2 e h1
  · rw [h1]
    intro hc
    have := congrArg ObsID.text hc
    simp only [ObsID.default] at this
    cases sys with
    | nil => exact hs rfl
    | cons c cs => simp at this

theorem phaseShift_idle (g : Rinex3ObsHeader) (line : Str) (hi : PhaseIdle g)
    (hten : asInt (strip (substr line 16 2)) ≤ 10) :
    PhaseIdle (parseSystemPhaseShift g line).1 := by
  by_cases hb : strip (substr line 0 1) = []
  · rw [phaseShift_continuation_rejected g line hb (idle_find_none g hi)]
    exact hi
  · unfold parseSystemPhaseShift
    simp only [if_neg hb]
    split
    · exact hi
    · split_ifs <;> (try split) <;>
        first
        | exact hi
        | exact ⟨hi.1, idle_insert g hi _ _ hb _⟩
        | (exfalso; omega)

theorem readLine_idle (g : Rinex3ObsHeader) (raw : Str) (hi : PhaseIdle g)
    (hten : DeclaresAtMostTen raw) : PhaseIdle (readLine g raw).1 := by
  by_cases hl : lineLabel raw = stringSystemPhaseShift
  · unfold readLine
    simp only
    split_ifs
    · exact hi
    · exact hi
    · rw [ParseHeaderRecord_phaseShift g _ hl]
      exact phaseShift_idle g _ hi (hten hl)
  · obtain ⟨_, hp, _⟩ := readLine_frames g raw
    obtain ⟨h1, h2⟩ := hp hl
    unfold PhaseIdle
    rw [h1, h2]
    exact hi

theorem getLoop_idle (lines : List Str) : ∀ (g : Rinex3ObsHeader) (n : Nat), PhaseIdle g →
    (∀ l ∈ lines, DeclaresAtMostTen l) → PhaseIdle (getLoop lines g n).1.1 := by
  induction lines with
  | nil =>
    intro g n hi _
    unfold getLoop
    split_ifs <;> exact hi
  | cons raw rest ih =>
    intro g n hi hall
    have h1 := readLine_idle g raw hi (hall raw (List.mem_cons_self _ _))
    unfold getLoop
    split_ifs
    · exact hi
    · split
      · rename_i hdr1 e heq
        rw [heq] at h1
        exact h1
      · rename_i hdr1 heq
        rw [heq] at h1
        exact ih hdr1 (n + 1) h1 (fun l hl => hall l (List.mem_cons_of_mem _ hl))

set_option maxRecDepth 100000 in
/-- C25 (counterexample): after an opening SYS / PHASE SHIFTS line that
declares 14 satellites and the continuation line that supplies the last four,
a further line with a blank system column is accepted and adds the satellite
G15 to the entry; and after a later record that declares two satellites, a
line with a blank system column is accepted as well. -/
theorem C25_counterexample_continuation_accepted :
    (readLine (readLine (readLine Rinex3ObsHeader.empty
        (phaseShift14LinesSystemFirst.headD [])).1
      (phaseShift14LinesSystemFirst.getD 1 [])).1 phaseShiftExtraContinuation).2 = none ∧
    (readLine (readLine (readLine Rinex3ObsHeader.empty
        (phaseShift14LinesSystemFirst.headD [])).1
      (phaseShift14LinesSystemFirst.getD 1 [])).1 phaseShiftExtraContinuation).1.sysPhaseShift ≠
      (readLine (readLine Rinex3ObsHeader.empty
        (phaseShift14LinesSystemFirst.headD [])).1
      (phaseShift14LinesSystemFirst.getD 1 [])).1.sysPhaseShift ∧
    (readLine (readLine (readLine Rinex3ObsHeader.empty
        (phaseShift14LinesSystemFirst.headD [])).1
      phaseShiftTwoSatsLine).1 phaseShiftExtraContinuation).2 = none := by
  decide

/-- C25: a SYS / PHASE SHIFTS line with a blank system column fails with the
exception of an unexpected continuation line, leaving the phase-shift map as it
was, whenever the phase-shift map has no entry under the remembered
continuation code, and with no other state does it fail with that exception;
the map has no such entry in every state that the decoding loop reaches from a
cleared header over lines none of which is a SYS / PHASE SHIFTS line declaring
more than 10 satellites (in particular before any line is read). -/
theorem C25_unexpected_continuation (g : Rinex3ObsHeader) (line : Str)
    (hl : substr line 60 20 = stringSystemPhaseShift)
    (hblank : strip (substr line 0 1) = []) :
    (SMap.find g.sysPhaseShift g.sysPhaseShiftObsID = none →
      ParseHeaderRecord g line =
        ({ g with satSysTemp := g.satSysPrev }, some unexpectedContinuation) ∧
      (ParseHeaderRecord g line).1.sysPhaseShift = g.sysPhaseShift) ∧
    (SMap.find g.sysPhaseShift g.sysPhaseShiftObsID ≠ none →
      (ParseHeaderRecord g line).2 ≠ some unexpectedContinuation) ∧
    (∀ (h : Rinex3ObsHeader) (lines : List Str) (n : Nat),
      (∀ l ∈ lines, DeclaresAtMostTen l) → g = (getLoop lines h.clear n).1.1 →
      SMap.find g.sysPhaseShift g.sysPhaseShiftObsID = none) := by
  rw [ParseHeaderRecord_phaseShift g line hl]
  refine ⟨?_, ?_, ?_⟩
  · intro hfind
    rw [phaseShift_continuation_rejected g line hblank hfind]
    exact ⟨rfl, rfl⟩
  · intro hfind
    cases hm : SMap.find g.sysPhaseShift g.sysPhaseShiftObsID with
    | none => exact absurd hm hfind
    | some m => exact phaseShift_continuation_taken g line m hblank hm
  · intro h lines n hall hg
    rw [hg]
    exact idle_find_none _ (getLoop_idle lines h.clear n (idle_clear h) hall)

set_option maxRecDepth 100000 in
theorem C25_witness :
    (ParseHeaderRecord Rinex3ObsHeader.empty phaseShiftExtraContinuation).2 =
      some unexpectedContinuation ∧
    (ParseHeaderRecord (getLoop [phaseShiftTwoSatsLine] Rinex3ObsHeader.empty.clear 0).1.1
      phaseShiftExtraContinuation).2 = some unexpectedContinuation := by
  have h1 := (C25_unexpected_continuation Rinex3ObsHeader.empty phaseShiftExtraContinuation
    (by decide) (by decide)).1 (by decide)
  have h2 := C25_unexpected_continuation
    (getLoop [phaseShiftTwoSatsLine] Rinex3ObsHeader.empty.clear 0).1.1
    phaseShiftExtraContinuation (by decide) (by decide)
  have h3 := h2.2.2 Rinex3ObsHeader.empty [phaseShiftTwoSatsLine] 0 (by decide) rfl
  refine ⟨?_, ?_⟩
  · rw [h1.1]
  · rw [(h2.1 h3).1]


/-! ## GLONASS SLOT / FRQ #: the pairs of a line -/

theorem parseLabelled_glonass (g : Rinex3ObsHeader) (line : Str) :
    parseLabelled g line stringGlonassSlotFreqNo = parseGlonassSlotFreqNo g line := rfl

theorem glonassPairs_taken (line : Str) : ∀ (l : List Nat) (m : SMap RinexSatID Int)
    (sats : List RinexSatID),
    (glonassTaken line l).map (fun p => RinexSatID.fromString p.1) = sats.map Except.ok →
    glonassPairs line l m =
      (insertPairs m sats ((glonassTaken line l).map fun p => asInt p.2), none) := by
  intro l
  induction l with
  | nil =>
    intro m sats hs
    cases sats with
    | nil => rfl
    | cons s ss => simp [glonassTaken, glonassFields] at hs
  | cons i is ih =>
    intro m sats hs
    by_cases hb : strip (substr line (4 + i * 7) 3) = []
    · have ht : glonassTaken line (i :: is) = [] := by
        simp [glonassTaken, glonassFields, hb]
      rw [ht] at hs ⊢
      cases sats with
      | nil =>
        unfold glonassPairs
        simp only [hb, if_true]
        rfl
      | cons s ss => simp at hs
    · have ht : glonassTaken line (i :: is) =
          (strip (substr line (4 + i * 7) 3), strip (substr line (8 + i * 7) 2)) ::
            glonassTaken line is := by
        simp [glonassTaken, glonassFields, hb]
      rw [ht] at hs ⊢
      cases sats with
      | nil => simp at hs
      | cons s ss =>
        simp only [List.map_cons, List.cons.injEq] at hs
        obtain ⟨h1, h2⟩ := hs
        unfold glonassPairs
        simp only [if_neg hb, h1]
        rw [ih _ ss h2]
        rfl

theorem glonassPairs_congr (line line2 : Str)
    (h : ∀ pos n, 4 ≤ pos → substr line pos n = substr line2 pos n) :
    ∀ (l : List Nat) (m : SMap RinexSatID Int),
      glonassPairs line l m = glonassPairs line2 l m := by
  intro l
  induction l with
  | nil => intro m; rfl
  | cons i is ih =>
    intro m
    unfold glonassPairs
    simp only [h (4 + i * 7) 3 (by omega), h (8 + i * 7) 2 (by omega), ih]

theorem substr_same_tail (c1 c2 rest : Str) (hc : c1.length = c2.length) (pos n : Nat)
    (hp : c1.length ≤ pos) : substr (c1 ++ rest) pos n = substr (c2 ++ rest) pos n := by
  rw [substr_append_right c1 rest pos n hp, substr_append_right c2 rest pos n (by omega), hc]

/-- C28: on a GLONASS SLOT / FRQ # line the decoder looks at the 8 positions
with the satellite in columns 4 + 7 i to 6 + 7 i and the slot number in columns
8 + 7 i and 9 + 7 i; when the satellite texts before the first blank satellite
field are recognised, it inserts one pair for each of these positions, in their
order, and none from the first blank field on, sets the flag and throws
nothing; and the outcome is the same for every text of the three count columns
at the start of the line. -/
theorem C28_glonass_pairs_until_first_blank (h : Rinex3ObsHeader) (count rest : Str)
    (sats : List RinexSatID) (hc : count.length = 3)
    (hl : substr (count ++ rest) 60 20 = stringGlonassSlotFreqNo)
    (hs : (glonassTaken (count ++ rest) (List.range 8)).map
      (fun p => RinexSatID.fromString p.1) = sats.map Except.ok) :
    ParseHeaderRecord h (count ++ rest) =
      ({ h with
        GlonassFreqNo := insertPairs h.GlonassFreqNo sats
          ((glonassTaken (count ++ rest) (List.range 8)).map fun p => asInt p.2)
        valid := h.valid ||| validGlonassFreqNo }, none) ∧
    ∀ count2 : Str, count2.length = 3 →
      ParseHeaderRecord h (count2 ++ rest) = ParseHeaderRecord h (count ++ rest) := by
  have hparse : ∀ c : Str, c.length = 3 →
      ParseHeaderRecord h (c ++ rest) = parseGlonassSlotFreqNo h (count ++ rest) := by
    intro c hc2
    have hl2 : substr (c ++ rest) 60 20 = stringGlonassSlotFreqNo := by
      rw [substr_same_tail c count rest (by omega) 60 20 (by omega)]
      exact hl
    rw [ParseHeaderRecord_label h _ _ hl2 (by decide), parseLabelled_glonass]
    unfold parseGlonassSlotFreqNo
    rw [glonassPairs_congr (c ++ rest) (count ++ rest)
      (fun pos n hp => substr_same_tail c count rest (by omega) pos n (by omega))]
  refine ⟨?_, fun count2 h2 => ?_⟩
  · rw [hparse count hc]
    unfold parseGlonassSlotFreqNo
    rw [glonassPairs_taken (count ++ rest) (List.range 8) h.GlonassFreqNo sats hs]
  · rw [hparse count2 h2, hparse count hc]

set_option maxRecDepth 100000 in
theorem C28_witness :
    (ParseHeaderRecord Rinex3ObsHeader.empty ("  2".toList ++ glonassSampleRest)).1.GlonassFreqNo =
      [(⟨.systemGlonass, 1⟩, 1), (⟨.systemGlonass, 2⟩, -4)] ∧
    ParseHeaderRecord Rinex3ObsHeader.empty (" 17".toList ++ glonassSampleRest) =
      ParseHeaderRecord Rinex3ObsHeader.empty ("  2".toList ++ glonassSampleRest) := by
  have h := C28_glonass_pairs_until_first_blank Rinex3ObsHeader.empty "  2".toList
    glonassSampleRest [⟨.systemGlonass, 1⟩, ⟨.systemGlonass, 2⟩] (by decide) (by decide) rfl
  refine ⟨?_, h.2 " 17".toList (by decide)⟩
  rw [h.1]
  decide

/-! ## SYS / # / OBS TYPES: the lines of a list of any length -/

theorem chunks13_succ (f : Nat) (l : List ObsID) :
    chunks13 (f + 1) l = if l = [] then [] else l.take 13 :: chunks13 f (l.drop 13) := rfl

theorem chunks13_ne_nil (fuel : Nat) (l : List ObsID) (h0 : l ≠ []) (hf : l.length ≤ fuel) :
    chunks13 fuel l ≠ [] := by
  cases fuel with
  | zero =>
    cases l with
    | nil => exact absurd rfl h0
    | cons o os => simp at hf
  | succ f =>
    rw [chunks13_succ, if_neg h0]
    simp

theorem chunks13_bound (fuel : Nat) : ∀ l : List ObsID,
    ∀ c ∈ chunks13 fuel l, c ≠ [] ∧ c.length ≤ 13 := by
  induction fuel with
  | zero => intro l c hc; simp [chunks13] at hc
  | succ f ih =>
    intro l c hc
    rw [chunks13_succ] at hc
    split_ifs at hc with h0
    · simp at hc
    · rcases List.mem_cons.mp hc with h1 | h1
      · subst h1
        refine ⟨?_, by rw [List.length_take]; omega⟩
        cases l with
        | nil => exact absurd rfl h0
        | cons o os => simp
      · exact ih _ c h1

theorem chunks13_flatten (fuel : Nat) : ∀ l : List ObsID, l.length ≤ fuel →
    (chunks13 fuel l).flatten = l := by
  induction fuel with
  | zero =>
    intro l hl
    cases l with
    | nil => rfl
    | cons o os => simp at hl
  | succ f ih =>
    intro l hl
    rw [chunks13_succ]
    split_ifs with h0
    · rw [h0]; rfl
    · have hd : (l.drop 13).length ≤ f := by
        rw [List.length_drop]
        cases l with
        | nil => exact absurd rfl h0
        | cons o os => simp only [List.length_cons] at hl ⊢; omega
      rw [List.flatten_cons, ih _ hd, List.take_append_drop]

theorem obsContinuationLine_full (l : List ObsID) (h : l.length = 13) :
    obsContinuationLine l = mkString 6 ' ' ++ codesText l ++ mkString 2 ' ' ++ stringSystemNumObs := by
  unfold obsContinuationLine
  rw [h]

/-- The loop from the start of a continuation line: the line at hand is
written, then one full line for each group but the last, and the last group is
left in `line`. -/
theorem obsTypeLoop_chunks (sys : Str) (size : Nat) (fuel : Nat) :
    ∀ (l : List ObsID) (k : Nat) (s : PutState), l.length ≤ fuel → l ≠ [] → 0 < k →
      k % 13 = 0 →
      obsTypeLoop sys size l k s =
        { out := s.out ++ [s.line ++ mkString 2 ' ' ++ stringSystemNumObs] ++
            (chunks13 fuel l).dropLast.map obsContinuationLine,
          line := mkString 6 ' ' ++ codesText ((chunks13 fuel l).getLastD []) } := by
  induction fuel with
  | zero =>
    intro l k s hl h0 _ _
    cases l with
    | nil => exact absurd rfl h0
    | cons o os => simp at hl
  | succ f ih =>
    intro l k s hl h0 hk hmod
    by_cases hd : l.drop 13 = []
    · have h13 : l.length ≤ 13 := by
        have := congrArg List.length hd
        rw [List.length_drop] at this
        simp only [List.length_nil] at this
        omega
      have hc : chunks13 (f + 1) l = [l] := by
        rw [chunks13_succ, if_neg h0, hd, List.take_of_length_le h13]
        cases f <;> simp [chunks13]
      rw [hc, obsTypeLoop_wrap sys size l k s h0 h13 hk hmod]
      simp
    · have hlen : 13 < l.length := by
        by_contra hc
        exact hd (List.drop_eq_nil_of_le (by omega))
      have lt : (l.take 13).length = 13 := by rw [List.length_take]; omega
      have ld : (l.drop 13).length ≤ f := by rw [List.length_drop]; omega
      have ht0 : l.take 13 ≠ [] := by
        intro h
        rw [h] at lt
        simp at lt
      have hc : chunks13 (f + 1) l = l.take 13 :: chunks13 f (l.drop 13) := by
        rw [chunks13_succ, if_neg h0]
      have hne := chunks13_ne_nil f (l.drop 13) hd ld
      obtain ⟨c, cs, hcs⟩ := List.exists_cons_of_ne_nil hne
      conv_lhs => rw [← List.take_append_drop 13 l]
      rw [obsTypeLoop_append, lt, obsTypeLoop_wrap sys size _ k s ht0 (by omega) hk hmod,
        ih (l.drop 13) (k + 13) _ ld hd (by omega) (by omega), hc, hcs]
      simp only [List.dropLast_cons₂, List.map_cons, List.getLastD_cons, List.getLast?_cons_cons]
      rw [obsContinuationLine_full _ lt]
      simp [List.getLastD]

theorem getLastD_eq_getLast {α : Type} (cs : List α) : ∀ c : α,
    cs.getLastD c = (c :: cs).getLast (List.cons_ne_nil c cs) := by
  induction cs with
  | nil => intro c; rfl
  | cons d ds ih =>
    intro c
    rw [List.getLastD_cons, ih d, List.getLast_cons (List.cons_ne_nil d ds)]

theorem obsTypeLoop_system (sys : Str) (codes : List ObsID) (s : PutState) :
    ∃ (init : List Str) (data : Str), data.length ≤ 60 ∧
      obsTypeLoop sys codes.length codes 0 { s with line := [] } = ⟨s.out ++ init, data⟩ ∧
      init ++ [data ++ mkString (60 - data.length) ' ' ++ stringSystemNumObs] =
        systemLines (sys, codes) := by
  by_cases h0 : codes = []
  · subst h0
    refine ⟨[], [], by simp, ?_, ?_⟩
    · simp [obsTypeLoop]
    · simp [systemLines]
  · have hpos : 0 < codes.length := List.length_pos.mpr h0
    by_cases h13 : codes.length ≤ 13
    · refine ⟨[], leftJustify sys 1 ++ mkString 2 ' ' ++
        rightJustify (asStringInt codes.length) 3 ++ codesText codes, ?_, ?_, ?_⟩
      · simp only [List.length_append, length_leftJustify, length_mkString, length_rightJustify,
          length_codesText]
        omega
      · rw [obsTypeLoop_first sys _ codes _ h0 h13]
        simp
      · have hd : codes.drop 13 = [] := List.drop_eq_nil_of_le h13
        have hc : chunks13 codes.length ([] : List ObsID) = [] := by
          cases hn : codes.length with
          | zero => rfl
          | succ n => rfl
        simp only [systemLines, if_neg h0, hd, hc, List.take_of_length_le h13, List.map_nil,
          List.nil_append, obsOpeningLine, List.length_append, length_leftJustify,
          length_mkString, length_rightJustify, length_codesText]
    · have lt : (codes.take 13).length = 13 := by rw [List.length_take]; omega
      have ld : (codes.drop 13).length ≤ codes.length := by rw [List.length_drop]; omega
      have ht0 : codes.take 13 ≠ [] := by
        intro h
        rw [h] at lt
        simp at lt
      have hd0 : codes.drop 13 ≠ [] := by
        intro h
        have := congrArg List.length h
        rw [List.length_drop] at this
        simp only [List.length_nil] at this
        omega
      have hne := chunks13_ne_nil codes.length (codes.drop 13) hd0 ld
      have hlast : (chunks13 codes.length (codes.drop 13)).getLastD [] ∈
          chunks13 codes.length (codes.drop 13) := by
        obtain ⟨c, cs, hcs⟩ := List.exists_cons_of_ne_nil hne
        rw [hcs, List.getLastD_cons, getLastD_eq_getLast]
        exact List.getLast_mem _
      have hb := (chunks13_bound _ _ _ hlast).2
      refine ⟨obsOpeningLine sys codes.length (codes.take 13) ::
          (chunks13 codes.length (codes.drop 13)).dropLast.map obsContinuationLine,
        mkString 6 ' ' ++ codesText ((chunks13 codes.length (codes.drop 13)).getLastD []),
        ?_, ?_, ?_⟩
      · simp only [List.length_append, length_mkString, length_codesText]
        omega
      · have hloop : ∀ size : Nat,
            obsTypeLoop sys size codes 0 { s with line := [] } =
              ⟨s.out ++ (obsOpeningLine sys size (codes.take 13) ::
                (chunks13 codes.length (codes.drop 13)).dropLast.map obsContinuationLine),
              mkString 6 ' ' ++
                codesText ((chunks13 codes.length (codes.drop 13)).getLastD [])⟩ := by
          intro size
          conv_lhs => rw [← List.take_append_drop 13 codes]
          rw [obsTypeLoop_append, lt, obsTypeLoop_first sys _ _ _ ht0 (by omega),
            obsTypeLoop_chunks sys _ codes.length (codes.drop 13) (0 + 13) _ ld hd0 (by omega)
              (by decide)]
          simp only [obsOpeningLine, lt]
          simp
        exact hloop codes.length
      · have hcont : mkString 6 ' ' ++
            codesText ((chunks13 codes.length (codes.drop 13)).getLastD []) ++
            mkString (60 - (mkString 6 ' ' ++
              codesText ((chunks13 codes.length (codes.drop 13)).getLastD [])).length) ' ' ++
            stringSystemNumObs =
            obsContinuationLine ((chunks13 codes.length (codes.drop 13)).getLastD []) := by
          unfold obsContinuationLine
          simp only [List.length_append, length_mkString, length_codesText]
        rw [hcont]
        simp only [systemLines, if_neg h0, List.cons_append, List.cons.injEq, true_and]
        obtain ⟨c, cs, hcs⟩ := List.exists_cons_of_ne_nil hne
        rw [hcs, List.getLastD_cons, getLastD_eq_getLast]
        have := List.dropLast_append_getLast (List.cons_ne_nil c cs)
        conv_rhs => rw [← this]
        rw [List.map_append]
        rfl

theorem obsTypeSystems_lines (m : List (Str × List ObsID)) : ∀ s : PutState,
    (obsTypeSystems m s).2 = none ∧
    (obsTypeSystems m s).1.out = s.out ++ m.flatMap systemLines := by
  induction m with
  | nil => intro s; exact ⟨rfl, by simp [obsTypeSystems]⟩
  | cons e rest ih =>
    intro s
    obtain ⟨sys, codes⟩ := e
    obtain ⟨init, data, hlen, hloop, hlines⟩ := obsTypeLoop_system sys codes s
    unfold obsTypeSystems
    simp only
    rw [hloop]
    unfold fill60
    simp only
    rw [if_pos hlen]
    simp only [Put.andThen, emit]
    obtain ⟨i1, i2⟩ := ih ⟨s.out ++ init ++ [data ++ mkString (60 - data.length) ' ' ++
      stringSystemNumObs], data ++ mkString (60 - data.length) ' ' ++ stringSystemNumObs⟩
    refine ⟨i1, ?_⟩
    rw [i2, List.flatMap_cons, ← hlines]
    simp

set_option maxRecDepth 100000 in
/-- C23 (counterexample): for the list of 15 codes of G the first line written
by the SYS / # / OBS TYPES block has a code in each of its 13 slots, more than
9, and the second line holds the last 2 codes. -/
theorem C23_counterexample_thirteen_codes_on_a_line :
    (putSystemObsType fifteenCodesHeader ⟨[], []⟩).1.out =
      [ "G   15 C1C L1C D1C S1C C1W L1W D1W S1W C2W L2W D2W S2W C5Q  SYS / # / OBS TYPES".toList,
        "       L5Q D5Q                                              SYS / # / OBS TYPES".toList ] ∧
    ((codeSlots
      "G   15 C1C L1C D1C S1C C1W L1W D1W S1W C2W L2W D2W S2W C5Q  SYS / # / OBS TYPES".toList).filter
      fun t => decide (strip t ≠ [])).length = 13 ∧
    ¬ (13 ≤ 9) := by
  decide

/-- C23: for every header with the SYS / # / OBS TYPES flag set the block
throws nothing and writes, for each system in the order of the map, an opening
line with the first 13 codes of its list and a continuation line for each
further group of 13 codes (the last group holding what is left): every line
holds at most 13 codes, and the groups, in the order of their lines, make up
the list. -/
theorem C23_at_most_thirteen_codes_per_line (h : Rinex3ObsHeader) (s : PutState)
    (hflag : isSet h.valid validSystemObsType = true) :
    (putSystemObsType h s).2 = none ∧
    (putSystemObsType h s).1.out = s.out ++ h.mapObsTypes.flatMap systemLines ∧
    ∀ e ∈ h.mapObsTypes, (e.2.take 13).length ≤ 13 ∧
      (∀ c ∈ chunks13 e.2.length (e.2.drop 13), c ≠ [] ∧ c.length ≤ 13) ∧
      e.2.take 13 ++ (chunks13 e.2.length (e.2.drop 13)).flatten = e.2 := by
  unfold putSystemObsType
  rw [if_pos hflag]
  obtain ⟨h1, h2⟩ := obsTypeSystems_lines h.mapObsTypes s
  refine ⟨h1, h2, fun e _ => ⟨?_, chunks13_bound _ _, ?_⟩⟩
  · rw [List.length_take]
    omega
  · rw [chunks13_flatten _ _ (by rw [List.length_drop]; omega), List.take_append_drop]

set_option maxRecDepth 100000 in
theorem C23_witness :
    isSet fifteenCodesHeader.valid validSystemObsType = true ∧
    (putSystemObsType fifteenCodesHeader ⟨[], []⟩).1.out =
      [obsOpeningLine "G".toList 15 (fifteenCodes.take 13),
        obsContinuationLine (fifteenCodes.drop 13)] ∧
    (fifteenCodes.take 13).length = 13 ∧ (fifteenCodes.drop 13).length = 2 := by
  have h := C23_at_most_thirteen_codes_per_line fifteenCodesHeader ⟨[], []⟩ (by decide)
  refine ⟨by decide, ?_, by decide, by decide⟩
  rw [h.2.1]
  decide


/-! ## The observation counts and the observation codes of a system -/

theorem smap_find_set_ne {κ β : Type} [DecidableEq κ] [KeyOrder κ] (m : SMap κ β) (k k1 : κ)
    (v : β) (hne : k ≠ k1) : SMap.find (SMap.set m k v) k1 = SMap.find m k1 := by
  induction m with
  | nil => simp [SMap.set, SMap.find, hne]
  | cons p m ih =>
    obtain ⟨k0, v0⟩ := p
    unfold SMap.set
    split_ifs with h1 h2
    · subst h1
      simp [SMap.find, hne]
    · simp [SMap.find, hne]
    · simp only [SMap.find]
      rw [ih]

theorem smap_getD_touch {κ β : Type} [DecidableEq κ] [KeyOrder κ] (m : SMap κ β) (k k1 : κ)
    (d : β) : SMap.getD (SMap.touch m k d) k1 d = SMap.getD m k1 d := by
  unfold SMap.getD SMap.touch SMap.insert
  cases hf : SMap.find m k with
  | some v => rfl
  | none =>
    simp only
    by_cases hk : k = k1
    · subst hk
      rw [smap_find_set_self, hf]
      rfl
    · rw [smap_find_set_ne m k k1 d hk]

theorem smap_getD_of_find {κ β : Type} [DecidableEq κ] [KeyOrder κ] (m : SMap κ β) (k : κ)
    (d v : β) (h : SMap.find m k = some v) : SMap.getD m k d = v := by
  unfold SMap.getD
  rw [h]
  rfl

theorem countsFit_of (g g1 : Rinex3ObsHeader) (hfit : CountsFit g)
    (hc : g1.numObsForSat = g.numObsForSat)
    (ht : ∀ k, SMap.getD g1.mapObsTypes k [] = SMap.getD g.mapObsTypes k []) :
    CountsFit g1 := by
  intro e he
  rw [hc] at he
  rw [ht]
  exact hfit e he

theorem countsFit_touch (g g1 : Rinex3ObsHeader) (sat : RinexSatID) (hfit : CountsFit g)
    (hc : g1.numObsForSat = SMap.touch g.numObsForSat sat [])
    (ht : g1.mapObsTypes = g.mapObsTypes) : CountsFit g1 := by
  intro e he
  rw [hc] at he
  rw [ht]
  rcases smap_mem_insert _ _ _ _ he with h1 | h1
  · exact hfit e h1
  · rw [h1]
    exact Nat.zero_le _

theorem countsFit_set (g g1 : Rinex3ObsHeader) (m : SMap RinexSatID (List Int))
    (sat : RinexSatID) (list : List Int) (types : List ObsID)
    (hm : ∀ e ∈ m, e.2.length ≤ (SMap.getD g.mapObsTypes [e.1.systemChar] []).length)
    (hfind : SMap.find g.mapObsTypes [sat.systemChar] = some types)
    (hlen : list.length ≤ types.length)
    (hc : g1.numObsForSat = SMap.set m sat list)
    (ht : g1.mapObsTypes = g.mapObsTypes) : CountsFit g1 := by
  intro e he
  rw [hc] at he
  rw [ht]
  rcases smap_mem_set _ _ _ _ he with h1 | h1
  · exact hm e h1
  · rw [h1, smap_getD_of_find _ _ _ _ hfind]
    exact hlen

theorem parsePrnObs_countsFit (g : Rinex3ObsHeader) (line : Str) (hfit : CountsFit g) :
    CountsFit (parsePrnObs g line).1 := by
  have htouch : ∀ e ∈ SMap.touch g.numObsForSat g.lastPRN ([] : List Int),
      e.2.length ≤ (SMap.getD g.mapObsTypes [e.1.systemChar] []).length := by
    intro e he
    rcases smap_mem_insert _ _ _ _ he with h1 | h1
    · exact hfit e h1
    · rw [h1]
      exact Nat.zero_le _
  unfold parsePrnObs
  simp only
  split_ifs with hb
  · split
    · exact countsFit_touch g _ g.lastPRN hfit rfl rfl
    · rename_i types hfind
      split_ifs with hlt
      · refine countsFit_set g _ _ g.lastPRN _ types htouch hfind ?_ rfl rfl
        rw [forIndices_prn_continuation types.length _
          (types.length - (SMap.getD g.numObsForSat g.lastPRN []).length) (by omega)]
        simp only [List.length_append, List.length_map, List.length_range']
        omega
      · exact countsFit_touch g _ g.lastPRN hfit rfl rfl
  · split
    · exact hfit
    · rename_i PRN hsat
      split
      · exact hfit
      · rename_i types hfind
        split_ifs with hpos
        · refine countsFit_set g _ _ PRN _ types hfit hfind ?_ rfl rfl
          rw [forIndices_prn_opening]
          simp only [List.length_map, List.length_range]
          omega
        · exact countsFit_of g _ hfit rfl (fun _ => rfl)

theorem parseSystemScaleFac_counts (g : Rinex3ObsHeader) (line : Str) :
    (parseSystemScaleFac g line).1.numObsForSat = g.numObsForSat ∧
    ∀ k, SMap.getD (parseSystemScaleFac g line).1.mapObsTypes k [] =
      SMap.getD g.mapObsTypes k [] := by
  unfold parseSystemScaleFac
  simp only
  refine ⟨?_, fun k => ?_⟩
  · split_ifs <;> rfl
  · split_ifs <;> first | rfl | exact smap_getD_touch _ _ _ _

theorem parseSystemNumObs_counts (g : Rinex3ObsHeader) (line : Str) :
    (parseSystemNumObs g line).1.numObsForSat = g.numObsForSat := by
  unfold parseSystemNumObs
  simp only
  split_ifs
  · split <;> rfl
  · rfl

theorem ParseHeaderRecord_countsFit (g : Rinex3ObsHeader) (line : Str) (hfit : CountsFit g)
    (h : g.numObsForSat = [] ∨ substr line 60 20 ≠ stringSystemNumObs) :
    CountsFit (ParseHeaderRecord g line).1 ∧
    (g.numObsForSat = [] → substr line 60 20 ≠ stringPrnObs →
      (ParseHeaderRecord g line).1.numObsForSat = []) := by
  by_cases h1 : substr line 60 20 = stringSystemNumObs
  · have hnil : g.numObsForSat = [] := by
      rcases h with h | h
      · exact h
      · exact absurd h1 h
    have hc := parseSystemNumObs_counts g line
    have hp : ParseHeaderRecord g line = parseSystemNumObs g line := by
      rw [ParseHeaderRecord_label g line _ h1 (by decide), parseLabelled_numObs]
    rw [hp]
    refine ⟨?_, fun _ _ => hc.trans hnil⟩
    intro e he
    rw [hc, hnil] at he
    cases he
  · by_cases h2 : substr line 60 20 = stringPrnObs
    · have hp : ParseHeaderRecord g line = parsePrnObs g line := by
        rw [ParseHeaderRecord_label g line _ h2 (by decide), parseLabelled_prnObs]
      rw [hp]
      exact ⟨parsePrnObs_countsFit g line hfit, fun _ hne => absurd h2 hne⟩
    · by_cases h3 : substr line 60 20 = stringSystemScaleFac
      · have hp : ParseHeaderRecord g line = parseSystemScaleFac g line := by
          rw [ParseHeaderRecord_label g line _ h3 (by decide), parseLabelled_scaleFac]
        rw [hp]
        obtain ⟨c1, c2⟩ := parseSystemScaleFac_counts g line
        exact ⟨countsFit_of g _ hfit c1 c2, fun hnil _ => c1.trans hnil⟩
      · obtain ⟨_, _, hcf⟩ := ParseHeaderRecord_frames g line
        obtain ⟨c1, c2, _⟩ := hcf h1 h3 h2
        exact ⟨countsFit_of g _ hfit c1 (fun k => by rw [c2]), fun hnil _ => c1.trans hnil⟩

theorem readLine_countsFit (g : Rinex3ObsHeader) (raw : Str) (hfit : CountsFit g)
    (h : g.numObsForSat = [] ∨ lineLabel raw ≠ stringSystemNumObs) :
    CountsFit (readLine g raw).1 ∧
    (g.numObsForSat = [] → lineLabel raw ≠ stringPrnObs →
      (readLine g raw).1.numObsForSat = []) := by
  unfold readLine
  simp only
  split_ifs
  · exact ⟨hfit, fun hnil _ => hnil⟩
  · exact ⟨hfit, fun hnil _ => hnil⟩
  · exact ParseHeaderRecord_countsFit g (stripTrailing raw) hfit h

theorem getLoop_countsFit (lines : List Str) : ∀ (g : Rinex3ObsHeader) (n : Nat),
    CountsFit g →
    (g.numObsForSat = [] ∨ ∀ l ∈ lines, lineLabel l ≠ stringSystemNumObs) →
    TypesBeforeCounts lines → CountsFit (getLoop lines g n).1.1 := by
  induction lines with
  | nil =>
    intro g n hfit _ _
    unfold getLoop
    split_ifs <;> exact hfit
  | cons raw rest ih =>
    intro g n hfit hor hpw
    have hor1 : g.numObsForSat = [] ∨ lineLabel raw ≠ stringSystemNumObs := by
      rcases hor with h | h
      · exact Or.inl h
      · exact Or.inr (h raw (List.mem_cons_self _ _))
    obtain ⟨f1, f2⟩ := readLine_countsFit g raw hfit hor1
    obtain ⟨hhead, htail⟩ := List.pairwise_cons.mp hpw
    unfold getLoop
    split_ifs
    · exact hfit
    · split
      · rename_i hdr1 e heq
        rw [heq] at f1
        exact f1
      · rename_i hdr1 heq
        rw [heq] at f1 f2
        refine ih hdr1 (n + 1) f1 ?_ htail
        by_cases hp : lineLabel raw = stringPrnObs
        · right
          intro l hl hn
          exact hhead l hl ⟨hp, hn⟩
        · rcases hor with h | h
          · exact Or.inl (f2 h hp)
          · exact Or.inr (fun l hl => h l (List.mem_cons_of_mem _ hl))

set_option maxRecDepth 100000 in
/-- C27 (counterexample): from a cleared header the decoding loop reads two
observation codes for G, then two counts for the satellite G01, then a new
SYS / # / OBS TYPES record with a single code for G; the count list of G01 then
has two entries and the code list of G one. -/
theorem C27_counterexample_types_replaced_after_counts :
    SMap.find (getLoop shrinkingLines Rinex3ObsHeader.empty.clear 0).1.1.numObsForSat
      ⟨.systemGPS, 1⟩ = some [2880, 2879] ∧
    SMap.getD (getLoop shrinkingLines Rinex3ObsHeader.empty.clear 0).1.1.mapObsTypes
      "G".toList [] = [⟨"GC1C".toList⟩] ∧
    ¬ CountsFit (getLoop shrinkingLines Rinex3ObsHeader.empty.clear 0).1.1 := by
  decide

/-! ## The MARKER NAME record changes one field and one flag -/

theorem parseLabelled_markerName (g : Rinex3ObsHeader) (line : Str) :
    parseLabelled g line stringMarkerName = parseMarkerName g line := rfl

/-- C37: for every header and every line with the label MARKER NAME,
`ParseHeaderRecord` throws nothing and returns the header with the marker name
replaced by the stripped text of columns 0-59 and the marker-name bit added to
the flags: every other member keeps its value, among them the members of the
parse context, and every other validity bit keeps its value. -/
theorem C37_marker_name_frame (h : Rinex3ObsHeader) (line : Str)
    (hl : substr line 60 20 = stringMarkerName) :
    ParseHeaderRecord h line =
      ({ h with
        markerName := strip (substr line 0 60)
        valid := h.valid ||| validMarkerName }, none) ∧
    ((ParseHeaderRecord h line).1.satSysPrev = h.satSysPrev ∧
      (ParseHeaderRecord h line).1.numObsPrev = h.numObsPrev ∧
      (ParseHeaderRecord h line).1.factorPrev = h.factorPrev ∧
      (ParseHeaderRecord h line).1.lastPRN = h.lastPRN ∧
      (ParseHeaderRecord h line).1.sysPhaseShiftObsID = h.sysPhaseShiftObsID ∧
      (ParseHeaderRecord h line).1.satSysTemp = h.satSysTemp ∧
      (ParseHeaderRecord h line).1.numObs = h.numObs ∧
      (ParseHeaderRecord h line).1.factor = h.factor) ∧
    ∀ i, i ≠ 3 → (ParseHeaderRecord h line).1.valid.testBit i = h.valid.testBit i := by
  have hp : ParseHeaderRecord h line = parseMarkerName h line := by
    rw [ParseHeaderRecord_label h line _ hl (by decide), parseLabelled_markerName]
  rw [hp]
  refine ⟨rfl, ⟨rfl, rfl, rfl, rfl, rfl, rfl, rfl, rfl⟩, fun i hi => ?_⟩
  show (h.valid ||| 2 ^ 3).testBit i = h.valid.testBit i
  rw [testBit_lor_two_pow]
  simp [Ne.symm hi]

set_option maxRecDepth 100000 in
theorem C37_witness :
    ParseHeaderRecord sampleHeader markerNameSampleLine =
      ({ sampleHeader with
        markerName := "STATION A".toList
        valid := sampleHeader.valid ||| validMarkerName }, none) := by
  have h := (C37_marker_name_frame sampleHeader markerNameSampleLine (by decide)).1
  rw [h]
  have : strip (substr markerNameSampleLine 0 60) = "STATION A".toList := by decide
  rw [this]

/-! ## A continuation line after a record of another system -/

set_option maxRecDepth 100000 in
/-- C38 (failing input): an opening SYS / # / OBS TYPES line for G is decoded;
then a SYS / SCALE FACTOR line for R, or a SYS / PHASE SHIFTS line for R, which
is accepted and leaves R as the remembered previous system; the SYS / # / OBS
TYPES continuation line that follows looks R up in the observation-type map,
which has an entry for G only, and dereferences `end()`. Without the line in
between the continuation line is read and G has its 15 codes. -/
theorem C38_failing_input_previous_system_overwritten :
    (readLine Rinex3ObsHeader.empty (interleavedScaleFacLines.headD [])).2 = none ∧
    (readLine (readLine Rinex3ObsHeader.empty (interleavedScaleFacLines.headD [])).1
      (interleavedScaleFacLines.getD 1 [])).2 = none ∧
    (readLine (readLine Rinex3ObsHeader.empty (interleavedScaleFacLines.headD [])).1
      (interleavedScaleFacLines.getD 1 [])).1.satSysPrev = "R".toList ∧
    (readLine (readLine (readLine Rinex3ObsHeader.empty (interleavedScaleFacLines.headD [])).1
      (interleavedScaleFacLines.getD 1 [])).1 (interleavedScaleFacLines.getD 2 [])).2 =
      some .undefinedBehaviour ∧
    (readLine (readLine Rinex3ObsHeader.empty (interleavedPhaseShiftLines.headD [])).1
      (interleavedPhaseShiftLines.getD 1 [])).2 = none ∧
    (readLine (readLine (readLine Rinex3ObsHeader.empty (interleavedPhaseShiftLines.headD [])).1
      (interleavedPhaseShiftLines.getD 1 [])).1 (interleavedPhaseShiftLines.getD 2 [])).2 =
      some .undefinedBehaviour ∧
    (readLine (readLine Rinex3ObsHeader.empty (interleavedScaleFacLines.headD [])).1
      (interleavedScaleFacLines.getD 2 [])).2 = none ∧
    SMap.find (readLine (readLine Rinex3ObsHeader.empty (interleavedScaleFacLines.headD [])).1
      (interleavedScaleFacLines.getD 2 [])).1.mapObsTypes "G".toList = some fifteenCodes := by
  decide

/-! ## Numeric fields that hold no number -/

theorem parseLabelled_interval (g : Rinex3ObsHeader) (line : Str) :
    parseLabelled g line stringInterval = parseInterval g line := rfl

theorem parseLabelled_receiverOffset (g : Rinex3ObsHeader) (line : Str) :
    parseLabelled g line stringReceiverOffset = parseReceiverOffset g line := rfl

theorem parseLabelled_leapSeconds (g : Rinex3ObsHeader) (line : Str) :
    parseLabelled g line stringLeapSeconds = parseLeapSeconds g line := rfl

theorem parseLabelled_numSats (g : Rinex3ObsHeader) (line : Str) :
    parseLabelled g line stringNumSats = parseNumSats g line := rfl

set_option maxRecDepth 100000 in
/-- C33 (counterexample): a LEAP SECONDS line whose field holds "abc", and one
whose field is blank, an INTERVAL line with "fast", a RCV CLOCK OFFS APPL line
with "yes" and a # OF SATELLITES line with "many" are all parsed without an
exception; each sets the flag of its record and stores the value zero. -/
theorem C33_counterexample_text_in_numeric_field :
    ((ParseHeaderRecord Rinex3ObsHeader.empty leapSecondsTextLine).2 = none ∧
      (ParseHeaderRecord Rinex3ObsHeader.empty leapSecondsTextLine).1.valid = validLeapSeconds ∧
      (ParseHeaderRecord Rinex3ObsHeader.empty leapSecondsTextLine).1.leapSeconds = 0) ∧
    ((ParseHeaderRecord Rinex3ObsHeader.empty leapSecondsBlankLine).2 = none ∧
      (ParseHeaderRecord Rinex3ObsHeader.empty leapSecondsBlankLine).1.valid = validLeapSeconds ∧
      (ParseHeaderRecord Rinex3ObsHeader.empty leapSecondsBlankLine).1.leapSeconds = 0) ∧
    ((ParseHeaderRecord Rinex3ObsHeader.empty intervalTextLine).2 = none ∧
      (ParseHeaderRecord Rinex3ObsHeader.empty intervalTextLine).1.valid = validInterval ∧
      (ParseHeaderRecord Rinex3ObsHeader.empty intervalTextLine).1.interval = 0) ∧
    ((ParseHeaderRecord Rinex3ObsHeader.empty receiverOffsetTextLine).2 = none ∧
      (ParseHeaderRecord Rinex3ObsHeader.empty receiverOffsetTextLine).1.valid =
        validReceiverOffset ∧
      (ParseHeaderRecord Rinex3ObsHeader.empty receiverOffsetTextLine).1.receiverOffset = 0) ∧
    ((ParseHeaderRecord Rinex3ObsHeader.empty numSatsTextLine).2 = none ∧
      (ParseHeaderRecord Rinex3ObsHeader.empty numSatsTextLine).1.valid = validNumSats ∧
      (ParseHeaderRecord Rinex3ObsHeader.empty numSatsTextLine).1.numSVs = 0) := by
  decide

/-- C33: for every header and every line with the label INTERVAL, RCV CLOCK
OFFS APPL, LEAP SECONDS or # OF SATELLITES, whatever the text of the numeric
field, `ParseHeaderRecord` throws nothing, sets the flag of the record and
stores what `asDouble` (columns 0-9 of INTERVAL) or `asInt` (columns 0-5 of the
other three) reads from the field. -/
theorem C33_numeric_field_always_accepted (h : Rinex3ObsHeader) (line : Str) :
    (substr line 60 20 = stringInterval →
      ParseHeaderRecord h line =
        ({ h with interval := asDouble (substr line 0 10),
                  valid := h.valid ||| validInterval }, none)) ∧
    (substr line 60 20 = stringReceiverOffset →
      ParseHeaderRecord h line =
        ({ h with receiverOffset := asInt (substr line 0 6),
                  valid := h.valid ||| validReceiverOffset }, none)) ∧
    (substr line 60 20 = stringLeapSeconds →
      ParseHeaderRecord h line =
        ({ h with leapSeconds := asInt (substr line 0 6),
                  valid := h.valid ||| validLeapSeconds }, none)) ∧
    (substr line 60 20 = stringNumSats →
      ParseHeaderRecord h line =
        ({ h with numSVs := asInt (substr line 0 6),
                  valid := h.valid ||| validNumSats }, none)) := by
  refine ⟨fun hl => ?_, fun hl => ?_, fun hl => ?_, fun hl => ?_⟩
  · rw [ParseHeaderRecord_label h line _ hl (by decide), parseLabelled_interval]; rfl
  · rw [ParseHeaderRecord_label h line _ hl (by decide), parseLabelled_receiverOffset]; rfl
  · rw [ParseHeaderRecord_label h line _ hl (by decide), parseLabelled_leapSeconds]; rfl
  · rw [ParseHeaderRecord_label h line _ hl (by decide), parseLabelled_numSats]; rfl

set_option maxRecDepth 100000 in
theorem C33_witness :
    ParseHeaderRecord sampleHeader leapSecondsTextLine =
      ({ sampleHeader with leapSeconds := asInt (substr leapSecondsTextLine 0 6),
                           valid := sampleHeader.valid ||| validLeapSeconds }, none) ∧
    asInt (substr leapSecondsTextLine 0 6) = 0 :=
  ⟨(C33_numeric_field_always_accepted sampleHeader leapSecondsTextLine).2.2.1 (by decide),
    by decide⟩

/-! ## Applied corrections and comments, line by line -/

theorem readLine_dcbs (g : Rinex3ObsHeader) (c : Rinex3CorrInfo) (hc : FitsCorrInfo c) :
    readLine g (corrInfoLine stringSystemDCBSapplied c) =
      ({ g with infoDCBS := g.infoDCBS ++ [c],
                valid := g.valid ||| validSystemDCBSapplied }, none) := by
  have hp := parseCorrInfo_corrInfoLine stringSystemDCBSapplied c hc
  unfold corrInfoLine at hp ⊢
  rw [readLine_record g _ _ (length_corrInfoData c) (by decide)]
  show parseSystemDCBSapplied g _ = _
  simp only [parseSystemDCBSapplied]
  rw [hp]

theorem readLine_pcvs (g : Rinex3ObsHeader) (c : Rinex3CorrInfo) (hc : FitsCorrInfo c) :
    readLine g (corrInfoLine stringSystemPCVSapplied c) =
      ({ g with infoPCVS := g.infoPCVS ++ [c],
                valid := g.valid ||| validSystemPCVSapplied }, none) := by
  have hp := parseCorrInfo_corrInfoLine stringSystemPCVSapplied c hc
  unfold corrInfoLine at hp ⊢
  rw [readLine_record g _ _ (length_corrInfoData c) (by decide)]
  show parseSystemPCVSapplied g _ = _
  simp only [parseSystemPCVSapplied]
  rw [hp]

theorem readLine_comment (g : Rinex3ObsHeader) (c : Str) (hc : Canon 60 c) :
    readLine g (commentLine c) =
      ({ g with commentList := g.commentList ++ [c],
                valid := g.valid ||| validComment }, none) := by
  unfold commentLine
  rw [readLine_record g _ _ (length_leftJustify _ _) (by decide)]
  show parseComment g _ = _
  simp only [parseComment]
  rw [substr_zero_append _ _ _ (length_leftJustify _ _), strip_leftJustify _ _ hc]

theorem foldl_dcbs_list (l : List Rinex3CorrInfo) : ∀ g : Rinex3ObsHeader,
    (l.foldl (fun g c => { g with
      infoDCBS := g.infoDCBS ++ [c], valid := g.valid ||| validSystemDCBSapplied }) g).infoDCBS =
        g.infoDCBS ++ l ∧
    (l.foldl (fun g c => { g with
      infoDCBS := g.infoDCBS ++ [c], valid := g.valid ||| validSystemDCBSapplied }) g).infoPCVS =
        g.infoPCVS := by
  induction l with
  | nil => intro g; simp
  | cons c l ih =>
    intro g
    rw [List.foldl_cons]
    obtain ⟨i1, i2⟩ := ih { g with
      infoDCBS := g.infoDCBS ++ [c], valid := g.valid ||| validSystemDCBSapplied }
    rw [i1, i2]
    simp

theorem foldl_pcvs_list (l : List Rinex3CorrInfo) : ∀ g : Rinex3ObsHeader,
    (l.foldl (fun g c => { g with
      infoPCVS := g.infoPCVS ++ [c], valid := g.valid ||| validSystemPCVSapplied }) g).infoPCVS =
        g.infoPCVS ++ l ∧
    (l.foldl (fun g c => { g with
      infoPCVS := g.infoPCVS ++ [c], valid := g.valid ||| validSystemPCVSapplied }) g).infoDCBS =
        g.infoDCBS := by
  induction l with
  | nil => intro g; simp
  | cons c l ih =>
    intro g
    rw [List.foldl_cons]
    obtain ⟨i1, i2⟩ := ih { g with
      infoPCVS := g.infoPCVS ++ [c], valid := g.valid ||| validSystemPCVSapplied }
    rw [i1, i2]
    simp

theorem foldl_comments_list (l : List Str) : ∀ g : Rinex3ObsHeader,
    (l.foldl (fun g c => { g with
      commentList := g.commentList ++ [c], valid := g.valid ||| validComment }) g).commentList =
        g.commentList ++ l := by
  induction l with
  | nil => intro g; simp
  | cons c l ih =>
    intro g
    rw [List.foldl_cons, ih]
    simp

/-- C31: for every list of applied corrections whose three texts have no blank
at either end and fit their fields (1, 17 and 40 columns), the encoder writes
one SYS / DCBS APPLIED line for each correction, in the order of the list, and
the decoding loop, on any header before END OF HEADER, consumes these lines
without an exception and appends exactly these corrections, in the same order,
to the list of applied DCBS corrections (which a cleared header has empty); the
same holds for SYS / PCVS APPLIED and its list. -/
theorem C31_applied_corrections_read_back (infos : List Rinex3CorrInfo) (g : Rinex3ObsHeader)
    (s : PutState) (hfit : ∀ c ∈ infos, FitsCorrInfo c) (ho : Open g) :
    ((putCorrInfos stringSystemDCBSapplied infos s).out =
        s.out ++ infos.map (corrInfoLine stringSystemDCBSapplied) ∧
      ∃ g1, Feeds (infos.map (corrInfoLine stringSystemDCBSapplied)) g g1 ∧
        g1.infoDCBS = g.infoDCBS ++ infos ∧ g1.infoPCVS = g.infoPCVS) ∧
    ((putCorrInfos stringSystemPCVSapplied infos s).out =
        s.out ++ infos.map (corrInfoLine stringSystemPCVSapplied) ∧
      ∃ g1, Feeds (infos.map (corrInfoLine stringSystemPCVSapplied)) g g1 ∧
        g1.infoPCVS = g.infoPCVS ++ infos ∧ g1.infoDCBS = g.infoDCBS) := by
  refine ⟨⟨putCorrInfos_out _ _ _, ?_⟩, ⟨putCorrInfos_out _ _ _, ?_⟩⟩
  · have hf := feeds_list (corrInfoLine stringSystemDCBSapplied)
      (fun c g => { g with
        infoDCBS := g.infoDCBS ++ [c], valid := g.valid ||| validSystemDCBSapplied })
      FitsCorrInfo
      (fun c g hc ho => ⟨readLine_dcbs g c hc, open_or g _ ho (by decide)⟩) infos g hfit ho
    exact ⟨_, hf.1, (foldl_dcbs_list infos g).1, (foldl_dcbs_list infos g).2⟩
  · have hf := feeds_list (corrInfoLine stringSystemPCVSapplied)
      (fun c g => { g with
        infoPCVS := g.infoPCVS ++ [c], valid := g.valid ||| validSystemPCVSapplied })
      FitsCorrInfo
      (fun c g hc ho => ⟨readLine_pcvs g c hc, open_or g _ ho (by decide)⟩) infos g hfit ho
    exact ⟨_, hf.1, (foldl_pcvs_list infos g).1, (foldl_pcvs_list infos g).2⟩

set_option maxRecDepth 100000 in
theorem C31_witness :
    (putCorrInfos stringSystemDCBSapplied corrInfoSamples ⟨[], []⟩).out =
      [ "G CC2NONCC          p1c1bias.hist @ goby.nrl.navy.mil       SYS / DCBS APPLIED".toList,
        "R                   igs08.atx                               SYS / DCBS APPLIED".toList ] ∧
    ∃ g1, (∀ rest n, getLoop ((putCorrInfos stringSystemDCBSapplied corrInfoSamples ⟨[], []⟩).out
        ++ rest) Rinex3ObsHeader.empty.clear n = getLoop rest g1 (n + 2)) ∧
      g1.infoDCBS = corrInfoSamples := by
  have h := (C31_applied_corrections_read_back corrInfoSamples Rinex3ObsHeader.empty.clear
    ⟨[], []⟩ (by decide) (open_clear _)).1
  obtain ⟨hw, g1, hf, hd, _⟩ := h
  refine ⟨by decide, g1, ?_, by rw [hd]; rfl⟩
  intro rest n
  rw [hw]
  exact hf rest n

set_option maxRecDepth 100000 in
/-- C32 (counterexample): for a header with the comment flag set and an empty
list of comments the encoder writes no COMMENT line, and the decoder, which
reads no line, leaves the comment flag of a cleared header unset. -/
theorem C32_counterexample_no_comment_no_flag :
    isSet noCommentHeader.valid validComment = true ∧
    noCommentHeader.commentList = [] ∧
    (putComments noCommentHeader ⟨[], []⟩).1.out = [] ∧
    isSet (getLoop (putComments noCommentHeader ⟨[], []⟩).1.out
      Rinex3ObsHeader.empty.clear 0).1.1.valid validComment = false := by
  decide

/-- C32: for every header with the comment flag set whose comments have no
blank at either end and at most 60 characters, the encoder writes one COMMENT
line for each comment, in the order of the list, and the decoding loop, on any
header before END OF HEADER, consumes these lines without an exception and
appends exactly these comments, the empty ones included, in the same order to
the list of comments (which a cleared header has empty); when the list is not
empty the comment flag is set afterwards, and when it is empty no line is
written and the header is left as it was. -/
theorem C32_comments_read_back (h g : Rinex3ObsHeader) (s : PutState)
    (hflag : isSet h.valid validComment = true)
    (hcanon : ∀ c ∈ h.commentList, Canon 60 c) (ho : Open g) :
    (putComments h s).2 = none ∧
    (putComments h s).1.out = s.out ++ h.commentList.map commentLine ∧
    ∃ g1, Feeds (h.commentList.map commentLine) g g1 ∧
      g1.commentList = g.commentList ++ h.commentList ∧
      (h.commentList ≠ [] → isSet g1.valid validComment = true) ∧
      (h.commentList = [] → g1 = g) := by
  obtain ⟨e1, e2⟩ := putComments_emits h s
  rw [if_pos hflag] at e2
  refine ⟨e1, e2, ?_⟩
  have hf := feeds_list commentLine
    (fun c g => { g with
      commentList := g.commentList ++ [c], valid := g.valid ||| validComment })
    (Canon 60)
    (fun c g hc ho => ⟨readLine_comment g c hc, open_or g _ ho (by decide)⟩)
    h.commentList g hcanon ho
  refine ⟨_, hf.1, foldl_comments_list _ g, fun hne => ?_, fun hnil => ?_⟩
  · rw [foldl_comments _ _ hne]
    show isSet (g.valid ||| validComment) validComment = true
    rw [isSet_or]
    have : isSet validComment validComment = true := by decide
    rw [this, Bool.or_true]
  · rw [hnil]
    rfl

set_option maxRecDepth 100000 in
theorem C32_witness :
    (putComments threeCommentsHeader ⟨[], []⟩).1.out =
      [ leftJustify "first remark".toList 60 ++ stringComment,
        mkString 60 ' ' ++ stringComment,
        leftJustify "third, after an empty one".toList 60 ++ stringComment ] ∧
    ∃ g1, (∀ rest n, getLoop ((putComments threeCommentsHeader ⟨[], []⟩).1.out ++ rest)
        Rinex3ObsHeader.empty.clear n = getLoop rest g1 (n + 3)) ∧
      g1.commentList = threeCommentsHeader.commentList ∧
      isSet g1.valid validComment = true := by
  have h := C32_comments_read_back threeCommentsHeader Rinex3ObsHeader.empty.clear ⟨[], []⟩
    (by decide) (by decide) (open_clear _)
  obtain ⟨_, hw, g1, hf, hc, hv, _⟩ := h
  refine ⟨by decide, g1, ?_, by rw [hc]; rfl, hv (by decide)⟩
  intro rest n
  rw [hw]
  exact hf rest n


/-! ## The number of lines of a header of single-line records -/

theorem countFrom_eq (valid : Nat) (bits : List Nat) : ∀ n : Int,
    countFrom valid bits n = n + (flagCount valid bits : Int) := by
  induction bits with
  | nil => intro n; simp [countFrom, flagCount]
  | cons b bs ih =>
    intro n
    have hstep : countFrom valid (b :: bs) n =
        countFrom valid bs (if isSet valid b then n + 1 else n) := rfl
    rw [hstep, ih]
    unfold flagCount
    rw [List.countP_cons]
    split_ifs with hb
    · simp [hb]; ring
    · simp [hb]

theorem number_shape (h : Rinex3ObsHeader) :
    NumberHeaderRecordsToBeWritten h =
      (if isSet h.valid validPrnObs then
        match h.numObsForSat with
        | [] => .error .undefinedBehaviour
        | (_, counts) :: _ =>
          .ok (countFrom h.valid [validEoH] (toInt32
            (countFrom h.valid
              [validSigStrengthUnit, validInterval, validFirstTime, validLastTime,
                validReceiverOffset, validSystemDCBSapplied, validSystemPCVSapplied,
                validSystemScaleFac, validSystemPhaseShift, validGlonassFreqNo,
                validLeapSeconds, validNumSats]
              (if isSet h.valid validSystemObsType then
                toInt32 (countFrom h.valid
                  [validMarkerName, validMarkerNumber, validMarkerType, validObserver,
                    validReceiver, validAntennaType, validAntennaPosition, validAntennaDeltaHEN,
                    validAntennaDeltaXYZ, validAntennaPhaseCtr, validAntennaBsightXYZ,
                    validAntennaZeroDirAzi, validAntennaZeroDirXYZ, validCenterOfMass]
                  (if isSet h.valid validComment then
                    toInt32 (countFrom h.valid [validVersion, validRunBy] 0 +
                      h.commentList.length)
                  else countFrom h.valid [validVersion, validRunBy] 0) +
                  ((1 + (h.obsTypeList.length + (2 ^ 64 - 1)) % 2 ^ 64 / 9) % 2 ^ 64 : Nat))
              else countFrom h.valid
                [validMarkerName, validMarkerNumber, validMarkerType, validObserver,
                  validReceiver, validAntennaType, validAntennaPosition, validAntennaDeltaHEN,
                  validAntennaDeltaXYZ, validAntennaPhaseCtr, validAntennaBsightXYZ,
                  validAntennaZeroDirAzi, validAntennaZeroDirXYZ, validCenterOfMass]
                (if isSet h.valid validComment then
                  toInt32 (countFrom h.valid [validVersion, validRunBy] 0 +
                    h.commentList.length)
                else countFrom h.valid [validVersion, validRunBy] 0)) +
              ((h.numObsForSat.length * (1 + counts.length / 9)) % 2 ^ 64 : Nat))))
      else
        .ok (countFrom h.valid [validEoH]
          (countFrom h.valid
            [validSigStrengthUnit, validInterval, validFirstTime, validLastTime,
              validReceiverOffset, validSystemDCBSapplied, validSystemPCVSapplied,
              validSystemScaleFac, validSystemPhaseShift, validGlonassFreqNo,
              validLeapSeconds, validNumSats]
            (if isSet h.valid validSystemObsType then
              toInt32 (countFrom h.valid
                [validMarkerName, validMarkerNumber, validMarkerType, validObserver,
                  validReceiver, validAntennaType, validAntennaPosition, validAntennaDeltaHEN,
                  validAntennaDeltaXYZ, validAntennaPhaseCtr, validAntennaBsightXYZ,
                  validAntennaZeroDirAzi, validAntennaZeroDirXYZ, validCenterOfMass]
                (if isSet h.valid validComment then
                  toInt32 (countFrom h.valid [validVersion, validRunBy] 0 +
                    h.commentList.length)
                else countFrom h.valid [validVersion, validRunBy] 0) +
                ((1 + (h.obsTypeList.length + (2 ^ 64 - 1)) % 2 ^ 64 / 9) % 2 ^ 64 : Nat))
            else countFrom h.valid
              [validMarkerName, validMarkerNumber, validMarkerType, validObserver,
                validReceiver, validAntennaType, validAntennaPosition, validAntennaDeltaHEN,
                validAntennaDeltaXYZ, validAntennaPhaseCtr, validAntennaBsightXYZ,
                validAntennaZeroDirAzi, validAntennaZeroDirXYZ, validCenterOfMass]
              (if isSet h.valid validComment then
                toInt32 (countFrom h.valid [validVersion, validRunBy] 0 +
                  h.commentList.length)
              else countFrom h.valid [validVersion, validRunBy] 0))))) := rfl

theorem toInt32_of_range (x : Int) (h0 : -2147483648 ≤ x) (h1 : x < 2147483648) :
    toInt32 x = x := by
  unfold toInt32
  omega

theorem putVersion_emits_of_success (curDate : Str) (h : Rinex3ObsHeader)
    (hw : (WriteHeaderRecords curDate h).2 = none) :
    Emits (putVersion h) (whenSet h validVersion [versionLine h]) := by
  by_cases ha : EncoderAccepts h
  · exact putVersion_emits h ha
  · by_cases hv : isSet h.valid validVersion = true
    · exfalso
      have herr : ∃ e, (putVersion h (⟨[], []⟩ : PutState)).2 = some e := by
        unfold EncoderAccepts at ha
        unfold putVersion
        rw [if_pos hv]
        split_ifs with h1 h2
        · exact ⟨_, rfl⟩
        · exact ⟨_, rfl⟩
        · exfalso
          apply ha
          refine ⟨?_, h2⟩
          by_contra hc
          push_neg at hc
          exact h1 hc
      obtain ⟨e, he⟩ := herr
      have hrun : WriteHeaderRecords curDate h = putVersion h (⟨[], []⟩ : PutState) := by
        unfold WriteHeaderRecords
        rw [headerBlocks_eq_cons]
        exact runBlocks_of_err (headerBlocks curDate h).tail _ e he
      rw [hrun, he] at hw
      exact absurd hw (by simp)
    · intro s
      unfold putVersion whenSet
      rw [if_neg hv, if_neg hv]
      exact ⟨rfl, by simp⟩

theorem headerBlocks_emits_single (curDate : Str) (h : Rinex3ObsHeader)
    (hv : Emits (putVersion h) (whenSet h validVersion [versionLine h]))
    (hk : OnlySingleLineKinds h) :
    List.Forall₂ Emits (headerBlocks curDate h) (encodedBlocks curDate h) := by
  obtain ⟨hobs, -, -, hsf, hps, hgl, hprn⟩ := hk
  have simple : ∀ bit text, Emits (putSimple bit text h) (whenSet h bit [text]) :=
    fun bit text => putSimple_emits bit text h
  have time : ∀ bit t label, Emits (putTime bit t label h) (whenSet h bit [timeLine t label]) :=
    fun bit t label => putTime_emits bit t label h
  unfold headerBlocks encodedBlocks
  refine .cons hv <| .cons (simple _ _) <| .cons (putComments_emits h) <|
    .cons (simple _ _) <| .cons (simple _ _) <| .cons (simple _ _) <| .cons (simple _ _) <|
    .cons (simple _ _) <| .cons (simple _ _) <| .cons (simple _ _) <| .cons (simple _ _) <|
    .cons (simple _ _) <| .cons (simple _ _) <| .cons (simple _ _) <| .cons (simple _ _) <|
    .cons (simple _ _) <| .cons (simple _ _) <| .cons ?obs <| .cons (simple _ _) <|
    .cons (simple _ _) <| .cons (time _ _ _) <| .cons (time _ _ _) <| .cons (simple _ _) <|
    .cons ?dcbs <| .cons ?pcvs <| .cons ?sf <| .cons ?ps <| .cons ?gl <| .cons (simple _ _) <|
    .cons (simple _ _) <| .cons ?prn <| .cons (simple _ _) <| .nil
  case obs =>
    intro s
    unfold putSystemObsType whenSet
    rw [hobs]
    exact ⟨rfl, by simp⟩
  case dcbs =>
    intro s
    unfold whenSet
    split_ifs with hb
    · exact ⟨rfl, putCorrInfos_out _ _ _⟩
    · exact ⟨rfl, by simp⟩
  case pcvs =>
    intro s
    unfold whenSet
    split_ifs with hb
    · exact ⟨rfl, putCorrInfos_out _ _ _⟩
    · exact ⟨rfl, by simp⟩
  case sf =>
    apply emits_of_unset
    intro s
    unfold putSystemScaleFac
    rw [hsf]; rfl
  case ps =>
    apply emits_of_unset
    intro s
    unfold putSystemPhaseShift
    rw [hps]; rfl
  case gl =>
    apply emits_of_unset
    intro s
    unfold putGlonassFreqNo
    rw [hgl]; rfl
  case prn =>
    apply emits_of_unset
    intro s
    unfold putPrnObs
    rw [hprn]; rfl

theorem length_whenSet_one (h : Rinex3ObsHeader) (bit : Nat) (x : Str) :
    (whenSet h bit [x]).length = if isSet h.valid bit = true then 1 else 0 := by
  unfold whenSet
  split_ifs <;> rfl

theorem length_whenSet_unset (h : Rinex3ObsHeader) (bit : Nat) (L : List Str)
    (hb : isSet h.valid bit = false) : (whenSet h bit L).length = 0 := by
  unfold whenSet
  rw [hb]
  rfl

theorem length_whenSet_list (h : Rinex3ObsHeader) (bit : Nat) (L : List Str) :
    (whenSet h bit L).length = if isSet h.valid bit = true then L.length else 0 := by
  unfold whenSet
  split_ifs <;> rfl

theorem flagCount_cons (valid bit : Nat) (bits : List Nat) :
    flagCount valid (bit :: bits) =
      flagCount valid bits + if isSet valid bit = true then 1 else 0 := by
  unfold flagCount
  rw [List.countP_cons]

theorem flagCount_nil (valid : Nat) : flagCount valid [] = 0 := rfl

/-- The number of lines of the encoded blocks of a header with single-line
record kinds and comments only. -/
theorem encodedBlocks_length (curDate : Str) (h : Rinex3ObsHeader)
    (hk : OnlySingleLineKinds h) :
    (encodedBlocks curDate h).flatten.length =
      flagCount h.valid singleLineFlags +
        (if isSet h.valid validComment = true then h.commentList.length else 0) := by
  obtain ⟨hobs, hdcbs, hpcvs, -⟩ := hk
  unfold encodedBlocks singleLineFlags
  simp only [List.flatten_cons, List.flatten_nil, List.length_append, List.length_nil,
    length_whenSet_one, length_whenSet_unset h _ _ hobs, length_whenSet_unset h _ _ hdcbs,
    length_whenSet_unset h _ _ hpcvs, flagCount_cons, flagCount_nil]
  rw [length_whenSet_list, List.length_map]
  omega

/-- The lines that `WriteHeaderRecords` writes when it succeeds on a header with
single-line record kinds and comments only. -/
theorem WriteHeaderRecords_single_lines (curDate : Str) (h : Rinex3ObsHeader)
    (hw : (WriteHeaderRecords curDate h).2 = none) (hk : OnlySingleLineKinds h) :
    (WriteHeaderRecords curDate h).1.out = (encodedBlocks curDate h).flatten := by
  have := runBlocks_emits _ _
    (headerBlocks_emits_single curDate h (putVersion_emits_of_success curDate h hw) hk)
    (⟨[], []⟩, none) rfl
  simpa [WriteHeaderRecords] using this.2

/-- The value of `NumberHeaderRecordsToBeWritten` on a header with single-line
record kinds and comments only. -/
theorem number_single (h : Rinex3ObsHeader) (hk : OnlySingleLineKinds h) :
    NumberHeaderRecordsToBeWritten h =
      .ok ((if isSet h.valid validComment = true then
          toInt32 ((flagCount h.valid [validVersion, validRunBy] : Int) + h.commentList.length)
        else (flagCount h.valid [validVersion, validRunBy] : Int)) +
        (flagCount h.valid (singleLineFlags.drop 2) : Int)) := by
  obtain ⟨hobs, hdcbs, hpcvs, hsf, hps, hgl, hprn⟩ := hk
  rw [number_shape]
  simp only [hprn, hobs, Bool.false_eq_true, if_false]
  simp only [countFrom_eq, zero_add]
  congr 1
  simp only [singleLineFlags, List.drop_succ_cons, List.drop_zero, flagCount_cons, flagCount_nil,
    hdcbs, hpcvs, hsf, hps, hgl, Bool.false_eq_true, if_false]
  push_cast
  ring

theorem putVersion_emits_unset (h : Rinex3ObsHeader) (hv : isSet h.valid validVersion = false) :
    Emits (putVersion h) (whenSet h validVersion [versionLine h]) := by
  intro s
  unfold putVersion whenSet
  rw [hv]
  exact ⟨rfl, by simp⟩

theorem flagCount_singleLineFlags (valid : Nat) :
    flagCount valid singleLineFlags =
      flagCount valid [validVersion, validRunBy] + flagCount valid (singleLineFlags.drop 2) := by
  simp only [singleLineFlags, List.drop_succ_cons, List.drop_zero, flagCount_cons, flagCount_nil]
  omega

/-- C35 (counterexample): a header whose only flag is the one of comments, with
2147483648 comments. `WriteHeaderRecords` succeeds and writes 2147483648 lines,
one for each comment, while `NumberHeaderRecordsToBeWritten`, whose counter is
an `int`, returns -2147483648. -/
theorem C35_counterexample_count_beyond_int :
    OnlySingleLineKinds manyCommentsHeader ∧
    (WriteHeaderRecords [] manyCommentsHeader).2 = none ∧
    (WriteHeaderRecords [] manyCommentsHeader).1.out.length = 2147483648 ∧
    NumberHeaderRecordsToBeWritten manyCommentsHeader = .ok (-2147483648) := by
  have hk : OnlySingleLineKinds manyCommentsHeader := by decide
  have hv : isSet manyCommentsHeader.valid validVersion = false := by decide
  have hc : isSet manyCommentsHeader.valid validComment = true := by decide
  have hlen : manyCommentsHeader.commentList.length = 2147483648 :=
    List.length_replicate _ _
  have hrun := runBlocks_emits _ _
    (headerBlocks_emits_single [] manyCommentsHeader (putVersion_emits_unset _ hv) hk)
    (⟨[], []⟩, none) rfl
  have hout : (WriteHeaderRecords [] manyCommentsHeader).1.out =
      (encodedBlocks [] manyCommentsHeader).flatten := by
    simpa [WriteHeaderRecords] using hrun.2
  refine ⟨hk, hrun.1, ?_, ?_⟩
  · rw [hout, encodedBlocks_length _ _ hk, if_pos hc, hlen]
    have h0 : flagCount manyCommentsHeader.valid singleLineFlags = 0 := by decide
    rw [h0]
  · rw [number_single _ hk, if_pos hc, hlen]
    have h0 : flagCount manyCommentsHeader.valid [validVersion, validRunBy] = 0 := by decide
    have h1 : flagCount manyCommentsHeader.valid (singleLineFlags.drop 2) = 0 := by decide
    rw [h0, h1]
    rfl

/-- C35 (amended): for every header on which `WriteHeaderRecords` succeeds,
whose set flags are limited to single-line record kinds and comments (none of
the flags of observation types, DCBS applied, PCVS applied, scale factor, phase
shift, GLONASS and PRN / # OF OBS is set) and for which fewer than 2147483648
lines are written, `NumberHeaderRecordsToBeWritten` returns the number of lines
that `WriteHeaderRecords` writes, and that number is the number of set
single-line flags plus the number of comments when the comment flag is set. -/
theorem C35_count_equals_lines_written (curDate : Str) (h : Rinex3ObsHeader)
    (hw : (WriteHeaderRecords curDate h).2 = none) (hk : OnlySingleLineKinds h)
    (hfit : (WriteHeaderRecords curDate h).1.out.length < 2147483648) :
    NumberHeaderRecordsToBeWritten h =
      .ok ((WriteHeaderRecords curDate h).1.out.length : Int) ∧
    (WriteHeaderRecords curDate h).1.out.length =
      flagCount h.valid singleLineFlags +
        (if isSet h.valid validComment = true then h.commentList.length else 0) := by
  have hout := WriteHeaderRecords_single_lines curDate h hw hk
  have hlen := encodedBlocks_length curDate h hk
  rw [hout] at hfit ⊢
  rw [hlen] at hfit
  refine ⟨?_, hlen⟩
  rw [number_single h hk, hlen, flagCount_singleLineFlags] at *
  congr 1
  split_ifs at hfit ⊢ with hc
  · rw [toInt32_of_range _ (by omega) (by omega)]
    push_cast
    ring
  · push_cast
    ring

set_option maxRecDepth 100000 in
theorem C35_witness :
    OnlySingleLineKinds fewRecordsHeader ∧
    (WriteHeaderRecords sampleDate fewRecordsHeader).1.out.length = 6 ∧
    NumberHeaderRecordsToBeWritten fewRecordsHeader = .ok 6 := by
  have hlines : (WriteHeaderRecords sampleDate fewRecordsHeader).1.out.length = 6 := by decide
  have h := C35_count_equals_lines_written sampleDate fewRecordsHeader (by decide) (by decide)
    (by rw [hlines]; decide)
  refine ⟨by decide, hlines, ?_⟩
  rw [h.1, hlines]
  rfl


/-! ## The data columns decide the outcome of every record -/

theorem forIndices_cond (cond : Nat → Bool) : ∀ (fuel start i : Nat),
    i ∈ forIndices cond fuel start → cond i = true := by
  intro fuel
  induction fuel with
  | zero => intro start i hi; simp [forIndices] at hi
  | succ fuel ih =>
    intro start i hi
    unfold forIndices at hi
    split_ifs at hi with hc
    · rcases List.mem_cons.mp hi with h1 | h1
      · rw [h1]; exact hc
      · exact ih _ _ h1
    · simp at hi

theorem forIndices_map_congr {α : Type} (cond : Nat → Bool) (fuel start : Nat) (f g : Nat → α)
    (h : ∀ i, cond i = true → f i = g i) :
    (forIndices cond fuel start).map f = (forIndices cond fuel start).map g :=
  List.map_congr_left fun i hi => h i (forIndices_cond cond fuel start i hi)

theorem obsOpening_data (data tail sys : Str) (n : Int) (hlen : data.length = 60) :
    (forIndices (fun i => decide ((i : Int) < n) && decide (i < 13)) 13 0).map
      (fun i => ObsID.mk (sys ++ substr (data ++ tail) (4 * i + 6 + 1) 3)) =
    (forIndices (fun i => decide ((i : Int) < n) && decide (i < 13)) 13 0).map
      (fun i => ObsID.mk (sys ++ substr data (4 * i + 6 + 1) 3)) := by
  apply forIndices_map_congr
  intro i hi
  simp only [Bool.and_eq_true, decide_eq_true_eq] at hi
  rw [substr_append_left _ _ _ _ (by omega)]

theorem prnOpening_data (data tail : Str) (n : Nat) (hlen : data.length = 60) :
    (forIndices (fun i => decide (i < n) && decide (i < 9)) 9 0).map
      (fun i => asInt (substr (data ++ tail) (6 * i + 6) 6)) =
    (forIndices (fun i => decide (i < n) && decide (i < 9)) 9 0).map
      (fun i => asInt (substr data (6 * i + 6) 6)) := by
  apply forIndices_map_congr
  intro i hi
  simp only [Bool.and_eq_true, decide_eq_true_eq] at hi
  rw [substr_append_left _ _ _ _ (by omega)]

theorem phaseShiftContinuation_data (data tail : Str) (corr : ℚ) (hlen : data.length = 60) :
    ∀ (l : List Nat), (∀ i ∈ l, i < 10) → ∀ m : SMap RinexSatID ℚ,
      phaseShiftContinuation (data ++ tail) corr l m = phaseShiftContinuation data corr l m := by
  intro l
  induction l with
  | nil => intro _ m; rfl
  | cons i is ih =>
    intro hl m
    have hi : i < 10 := hl i (List.mem_cons_self _ _)
    have his : ∀ j ∈ is, j < 10 := fun j hj => hl j (List.mem_cons_of_mem _ hj)
    unfold phaseShiftContinuation
    simp only [substr_append_left data tail (19 + 4 * i) 3 (by omega), ih his]

theorem phaseShiftSats_data (data tail : Str) (corr : ℚ) (hlen : data.length = 60) :
    ∀ (l : List Nat), (∀ i ∈ l, i < 10) → ∀ m : SMap RinexSatID ℚ,
      phaseShiftSats (data ++ tail) corr l m = phaseShiftSats data corr l m := by
  intro l
  induction l with
  | nil => intro _ m; rfl
  | cons i is ih =>
    intro hl m
    have hi : i < 10 := hl i (List.mem_cons_self _ _)
    have his : ∀ j ∈ is, j < 10 := fun j hj => hl j (List.mem_cons_of_mem _ hj)
    unfold phaseShiftSats
    simp only [substr_append_left data tail (19 + 4 * i) 3 (by omega), ih his]

theorem glonassPairs_data (data tail : Str) (hlen : data.length = 60) :
    ∀ (l : List Nat), (∀ i ∈ l, i < 8) → ∀ m : SMap RinexSatID Int,
      glonassPairs (data ++ tail) l m = glonassPairs data l m := by
  intro l
  induction l with
  | nil => intro _ m; rfl
  | cons i is ih =>
    intro hl m
    have hi : i < 8 := hl i (List.mem_cons_self _ _)
    have his : ∀ j ∈ is, j < 8 := fun j hj => hl j (List.mem_cons_of_mem _ hj)
    unfold glonassPairs
    simp only [substr_append_left data tail (4 + i * 7) 3 (by omega),
      substr_append_left data tail (8 + i * 7) 2 (by omega), ih his]

theorem parseTime_data (data tail : Str) (hlen : data.length = 60) :
    parseTime (data ++ tail) = parseTime data := by
  simp (disch := omega) only [parseTime, substr_append_left]

theorem parseTriple_data (data tail : Str) (hlen : data.length = 60) :
    parseTriple (data ++ tail) = parseTriple data := by
  simp (disch := omega) only [parseTriple, substr_append_left]

theorem parseCorrInfo_data (data tail : Str) (hlen : data.length = 60) :
    parseCorrInfo (data ++ tail) = parseCorrInfo data := by
  simp (disch := omega) only [parseCorrInfo, substr_append_left]

theorem parseVersion_data (h : Rinex3ObsHeader) (data tail : Str) (hlen : data.length = 60) :
    parseVersion h (data ++ tail) = parseVersion h data := by
  unfold parseVersion
  simp (disch := omega) only [substr_append_left]

theorem parseSystemNumObs_data (h : Rinex3ObsHeader) (data tail : Str)
    (hlen : data.length = 60) :
    parseSystemNumObs h (data ++ tail) = parseSystemNumObs h data := by
  unfold parseSystemNumObs
  simp (disch := omega) only [substr_append_left, obsOpening_data _ _ _ _ hlen]

theorem parseSystemScaleFac_data (h : Rinex3ObsHeader) (data tail : Str)
    (hlen : data.length = 60) :
    parseSystemScaleFac h (data ++ tail) = parseSystemScaleFac h data := by
  unfold parseSystemScaleFac
  simp (disch := omega) only [substr_append_left]

theorem parseSystemPhaseShift_data (h : Rinex3ObsHeader) (data tail : Str)
    (hlen : data.length = 60) :
    parseSystemPhaseShift h (data ++ tail) = parseSystemPhaseShift h data := by
  have hc : ∀ (corr : ℚ) (m : SMap RinexSatID ℚ),
      phaseShiftContinuation (data ++ tail) corr (List.range 10) m =
        phaseShiftContinuation data corr (List.range 10) m :=
    fun corr m => phaseShiftContinuation_data data tail corr hlen _
      (fun i hi => List.mem_range.mp hi) m
  have hs : ∀ (corr : ℚ) (nsat : Int) (m : SMap RinexSatID ℚ),
      phaseShiftSats (data ++ tail) corr (List.range (if nsat < 10 then nsat.toNat else 10)) m =
        phaseShiftSats data corr (List.range (if nsat < 10 then nsat.toNat else 10)) m := by
    intro corr nsat m
    apply phaseShiftSats_data data tail corr hlen
    intro i hi
    have := List.mem_range.mp hi
    split_ifs at this <;> omega
  unfold parseSystemPhaseShift
  simp (disch := omega) only [substr_append_left, hc, hs]

theorem parseGlonassSlotFreqNo_data (h : Rinex3ObsHeader) (data tail : Str)
    (hlen : data.length = 60) :
    parseGlonassSlotFreqNo h (data ++ tail) = parseGlonassSlotFreqNo h data := by
  unfold parseGlonassSlotFreqNo
  rw [glonassPairs_data data tail hlen _ (fun i hi => List.mem_range.mp hi)]

theorem parsePrnObs_data (h : Rinex3ObsHeader) (data tail : Str) (hlen : data.length = 60) :
    parsePrnObs h (data ++ tail) = parsePrnObs h data := by
  unfold parsePrnObs
  simp (disch := omega) only [substr_append_left, prnOpening_data _ _ _ hlen]

theorem recordParsers_data :
    ∀ p ∈ recordParsers, ∀ (h : Rinex3ObsHeader) (data tail : Str), data.length = 60 →
      p.2 h (data ++ tail) = p.2 h data := by
  unfold recordParsers
  simp only [List.forall_mem_cons]
  refine ⟨parseVersion_data, ?_, ?_, ?_, ?_, ?_, ?_, ?_, ?_, ?_, ?_, ?_, ?_, ?_, ?_, ?_, ?_,
    parseSystemNumObs_data, ?_, ?_, ?_, ?_, ?_, ?_, ?_, parseSystemScaleFac_data,
    parseSystemPhaseShift_data, parseGlonassSlotFreqNo_data, ?_, ?_, parsePrnObs_data, ?_,
    fun p hp => absurd hp (List.not_mem_nil p)⟩
  all_goals
    intro h data tail hlen
    simp (disch := omega) only [parseRunBy, parseComment, parseMarkerName, parseMarkerNumber,
      parseMarkerType, parseObserver, parseReceiver, parseAntennaType, parseAntennaPosition,
      parseAntennaDeltaHEN, parseAntennaDeltaXYZ, parseAntennaPhaseCtr, parseAntennaBsightXYZ,
      parseAntennaZeroDirAzi, parseAntennaZeroDirXYZ, parseCenterOfMass, parseSigStrengthUnit,
      parseInterval, parseFirstTime, parseLastTime, parseReceiverOffset,
      parseSystemDCBSapplied, parseSystemPCVSapplied, parseLeapSeconds, parseNumSats, parseEoH,
      parseTime_data _ _ hlen, parseTriple_data _ _ hlen, parseCorrInfo_data _ _ hlen,
      substr_append_left]

theorem parseLabelled_data (h : Rinex3ObsHeader) (data tail label : Str)
    (hlen : data.length = 60) :
    parseLabelled h (data ++ tail) label = parseLabelled h data label := by
  unfold parseLabelled
  cases hf : recordParsers.find? (fun p => decide (label = p.1)) with
  | none => rfl
  | some p => exact recordParsers_data p (List.mem_of_find?_eq_some hf) h data tail hlen

/-- C34: for every header state and every line made of 60 data columns followed
by any text, `ParseHeaderRecord` takes the label from the text after the data
columns and gives the outcome of the branch of that label run on the 60 data
columns alone; the same holds for the branch of every label and for
`parseTime`: no field that they read starts or ends beyond column 59, whatever
the header state, hence whatever index the loops reach. In particular the
fields of the three continuation loops, whose index is reduced modulo 13, 12
and 9 before the column is computed, lie within the data columns for every
index. -/
theorem C34_fields_within_data_columns (h : Rinex3ObsHeader) (data tail : Str)
    (hlen : data.length = 60) :
    ParseHeaderRecord h (data ++ tail) = parseLabelled h data (substr tail 0 20) ∧
    (∀ label, parseLabelled h (data ++ tail) label = parseLabelled h data label) ∧
    parseTime (data ++ tail) = parseTime data ∧
    ∀ i : Nat,
      substr (data ++ tail) (4 * (i % 13) + 6 + 1) 3 = substr data (4 * (i % 13) + 6 + 1) 3 ∧
      substr (data ++ tail) (4 * (i % 12) + 10 + 1) 3 = substr data (4 * (i % 12) + 10 + 1) 3 ∧
      substr (data ++ tail) (6 * (i % 9) + 6) 6 = substr data (6 * (i % 9) + 6) 6 := by
  refine ⟨?_, fun label => parseLabelled_data h data tail label hlen,
    parseTime_data data tail hlen, fun i => ⟨?_, ?_, ?_⟩⟩
  · rw [ParseHeaderRecord_of_le _ _ (by rw [List.length_append]; omega),
      parseLabelled_data h data tail _ hlen, substr_append_right data tail 60 20 (by omega),
      hlen]
  · exact substr_append_left _ _ _ _ (by omega)
  · exact substr_append_left _ _ _ _ (by omega)
  · exact substr_append_left _ _ _ _ (by omega)

theorem C34_witness :
    nineCountsData.length = 60 ∧
    ParseHeaderRecord sampleHeader (nineCountsData ++ stringPrnObs) =
      parseLabelled sampleHeader nineCountsData (substr stringPrnObs 0 20) :=
  ⟨by decide, (C34_fields_within_data_columns sampleHeader nineCountsData stringPrnObs
    (by decide)).1⟩


/-! ## The groups of the SYS / SCALE FACTOR block -/

theorem chunks12_succ (f : Nat) (l : List ObsID) :
    chunks12 (f + 1) l = if l = [] then [] else l.take 12 :: chunks12 f (l.drop 12) := rfl

theorem chunks12_ne_nil (fuel : Nat) (l : List ObsID) (h0 : l ≠ []) (hf : l.length ≤ fuel) :
    chunks12 fuel l ≠ [] := by
  cases fuel with
  | zero =>
    cases l with
    | nil => exact absurd rfl h0
    | cons o os => simp at hf
  | succ f =>
    rw [chunks12_succ, if_neg h0]
    simp

theorem chunks12_flatten (fuel : Nat) : ∀ l : List ObsID, l.length ≤ fuel →
    (chunks12 fuel l).flatten = l := by
  induction fuel with
  | zero =>
    intro l hl
    cases l with
    | nil => rfl
    | cons o os => simp at hl
  | succ f ih =>
    intro l hl
    rw [chunks12_succ]
    split_ifs with h0
    · rw [h0]; rfl
    · have hd : (l.drop 12).length ≤ f := by
        rw [List.length_drop]
        cases l with
        | nil => exact absurd rfl h0
        | cons o os => simp only [List.length_cons] at hl ⊢; omega
      rw [List.flatten_cons, ih _ hd, List.take_append_drop]

/-- The loop over the codes from the start of a continuation line: the line at
hand is written, then one full line for each group of 12 but the last, and the
last group is left in `line`. -/
theorem scaleFacCodes_chunks (fuel : Nat) :
    ∀ (l : List ObsID) (j : Nat) (s : PutState), l.length ≤ fuel → l ≠ [] → 11 < j →
      j % 12 = 0 →
      scaleFacCodes (l.map fun o => o.asRinex3ID) j s =
        { out := s.out ++ [s.line ++ mkString 2 ' ' ++ stringSystemScaleFac] ++
            (chunks12 fuel l).dropLast.map sfacInnerLine,
          line := mkString 10 ' ' ++ codesText ((chunks12 fuel l).getLastD []) } := by
  induction fuel with
  | zero =>
    intro l j s hl h0 _ _
    cases l with
    | nil => exact absurd rfl h0
    | cons o os => simp at hl
  | succ f ih =>
    intro l j s hl h0 hj hmod
    by_cases hd : l.drop 12 = []
    · have h12 : l.length ≤ 12 := by
        have := congrArg List.length hd
        rw [List.length_drop] at this
        simp only [List.length_nil] at this
        omega
      have hc : chunks12 (f + 1) l = [l] := by
        rw [chunks12_succ, if_neg h0, hd, List.take_of_length_le h12]
        cases f <;> simp [chunks12]
      rw [hc, scaleFacCodes_wrap l j s h0 h12 hj hmod]
      simp
    · have hlen : 12 < l.length := by
        by_contra hc
        exact hd (List.drop_eq_nil_of_le (by omega))
      have lt : (l.take 12).length = 12 := by rw [List.length_take]; omega
      have ld : (l.drop 12).length ≤ f := by rw [List.length_drop]; omega
      have ht0 : l.take 12 ≠ [] := by
        intro h
        rw [h] at lt
        simp at lt
      have hc : chunks12 (f + 1) l = l.take 12 :: chunks12 f (l.drop 12) := by
        rw [chunks12_succ, if_neg h0]
      have hne := chunks12_ne_nil f (l.drop 12) hd ld
      obtain ⟨c, cs, hcs⟩ := List.exists_cons_of_ne_nil hne
      conv_lhs => rw [← List.take_append_drop 12 l]
      rw [List.map_append, scaleFacCodes_append, List.length_map, lt,
        scaleFacCodes_wrap _ j s ht0 (by omega) hj hmod,
        ih (l.drop 12) (j + 12) _ ld hd (by omega) (by omega), hc, hcs]
      simp only [List.dropLast_cons₂, List.map_cons, List.getLastD_cons, List.getLast?_cons_cons]
      simp [List.getLastD, sfacInnerLine]

theorem scaleFacGroup_codes (m : sfacMap) (f : Int) :
    ((m.filter fun e => decide (e.2 = f)).map fun e => e.1.asRinex3ID) =
      (codesWithFactor m f).map fun o => o.asRinex3ID := by
  unfold codesWithFactor entriesWithFactor
  rw [List.map_map]
  rfl

/-- The lines of one group: the output of `scaleFacGroup` is the output so far
followed by the lines of the group. -/
theorem scaleFacGroup_out (sys : Str) (m : sfacMap) (f : Int) (s : PutState) :
    (scaleFacGroup sys m f s).out = s.out ++ sfacGroupLines sys f (codesWithFactor m f) := by
  unfold scaleFacGroup
  simp only [scaleFacGroup_codes, List.length_map]
  generalize codesWithFactor m f = ids
  by_cases h0 : ids = []
  · subst h0
    simp [sfacGroupLines]
  · have hpos : 0 < ids.length := List.length_pos.mpr h0
    rw [if_neg (by omega)]
    by_cases h12 : ids.length ≤ 12
    · rw [scaleFacCodes_plain ids 0 _ (fun i hi => by left; omega)]
      simp [sfacGroupLines, h0, h12, emit, sfacGroupHead, sfacGroupEnd]
    · have lt : (ids.take 12).length = 12 := by rw [List.length_take]; omega
      have ld : (ids.drop 12).length ≤ ids.length := by rw [List.length_drop]; omega
      have hd0 : ids.drop 12 ≠ [] := by
        intro h
        have := congrArg List.length h
        rw [List.length_drop] at this
        simp only [List.length_nil] at this
        omega
      have hloop : ∀ n : Nat,
          scaleFacCodes (ids.map fun o => o.asRinex3ID) 0
            { s with line := sfacGroupHead sys f n } =
          { out := s.out ++ [sfacGroupHead sys f n ++ codesText (ids.take 12) ++ mkString 2 ' ' ++
                stringSystemScaleFac] ++
              (chunks12 ids.length (ids.drop 12)).dropLast.map sfacInnerLine,
            line := mkString 10 ' ' ++
              codesText ((chunks12 ids.length (ids.drop 12)).getLastD []) } := by
        intro n
        conv_lhs => rw [← List.take_append_drop 12 ids]
        rw [List.map_append, scaleFacCodes_append, List.length_map, lt,
          scaleFacCodes_plain (ids.take 12) 0 _ (fun i hi => by left; omega),
          scaleFacCodes_chunks ids.length (ids.drop 12) (0 + 12) _ ld hd0 (by omega)
            (by decide)]
      have hl := hloop ids.length
      unfold sfacGroupHead at hl
      rw [hl]
      simp [sfacGroupLines, h0, h12, emit, sfacGroupHead, sfacGroupEnd]

theorem foldl_out_flatMap {α : Type} (g : α → PutState → PutState) (L : α → List Str)
    (hg : ∀ a s, (g a s).out = s.out ++ L a) (l : List α) :
    ∀ s : PutState, (l.foldl (fun st a => g a st) s).out = s.out ++ l.flatMap L := by
  induction l with
  | nil => intro s; simp
  | cons a rest ih =>
    intro s
    rw [List.foldl_cons, ih, hg, List.flatMap_cons, List.append_assoc]

/-- The lines of the SYS / SCALE FACTOR block: for each system in map order and
each of the factors 1, 10, 100, 1000 in this order, the lines of the group of
the codes of the system that have the factor. -/
theorem putSystemScaleFac_out (h : Rinex3ObsHeader) (s : PutState)
    (hv : isSet h.valid validSystemScaleFac = true) :
    (putSystemScaleFac h s).2 = none ∧
    (putSystemScaleFac h s).1.out = s.out ++ h.sysSfacMap.flatMap (fun e =>
      ([1, 10, 100, 1000] : List Int).flatMap fun f =>
        sfacGroupLines e.1 f (codesWithFactor e.2 f)) := by
  unfold putSystemScaleFac
  rw [if_pos hv]
  refine ⟨rfl, ?_⟩
  exact foldl_out_flatMap
    (fun (e : Str × sfacMap) st =>
      ([1, 10, 100, 1000] : List Int).foldl (fun st2 f => scaleFacGroup e.1 e.2 f st2) st)
    (fun e => ([1, 10, 100, 1000] : List Int).flatMap fun f =>
      sfacGroupLines e.1 f (codesWithFactor e.2 f))
    (fun e st => foldl_out_flatMap (fun f st2 => scaleFacGroup e.1 e.2 f st2)
      (fun f => sfacGroupLines e.1 f (codesWithFactor e.2 f))
      (fun f st2 => scaleFacGroup_out e.1 e.2 f st2) _ st)
    h.sysSfacMap s

theorem codesWithFactor_keep (m : sfacMap) (f : Int)
    (hf : f ∈ ([1, 10, 100, 1000] : List Int)) :
    codesWithFactor (m.filter fun x => decide (x.2 ∈ ([1, 10, 100, 1000] : List Int))) f =
      codesWithFactor m f := by
  unfold codesWithFactor entriesWithFactor
  rw [List.filter_filter]
  congr 1
  apply List.filter_congr
  intro x _
  by_cases hx : x.2 = f
  · simp [hx, hf]
  · simp [hx]

theorem length_sfacGroupHead (sys : Str) (f : Int) (n : Nat) :
    (sfacGroupHead sys f n).length = 10 := by
  unfold sfacGroupHead
  simp only [List.length_append, length_leftJustify, length_mkString, length_rightJustify]

theorem sfacGroupLines_head (sys : Str) (f : Int) (ids : List ObsID) (h0 : ids ≠ []) :
    ∃ line rest, sfacGroupLines sys f ids = line :: rest ∧
      line.take 10 = sfacGroupHead sys f ids.length := by
  unfold sfacGroupLines
  rw [if_neg h0]
  split_ifs with h12
  · refine ⟨_, [], rfl, ?_⟩
    rw [List.append_assoc, List.take_left' (length_sfacGroupHead _ _ _)]
  · refine ⟨_, _, rfl, ?_⟩
    rw [List.append_assoc, List.append_assoc, List.take_left' (length_sfacGroupHead _ _ _)]

theorem keepWrittenFactors_lines (m : SMap Str sfacMap) :
    (keepWrittenFactors m).flatMap (fun e =>
      ([1, 10, 100, 1000] : List Int).flatMap fun f =>
        sfacGroupLines e.1 f (codesWithFactor e.2 f)) =
    m.flatMap (fun e =>
      ([1, 10, 100, 1000] : List Int).flatMap fun f =>
        sfacGroupLines e.1 f (codesWithFactor e.2 f)) := by
  unfold keepWrittenFactors
  induction m with
  | nil => rfl
  | cons e rest ih =>
    rw [List.map_cons, List.flatMap_cons, List.flatMap_cons, ih]
    congr 1
    simp only [List.flatMap_cons, List.flatMap_nil,
      codesWithFactor_keep e.2 1 (by decide), codesWithFactor_keep e.2 10 (by decide),
      codesWithFactor_keep e.2 100 (by decide), codesWithFactor_keep e.2 1000 (by decide)]


/-! ## The version check of `reallyGetRecord` -/

/-- The outcome of `reallyGetRecord` after a loop without an exception, when
the double read as version is 3.0 and when it is 3.01. -/
theorem reallyGetRecord_supported (hdr : Rinex3ObsHeader) (strm : Rinex3ObsStream)
    (h1 : Rinex3ObsHeader) (rest : List Str) (n1 : Nat) (hread : strm.headerRead = false)
    (hloop : getLoop strm.input hdr.clear strm.lineNumber = ((h1, rest, n1), none)) :
    ∃ consumed, strm.input = consumed ++ rest ∧
      (roundDouble h1.version = roundDouble 3 →
        ((reallyGetRecord hdr strm).2 = none ↔
          ∀ i ∈ requiredKinds30, ∃ raw ∈ consumed, labelRegistry[i]? = some (lineLabel raw))) ∧
      (roundDouble h1.version = roundDouble (mkRat 301 100) →
        ((reallyGetRecord hdr strm).2 = none ↔
          ∀ i ∈ requiredKinds301,
            ∃ raw ∈ consumed, labelRegistry[i]? = some (lineLabel raw))) := by
  obtain ⟨consumed, hc, _, hbits, _⟩ := getLoop_inv _ _ _ _ _ _ hloop (clear_inv hdr)
  have hocc : ∀ i ∈ requiredKinds301, h1.valid.testBit i = true ↔
      ∃ raw ∈ consumed, labelRegistry[i]? = some (lineLabel raw) := by
    intro i hi
    rw [hbits i hi, clear_valid]
    simp
  have hr3 : roundDouble (mkRat 301 100) ≠ roundDouble 3 := by decide
  refine ⟨consumed, hc, ?_, ?_⟩
  · intro hv
    rw [reallyGetRecord_after_loop hdr strm h1 rest n1 hread hloop, if_pos hv]
    have key := land_eq_iff_kinds h1.valid allValid30 requiredKinds30 allValid30_testBit
    by_cases hm : h1.valid &&& allValid30 = allValid30
    · simp only [hm, ne_eq, not_true_eq_false, if_false, true_iff]
      intro i hi
      exact (hocc i (requiredKinds30_subset i hi)).mp (key.mp hm i hi)
    · simp only [ne_eq, hm, not_false_eq_true, if_true]
      constructor
      · intro hcontra; cases hcontra
      · intro hall
        exfalso
        apply hm
        exact key.mpr (fun i hi => (hocc i (requiredKinds30_subset i hi)).mpr (hall i hi))
  · intro hv
    rw [reallyGetRecord_after_loop hdr strm h1 rest n1 hread hloop,
      if_neg (by rw [hv]; exact hr3), if_pos hv]
    have key := land_eq_iff_kinds h1.valid allValid301 requiredKinds301 allValid301_testBit
    by_cases hm : h1.valid &&& allValid301 = allValid301
    · simp only [hm, ne_eq, not_true_eq_false, if_false, true_iff]
      intro i hi
      exact (hocc i hi).mp (key.mp hm i hi)
    · simp only [ne_eq, hm, not_false_eq_true, if_true]
      constructor
      · intro hcontra; cases hcontra
      · intro hall
        exfalso
        apply hm
        exact key.mpr (fun i hi => (hocc i hi).mpr (hall i hi))

/-- C5: once the decoding loop has run to an END OF HEADER line without an
exception, `reallyGetRecord` throws the unsupported-version error, whose
message is "Unknown or unsupported RINEX version " followed by the text of the
version, when the double read as version is neither 3.0 nor 3.01, and it
succeeds when that double is 3.0, or 3.01, and every record kind required for
that version occurs among the consumed lines. The version is the reading of
columns 0-19 of the RINEX VERSION / TYPE line, compared as a double: a field
that holds "2.11" between blanks reads as a double that is neither 3.0 nor
3.01, "3.00" reads as 3.0 and "3.01" as 3.01, and so do the fields
"2.999999999999999999" and "0x3", which read as the double 3.0. -/
theorem C5_version_gate (hdr : Rinex3ObsHeader) (strm : Rinex3ObsStream)
    (h1 : Rinex3ObsHeader) (rest : List Str) (n1 : Nat) (hread : strm.headerRead = false)
    (hloop : getLoop strm.input hdr.clear strm.lineNumber = ((h1, rest, n1), none)) :
    ∃ consumed, strm.input = consumed ++ rest ∧
      (roundDouble h1.version ≠ roundDouble 3 →
        roundDouble h1.version ≠ roundDouble (mkRat 301 100) →
        (∃ text, (reallyGetRecord hdr strm).2 = some (.FFStreamError
          ("Unknown or unsupported RINEX version ".toList ++ text))) ∧
        (h1.version ≠ 0 → (reallyGetRecord hdr strm).2 = some (.FFStreamError
          ("Unknown or unsupported RINEX version ".toList ++ versionText h1.version)))) ∧
      (roundDouble h1.version = roundDouble 3 →
        (∀ i ∈ requiredKinds30, ∃ raw ∈ consumed, labelRegistry[i]? = some (lineLabel raw)) →
        (reallyGetRecord hdr strm).2 = none) ∧
      (roundDouble h1.version = roundDouble (mkRat 301 100) →
        (∀ i ∈ requiredKinds301, ∃ raw ∈ consumed, labelRegistry[i]? = some (lineLabel raw)) →
        (reallyGetRecord hdr strm).2 = none) ∧
      (∀ v, (∃ raw ∈ consumed, lineLabel raw = stringVersion) →
        (∀ raw ∈ consumed, lineLabel raw = stringVersion →
          asDouble (substr (stripTrailing raw) 0 20) = v) → h1.version = v) ∧
      (∀ a b, asDouble (mkString a ' ' ++ "2.11".toList ++ mkString b ' ') = mkRat 211 100) ∧
      (∀ a b, asDouble (mkString a ' ' ++ "3.00".toList ++ mkString b ' ') = 3) ∧
      (∀ a b, asDouble (mkString a ' ' ++ "3.01".toList ++ mkString b ' ') = mkRat 301 100) ∧
      roundDouble (mkRat 211 100) ≠ roundDouble 3 ∧
      roundDouble (mkRat 211 100) ≠ roundDouble (mkRat 301 100) ∧
      roundDouble (asDouble "2.999999999999999999".toList) = roundDouble 3 ∧
      roundDouble (asDouble "                 0x3".toList) = roundDouble 3 := by
  obtain ⟨consumed, hc, _, hbits, hver⟩ := getLoop_inv _ _ _ _ _ _ hloop (clear_inv hdr)
  obtain ⟨c2, hc2, h30, h301⟩ := reallyGetRecord_supported hdr strm h1 rest n1 hread hloop
  have hcc : c2 = consumed := by
    rw [hc] at hc2
    exact (List.append_cancel_right hc2).symm
  subst hcc
  refine ⟨c2, hc, ?_, fun hv hall => (h30 hv).mpr hall, fun hv hall => (h301 hv).mpr hall, ?_,
    asDouble_2_11, asDouble_3_00, asDouble_3_01, by decide, by decide, by decide, by decide⟩
  · intro hn3 hn301
    rw [reallyGetRecord_after_loop hdr strm h1 rest n1 hread hloop, if_neg hn3, if_neg hn301]
    exact ⟨⟨_, rfl⟩, fun _ => rfl⟩
  · intro v hex hall
    apply hver v hall
    · intro hb
      rw [clear_valid] at hb
      cases hb
    · have h00 : (0 : Nat) ∈ requiredKinds301 := by decide
      rw [hbits 0 h00]
      right
      obtain ⟨raw, hr, hl⟩ := hex
      exact ⟨raw, hr, by rw [hl]; rfl⟩

set_option maxRecDepth 100000 in
theorem C5_witness :
    (streamOf (sampleLines "2.11".toList)).headerRead = false ∧
    (loopOn (sampleLines "2.11".toList)).2 = none ∧
    (loopOn (sampleLines "2.11".toList)).1.1.version = mkRat 211 100 ∧
    (reallyGetRecord Rinex3ObsHeader.empty (streamOf (sampleLines "2.11".toList))).2 =
      some (.FFStreamError "Unknown or unsupported RINEX version 2.10999999999999988".toList) ∧
    (reallyGetRecord Rinex3ObsHeader.empty (streamOf (sampleLines "3.00".toList))).2 = none ∧
    (reallyGetRecord Rinex3ObsHeader.empty (streamOf (sampleLines "0x3 ".toList))).2 = none := by
  refine ⟨rfl, by decide, by decide, ?_, by decide, by decide⟩
  obtain ⟨_, _, h, _⟩ := C5_version_gate Rinex3ObsHeader.empty
    (streamOf (sampleLines "2.11".toList)) _ _ _ rfl
    (loop_result_eta (loopOn (sampleLines "2.11".toList)) (by decide))
  have h2 := (h (by decide) (by decide)).2 (by decide)
  rw [h2]
  decide

/-! ## An unknown label -/

theorem stripLeading_decomp (s : Str) : ∃ k, s = mkString k ' ' ++ stripLeading s := by
  induction s with
  | nil => exact ⟨0, rfl⟩
  | cons c cs ih =>
    by_cases hc : c = ' '
    · obtain ⟨k, hk⟩ := ih
      refine ⟨k + 1, ?_⟩
      subst hc
      have h1 : stripLeading (' ' :: cs) = stripLeading cs := by simp [stripLeading]
      rw [h1]
      show ' ' :: cs = ' ' :: (mkString k ' ' ++ stripLeading cs)
      rw [← hk]
    · refine ⟨0, ?_⟩
      simp [stripLeading, hc, mkString]

theorem stripTrailing_decomp (s : Str) : ∃ k, s = stripTrailing s ++ mkString k ' ' := by
  obtain ⟨k, hk⟩ := stripLeading_decomp s.reverse
  refine ⟨k, ?_⟩
  have := congrArg List.reverse hk
  rw [List.reverse_reverse, List.reverse_append, reverse_mkString] at this
  exact this

theorem stripTrailing_idem (s : Str) : stripTrailing (stripTrailing s) = stripTrailing s := by
  unfold stripTrailing
  rw [List.reverse_reverse, stripLeading_idem]

theorem take_mkString (k n : Nat) (c : Char) : (mkString k c).take n = mkString (min n k) c := by
  simp [mkString, List.take_replicate]

/-- The label that the decoding loop sees is the label field of the line
without its trailing blanks, for every line that passes the length check. -/
theorem label_of_checked (raw : Str) (h60 : 60 ≤ (stripTrailing raw).length)
    (h80 : (stripTrailing raw).length ≤ 80) :
    substr (stripTrailing raw) 60 20 = stripTrailing (substr raw 60 20) := by
  obtain ⟨k, hk⟩ := stripTrailing_decomp raw
  have hsub : substr raw 60 20 =
      substr (stripTrailing raw) 60 20 ++
        mkString (min (20 - ((stripTrailing raw).length - 60)) k) ' ' := by
    conv_lhs => rw [hk]
    unfold substr
    rw [List.drop_append_of_le_length h60, List.take_append_eq_append_take, take_mkString,
      List.length_drop]
  have hall : substr (stripTrailing raw) 60 20 = (stripTrailing raw).drop 60 := by
    unfold substr
    apply List.take_of_length_le
    rw [List.length_drop]
    omega
  have hst : stripTrailing ((stripTrailing raw).drop 60) = (stripTrailing raw).drop 60 := by
    by_cases hd : (stripTrailing raw).drop 60 = []
    · rw [hd]; rfl
    · have hsplit : stripTrailing raw =
          (stripTrailing raw).take 60 ++ (stripTrailing raw).drop 60 :=
        (List.take_append_drop 60 _).symm
      have key := stripTrailing_append ((stripTrailing raw).take 60) ((stripTrailing raw).drop 60)
      rw [← hsplit, stripTrailing_idem] at key
      by_cases hb : stripTrailing ((stripTrailing raw).drop 60) = []
      · rw [if_pos hb] at key
        exfalso
        have h1 := congrArg List.length key
        have h2 := stripTrailing_length_le ((stripTrailing raw).take 60)
        rw [List.length_take] at h2
        have h3 : ((stripTrailing raw).drop 60).length = 0 := by
          rw [List.length_drop]; omega
        exact hd (List.length_eq_zero.mp h3)
      · rw [if_neg hb] at key
        conv_lhs at key => rw [hsplit]
        exact (List.append_cancel_left key).symm
  rw [hsub, stripTrailing_append_blanks, hall, hst]

/-- C9 (as stated, refuted): the decoding loop strips the trailing blanks of a
line before the label is taken, so for the line whose label text is
"NOT A REAL RECORD" followed by blanks the message is
"Unidentified label: NOT A REAL RECORD"; it carries neither the label text
with its four blanks nor the 20 columns of the label field. -/
theorem C9_counterexample_label_blanks_lost :
    (readLine sampleHeader unknownLabelLine).2 =
        some (.FFStreamError "Unidentified label: NOT A REAL RECORD".toList) ∧
      ¬ ("NOT A REAL RECORD    ".toList <:+: "Unidentified label: NOT A REAL RECORD".toList) ∧
      ¬ (substr unknownLabelLine 60 20 <:+: "Unidentified label: NOT A REAL RECORD".toList) := by
  refine ⟨by decide, by decide, by decide⟩

/-- C9 (amended): for every line whose label field (columns 60-79), with its
trailing blanks stripped, matches none of the registry labels, the decoding of
the line fails and leaves every field and validity flag of the header as it
was; when between 60 and 80 characters are left after the trailing blanks of
the line are stripped, the message is "Unidentified label: " followed by the
label text without its trailing blanks, and otherwise the error is a
malformed-line error. `ParseHeaderRecord` itself, on a line of at least 60
characters, reports the label field of the line it is given unchanged. -/
theorem C9_unknown_label_stripped_text (hdr : Rinex3ObsHeader) (raw : Str)
    (hl : stripTrailing (substr raw 60 20) ∉ labelRegistry) :
    (readLine hdr raw).1 = hdr ∧
    (60 ≤ (stripTrailing raw).length → (stripTrailing raw).length ≤ 80 →
      (readLine hdr raw).2 = some (.FFStreamError
        ("Unidentified label: ".toList ++ stripTrailing (substr raw 60 20)))) ∧
    ((stripTrailing raw).length < 60 ∨ 80 < (stripTrailing raw).length →
      ∃ e, (readLine hdr raw).2 = some e ∧ MalformedLine e) ∧
    (∀ line, 60 ≤ line.length → substr line 60 20 ∉ labelRegistry →
      ParseHeaderRecord hdr line =
        (hdr, some (.FFStreamError ("Unidentified label: ".toList ++ substr line 60 20)))) := by
  have hparse : 60 ≤ (stripTrailing raw).length → (stripTrailing raw).length ≤ 80 →
      readLine hdr raw = (hdr, some (.FFStreamError
        ("Unidentified label: ".toList ++ stripTrailing (substr raw 60 20)))) := by
    intro h60 h80
    have h0 : ¬ (stripTrailing raw).length = 0 := by omega
    have h1 : ¬ ((stripTrailing raw).length < 60 ∨ (stripTrailing raw).length > 80) := by omega
    simp only [readLine, h0, h1, if_false]
    rw [ParseHeaderRecord_of_le _ _ h60, label_of_checked raw h60 h80]
    exact parseLabelled_unknown _ _ _ hl
  have hbad : (stripTrailing raw).length < 60 ∨ 80 < (stripTrailing raw).length →
      (readLine hdr raw).1 = hdr ∧ ∃ e, (readLine hdr raw).2 = some e ∧ MalformedLine e := by
    intro hs
    by_cases h0 : (stripTrailing raw).length = 0
    · simp only [readLine, h0, if_true]
      exact ⟨trivial, _, rfl, Or.inl rfl⟩
    · have h1 : (stripTrailing raw).length < 60 ∨ (stripTrailing raw).length > 80 := hs
      simp only [readLine, h0, h1, if_true, if_false]
      exact ⟨trivial, _, rfl, Or.inr rfl⟩
  refine ⟨?_, ?_, ?_, ?_⟩
  · by_cases h60 : 60 ≤ (stripTrailing raw).length
    · by_cases h80 : (stripTrailing raw).length ≤ 80
      · rw [hparse h60 h80]
      · exact (hbad (Or.inr (by omega))).1
    · exact (hbad (Or.inl (by omega))).1
  · intro h60 h80
    rw [hparse h60 h80]
  · intro hs
    exact (hbad hs).2
  · intro line h60 hline
    rw [ParseHeaderRecord_of_le _ _ h60]
    exact parseLabelled_unknown _ _ _ hline

theorem C9_witness :
    unknownLabelLine.length = 81 ∧
    stripTrailing (substr unknownLabelLine 60 20) ∉ labelRegistry ∧
    (readLine sampleHeader unknownLabelLine).1 = sampleHeader ∧
    (readLine sampleHeader unknownLabelLine).2 = some (.FFStreamError
      ("Unidentified label: ".toList ++ stripTrailing (substr unknownLabelLine 60 20))) :=
  ⟨by decide, by decide,
    (C9_unknown_label_stripped_text sampleHeader unknownLabelLine (by decide)).1,
    (C9_unknown_label_stripped_text sampleHeader unknownLabelLine (by decide)).2.1
      (by decide) (by decide)⟩

/-- C27 (amended): when no SYS / # / OBS TYPES line comes after a
PRN / # OF OBS line and the decoding loop, started on a cleared header, does
not run into the dereference of a missing map entry (the undefined behaviour
of a PRN / # OF OBS line for a system without a code list, or of a
continuation line without a record to continue), the header that the loop
leaves, however it ends otherwise, has for every satellite of the
observation-count map a count list at most as long as the observation-code
list recorded for the system of that satellite. -/
theorem C27_counts_fit_codes (h : Rinex3ObsHeader) (lines : List Str) (n : Nat)
    (hord : TypesBeforeCounts lines)
    (_hdef : (getLoop lines h.clear n).2 ≠ some .undefinedBehaviour) :
    CountsFit (getLoop lines h.clear n).1.1 :=
  getLoop_countsFit lines h.clear n (fun e he => by cases he) (Or.inl rfl) hord

set_option maxRecDepth 100000 in
theorem C27_witness :
    TypesBeforeCounts (shrinkingLines.take 2) ∧
    (getLoop (shrinkingLines.take 2) Rinex3ObsHeader.empty.clear 0).2 = some .EndOfFile ∧
    SMap.find (getLoop (shrinkingLines.take 2) Rinex3ObsHeader.empty.clear 0).1.1.numObsForSat
      ⟨.systemGPS, 1⟩ = some [2880, 2879] ∧
    CountsFit (getLoop (shrinkingLines.take 2) Rinex3ObsHeader.empty.clear 0).1.1 :=
  ⟨by decide, by decide, by decide,
    C27_counts_fit_codes Rinex3ObsHeader.empty (shrinkingLines.take 2) 0 (by decide)
      (by decide)⟩

theorem fitsInt_count99 (n : Nat) (hn : n ≤ 99) : FitsInt 2 (n : Int) := by
  unfold FitsInt
  interval_cases n <;> decide

/-- The fields of the first ten columns of the opening line of a group. -/
theorem sfacGroupHead_fields (sys : Str) (f : Int) (n : Nat) (line : Str)
    (hline : line.take 10 = sfacGroupHead sys f n) :
    substr line 0 1 = leftJustify sys 1 ∧
    substr line 2 4 = rightJustify (asStringInt f) 4 ∧
    substr line 8 2 = rightJustify (asStringInt n) 2 := by
  have hsub : ∀ pos k, pos + k ≤ 10 → substr line pos k = substr (sfacGroupHead sys f n) pos k := by
    intro pos k hk
    rw [← hline]
    unfold substr
    rw [List.drop_take, List.take_take, Nat.min_eq_left (by omega)]
  refine ⟨?_, ?_, ?_⟩
  · rw [hsub 0 1 (by omega)]
    unfold sfacGroupHead
    rw [List.append_assoc, List.append_assoc, List.append_assoc]
    exact substr_zero_append _ _ _ (length_leftJustify _ _)
  · rw [hsub 2 4 (by omega)]
    unfold sfacGroupHead
    rw [List.append_assoc (leftJustify sys 1 ++ mkString 1 ' ' ++ rightJustify (asStringInt f) 4)]
    exact substr_field _ _ _ 2 4 (by simp [length_leftJustify, length_mkString])
      (length_rightJustify _ _)
  · rw [hsub 8 2 (by omega)]
    unfold sfacGroupHead
    have := substr_field (leftJustify sys 1 ++ mkString 1 ' ' ++
      rightJustify (asStringInt f) 4 ++ mkString 2 ' ') (rightJustify (asStringInt n) 2) [] 8 2
      (by simp [length_leftJustify, length_mkString, length_rightJustify])
      (length_rightJustify _ _)
    rw [List.append_nil] at this
    exact this

set_option maxRecDepth 100000 in
/-- C36 (counterexample): for the scale-factor map that gives the factor 1 to
each of a hundred codes of G, the group of G and 1 has a hundred codes, written
on nine lines, and the first ten columns of its opening line are
"G    1  00": the two columns of the declared count hold the last two digits
of 100 and read as 0. -/
theorem C36_counterexample_hundred_codes :
    isSet hundredCodesHeader.valid validSystemScaleFac = true ∧
    hundredCodesHeader.sysSfacMap = [("G".toList, sfacOf hundredCodes 1)] ∧
    (sfacOf hundredCodes 1).countP (fun x => decide (x.2 = 1)) = 100 ∧
    (putSystemScaleFac hundredCodesHeader ⟨[], []⟩).1.out.length = 9 ∧
    ((putSystemScaleFac hundredCodesHeader ⟨[], []⟩).1.out.headD []).take 10 =
      "G    1  00".toList ∧
    asInt (substr ((putSystemScaleFac hundredCodesHeader ⟨[], []⟩).1.out.headD []) 8 2) = 0 := by
  refine ⟨by decide, rfl, by decide, by decide, by decide, by decide⟩

/-- C36 (amended): when the scale-factor flag is set, the SYS / SCALE FACTOR
block throws nothing and writes, for each system of the map in map order and
each of the factors 1, 10, 100, 1000 in this order, the lines of one group made
of the codes of that system that have that factor, and nothing else. An entry
belongs to the group of the factor `f` exactly when its factor is `f`, so an
entry with one of the four factors is in exactly one group and an entry with
any other factor is in none: the lines written are those written for the map
without such entries. A group without codes has no line; the first ten columns
of the first line of any other group hold the system, the factor, which reads
back as a number when it is one of the four, and the count of the codes of the
group in two columns, which reads back as the number of entries of the system
with that factor when that number is at most 99; the codes of the group are
written in order, 12 to a line. -/
theorem C36_scale_factor_groups (h : Rinex3ObsHeader) (s : PutState)
    (hv : isSet h.valid validSystemScaleFac = true) :
    (putSystemScaleFac h s).2 = none ∧
    (putSystemScaleFac h s).1.out = s.out ++ h.sysSfacMap.flatMap (fun e =>
      ([1, 10, 100, 1000] : List Int).flatMap fun f =>
        sfacGroupLines e.1 f (codesWithFactor e.2 f)) ∧
    (∀ e ∈ h.sysSfacMap, ∀ x ∈ e.2, ∀ f : Int, x ∈ entriesWithFactor e.2 f ↔ x.2 = f) ∧
    (putSystemScaleFac { h with sysSfacMap := keepWrittenFactors h.sysSfacMap } s).1.out =
      (putSystemScaleFac h s).1.out ∧
    (∀ e ∈ h.sysSfacMap, ∀ f : Int,
      (codesWithFactor e.2 f).length = e.2.countP (fun x => decide (x.2 = f))) ∧
    (∀ (sys : Str) (f : Int), sfacGroupLines sys f [] = []) ∧
    (∀ (sys : Str) (f : Int) (ids : List ObsID), ids ≠ [] →
      ∃ line rest, sfacGroupLines sys f ids = line :: rest ∧
        line.take 10 = leftJustify sys 1 ++ mkString 1 ' ' ++ rightJustify (asStringInt f) 4 ++
          mkString 2 ' ' ++ rightJustify (asStringInt ids.length) 2 ∧
        substr line 0 1 = leftJustify sys 1 ∧
        (f ∈ ([1, 10, 100, 1000] : List Int) → asInt (substr line 2 4) = f) ∧
        (ids.length ≤ 99 → asInt (substr line 8 2) = (ids.length : Int))) ∧
    (∀ ids : List ObsID, ids.take 12 ++ (chunks12 ids.length (ids.drop 12)).flatten = ids) := by
  have hout := putSystemScaleFac_out h s hv
  refine ⟨hout.1, hout.2, ?_, ?_, ?_, fun _ _ => rfl, ?_, ?_⟩
  · intro e _ x hx f
    unfold entriesWithFactor
    rw [List.mem_filter]
    simp [hx]
  · rw [hout.2,
      (putSystemScaleFac_out { h with sysSfacMap := keepWrittenFactors h.sysSfacMap } s hv).2]
    exact congrArg (fun l => s.out ++ l) (keepWrittenFactors_lines h.sysSfacMap)
  · intro e _ f
    unfold codesWithFactor entriesWithFactor
    rw [List.length_map, List.countP_eq_length_filter]
  · intro sys f ids h0
    obtain ⟨line, rest, hl, ht⟩ := sfacGroupLines_head sys f ids h0
    obtain ⟨f1, f2, f3⟩ := sfacGroupHead_fields sys f ids.length line ht
    refine ⟨line, rest, hl, ht, f1, ?_, ?_⟩
    · intro hf
      rw [f2]
      apply asInt_rightJustify
      apply fitsInt_factor
      simpa using hf
    · intro h99
      rw [f3]
      exact asInt_rightJustify _ _ (fitsInt_count99 _ h99)
  · intro ids
    rw [chunks12_flatten _ _ (by rw [List.length_drop]; omega), List.take_append_drop]

set_option maxRecDepth 100000 in
theorem C36_witness :
    isSet mixedFactorsHeader.valid validSystemScaleFac = true ∧
    (putSystemScaleFac mixedFactorsHeader ⟨[], []⟩).1.out =
      [ "G    1   1 L1C                                              SYS / SCALE FACTOR".toList,
        "G  100   2 C1C S1C                                          SYS / SCALE FACTOR".toList,
        "R   10   1 C1C                                              SYS / SCALE FACTOR".toList ] :=
  ⟨by decide, (C36_scale_factor_groups mixedFactorsHeader ⟨[], []⟩ (by decide)).2.1.trans
    (by decide)⟩

end GPSTk
